import Mathlib

/-!
# Stork migration controller: state machine

A shallow embedding of `pkg/migration/controllers/migration.go`.

The controller's collaborators (volume driver, rule engine, resource collector,
API server, clock) are represented by an `Env`: the answer each call gives during
one invocation, keyed by the source line of the call (and by the loop index where
the call sits in a loop).  Every function returns the record as the Go code leaves
it, the list of side effects it performed (`Event`s, oldest first) and its Go
return value.
-/

namespace Stork

/-! ## Data model (`stork_api`) -/

/-- Modelled from the spec: the declaration of `stork_api.MigrationStageType` is
not among the sources; the spec lists the five stages, in this order. -/
inductive MigrationStageType
  | Initial
  | PreExecRule
  | Volumes
  | Applications
  | Final
  deriving DecidableEq, Repr

/-- Modelled from the spec: the declaration of `stork_api.MigrationStatusType` is
not among the sources; the spec lists these seven statuses. -/
inductive MigrationStatusType
  | Initial
  | Pending
  | InProgress
  | Successful
  | Failed
  | PartialSuccess
  | Purged
  deriving DecidableEq, Repr

/-- The text of a status, as `string(status)` gives it (`Initial` is the empty string). -/
def MigrationStatusType.text : MigrationStatusType → String
  | .Initial => ""
  | .Pending => "Pending"
  | .InProgress => "InProgress"
  | .Successful => "Successful"
  | .Failed => "Failed"
  | .PartialSuccess => "PartialSuccess"
  | .Purged => "Purged"

/-- A `metav1.Time`: `none` is the zero time (`IsZero`), `some t` a clock reading. -/
abbrev Time := Option Nat

/-- A Go `map[string]string`, as an association list. -/
abbrev StrMap := List (String × String)

/-- The fields of `stork_api.MigrationSpec` that the controller reads. A flag of Go
type `*bool` is an `Option Bool` (`none` is `nil`); a map that is tested against
`nil` is an `Option StrMap`. -/
structure MigrationSpec where
  ClusterPair : String
  AdminClusterPair : String
  Namespaces : List String
  NamespaceSelectors : StrMap
  IncludeResources : Option Bool
  IncludeVolumes : Option Bool
  StartApplications : Option Bool
  PurgeDeletedResources : Option Bool
  SkipServiceUpdate : Option Bool
  IncludeNetworkPolicyWithCIDR : Option Bool
  SkipDeletedNamespaces : Option Bool
  IgnoreOwnerReferencesCheck : Option Bool
  PreExecRule : String
  PostExecRule : String
  TransformSpecs : List String
  Selectors : Option StrMap
  ExcludeSelectors : Option StrMap
  ExcludeResourceTypes : List String
  IncludeOptionalResourceTypes : List String
  deriving DecidableEq, Repr

/-- One entry of `Status.Volumes`. `BytesTotal` is a `uint64`. -/
structure MigrationVolumeInfo where
  Volume : String
  Status : MigrationStatusType
  Reason : String
  BytesTotal : Nat
  deriving DecidableEq, Repr

/-- One entry of `Status.Resources`. -/
structure MigrationResourceInfo where
  Name : String
  Namespace : String
  Group : String
  Version : String
  Kind : String
  Status : MigrationStatusType
  Reason : String
  TransformedBy : String
  deriving DecidableEq, Repr

/-- An elapsed-time text of the summary: the empty string, `"NA"`, or the text of
a duration (kept as the duration itself, in clock ticks). -/
inductive Elapsed
  | unset
  | na
  | dur (d : Int)
  deriving DecidableEq, Repr

/-- The derived summary, `stork_api.MigrationSummary`. -/
structure MigrationSummary where
  TotalNumberOfVolumes : Nat
  NumberOfMigratedVolumes : Nat
  TotalNumberOfResources : Nat
  NumberOfMigratedResources : Nat
  TotalBytesMigrated : Nat
  ElapsedTimeForVolumeMigration : Elapsed
  ElapsedTimeForResourceMigration : Elapsed
  deriving DecidableEq, Repr

/-- The mutable status; `Volumes = none` is the Go `nil` slice that `migrateVolumes`
tests for. -/
structure MigrationStatus where
  Stage : MigrationStageType
  Status : MigrationStatusType
  Volumes : Option (List MigrationVolumeInfo)
  Resources : List MigrationResourceInfo
  Summary : Option MigrationSummary
  FinishTimestamp : Time
  VolumeMigrationFinishTimestamp : Time
  ResourceMigrationFinishTimestamp : Time
  deriving DecidableEq, Repr

/-- The Migration record: object metadata, spec and status. -/
structure Migration where
  Name : String
  Namespace : String
  CreationTimestamp : Time
  DeletionTimestamp : Time
  Finalizers : Option (List String)
  Annotations : Option StrMap
  Spec : MigrationSpec
  Status : MigrationStatus
  deriving DecidableEq, Repr

/-- What the controller reads of a collected `runtime.Unstructured` object: whether
`meta.Accessor` fails on it, its metadata and its group/version/kind. -/
structure Unstructured where
  accessorErr : Option String
  Name : String
  Namespace : String
  Annotations : StrMap
  Group : String
  Version : String
  Kind : String
  deriving DecidableEq, Repr

/-- The cluster-domain report of the volume driver. -/
structure ClusterDomainInfo where
  Name : String
  inactive : Bool
  deriving DecidableEq, Repr

/-- The result of `GetClusterDomains`. -/
structure ClusterDomains where
  LocalDomain : String
  ClusterDomainInfos : List ClusterDomainInfo
  deriving DecidableEq, Repr

/-- The phase argument of `rule.ExecuteRule`. -/
inductive RulePhase
  | PreExecRule
  | PostExecRule
  deriving DecidableEq, Repr

/-- The steps of the resource sub-workflow that leave the controller. -/
inductive ResourceStep
  | collect (volumesOnly : Bool)
  | prepare
  | apply
  | ownerReferences
  | storageClasses
  | purge
  deriving DecidableEq, Repr

/-- A side effect of the controller, as an outside observer sees it. -/
inductive Event
  /-- `m.recorder.Event(migration, type, reason, _)`; `warning` tells the type. -/
  | recorded (warning : Bool) (reason : String)
  /-- `client.Update` of the record at source line `line`, with the record written
  and the error the API server answered. -/
  | update (line : Nat) (snapshot : Migration) (err : Option String)
  | StartMigration
  | GetMigrationStatus
  | CancelMigration
  | GetClusterDomains
  /-- `rule.ExecuteRule` for the namespace at position `idx`. -/
  | ExecuteRule (phase : RulePhase) (idx : Nat)
  /-- `channel <- true` on a termination channel. -/
  | terminate (channel : Nat)
  | resource (step : ResourceStep)
  deriving DecidableEq, Repr

/-- The outcome of `remoteOps.GetMigrationSchedule`. -/
inductive RemoteSchedule
  | found (ApplicationActivated : Bool)
  | notFound
  | failed (err : String)
  deriving DecidableEq, Repr

/-- What `applyResources` (lines 1848-2487) does to the Migration record, seen from
`migrateResources`: it returns an error or nil, or it fails the migration at lines
2083-2087 because a PersistentVolume could not be applied. -/
inductive ApplyOutcome
  | returned (err : Option String)
  | pvApplyFailed
  deriving DecidableEq, Repr

/-- The answers `purgeMigratedResources` (lines 602-694) gets, in call order; each
entry of `deleted` is one object of `toBeDeleted` with the `(name, namespace, kind)`
that `utils.GetObjectDetails` finds, `none` when that fails. -/
structure PurgeAnswers where
  configErr : Option String
  initErr : Option String
  destErr : Option String
  srcErr : Option String
  collectErr : Option String
  dynamicErr : Option String
  deleteErr : Option String
  deleted : List (Option (String × String × String))

/-- The answers of the collaborators during one invocation, and the package
constants that are declared outside the sources at hand. A field that takes a
`Nat` is keyed by the source line of the call, unless said otherwise. -/
structure Env where
  /-- `controllers.FinalizerCleanup`. -/
  FinalizerCleanup : String
  /-- The annotation key `StorkMigrationScheduleName`. -/
  StorkMigrationScheduleName : String
  /-- `resourcecollector.TransformedResourceName`. -/
  TransformedResourceName : String
  /-- The retry bound of the cluster-domain query, less one: the constant
  `domainsMaxRetries` is positive (were it 0, line 372 would read a nil result). -/
  domainsExtraRetries : Nat
  /-- `metav1.Now()` and `time.Since`, by the line of the statement reading the clock
  (for the summary: the line of the update that recomputes it). -/
  now : Nat → Nat
  /-- The error of `client.Update`. -/
  updateErr : Nat → Option String
  /-- `getClusterPairSchedulerConfig` at line 264. -/
  schedulerConfigErr : Option String
  /-- `storkops.NewForConfig` at line 272. -/
  newForConfigErr : Option String
  /-- `GetMigrationSchedule` at line 282. -/
  remoteSchedule : RemoteSchedule
  /-- `rest.InClusterConfig` and `kubernetes.NewForConfig` at lines 577, 581. -/
  inClusterConfigErr : Option String
  clientsetErr : Option String
  /-- The namespaces matching the selector at position `i` of `NamespaceSelectors`. -/
  listNamespaces : Nat → Except String (List String)
  /-- `GetClusterDomains`, by attempt. -/
  getClusterDomains : Nat → Except String ClusterDomains
  /-- `GetNamespace`, `GetResourceTransformation` and `ValidateResourceTransformation`
  for the namespace at position `i`. -/
  getNamespaceErr : Nat → Option String
  getResourceTransformationErr : Nat → Option String
  validateResourceTransformationErr : Nat → Option String
  /-- `GetRule`. -/
  getRuleErr : Nat → Option String
  /-- `rule.ExecuteRule` for the namespace at position `i`: an error, or the
  termination channel of a backgrounded rule, if any. -/
  executeRule : RulePhase → Nat → Except String (Option Nat)
  /-- `getClusterPairStorageStatus` at line 738. -/
  storageStatus : String
  storageStatusErr : Option String
  StartMigration : Except String (Option (List MigrationVolumeInfo))
  GetMigrationStatus : Except String (Option (List MigrationVolumeInfo))
  CancelMigrationErr : Option String
  /-- `GetClusterPair` at line 945: an error or the scheduler status. -/
  getClusterPair : Except String String
  /-- `getClusterPairSchedulerStatus` of the admin cluster pair at line 956. -/
  adminSchedulerStatus : Except String String
  /-- The two `GetResourcesForType` calls of `getVolumeOnlyMigrationResources`. -/
  pvObjects : Except String (List Unstructured)
  pvcObjects : Except String (List Unstructured)
  /-- The collector call of `getResources` at line 992. -/
  allObjects : Except String (List Unstructured)
  listApplicationRegistrationsErr : Option String
  prepareResourcesErr : Option String
  /-- The `updateResourceStatus` calls `applyResources` makes, in order. -/
  applyUpdates : List (Unstructured × MigrationStatusType × String)
  applyOutcome : ApplyOutcome
  updateOwnerReferenceOnPVCErr : Option String
  updateStorageClassOnPVErr : Option String
  purge : PurgeAnswers

/-- The controller's own configuration. -/
structure MigrationController where
  migrationAdminNamespace : String
  migrationMaxThreads : Nat
  deriving DecidableEq, Repr

/-- A function's effect: the record as it leaves it, the side effects performed and
the Go return value. -/
structure Out (α : Type) where
  mig : Migration
  log : List Event
  ret : α

/-! ## Constants of the package -/

def StashCRLabel : String := "stash-cr"

def ErrReapplyLatestVersionMsg : String :=
  "please apply your changes to the latest version and try again"

/-- Modelled from the spec: the value of `stork_api.ClusterPairStatusReady`, whose
declaration is not among the sources ("cluster-pair storage status must be Ready"). -/
def ClusterPairStatusReady : String := "Ready"

/-! ## Small helpers standing for Go built-ins -/

/-- The Go test `strings.Contains(s, sub)`. -/
def stringsContains (s sub : String) : Bool :=
  s.toList.tails.any (fun t => sub.toList.isPrefixOf t)

/-- The Go assignment `m[k] = v` on a map. -/
def mapSet (m : StrMap) (k v : String) : StrMap :=
  if m.any (fun e => e.1 == k) then m.map (fun e => if e.1 == k then (k, v) else e)
  else m ++ [(k, v)]

/-- The text `%v` prints for an error value. -/
def errText : Option String → String
  | none => "<nil>"
  | some e => e

/-! ## `setDefaults` (lines 203-237) -/

def setDefaults (spec : MigrationSpec) : MigrationSpec :=
  let spec := match spec.IncludeVolumes with
    | none => { spec with IncludeVolumes := some true }
    | some _ => spec
  let spec := match spec.IncludeResources with
    | none => { spec with IncludeResources := some true }
    | some _ => spec
  let spec := match spec.StartApplications with
    | none => { spec with StartApplications := some false }
    | some _ => spec
  let spec := match spec.PurgeDeletedResources with
    | none => { spec with PurgeDeletedResources := some false }
    | some _ => spec
  let spec := match spec.SkipServiceUpdate with
    | none => { spec with SkipServiceUpdate := some false }
    | some _ => spec
  let spec := match spec.IncludeNetworkPolicyWithCIDR with
    | none => { spec with IncludeNetworkPolicyWithCIDR := some false }
    | some _ => spec
  let spec := match spec.SkipDeletedNamespaces with
    | none => { spec with SkipDeletedNamespaces := some true }
    | some _ => spec
  let spec := match spec.IgnoreOwnerReferencesCheck with
    | none => { spec with IgnoreOwnerReferencesCheck := some false }
    | some _ => spec
  spec

/-- The Go dereference `*flag` of a `*bool`; after `setDefaults` no flag is nil (the
value given here for nil is never read on the paths `handle` takes). -/
def deref (flag : Option Bool) : Bool := flag.getD false

/-! ## `getMigrationSummary` (lines 2528-2582) and `updateMigrationCR` (239-242) -/

/-- The loop of lines 2534-2539: `(doneVolumes, totalBytes)`, in `uint64` arithmetic. -/
def volumeTotals : List MigrationVolumeInfo → Nat × Nat → Nat × Nat
  | [], acc => acc
  | v :: vs, (done, bytes) =>
    if v.Status = .Successful then
      volumeTotals vs ((done + 1) % 2 ^ 64, (bytes + v.BytesTotal) % 2 ^ 64)
    else volumeTotals vs (done, bytes)

/-- The loop of lines 2559-2563. -/
def doneResources : List MigrationResourceInfo → Nat → Nat
  | [], acc => acc
  | r :: rs, acc =>
    if r.Status = .Successful then doneResources rs ((acc + 1) % 2 ^ 64) else doneResources rs acc

/-- The Go `t.Sub(u)` on two times that are not zero (and 0 for a zero time). -/
def timeSub (t u : Time) : Int := (t.getD 0 : Int) - (u.getD 0 : Int)

def getMigrationSummary (env : Env) (line : Nat) (migration : Migration) : MigrationSummary :=
  let volumes := migration.Status.Volumes.getD []
  let withVolumes : Bool := migration.Spec.IncludeVolumes = none ∨ migration.Spec.IncludeVolumes = some true
  let totals := if withVolumes then volumeTotals volumes (0, 0) else (0, 0)
  let totalVolumes := volumes.length % 2 ^ 64
  let elapsedTimeVolume : Elapsed :=
    if withVolumes then
      if migration.CreationTimestamp ≠ none then
        if migration.Status.Stage = .Applications ∨ migration.Status.Stage = .Final then
          if migration.Status.VolumeMigrationFinishTimestamp ≠ none then
            .dur (timeSub migration.Status.VolumeMigrationFinishTimestamp migration.CreationTimestamp)
          else .na
        else .dur (timeSub (some (env.now line)) migration.CreationTimestamp)
      else .na
    else .unset
  let totalResources := migration.Status.Resources.length % 2 ^ 64
  let elapsedTimeResources : Elapsed :=
    if migration.Status.VolumeMigrationFinishTimestamp ≠ none then
      if migration.Status.Stage = .Final then
        if migration.Status.ResourceMigrationFinishTimestamp ≠ none then
          .dur (timeSub migration.Status.ResourceMigrationFinishTimestamp
            migration.Status.VolumeMigrationFinishTimestamp)
        else .na
      else .dur (timeSub (some (env.now line)) migration.Status.VolumeMigrationFinishTimestamp)
    else .na
  { TotalNumberOfVolumes := if withVolumes ∧ totalVolumes > 0 then totalVolumes else 0
    NumberOfMigratedVolumes := if withVolumes ∧ totalVolumes > 0 then totals.1 else 0
    TotalNumberOfResources := if totalResources > 0 then totalResources else 0
    NumberOfMigratedResources :=
      if totalResources > 0 then doneResources migration.Status.Resources 0 else 0
    TotalBytesMigrated := totals.2
    ElapsedTimeForVolumeMigration := elapsedTimeVolume
    ElapsedTimeForResourceMigration := elapsedTimeResources }

/-- The record with its summary recomputed, as `updateMigrationCR` writes it. -/
def withSummary (env : Env) (line : Nat) (migration : Migration) : Migration :=
  { migration with
    Status := { migration.Status with Summary := some (getMigrationSummary env line migration) } }

/-- The call `m.updateMigrationCR(ctx, migration)` at source line `line`. -/
def updateMigrationCR (env : Env) (line : Nat) (migration : Migration) : Out (Option String) :=
  { mig := withSummary env line migration
    log := [.update line (withSummary env line migration) (env.updateErr line)]
    ret := env.updateErr line }

/-! ## `namespaceMigrationAllowed` (lines 714-725) -/

/-- The loop of lines 718-722: `false` at the first entry that differs. -/
def allOwnNamespace (own : String) : List String → Bool
  | [] => true
  | ns :: rest => if ns ≠ own then false else allOwnNamespace own rest

def namespaceMigrationAllowed (c : MigrationController) (migration : Migration)
    (migrationNamespaces : List String) : Bool :=
  if migration.Namespace ≠ c.migrationAdminNamespace then
    allOwnNamespace migration.Namespace migrationNamespaces
  else true

/-! ## Plumbing -/

/-- Where a block of a Go function ends: with a `return` of the whole function, or
by falling through to the next statement with a value. -/
inductive Step (α : Type)
  | done (out : Out (Option String))
  | next (mig : Migration) (log : List Event) (val : α)

/-- The record at the end of a block. -/
def Step.mig {α : Type} : Step α → Migration
  | .done out => out.mig
  | .next mig _ _ => mig

/-- The side effects of a block. -/
def Step.log {α : Type} : Step α → List Event
  | .done out => out.log
  | .next _ log _ => log

/-- The assignment `migration.Status.Stage = stage`. -/
def setStage (migration : Migration) (stage : MigrationStageType) : Migration :=
  { migration with Status := { migration.Status with Stage := stage } }

/-- The assignment `migration.Status.Status = status`. -/
def setStatus (migration : Migration) (status : MigrationStatusType) : Migration :=
  { migration with Status := { migration.Status with Status := status } }

/-- The assignment `migration.Status.Volumes = volumeInfos`. -/
def setVolumes (migration : Migration) (volumeInfos : List MigrationVolumeInfo) : Migration :=
  { migration with Status := { migration.Status with Volumes := some volumeInfos } }

/-- The assignment `migration.Status.Resources = resourceInfos`. -/
def setResources (migration : Migration) (resourceInfos : List MigrationResourceInfo) : Migration :=
  { migration with Status := { migration.Status with Resources := resourceInfos } }

/-- The assignment `migration.Status.VolumeMigrationFinishTimestamp = metav1.Now()` at
line `line`. -/
def setVolumeFinish (env : Env) (line : Nat) (migration : Migration) : Migration :=
  { migration with
    Status := { migration.Status with VolumeMigrationFinishTimestamp := some (env.now line) } }

/-- The assignment `migration.Status.FinishTimestamp = metav1.Now()` at line `line`. -/
def setFinish (env : Env) (line : Nat) (migration : Migration) : Migration :=
  { migration with Status := { migration.Status with FinishTimestamp := some (env.now line) } }

/-- The three assignments that fail a migration: status Failed, stage Final, finish
time now (read at line `line`). -/
def failMigration (env : Env) (line : Nat) (migration : Migration) : Migration :=
  setFinish env line (setStage (setStatus migration .Failed) .Final)

/-- A warning event with reason `string(stork_api.MigrationStatusFailed)`. -/
def failedEvent : Event := .recorded true MigrationStatusType.Failed.text

/-- Sending `true` on every channel of a list. -/
def terminateAll (channels : List Nat) : List Event := channels.map .terminate

/-! ## `updateResourceStatus` (lines 1209-1246) -/

/-- The test of lines 1221-1225. -/
def resourceMatches (resource : MigrationResourceInfo) (object : Unstructured) : Bool :=
  resource.Name = object.Name ∧ resource.Namespace = object.Namespace ∧
    (resource.Group = object.Group ∨ (resource.Group = "core" ∧ object.Group = "")) ∧
    resource.Version = object.Version ∧ resource.Kind = object.Kind

/-- The loop of `updateResourceStatus` over `Status.Resources`: the list it leaves
and the event it records. -/
def updateResourceList (env : Env) (spec : MigrationSpec) (object : Unstructured)
    (status : MigrationStatusType) (reason : String) :
    List MigrationResourceInfo → List MigrationResourceInfo × List Event
  | [] => ([], [])
  | resource :: rest =>
    if object.accessorErr ≠ none then
      let r := updateResourceList env spec object status reason rest
      (resource :: r.1, r.2)
    else if resourceMatches resource object then
      let resource :=
        if (object.Annotations.lookup env.TransformedResourceName).isSome then
          if spec.TransformSpecs.length ≠ 0 ∧ spec.TransformSpecs.length = 1 then
            { resource with TransformedBy := spec.TransformSpecs.headD "" }
          else resource
        else resource
      ({ resource with Status := status, Reason := reason } :: rest,
        [.recorded (status = .Failed) status.text])
    else
      let r := updateResourceList env spec object status reason rest
      (resource :: r.1, r.2)

def updateResourceStatus (env : Env) (migration : Migration) (object : Unstructured)
    (status : MigrationStatusType) (reason : String) : Out Unit :=
  let r := updateResourceList env migration.Spec object status reason migration.Status.Resources
  { mig := { migration with Status := { migration.Status with Resources := r.1 } }
    log := r.2
    ret := () }

/-! ## Rules (lines 881-942) -/

/-- The loop of lines 915-926: run the rule in each namespace, collecting the
termination channels; on an error the channels collected so far are terminated. -/
def executePreExecRules (env : Env) : List String → Nat → List Nat → List Event →
    List Event × Except String (List Nat)
  | [], _, channels, log => (log, .ok channels)
  | ns :: rest, idx, channels, log =>
    match env.executeRule .PreExecRule idx with
    | .error err =>
      (log ++ [.ExecuteRule .PreExecRule idx] ++ terminateAll channels,
        .error ("error executing PreExecRule for namespace " ++ ns ++ ": " ++ err))
    | .ok ch =>
      executePreExecRules env rest (idx + 1)
        (match ch with
          | some channel => channels ++ [channel]
          | none => channels)
        (log ++ [.ExecuteRule .PreExecRule idx])

/-- The result of `runPreExecRule`: the termination channels (`none` is the nil
slice) and the error. -/
def runPreExecRule (env : Env) (migration : Migration) (migrationNamespaces : List String) :
    Out (Option (List Nat) × Option String) :=
  if migration.Spec.PreExecRule = "" then
    let migration := setStatus (setStage migration .Volumes) .Pending
    let u := updateMigrationCR env 885 migration
    { mig := u.mig, log := u.log, ret := (none, u.ret) }
  else
    let migration :=
      if migration.Status.Stage = .Initial then setStatus (setStage migration .PreExecRule) .Pending
      else migration
    let runRule (migration : Migration) (log : List Event) :
        Out (Option (List Nat) × Option String) :=
      match env.getRuleErr 910 with
      | some err => { mig := migration, log := log, ret := (none, some err) }
      | none =>
        match executePreExecRules env migrationNamespaces 0 [] log with
        | (log, .error err) => { mig := migration, log := log, ret := (none, some err) }
        | (log, .ok channels) => { mig := migration, log := log, ret := (some channels, none) }
    if migration.Status.Stage = .PreExecRule then
      if migration.Status.Status = .Pending then
        let u := updateMigrationCR env 898 (setStatus migration .InProgress)
        match u.ret with
        | some err => { mig := u.mig, log := u.log, ret := (none, some err) }
        | none => runRule u.mig u.log
      else if migration.Status.Status = .InProgress then
        { mig := migration, log := [.recorded false MigrationStatusType.InProgress.text],
          ret := (none, none) }
      else runRule migration []
    else runRule migration []

/-- The loop of lines 935-940. -/
def executePostExecRules (env : Env) : List String → Nat → List Event →
    List Event × Option String
  | [], _, log => (log, none)
  | ns :: rest, idx, log =>
    match env.executeRule .PostExecRule idx with
    | .error err =>
      (log ++ [.ExecuteRule .PostExecRule idx],
        some ("error executing PostExecRule for namespace " ++ ns ++ ": " ++ err))
    | .ok _ => executePostExecRules env rest (idx + 1) (log ++ [.ExecuteRule .PostExecRule idx])

def runPostExecRule (env : Env) (migration : Migration) (migrationNamespaces : List String) :
    Out (Option String) :=
  match env.getRuleErr 931 with
  | some err => { mig := migration, log := [], ret := some err }
  | none =>
    let r := executePostExecRules env migrationNamespaces 0 []
    { mig := migration, log := r.1, ret := r.2 }

/-! ## Resource sub-workflow (lines 602-694, 944-1129, 2618-2678) -/

/-- The loop of lines 677-691: one Purged entry per deleted object whose details
can be read. -/
def purgedInfos : List (Option (String × String × String)) → List MigrationResourceInfo
  | [] => []
  | none :: rest => purgedInfos rest
  | some (nm, ns, kind) :: rest =>
    { Name := nm, Namespace := ns, Group := "", Version := "", Kind := kind,
      Status := .Purged, Reason := "", TransformedBy := "" } :: purgedInfos rest

def purgeMigratedResources (env : Env) (migration : Migration) : Out (Option String) :=
  match env.purge.configErr with
  | some err => { mig := migration, log := [], ret := some err }
  | none =>
  match env.purge.initErr with
  | some err => { mig := migration, log := [], ret := some err }
  | none =>
  -- lines 623-627: the exclude-selector map of the spec, when there is one, is the
  -- map that gets the stash label
  let migration : Migration :=
    match migration.Spec.ExcludeSelectors with
    | some m =>
      { migration with Spec := { migration.Spec with ExcludeSelectors := some (mapSet m StashCRLabel "true") } }
    | none => migration
  match env.purge.destErr with
  | some err => { mig := migration, log := [failedEvent], ret := some err }
  | none =>
  match env.purge.srcErr with
  | some err => { mig := migration, log := [failedEvent], ret := some err }
  | none =>
  match env.purge.collectErr with
  | some err => { mig := migration, log := [], ret := some err }
  | none =>
  match env.purge.dynamicErr with
  | some err => { mig := migration, log := [], ret := some err }
  | none =>
  match env.purge.deleteErr with
  | some err => { mig := migration, log := [.resource .purge], ret := some err }
  | none =>
    { mig := { migration with
        Status := { migration.Status with
          Resources := migration.Status.Resources ++ purgedInfos env.purge.deleted } }
      log := [.resource .purge]
      ret := none }

/-- The collected objects and the events of the collection: `getVolumeOnlyMigrationResources`
in volumes-only mode, `getResources` otherwise. -/
def collectResources (env : Env) (volumesOnly : Bool) : List Event × Except String (List Unstructured) :=
  if volumesOnly then
    match env.pvObjects with
    | .error err => ([.resource (.collect true), failedEvent], .error err)
    | .ok pvs =>
      match env.pvcObjects with
      | .error err => ([.resource (.collect true), failedEvent], .error err)
      | .ok pvcs => ([.resource (.collect true)], .ok (pvs ++ pvcs))
  else
    match env.allObjects with
    | .error err => ([.resource (.collect false), failedEvent], .error err)
    | .ok objects => ([.resource (.collect false)], .ok objects)

/-- The loop of lines 1013-1043: the resource infos, or the error of `meta.Accessor`. -/
def buildResourceInfos (volumesOnly : Bool) :
    List Unstructured → List MigrationResourceInfo → Except String (List MigrationResourceInfo)
  | [], infos => .ok infos
  | obj :: rest, infos =>
    match obj.accessorErr with
    | some err => .error err
    | none =>
      if volumesOnly ∧ ¬ (obj.Kind = "PersistentVolume" ∨ obj.Kind = "PersistentVolumeClaim") then
        buildResourceInfos volumesOnly rest infos
      else
        buildResourceInfos volumesOnly rest (infos ++
          [{ Name := obj.Name, Namespace := obj.Namespace,
             Group := if obj.Group = "" then "core" else obj.Group,
             Version := obj.Version, Kind := obj.Kind,
             Status := .InProgress, Reason := "", TransformedBy := "" }])

/-- The `updateResourceStatus` calls of `applyResources`, in order. -/
def applyStatusUpdates (env : Env) :
    List (Unstructured × MigrationStatusType × String) → Migration → List Event → Migration × List Event
  | [], migration, log => (migration, log)
  | (object, status, reason) :: rest, migration, log =>
    let u := updateResourceStatus env migration object status reason
    applyStatusUpdates env rest u.mig (log ++ u.log)

/-- The effect of `applyResources` on the record. -/
def applyResources (env : Env) (migration : Migration) : Out (Option String) :=
  let r := applyStatusUpdates env env.applyUpdates migration [.resource .apply]
  match env.applyOutcome with
  | .returned err => { mig := r.1, log := r.2, ret := err }
  | .pvApplyFailed =>
    let migration := setStatus (setFinish env 2085 (setStage r.1 .Final)) .Failed
    let u := updateMigrationCR env 2087 migration
    { mig := u.mig, log := r.2 ++ u.log, ret := u.ret }

/-- The loop of lines 1103-1108. -/
def overallStatus : List MigrationResourceInfo → MigrationStatusType
  | [] => .Successful
  | resource :: rest =>
    if resource.Status ≠ .Successful then .PartialSuccess else overallStatus rest

/-- Lines 945-963: the error with which `migrateResources` returns when a cluster
pair cannot be read or its scheduler is not Ready. -/
def resourcesNotReady (env : Env) (migration : Migration) : Option String :=
  match env.getClusterPair with
  | .error err => some err
  | .ok schedulerStatus =>
    if schedulerStatus ≠ ClusterPairStatusReady then
      some ("scheduler Cluster pair is not ready. Status: " ++ schedulerStatus)
    else if migration.Spec.AdminClusterPair ≠ "" then
      match env.adminSchedulerStatus with
      | .error err => some err
      | .ok schedulerStatus =>
        if schedulerStatus ≠ ClusterPairStatusReady then
          some ("scheduler in Admin Cluster pair is not ready. Status: " ++ schedulerStatus)
        else none
    else none

/-- Lines 985-1049: collect the objects, build `Status.Resources` and write it. -/
def recordResources (env : Env) (migration : Migration) (volumesOnly : Bool) : Step Unit :=
  match collectResources env volumesOnly with
  | (log, .error err) => .done { mig := migration, log := log, ret := some err }
  | (log, .ok allObjects) =>
    match buildResourceInfos volumesOnly allObjects [] with
    | .error err => .done { mig := migration, log := log, ret := some err }
    | .ok resourceInfos =>
      let u := updateMigrationCR env 1046 (setResources migration resourceInfos)
      match u.ret with
      | some err => .done { mig := u.mig, log := log ++ u.log, ret := some err }
      | none => .next u.mig (log ++ u.log) ()

/-- Lines 1051-1099: prepare and apply the objects, then repair owner references and
storage classes. -/
def transferResources (env : Env) (migration : Migration) : Step Unit :=
  match env.listApplicationRegistrationsErr with
  | some err => .done { mig := migration, log := [failedEvent], ret := some err }
  | none =>
    match env.prepareResourcesErr with
    | some err => .done { mig := migration, log := [.resource .prepare, failedEvent], ret := some err }
    | none =>
      let a := applyResources env migration
      let log := [.resource .prepare] ++ a.log
      match a.ret with
      | some err => .done { mig := a.mig, log := log ++ [failedEvent], ret := some err }
      | none =>
        match env.updateOwnerReferenceOnPVCErr with
        | some err =>
          .done { mig := a.mig, log := log ++ [.resource .ownerReferences, failedEvent],
                  ret := some err }
        | none =>
          match env.updateStorageClassOnPVErr with
          | some err =>
            .done { mig := a.mig
                    log := log ++ [.resource .ownerReferences, .resource .storageClasses, failedEvent]
                    ret := some err }
          | none =>
            .next a.mig (log ++ [.resource .ownerReferences, .resource .storageClasses]) ()

/-- Lines 1122-1128: stamp the finish times and write the record. -/
def stampResources (env : Env) (migration : Migration) : Out (Option String) :=
  updateMigrationCR env 1124
    { migration with
      Status := { migration.Status with
        ResourceMigrationFinishTimestamp := some (env.now 1122)
        FinishTimestamp := some (env.now 1123) } }

/-- Lines 1101-1128: the end of the resource sub-workflow. -/
def finishResources (env : Env) (migration : Migration) : Out (Option String) :=
  let migration := setStatus (setStage migration .Final) (overallStatus migration.Status.Resources)
  if deref migration.Spec.PurgeDeletedResources then
    let p := purgeMigratedResources env migration
    match p.ret with
    | some _ =>
      { mig := p.mig, log := p.log ++ [.recorded true MigrationStatusType.PartialSuccess.text],
        ret := none }
    | none =>
      let w := stampResources env p.mig
      { mig := w.mig, log := p.log ++ w.log, ret := w.ret }
  else stampResources env migration

/-- Lines 944-1129. The feature flags are dereferenced on the way (lines 970-984);
`handle` has set them all before. -/
def migrateResources (env : Env) (migration : Migration) (volumesOnly : Bool) :
    Out (Option String) :=
  match resourcesNotReady env migration with
  | some err => { mig := migration, log := [], ret := some err }
  | none =>
    match recordResources env migration volumesOnly with
    | .done out => out
    | .next migration log _ =>
      match transferResources env migration with
      | .done out => { mig := out.mig, log := log ++ out.log, ret := out.ret }
      | .next migration log2 _ =>
        let out := finishResources env migration
        { mig := out.mig, log := log ++ log2 ++ out.log, ret := out.ret }

/-! ## Volume sub-workflow (lines 727-879) -/

/-- The first entry of `migrateVolumes`, lines 736-801, taken when `Status.Volumes`
is nil. It returns (and the deferred function of lines 728-732 then terminates the
channels), or it falls through with the channels terminated and cleared (lines
770-773). -/
def startVolumes (env : Env) (migration : Migration) (migrationNamespaces : List String)
    (terminationChannels : List Nat) : Step Unit :=
  if env.storageStatusErr ≠ none ∨ env.storageStatus ≠ ClusterPairStatusReady then
    let notReady : String :=
      "cluster pair storage status is not ready. Status: " ++ env.storageStatus ++ " Err: " ++
        errText env.storageStatusErr
    if migration.Spec.PreExecRule ≠ "" then
      let u := updateMigrationCR env 746 (setStage migration .Initial)
      match u.ret with
      | some err =>
        .done { mig := u.mig, log := u.log ++ terminateAll terminationChannels, ret := some err }
      | none =>
        .done { mig := u.mig, log := u.log ++ terminateAll terminationChannels, ret := some notReady }
    else
      .done { mig := migration, log := terminateAll terminationChannels, ret := some notReady }
  else
    match env.StartMigration with
    | .error err =>
      .done { mig := migration, log := [.StartMigration] ++ terminateAll terminationChannels,
              ret := some err }
    | .ok volumeInfos =>
      let u := updateMigrationCR env 764
        (setStatus (setVolumes migration (volumeInfos.getD [])) .InProgress)
      match u.ret with
      | some err =>
        .done { mig := u.mig, log := [.StartMigration] ++ u.log ++ terminateAll terminationChannels,
                ret := some err }
      | none =>
        let log := [.StartMigration] ++ u.log ++ terminateAll terminationChannels
        if migration.Spec.PostExecRule ≠ "" then
          let r := runPostExecRule env u.mig migrationNamespaces
          match r.ret with
          | some err =>
            let w := updateMigrationCR env 794
              (setStatus (setFinish env 792 (setStage u.mig .Final)) .Failed)
            .done { mig := w.mig
                    log := log ++ r.log ++ [failedEvent, .CancelMigration] ++ w.log
                    ret := match w.ret with
                      | some err => some err
                      | none => some ("Error running PostExecRule: " ++ err) }
          | none => .next u.mig (log ++ r.log) ()
        else .next u.mig log ()

/-- The loop of lines 823-841 over the polled volumes: the record, whether a volume
is still in progress, and the events recorded. -/
def classifyVolumes (env : Env) :
    List MigrationVolumeInfo → Migration → Bool → List Event → Migration × Bool × List Event
  | [], migration, inProgress, log => (migration, inProgress, log)
  | vInfo :: rest, migration, inProgress, log =>
    if vInfo.Status = .InProgress then classifyVolumes env rest migration true log
    else if vInfo.Status = .Failed then
      classifyVolumes env rest (setStatus (setFinish env 833 (setStage migration .Final)) .Failed)
        inProgress (log ++ [.recorded true vInfo.Status.text])
    else if vInfo.Status = .Successful then
      classifyVolumes env rest migration inProgress (log ++ [.recorded false vInfo.Status.text])
    else classifyVolumes env rest migration inProgress log

/-- Lines 803-847: poll the driver, store and classify the volumes; falls through
when no volume is in progress. -/
def pollVolumes (env : Env) (migration : Migration) : Step Unit :=
  if (migration.Status.Volumes.getD []).length ≠ 0 then
    match env.GetMigrationStatus with
    | .error err => .done { mig := migration, log := [.GetMigrationStatus], ret := some err }
    | .ok volumeInfos =>
      let u := updateMigrationCR env 816 (setVolumes migration (volumeInfos.getD []))
      match u.ret with
      | some err => .done { mig := u.mig, log := [.GetMigrationStatus] ++ u.log, ret := some err }
      | none =>
        let r := classifyVolumes env (volumeInfos.getD []) u.mig false []
        if r.2.1 then
          .done { mig := r.1, log := [.GetMigrationStatus] ++ u.log ++ r.2.2, ret := none }
        else .next r.1 ([.GetMigrationStatus] ++ u.log ++ r.2.2) ()
  else .next migration [] ()

/-- Lines 851-876, for a migration that has not failed: move on to the resources. -/
def advanceVolumes (env : Env) (migration : Migration) : Out (Option String) :=
  if deref migration.Spec.IncludeResources then
    let u := updateMigrationCR env 857 (setStatus (setStage migration .Applications) .InProgress)
    match u.ret with
    | some err => { mig := u.mig, log := u.log, ret := some err }
    | none =>
      let r := migrateResources env u.mig false
      match r.ret with
      | some err => { mig := r.mig, log := u.log ++ r.log, ret := some err }
      | none =>
        let w := updateMigrationCR env 878 r.mig
        { mig := w.mig, log := u.log ++ r.log ++ w.log, ret := w.ret }
  else
    let r := migrateResources env migration true
    match r.ret with
    | some err => { mig := r.mig, log := r.log, ret := some err }
    | none =>
      let w := updateMigrationCR env 878
        (setStatus (setFinish env 873 (setStage r.mig .Final)) .Successful)
      { mig := w.mig, log := r.log ++ w.log, ret := w.ret }

/-- Lines 849-878: what follows once no volume is in progress. -/
def finishVolumes (env : Env) (migration : Migration) : Out (Option String) :=
  if (setVolumeFinish env 849 migration).Status.Status ≠ .Failed then
    advanceVolumes env (setVolumeFinish env 849 migration)
  else updateMigrationCR env 878 (setVolumeFinish env 849 migration)

/-- Lines 803-878: poll the volumes and, when none is in progress, finish. -/
def watchVolumes (env : Env) (migration : Migration) : Out (Option String) :=
  match pollVolumes env migration with
  | .done out => out
  | .next migration log _ =>
    let out := finishVolumes env migration
    { mig := out.mig, log := log ++ out.log, ret := out.ret }

/-- Lines 727-879. The deferred function of lines 728-732 terminates the channels
that are left when the function returns: all of them on an early return of the first
entry and when the first entry is not taken, none after line 773. -/
def migrateVolumes (env : Env) (migration : Migration) (migrationNamespaces : List String)
    (terminationChannels : List Nat) : Out (Option String) :=
  let migration := setStage migration .Volumes
  if migration.Status.Volumes = none then
    match startVolumes env migration migrationNamespaces terminationChannels with
    | .done out => out
    | .next migration log _ =>
      let out := watchVolumes env migration
      { mig := out.mig, log := log ++ out.log, ret := out.ret }
  else
    let out := watchVolumes env migration
    { mig := out.mig, log := out.log ++ terminateAll terminationChannels, ret := out.ret }

/-! ## `handle` (lines 244-567) and what it calls -/

/-- Modelled from the spec: `controllers.ContainsFinalizer`, of a package that is not
among the sources ("the completion marker"): the finalizer is on the record. -/
def ContainsFinalizer (migration : Migration) (finalizer : String) : Bool :=
  (migration.Finalizers.getD []).contains finalizer

/-- Modelled from the spec: `controllers.RemoveFinalizer`, of a package that is not
among the sources ("remove the completion marker so the record can be finalized"). -/
def RemoveFinalizer (migration : Migration) (finalizer : String) : Migration :=
  { migration with Finalizers := migration.Finalizers.map (fun fs => fs.filter (fun f => f ≠ finalizer)) }

/-- Lines 2584-2589. -/
def cleanup (env : Env) (migration : Migration) : Out (Option String) :=
  if migration.Status.Stage ≠ .Final then
    { mig := migration, log := [.CancelMigration], ret := env.CancelMigrationErr }
  else { mig := migration, log := [], ret := none }

/-- The loop of lines 585-594 over the namespace selectors. -/
def selectedNamespaces (env : Env) : StrMap → Nat → List String → Except String (List String)
  | [], _, acc => .ok acc
  | _ :: rest, idx, acc =>
    match env.listNamespaces idx with
    | .error err => .error err
    | .ok names => selectedNamespaces env rest (idx + 1) (acc ++ names)

/-- Lines 569-600. The Go code collects the names as keys of a map and returns them
in the map's iteration order, which Go leaves open; here they come in the order of
first insertion. -/
def getMigrationNamespaces (env : Env) (migration : Migration) : Except String (List String) :=
  match env.inClusterConfigErr with
  | some err => .error err
  | none =>
    match env.clientsetErr with
    | some err => .error err
    | none =>
      match selectedNamespaces env migration.Spec.NamespaceSelectors 0 migration.Spec.Namespaces with
      | .error err => .error err
      | .ok names => .ok names.eraseDups

/-- Lines 262-316: the check against the remote migration schedule. -/
def scheduleCheck (env : Env) (migration : Migration) : Step Unit :=
  match migration.Annotations with
  | none => .next migration [] ()
  | some annotations =>
    match annotations.lookup env.StorkMigrationScheduleName with
    | none => .next migration [] ()
    | some _ =>
      match env.schedulerConfigErr with
      | some err => .done { mig := migration, log := [failedEvent], ret := some err }
      | none =>
        match env.newForConfigErr with
        | some _ => .done { mig := migration, log := [failedEvent], ret := none }
        | none =>
          match env.remoteSchedule with
          | .failed _ => .done { mig := migration, log := [failedEvent], ret := none }
          | .notFound => .next migration [] ()
          | .found activated =>
            if activated ∧ migration.Status.Stage ≠ .Final then
              let migration := failMigration env 302 migration
              .done { mig := migration
                      log := [failedEvent, .update 309 migration (env.updateErr 309)]
                      ret := none }
            else .next migration [] ()

/-- The loop of lines 361-368: query the cluster domains until an attempt succeeds;
`extra` attempts remain after this one. The sleep between two attempts does not
touch the record. -/
def queryClusterDomains (env : Env) : Nat → Nat → List Event → List Event × Except String ClusterDomains
  | attempt, 0, log => (log ++ [.GetClusterDomains], env.getClusterDomains attempt)
  | attempt, extra + 1, log =>
    match env.getClusterDomains attempt with
    | .ok domains => (log ++ [.GetClusterDomains], .ok domains)
    | .error _ => queryClusterDomains env (attempt + 1) extra (log ++ [.GetClusterDomains])

/-- The test of lines 373-375 over the domain infos: is there an entry that fails
the migration? -/
def localDomainInactive (domains : ClusterDomains) (migration : Migration) : Bool :=
  domains.ClusterDomainInfos.any (fun domainInfo =>
    domainInfo.Name = domains.LocalDomain ∧ domainInfo.inactive ∧ migration.Status.Stage ≠ .Final)

/-- Lines 360-389: with volumes excluded, fail the migration when the local cluster
domain is inactive. -/
def clusterDomainCheck (env : Env) (migration : Migration) : Step Unit :=
  if ¬ deref migration.Spec.IncludeVolumes then
    match queryClusterDomains env 0 env.domainsExtraRetries [] with
    | (log, .error _) => .next migration log ()
    | (log, .ok domains) =>
      if localDomainInactive domains migration then
        let u := updateMigrationCR env 385 (failMigration env 378 migration)
        .done { mig := u.mig, log := log ++ [failedEvent] ++ u.log, ret := u.ret }
      else .next migration log ()
  else .next migration [] ()

/-- Lines 395-425: the target namespace at position `idx` exists, or is skipped, or
fails the migration. -/
def namespaceExists (env : Env) (ns : String) (idx : Nat) (migration : Migration) : Step Unit :=
  match env.getNamespaceErr idx with
  | none => .next migration [] ()
  | some _ =>
    if migration.Spec.SkipDeletedNamespaces ≠ none ∧ deref migration.Spec.SkipDeletedNamespaces then
      .next (setFinish env 402 (setStage (setStatus migration .Initial) .Initial))
        [.recorded true ("namespace  " ++ ns ++ " was deleted, skipping migration")] ()
    else
      let u := updateMigrationCR env 419 (failMigration env 412 migration)
      .done { mig := u.mig, log := [failedEvent] ++ u.log, ret := none }

/-- Lines 427-470: at most one transformation is given, and it is ready in the
namespace at position `idx`. -/
def transformationReady (env : Env) (idx : Nat) (migration : Migration) : Step Unit :=
  if migration.Spec.TransformSpecs.length ≠ 0 then
    if migration.Spec.TransformSpecs.length > 1 then
      let u := updateMigrationCR env 436 migration
      .done { mig := u.mig, log := [failedEvent] ++ u.log, ret := none }
    else
      match env.getResourceTransformationErr idx with
      | some _ =>
        let u := updateMigrationCR env 451 migration
        .done { mig := u.mig, log := [failedEvent] ++ u.log, ret := none }
      | none =>
        match env.validateResourceTransformationErr idx with
        | some _ =>
          let u := updateMigrationCR env 464 migration
          .done { mig := u.mig, log := [failedEvent] ++ u.log, ret := none }
        | none => .next migration [] ()
  else .next migration [] ()

/-- The loop of lines 394-471 over the target namespaces. -/
def checkNamespaces (env : Env) : List String → Nat → Migration → List Event → Step Unit
  | [], _, migration, log => .next migration log ()
  | ns :: rest, idx, migration, log =>
    match namespaceExists env ns idx migration with
    | .done out => .done { mig := out.mig, log := log ++ out.log, ret := out.ret }
    | .next migration log1 _ =>
      match transformationReady env idx migration with
      | .done out => .done { mig := out.mig, log := log ++ log1 ++ out.log, ret := out.ret }
      | .next migration log2 _ => checkNamespaces env rest (idx + 1) migration (log ++ log1 ++ log2)

/-- The case `MigrationStageInitial`, lines 392-497; falling through leads to the
pre-exec rule. -/
def stageInitial (env : Env) (migration : Migration) (migrationNamespaces : List String) : Step Unit :=
  match checkNamespaces env migrationNamespaces 0 migration [] with
  | .done out => .done out
  | .next migration log _ =>
    if migration.Spec.PreExecRule ≠ "" ∧ env.getRuleErr 474 ≠ none then
      .done { mig := migration, log := log ++ [failedEvent], ret := none }
    else if migration.Spec.PostExecRule ≠ "" ∧ env.getRuleErr 486 ≠ none then
      .done { mig := migration, log := log ++ [failedEvent], ret := none }
    else .next migration log ()

/-- The case `MigrationStagePreExecRule`, lines 498-515; falling through leads to the
volumes, with the termination channels of the rule. -/
def stagePreExecRule (env : Env) (migration : Migration) (migrationNamespaces : List String) :
    Step (List Nat) :=
  let r := runPreExecRule env migration migrationNamespaces
  match r.ret.2 with
  | some _ =>
    let u := updateMigrationCR env 509 (setStatus (setStage r.mig .Initial) .Initial)
    .done { mig := u.mig, log := r.log ++ [failedEvent] ++ u.log, ret := u.ret }
  | none => .next r.mig r.log (r.ret.1.getD [])

/-- The case `MigrationStageVolumes`, lines 516-539. -/
def stageVolumes (env : Env) (migration : Migration) (migrationNamespaces : List String)
    (terminationChannels : List Nat) : Out (Option String) :=
  if deref migration.Spec.IncludeVolumes then
    let r := migrateVolumes env migration migrationNamespaces terminationChannels
    match r.ret with
    | some err =>
      if ¬ stringsContains ("Error migrating volumes: " ++ err) ErrReapplyLatestVersionMsg then
        { mig := r.mig, log := r.log ++ [failedEvent], ret := none }
      else { mig := r.mig, log := r.log, ret := none }
    | none => { mig := r.mig, log := r.log, ret := none }
  else
    updateMigrationCR env 535
      (setVolumeFinish env 534 (setStatus (setStage migration .Applications) .Initial))

/-- The case `MigrationStageApplications`, lines 540-559. -/
def stageApplications (env : Env) (migration : Migration) : Out (Option String) :=
  let volumesOnly : Bool :=
    migration.Spec.IncludeResources ≠ none ∧ ¬ deref migration.Spec.IncludeResources
  let r := migrateResources env migration volumesOnly
  match r.ret with
  | some err =>
    if ¬ stringsContains ("Error migrating resources: " ++ err) ErrReapplyLatestVersionMsg then
      { mig := r.mig, log := r.log ++ [failedEvent], ret := none }
    else { mig := r.mig, log := r.log, ret := none }
  | none => { mig := r.mig, log := r.log, ret := none }

/-- The `switch` of lines 391-564, with its fall-throughs. -/
def stageSwitch (env : Env) (migration : Migration) (migrationNamespaces : List String) :
    Out (Option String) :=
  let fromPreExecRule (migration : Migration) (log : List Event) : Out (Option String) :=
    match stagePreExecRule env migration migrationNamespaces with
    | .done out => { mig := out.mig, log := log ++ out.log, ret := out.ret }
    | .next migration log2 terminationChannels =>
      let out := stageVolumes env migration migrationNamespaces terminationChannels
      { mig := out.mig, log := log ++ log2 ++ out.log, ret := out.ret }
  match migration.Status.Stage with
  | .Initial =>
    match stageInitial env migration migrationNamespaces with
    | .done out => out
    | .next migration log _ => fromPreExecRule migration log
  | .PreExecRule => fromPreExecRule migration []
  | .Volumes => stageVolumes env migration migrationNamespaces []
  | .Applications => stageApplications env migration
  | .Final => { mig := migration, log := [], ret := none }

/-- Lines 245-258: the record carries a deletion timestamp. -/
def handleDeletion (env : Env) (migration : Migration) : Out (Option String) :=
  let log : List Event :=
    if ContainsFinalizer migration env.FinalizerCleanup then (cleanup env migration).log else []
  if migration.Finalizers ≠ none then
    let migration := RemoveFinalizer migration env.FinalizerCleanup
    { mig := migration, log := log ++ [.update 254 migration (env.updateErr 254)],
      ret := env.updateErr 254 }
  else { mig := migration, log := log, ret := none }

/-- Lines 318-357: the cluster pair is named, and the target namespaces are found,
not empty and allowed. -/
def checkTargets (c : MigrationController) (env : Env) (migration : Migration) :
    Step (List String) :=
  if migration.Spec.ClusterPair = "" then
    .done { mig := migration, log := [failedEvent], ret := none }
  else
    match getMigrationNamespaces env migration with
    | .error _ => .done { mig := migration, log := [failedEvent], ret := none }
    | .ok migrationNamespaces =>
      if migrationNamespaces.length = 0 then
        .done { mig := migration, log := [failedEvent], ret := none }
      else if ¬ namespaceMigrationAllowed c migration migrationNamespaces then
        .done { mig := migration, log := [failedEvent], ret := none }
      else .next migration [] migrationNamespaces

/-- Line 260: `migration.Spec = setDefaults(migration.Spec)`. -/
def withDefaults (migration : Migration) : Migration :=
  { migration with Spec := setDefaults migration.Spec }

def handle (c : MigrationController) (env : Env) (migration : Migration) : Out (Option String) :=
  if migration.DeletionTimestamp ≠ none then handleDeletion env migration
  else
    match scheduleCheck env (withDefaults migration) with
    | .done out => out
    | .next migration _ _ =>
      match checkTargets c env migration with
      | .done out => out
      | .next migration _ migrationNamespaces =>
        match clusterDomainCheck env migration with
        | .done out => out
        | .next migration log _ =>
          let out := stageSwitch env migration migrationNamespaces
          { mig := out.mig, log := log ++ out.log, ret := out.ret }

/-! ## Sample inputs -/

/-- An environment in which every collaborator succeeds: storage and scheduler are
Ready, the driver starts no volume, nothing is collected. -/
def calmEnv : Env :=
  { FinalizerCleanup := "stork.libopenstorage.org/finalizer-cleanup"
    StorkMigrationScheduleName := "stork.libopenstorage.org/migration-schedule-name"
    TransformedResourceName := "stork.libopenstorage.org/resourcetransformation-name"
    domainsExtraRetries := 2
    now := fun _ => 100
    updateErr := fun _ => none
    schedulerConfigErr := none
    newForConfigErr := none
    remoteSchedule := .notFound
    inClusterConfigErr := none
    clientsetErr := none
    listNamespaces := fun _ => .ok []
    getClusterDomains := fun _ => .ok { LocalDomain := "dc1", ClusterDomainInfos := [] }
    getNamespaceErr := fun _ => none
    getResourceTransformationErr := fun _ => none
    validateResourceTransformationErr := fun _ => none
    getRuleErr := fun _ => none
    executeRule := fun _ _ => .ok none
    storageStatus := "Ready"
    storageStatusErr := none
    StartMigration := .ok none
    GetMigrationStatus := .ok none
    CancelMigrationErr := none
    getClusterPair := .ok "Ready"
    adminSchedulerStatus := .ok "Ready"
    pvObjects := .ok []
    pvcObjects := .ok []
    allObjects := .ok []
    listApplicationRegistrationsErr := none
    prepareResourcesErr := none
    applyUpdates := []
    applyOutcome := .returned none
    updateOwnerReferenceOnPVCErr := none
    updateStorageClassOnPVErr := none
    purge :=
      { configErr := none, initErr := none, destErr := none, srcErr := none, collectErr := none,
        dynamicErr := none, deleteErr := none, deleted := [] } }

/-- A spec with nothing set. -/
def emptySpec : MigrationSpec :=
  { ClusterPair := "", AdminClusterPair := "", Namespaces := [], NamespaceSelectors := [],
    IncludeResources := none, IncludeVolumes := none, StartApplications := none,
    PurgeDeletedResources := none, SkipServiceUpdate := none,
    IncludeNetworkPolicyWithCIDR := none, SkipDeletedNamespaces := none,
    IgnoreOwnerReferencesCheck := none, PreExecRule := "", PostExecRule := "",
    TransformSpecs := [], Selectors := none, ExcludeSelectors := none,
    ExcludeResourceTypes := [], IncludeOptionalResourceTypes := [] }

/-- A fresh status. -/
def freshStatus : MigrationStatus :=
  { Stage := .Initial, Status := .Initial, Volumes := none, Resources := [], Summary := none,
    FinishTimestamp := none, VolumeMigrationFinishTimestamp := none,
    ResourceMigrationFinishTimestamp := none }

/-- A Migration in namespace `app1` that migrates `app1` over the pair `pair1`. -/
def sampleMigration : Migration :=
  { Name := "m1", Namespace := "app1", CreationTimestamp := some 10, DeletionTimestamp := none,
    Finalizers := some ["stork.libopenstorage.org/finalizer-cleanup"], Annotations := none,
    Spec := { emptySpec with ClusterPair := "pair1", Namespaces := ["app1"] },
    Status := freshStatus }

/-- The controller with admin namespace `kube-system`. -/
def sampleController : MigrationController :=
  { migrationAdminNamespace := "kube-system", migrationMaxThreads := 4 }

/-- A volume info with a given status. -/
def sampleVolume (name : String) (status : MigrationStatusType) : MigrationVolumeInfo :=
  { Volume := name, Status := status, Reason := "", BytesTotal := 1024 }

/-- A Migration whose cluster-pair reference is empty. -/
def unpairedMigration : Migration :=
  { sampleMigration with Spec := { emptySpec with Namespaces := ["app1"] } }

/-- An unpaired Migration created by a migration schedule. -/
def scheduledUnpairedMigration : Migration :=
  { unpairedMigration with
    Annotations := some [("stork.libopenstorage.org/migration-schedule-name", "nightly")] }

/-! ## Kinds of side effects -/

/-- The kind of a side effect, without its arguments. -/
inductive EventKind
  | recorded
  | update
  | StartMigration
  | GetMigrationStatus
  | CancelMigration
  | GetClusterDomains
  | ExecuteRule
  | terminate
  | resource
  deriving DecidableEq, Repr

def Event.kind : Event → EventKind
  | .recorded _ _ => .recorded
  | .update _ _ _ => .update
  | .StartMigration => .StartMigration
  | .GetMigrationStatus => .GetMigrationStatus
  | .CancelMigration => .CancelMigration
  | .GetClusterDomains => .GetClusterDomains
  | .ExecuteRule _ _ => .ExecuteRule
  | .terminate _ => .terminate
  | .resource _ => .resource

/-- Every side effect of a log is of one of the kinds `kinds`. -/
def within (kinds : List EventKind) (log : List Event) : Prop :=
  ∀ e ∈ log, e.kind ∈ kinds

/-- The test of line 741: the storage status of the cluster pair cannot be read or
is not Ready. -/
def storageNotReady (env : Env) : Prop :=
  env.storageStatusErr ≠ none ∨ env.storageStatus ≠ ClusterPairStatusReady

instance (env : Env) : Decidable (storageNotReady env) := by
  unfold storageNotReady
  infer_instance

/-- The kinds of side effects of the volume sub-workflow. -/
def volumeKinds : List EventKind :=
  [.recorded, .update, .StartMigration, .GetMigrationStatus, .CancelMigration, .ExecuteRule,
    .terminate, .resource]

/-- An environment in which no rule can be read. -/
def missingRuleEnv : Env :=
  { calmEnv with getRuleErr := fun _ => some "rule not found" }

/-- A Migration at stage Volumes that excludes volumes. -/
def resourcesOnlyMigration : Migration :=
  { sampleMigration with
    Spec := { sampleMigration.Spec with IncludeVolumes := some false }
    Status := { freshStatus with Stage := .Volumes, Status := .Pending } }

/-- The record that the last successful write of a log left in the store, if the log
has a successful write. -/
def lastWritten (log : List Event) : Option Migration :=
  log.foldl (fun acc e =>
    match e with
    | .update _ snapshot none => some snapshot
    | _ => acc) none

/-- The stored record after an invocation on the stored record `m`: what the last
successful write left, and `m` itself when nothing was written. -/
def persisted (m : Migration) (log : List Event) : Migration :=
  (lastWritten log).getD m

/-- Whether a list of volume infos holds a volume of the given status. -/
def hasVolume (status : MigrationStatusType) (volumeInfos : List MigrationVolumeInfo) : Prop :=
  ∃ v ∈ volumeInfos, v.Status = status

/-- Every record written in a log satisfies `P`. -/
def writes (P : Migration → Prop) (log : List Event) : Prop :=
  ∀ line snapshot err, Event.update line snapshot err ∈ log → P snapshot

/-- The kinds of side effects of the first entry of the volume sub-workflow. -/
def startKinds : List EventKind :=
  [.recorded, .update, .StartMigration, .CancelMigration, .ExecuteRule, .terminate]

/-- The kinds of side effects of the volume sub-workflow after its first entry. -/
def watchKinds : List EventKind :=
  [.recorded, .update, .GetMigrationStatus, .resource, .terminate]

/-- The status with which the volume sub-workflow polls: InProgress on the first
entry (line 763), the status of the record on a later entry. -/
def entryStatus (m : Migration) : MigrationStatusType :=
  if m.Status.Volumes = none then .InProgress else m.Status.Status

/-- A Migration at stage Volumes whose two volumes were in progress at the last poll. -/
def stalledMigration : Migration :=
  { sampleMigration with
    Status := { freshStatus with
      Stage := .Volumes, Status := .InProgress,
      Volumes := some [sampleVolume "v1" .InProgress, sampleVolume "v2" .InProgress] } }

/-- The driver reports one volume in progress and one failed. -/
def mixedPollEnv : Env :=
  { calmEnv with
    GetMigrationStatus := .ok (some [sampleVolume "v1" .InProgress, sampleVolume "v2" .Failed]) }

/-- The driver reports one volume migrated and one failed. -/
def failedPollEnv : Env :=
  { calmEnv with
    GetMigrationStatus := .ok (some [sampleVolume "v1" .Successful, sampleVolume "v2" .Failed]) }

/-- A fresh Migration with the post-exec rule `resume`. -/
def postRuleMigration : Migration :=
  { sampleMigration with Spec := { sampleMigration.Spec with PostExecRule := "resume" } }

/-- The driver starts one volume; the post-exec rule fails in the first namespace. -/
def failingPostRuleEnv : Env :=
  { calmEnv with
    StartMigration := .ok (some [sampleVolume "v1" .InProgress])
    executeRule := fun phase _ =>
      match phase with
      | .PreExecRule => .ok none
      | .PostExecRule => .error "command failed" }

/-- The driver reports one volume still in progress and one migrated. -/
def busyPollEnv : Env :=
  { calmEnv with
    GetMigrationStatus := .ok (some [sampleVolume "v1" .InProgress, sampleVolume "v2" .Successful]) }

/-- The driver reports a failed volume, and the write that stores the refreshed
volume list is refused. -/
def conflictPollEnv : Env :=
  { failedPollEnv with updateErr := fun line => if line = 816 then some "conflict" else none }

/-- The record after the first entry has started the volumes and stored their list. -/
def startedRecord (env : Env) (m : Migration) (infos : Option (List MigrationVolumeInfo)) :
    Migration :=
  (updateMigrationCR env 764
    (setStatus (setVolumes (setStage m .Volumes) (infos.getD [])) .InProgress)).mig

/-- The record after a failed post-exec rule. -/
def cancelledRecord (env : Env) (m : Migration) (infos : Option (List MigrationVolumeInfo)) :
    Migration :=
  (updateMigrationCR env 794
    (setStatus (setFinish env 792 (setStage (startedRecord env m infos) .Final)) .Failed)).mig

/-- The kinds of side effects of `handle` on a record whose volumes are being
watched. -/
def pollingKinds : List EventKind :=
  [.recorded, .update, .GetMigrationStatus, .resource, .terminate, .GetClusterDomains]

/-! ## The order of the stages -/

/-- The position of a stage in Initial < PreExecRule < Volumes < Applications < Final. -/
def MigrationStageType.rank : MigrationStageType → Nat
  | .Initial => 0
  | .PreExecRule => 1
  | .Volumes => 2
  | .Applications => 3
  | .Final => 4

/-- The kinds of side effects of `handle` when it does not enter the volume
sub-workflow: anything but starting and polling the volume migration. -/
def quietKinds : List EventKind :=
  [.recorded, .update, .CancelMigration, .GetClusterDomains, .ExecuteRule, .terminate, .resource]

/-- A Migration at stage PreExecRule whose rule `quiesce` has not been started. -/
def pendingRuleMigration : Migration :=
  { sampleMigration with
    Spec := { sampleMigration.Spec with PreExecRule := "quiesce" }
    Status := { freshStatus with Stage := .PreExecRule, Status := .Pending } }


/-! ## Sample inputs for the resource sub-workflow -/

/-- A PersistentVolumeClaim `data` of namespace `app1`. -/
def sampleClaim : Unstructured :=
  { accessorErr := none, Name := "data", Namespace := "app1", Annotations := [],
    Group := "", Version := "v1", Kind := "PersistentVolumeClaim" }

/-- A PersistentVolume `pv1`. -/
def sampleDisk : Unstructured :=
  { accessorErr := none, Name := "pv1", Namespace := "", Annotations := [],
    Group := "", Version := "v1", Kind := "PersistentVolume" }

/-- A Deployment `web` of namespace `app1`. -/
def sampleWorkload : Unstructured :=
  { accessorErr := none, Name := "web", Namespace := "app1", Annotations := [],
    Group := "apps", Version := "v1", Kind := "Deployment" }

/-- A Migration at stage Applications. -/
def applicationsMigration : Migration :=
  { sampleMigration with
    Spec := setDefaults sampleMigration.Spec
    Status := { freshStatus with Stage := .Applications, Status := .InProgress } }

/-- One Deployment is collected and applied. -/
def oneWorkloadEnv : Env :=
  { calmEnv with
    allObjects := .ok [sampleWorkload]
    applyUpdates := [(sampleWorkload, .Successful, "Resource migrated successfully")] }

/-- A Migration at stage Volumes that excludes the resources and whose one volume
was in progress at the last poll. -/
def volumesOnlyMigration : Migration :=
  { sampleMigration with
    Spec := { setDefaults sampleMigration.Spec with IncludeResources := some false }
    Status := { freshStatus with
      Stage := .Volumes, Status := .InProgress, Volumes := some [sampleVolume "v1" .InProgress] } }

/-- The driver reports the volume migrated; the PersistentVolume is applied, the
PersistentVolumeClaim cannot be created again on the destination. -/
def claimFailsEnv : Env :=
  { calmEnv with
    GetMigrationStatus := .ok (some [sampleVolume "v1" .Successful])
    pvObjects := .ok [sampleDisk]
    pvcObjects := .ok [sampleClaim]
    applyUpdates :=
      [(sampleDisk, .Successful, "Resource migrated successfully"),
       (sampleClaim, .Failed, "Error applying resource: error in recreating pvc app1/data")] }

/-- The PersistentVolume cannot be created on the destination and the fallback
fails too; every other call succeeds. -/
def diskFailsEnv : Env :=
  { calmEnv with
    allObjects := .ok [sampleDisk, sampleWorkload]
    applyUpdates := [(sampleDisk, .Failed, "Error applying resource: conflict")]
    applyOutcome := .pvApplyFailed }

/-- A Migration at stage Applications that purges deleted resources. -/
def purgingMigration : Migration :=
  { applicationsMigration with
    Spec := { applicationsMigration.Spec with PurgeDeletedResources := some true } }

/-- One Deployment is collected and applied; the purge cannot delete. -/
def purgeFailsEnv : Env :=
  { oneWorkloadEnv with purge := { calmEnv.purge with deleteErr := some "forbidden" } }

/-- A Migration whose `Status.Resources` lists a Deployment, a PersistentVolumeClaim
and the same PersistentVolumeClaim once more. -/
def listedMigration : Migration :=
  { applicationsMigration with
    Status := { applicationsMigration.Status with
      Resources :=
        [{ Name := "web", Namespace := "app1", Group := "apps", Version := "v1", Kind := "Deployment",
           Status := .InProgress, Reason := "", TransformedBy := "" },
         { Name := "data", Namespace := "app1", Group := "core", Version := "v1",
           Kind := "PersistentVolumeClaim", Status := .InProgress, Reason := "", TransformedBy := "" },
         { Name := "data", Namespace := "app1", Group := "core", Version := "v1",
           Kind := "PersistentVolumeClaim", Status := .InProgress, Reason := "", TransformedBy := "" }] } }

/-! ## Unstructured content and the prepare functions (lines 1402-1628, 2204-2313) -/

/-- A value of an object's content, the `interface{}` of a decoded JSON document:
`nil`, `bool`, `int64`, `float64` (kept as its text), `string`, `[]interface{}` or
`map[string]interface{}`. -/
inductive Value
  | null
  | bool (b : Bool)
  | int (i : Int)
  | float (text : String)
  | str (s : String)
  | list (items : List Value)
  | map (fields : List (String × Value))

deriving instance DecidableEq for Except

/-- The content of an object, `map[string]interface{}`, in the order of its keys. -/
abbrev Content := List (String × Value)

/-- The Go assignment `m[k] = v` on a `map[string]interface{}`. -/
def fieldSet : Content → String → Value → Content
  | [], k, v => [(k, v)]
  | (k', v') :: rest, k, v => if k' = k then (k, v) :: rest else (k', v') :: fieldSet rest k v

/-- The library function `unstructured.NestedFieldNoCopy`: the value at a path of
fields; `none` when a field of the path is absent or the path runs into `nil`, an
error when it runs into a value that is not a map. -/
def NestedFieldNoCopy : Value → List String → Except String (Option Value)
  | val, [] => .ok (some val)
  | .null, _ :: _ => .ok none
  | .map m, field :: rest =>
    match m.lookup field with
    | none => .ok none
    | some val => NestedFieldNoCopy val rest
  | _, field :: _ => .error ("accessor error at " ++ field ++ ": expected a map")

/-- The library function `unstructured.NestedInt64`. -/
def NestedInt64 (obj : Content) (fields : List String) : Except String (Option Int) :=
  match NestedFieldNoCopy (.map obj) fields with
  | .error err => .error err
  | .ok none => .ok none
  | .ok (some (.int i)) => .ok (some i)
  | .ok (some _) => .error "accessor error: expected int64"

/-- The library function `unstructured.NestedString`. -/
def NestedString (obj : Content) (fields : List String) : Except String (Option String) :=
  match NestedFieldNoCopy (.map obj) fields with
  | .error err => .error err
  | .ok none => .ok none
  | .ok (some (.str s)) => .ok (some s)
  | .ok (some _) => .error "accessor error: expected string"

/-- The entries of a map as strings, if every value is a string. -/
def stringEntries : Content → Option StrMap
  | [] => some []
  | (k, .str s) :: rest =>
    match stringEntries rest with
    | some entries => some ((k, s) :: entries)
    | none => none
  | _ :: _ => none

/-- The library function `unstructured.NestedStringMap`. -/
def NestedStringMap (obj : Content) (fields : List String) : Except String (Option StrMap) :=
  match NestedFieldNoCopy (.map obj) fields with
  | .error err => .error err
  | .ok none => .ok none
  | .ok (some (.map m)) =>
    match stringEntries m with
    | some entries => .ok (some entries)
    | none => .error "accessor error: contains non-string key in the map"
  | .ok (some _) => .error "accessor error: expected a map"

/-- The library function `unstructured.SetNestedField`: maps that are missing on
the path are created; a value on the path that is not a map is an error, and then
nothing is changed. The callers pass a path of at least one field. -/
def SetNestedField (obj : Content) (value : Value) : List String → Except String Content
  | [] => .error "no field"
  | [field] => .ok (fieldSet obj field value)
  | field :: next :: rest =>
    match obj.lookup field with
    | some (.map sub) =>
      match SetNestedField sub value (next :: rest) with
      | .error err => .error err
      | .ok sub => .ok (fieldSet obj field (.map sub))
    | some _ => .error ("value cannot be set because " ++ field ++ " is not a map")
    | none =>
      match SetNestedField [] value (next :: rest) with
      | .error err => .error err
      | .ok sub => .ok (fieldSet obj field (.map sub))

/-- The library function `unstructured.SetNestedStringMap`. -/
def SetNestedStringMap (obj : Content) (value : StrMap) (fields : List String) :
    Except String Content :=
  SetNestedField obj (.map (value.map (fun e => (e.1, .str e.2)))) fields

/-- The decimal digit `d`. -/
def digitChar (d : Nat) : Char := Char.ofNat (48 + d)

/-- The decimal digits of `n` in front of `acc`; `fuel` bounds the number of digits. -/
def natDigits : Nat → Nat → List Char → List Char
  | 0, _, acc => acc
  | fuel + 1, n, acc =>
    if n / 10 = 0 then digitChar (n % 10) :: acc
    else natDigits fuel (n / 10) (digitChar (n % 10) :: acc)

/-- The library function `strconv.FormatInt(i, 10)`, also what `%v` prints for an
`int64`. -/
def FormatInt (i : Int) : String :=
  String.mk (if i < 0 then '-' :: natDigits (i.natAbs + 1) i.natAbs []
    else natDigits (i.natAbs + 1) i.natAbs [])

/-- The number that a list of decimal digits denotes after the digits read so far
gave `acc`; `none` when a character is not a digit. -/
def parseDigits : List Char → Nat → Option Nat
  | [], acc => some acc
  | c :: rest, acc =>
    if 48 ≤ c.toNat ∧ c.toNat ≤ 57 then parseDigits rest (acc * 10 + (c.toNat - 48)) else none

/-- The number that `strconv.ParseInt` returns for the digits that follow the sign:
at least one decimal digit, within the range of `int64`. -/
def parseMagnitude (neg : Bool) (digits : List Char) : Except String Int :=
  if digits = [] then .error "strconv.ParseInt: invalid syntax"
  else
    match parseDigits digits 0 with
    | none => .error "strconv.ParseInt: invalid syntax"
    | some un =>
      if neg then
        if un ≤ 2 ^ 63 then .ok (- (un : Int)) else .error "strconv.ParseInt: value out of range"
      else
        if un < 2 ^ 63 then .ok (un : Int) else .error "strconv.ParseInt: value out of range"

/-- The library function `strconv.ParseInt(s, 10, 64)`: an optional sign and the
digits. -/
def ParseInt (s : String) : Except String Int :=
  if s.toList.head? = some '-' then parseMagnitude true s.toList.tail
  else if s.toList.head? = some '+' then parseMagnitude false s.toList.tail
  else parseMagnitude false s.toList

/-- The library function `strconv.ParseBool`. -/
def ParseBool (s : String) : Option Bool :=
  if s ∈ ["1", "t", "T", "TRUE", "true", "True"] then some true
  else if s ∈ ["0", "f", "F", "FALSE", "false", "False"] then some false
  else none

/-- The pieces of a list of characters between the occurrences of `sep`; `cur` holds
the piece being read, in reverse. -/
def splitChars (sep : Char) : List Char → List Char → List (List Char)
  | [], cur => [cur.reverse]
  | c :: rest, cur =>
    if c = sep then cur.reverse :: splitChars sep rest [] else splitChars sep rest (c :: cur)

/-- The library function `strings.Split(s, sep)` for a separator of one character. -/
def stringsSplit (s : String) (sep : Char) : List String :=
  (splitChars sep s.toList []).map String.mk

def StorkMigrationReplicasAnnotation : String := "stork.libopenstorage.org/migrationReplicas"

def StorkMigrationAnnotation : String := "stork.libopenstorage.org/migrated"

def PVReclaimAnnotation : String := "stork.libopenstorage.org/reclaimPolicy"

def StorkAnnotationPrefix : String := "stork.libopenstorage.org/"

/-- An object's content after a prepare function, and the error the function
returned: the content is changed in place, also when the function fails. -/
structure Prepared where
  content : Content
  err : Option String

/-- Lines 1485-1500 of `prepareApplicationResource`: when the replica count is 0 and
the annotation stashes a positive count, that count is carried forward and written
back to `spec.replicas`. -/
def carryForwardReplicas (content : Content) (replicas : Int) (annotations : StrMap) :
    Except String (Int × Content) :=
  match annotations.lookup StorkMigrationReplicasAnnotation with
  | some migrationReplicasAnnotationValue =>
    if replicas = 0 then
      match ParseInt migrationReplicasAnnotationValue with
      | .error err => .error err
      | .ok migrationReplicas =>
        if migrationReplicas > 0 then
          match SetNestedField content (.int migrationReplicas) ["spec", "replicas"] with
          | .error err => .error err
          | .ok content => .ok (migrationReplicas, content)
        else .ok (replicas, content)
    else .ok (replicas, content)
  | none => .ok (replicas, content)

/-- Lines 1507-1528 of `prepareApplicationResource`: scale down to 0, label the object
as migrated and stash the replica count. -/
def scaleDown (content : Content) (replicas : Int) (annotations : StrMap) : Prepared :=
  match SetNestedField content (.int 0) ["spec", "replicas"] with
  | .error err => { content := content, err := some err }
  | .ok content =>
    match NestedStringMap content ["metadata", "labels"] with
    | .error err => { content := content, err := some err }
    | .ok found =>
      match SetNestedStringMap content (mapSet (found.getD []) StorkMigrationAnnotation "true")
          ["metadata", "labels"] with
      | .error err => { content := content, err := some err }
      | .ok content =>
        match SetNestedStringMap content
            (mapSet annotations StorkMigrationReplicasAnnotation (FormatInt replicas))
            ["metadata", "annotations"] with
        | .error err => { content := content, err := some err }
        | .ok content => { content := content, err := none }

/-- Lines 1443-1529. The block of lines 1448-1466 (Rancher project mappings) changes
nothing: its type assertion `podSpecField.(v1.PodSpec)` fails for every value of a
decoded content, so `found && ok` is false. -/
def prepareApplicationResource (migration : Migration) (content : Content) : Prepared :=
  match NestedInt64 content ["spec", "replicas"] with
  | .error err => { content := content, err := some err }
  | .ok found =>
    match NestedStringMap content ["metadata", "annotations"] with
    | .error err => { content := content, err := some err }
    | .ok foundAnnotations =>
      match carryForwardReplicas content (found.getD 1) (foundAnnotations.getD []) with
      | .error err => { content := content, err := some err }
      | .ok (replicas, content) =>
        if deref migration.Spec.StartApplications then { content := content, err := none }
        else scaleDown content replicas (foundAnnotations.getD [])

/-- A Deployment with three replicas, one label and one annotation. -/
def sampleDeployment : Content :=
  [("apiVersion", .str "apps/v1"), ("kind", .str "Deployment"),
   ("metadata", .map [("name", .str "web"), ("namespace", .str "app1"),
     ("labels", .map [("app", .str "web")]),
     ("annotations", .map [("owner", .str "team-a")])]),
   ("spec", .map [("replicas", .int 3), ("paused", .bool false)])]

/-- A Deployment scaled to 0 whose annotation stashes the text `stash`. -/
def stashedDeployment (stash : String) : Content :=
  [("apiVersion", .str "apps/v1"), ("kind", .str "Deployment"),
   ("metadata", .map [("name", .str "web"), ("namespace", .str "app1"),
     ("annotations", .map [("stork.libopenstorage.org/migrationReplicas", .str stash)])]),
   ("spec", .map [("replicas", .int 0)])]

/-- Whether a field of an object is absent or holds a map, as `metadata` and `spec`
do in an object read from the API server. -/
def mapOrAbsent (obj : Content) (field : String) : Bool :=
  match obj.lookup field with
  | none => true
  | some (.map _) => true
  | some _ => false

/-- A suspend option of an application registration (`stork_api.SuspendOptions`):
the path of the field, the type of its value (the Go field `Type`) and the value
that suspends. -/
structure SuspendOptions where
  Path : String
  SuspendType : String
  Value : String

/-- Where an iteration of the loop of `prepareCRDClusterResource` ends: with a
`return` of the function, or with the content and the annotations for the next
iteration. -/
inductive SuspendStep
  | returned (content : Content) (err : Option String)
  | next (content : Content) (annotations : StrMap)

/-- Lines 1553-1604: for a suspend option with the fields `fields` and the annotation
`stash` of an earlier suspension, the value that suspends the field (`disableVersion`),
the text of the current value (`currVal`) and the content. -/
def suspendValue (suspend : SuspendOptions) (fields : List String) (content : Content)
    (stash : Option String) : Except String (Value × String × Content) :=
  if suspend.SuspendType = "bool" then
    match ParseBool suspend.Value with
    | none => .ok (.bool true, "", content)
    | some val => .ok (.bool val, "", content)
  else if suspend.SuspendType = "int" then
    match NestedInt64 content fields with
    | .error err => .error ("unable to find suspend path, err: " ++ err)
    | .ok none => .error "unable to find suspend path, err: <nil>"
    | .ok (some curr) =>
      match stash with
      | some SuspendAnnotationValue =>
        if curr = 0 then
          match ParseInt ((stringsSplit SuspendAnnotationValue ',').headD "") with
          | .error err => .error err
          | .ok intValue =>
            if intValue > 0 then
              match SetNestedField content (.str (FormatInt intValue)) fields with
              | .error err => .error err
              | .ok content => .ok (.int 0, FormatInt intValue, content)
            else .ok (.int 0, FormatInt curr, content)
        else .ok (.int 0, FormatInt curr, content)
      | none => .ok (.int 0, FormatInt curr, content)
  else if suspend.SuspendType = "string" then
    match NestedString content fields with
    | .error err => .error ("unable to find suspend path, err: " ++ err)
    | .ok found =>
      match stash with
      | some SuspendAnnotationValue =>
        if found.getD "" = suspend.Value then
          if (stringsSplit SuspendAnnotationValue ',').headD "" ≠ "" then
            match SetNestedField content
                (.str ((stringsSplit SuspendAnnotationValue ',').headD "")) fields with
            | .error err => .error err
            | .ok content =>
              .ok (.str suspend.Value, (stringsSplit SuspendAnnotationValue ',').headD "", content)
          else .ok (.str suspend.Value, found.getD "", content)
        else .ok (.str suspend.Value, found.getD "", content)
      | none => .ok (.str suspend.Value, found.getD "", content)
  else .error ("invalid type " ++ suspend.SuspendType ++ " to suspend cr")

/-- Lines 1548-1616: one iteration of the loop over the suspend options. -/
def suspendField (migration : Migration) (suspend : SuspendOptions) (content : Content)
    (annotations : StrMap) : SuspendStep :=
  if (stringsSplit suspend.Path '.').length > 1 then
    match suspendValue suspend (stringsSplit suspend.Path '.') content
        (annotations.lookup (StorkAnnotationPrefix ++ suspend.Path)) with
    | .error err => .returned content (some err)
    | .ok (disableVersion, currVal, content) =>
      if deref migration.Spec.StartApplications then .returned content none
      else
        match SetNestedField content disableVersion (stringsSplit suspend.Path '.') with
        | .error err => .returned content (some err)
        | .ok content =>
          .next content
            (mapSet annotations (StorkAnnotationPrefix ++ suspend.Path)
              (currVal ++ "," ++ suspend.Value))
  else .next content annotations

/-- The loop of lines 1547-1617. -/
def suspendFields (migration : Migration) :
    List SuspendOptions → Content → StrMap → SuspendStep
  | [], content, annotations => .next content annotations
  | suspend :: rest, content, annotations =>
    match suspendField migration suspend content annotations with
    | .returned content err => .returned content err
    | .next content annotations => suspendFields migration rest content annotations

/-- Lines 1531-1628. -/
def prepareCRDClusterResource (migration : Migration) (content : Content)
    (suspendOpts : List SuspendOptions) : Prepared :=
  if suspendOpts.length = 0 then { content := content, err := none }
  else
    match NestedStringMap content ["metadata", "annotations"] with
    | .error err => { content := content, err := some err }
    | .ok found =>
      match suspendFields migration suspendOpts content (found.getD []) with
      | .returned content err => { content := content, err := err }
      | .next content annotations =>
        if deref migration.Spec.StartApplications then { content := content, err := none }
        else
          match SetNestedStringMap content annotations ["metadata", "annotations"] with
          | .error err => { content := content, err := some err }
          | .ok content => { content := content, err := none }

/-- A custom resource with a boolean field `spec.suspend` that is `false` and an
integer field `spec.size` that is 3. -/
def sampleCustomResource : Content :=
  [("apiVersion", .str "example.io/v1"), ("kind", .str "Broker"),
   ("metadata", .map [("name", .str "broker"), ("namespace", .str "app1")]),
   ("spec", .map [("suspend", .bool false), ("size", .int 3), ("mode", .str "active")])]

/-- The suspend option that sets `spec.suspend` to `true`. -/
def boolSuspend : SuspendOptions :=
  { Path := "spec.suspend", SuspendType := "bool", Value := "true" }

/-- The suspend option that sets the integer `spec.size` to 0. -/
def intSuspend : SuspendOptions :=
  { Path := "spec.size", SuspendType := "int", Value := "0" }

/-- What the migration reads and writes of a `v1.PersistentVolume`: the name, the
annotations (`none` for a nil map), the reclaim policy of its spec (the empty text
when none is set), the resource version, and the volume source that the driver may
rewrite. -/
structure PersistentVolume where
  Name : String
  Annotations : Option StrMap
  PersistentVolumeReclaimPolicy : String
  ResourceVersion : String
  VolumeSource : String
  deriving DecidableEq, Repr

/-- A collected PersistentVolume object: the error of converting its content to a
`v1.PersistentVolume`, if any, and the PersistentVolume it converts to. -/
structure VolumeObject where
  fromUnstructuredErr : Option String
  pv : PersistentVolume
  deriving DecidableEq, Repr

def PersistentVolumeReclaimRetain : String := "Retain"

/-- Lines 1402-1427. `driver` is `volDriver.UpdateMigratedPersistentVolumeSpec`, which
works on the PersistentVolume in place; `toUnstructuredErr` is the error of converting
the PersistentVolume back, if any. On an error the object is left as it was. -/
def preparePVResource (driver : PersistentVolume → Except String PersistentVolume)
    (toUnstructuredErr : Option String) (object : VolumeObject) : Except String VolumeObject :=
  match object.fromUnstructuredErr with
  | some err => .error err
  | none =>
    let pv : PersistentVolume :=
      { object.pv with
        Annotations := some (mapSet (object.pv.Annotations.getD []) PVReclaimAnnotation
          object.pv.PersistentVolumeReclaimPolicy)
        PersistentVolumeReclaimPolicy := PersistentVolumeReclaimRetain }
    match driver pv with
    | .error err => .error err
    | .ok pv =>
      match toUnstructuredErr with
      | some err => .error err
      | none => .ok { fromUnstructuredErr := none, pv := pv }

/-- The answers of the destination cluster to the revert step for one
PersistentVolume: the message with which the claim-reference block of lines 2216-2281
gives up (`none` when it falls through), the PersistentVolume read at line 2283, and
the error of the update of line 2302. -/
structure RevertAnswers where
  claimRefErr : Option String
  getPV : Except String PersistentVolume
  updateErr : Option String

/-- The outcome of the revert step for one PersistentVolume: the object passed to
the update of line 2302, if that line is reached, and the status and reason recorded
for the object. -/
structure Reverted where
  written : Option PersistentVolume
  status : MigrationStatusType
  reason : String
  deriving DecidableEq, Repr

/-- Lines 2204-2313 of `applyResources`, for one PersistentVolume object. -/
def revertReclaimPolicy (migration : Migration) (answers : RevertAnswers)
    (obj : VolumeObject) : Reverted :=
  match obj.fromUnstructuredErr with
  | some err => { written := none, status := .Failed, reason := "Error applying resource: " ++ err }
  | none =>
    match answers.claimRefErr with
    | some msg =>
      { written := none, status := .Failed, reason := "Error applying resource: " ++ msg }
    | none =>
      match answers.getPV with
      | .error err =>
        { written := none, status := .Failed
          reason := "Error applying resource: error in reading pv " ++ obj.pv.Name ++
            " during migration: " ++ err }
      | .ok respPV =>
        let respPV : PersistentVolume :=
          if obj.pv.Annotations ≠ none ∧
              ((obj.pv.Annotations.getD []).lookup PVReclaimAnnotation).getD "" ≠ "" then
            { respPV with
              PersistentVolumeReclaimPolicy :=
                ((obj.pv.Annotations.getD []).lookup PVReclaimAnnotation).getD "" }
          else respPV
        let respPV : PersistentVolume :=
          if migration.Spec.IncludeVolumes = some false then
            { respPV with PersistentVolumeReclaimPolicy := PersistentVolumeReclaimRetain }
          else respPV
        let respPV : PersistentVolume := { respPV with ResourceVersion := "" }
        match answers.updateErr with
        | some err =>
          { written := some respPV, status := .Failed
            reason := "Error applying resource: error in updating pv " ++ obj.pv.Name ++
              " during migration: " ++ err }
        | none =>
          { written := some respPV, status := .Successful
            reason := "Resource migrated successfully" }

/-- A source PersistentVolume with reclaim policy Delete. -/
def sampleVolumeObject : VolumeObject :=
  { fromUnstructuredErr := none
    pv := { Name := "pv1", Annotations := none, PersistentVolumeReclaimPolicy := "Delete",
            ResourceVersion := "41", VolumeSource := "pxd://vol-1" } }

/-- The destination answers every call of the revert step; the PersistentVolume it
holds was created with policy Retain. -/
def calmRevert : RevertAnswers :=
  { claimRefErr := none
    getPV := .ok { Name := "pv1", Annotations := none, PersistentVolumeReclaimPolicy := "Retain",
                   ResourceVersion := "7", VolumeSource := "pxd://vol-1" }
    updateErr := none }

/-- The sample PersistentVolume after `preparePVResource`: the policy Delete is in
the annotation, the policy of the object is Retain. -/
def preparedVolumeObject : VolumeObject :=
  { fromUnstructuredErr := none
    pv := { sampleVolumeObject.pv with
      Annotations := some [("stork.libopenstorage.org/reclaimPolicy", "Delete")]
      PersistentVolumeReclaimPolicy := "Retain" } }

/-! ## `getParsedMap` (lines 1630-1653) -/

/-- The Rancher options of a cluster pair, `stork_api.RancherSpec`. -/
structure RancherSpec where
  ProjectMappings : StrMap
  deriving DecidableEq, Repr

/-- What the migration reads of a cluster pair: `Spec.PlatformOptions.Rancher`, `none`
for a nil pointer. -/
structure ClusterPair where
  Rancher : Option RancherSpec
  deriving DecidableEq, Repr

/-- The body of the loop of `getParsedMap` (lines 1638-1650) for one entry: the entry
it puts in the result, if any. `cattlePrefix` and `cattleProjectPrefix` are the
constants `utils.CattlePrefix` and `utils.CattleProjectPrefix`. -/
def parsedEntry (cattlePrefix cattleProjectPrefix : String) (clusterPair : ClusterPair)
    (entry : String × String) : Option (String × String) :=
  if ¬ stringsContains entry.1 cattlePrefix then some entry
  else if stringsContains entry.1 cattleProjectPrefix then
    match clusterPair.Rancher with
    | some rancher =>
      match rancher.ProjectMappings.lookup entry.2 with
      | some targetProjectID => if targetProjectID ≠ "" then some (entry.1, targetProjectID) else none
      | none => none
    | none => none
  else none

/-- Lines 1630-1653. -/
def getParsedMap (cattlePrefix cattleProjectPrefix : String) (inputMap : Option StrMap)
    (clusterPair : ClusterPair) : Option StrMap :=
  match inputMap with
  | none => none
  | some entries =>
    some (entries.filterMap (parsedEntry cattlePrefix cattleProjectPrefix clusterPair))

/-- A cluster pair that maps the Rancher project `c-1:p-1` to `c-2:p-9` and the project
`c-1:p-2` to nothing. -/
def rancherPair : ClusterPair :=
  { Rancher := some { ProjectMappings := [("c-1:p-1", "c-2:p-9"), ("c-1:p-2", "")] } }

/-- Labels of a namespace on a Rancher cluster. -/
def rancherLabels : StrMap :=
  [("team", "a"), ("field.cattle.io/projectId", "c-1:p-1"), ("cattle.io/creator", "norman"),
   ("field.cattle.io/projectId-old", "c-1:p-2")]

/-! ## Inputs for a migration that starts the applications -/

/-- A Migration at stage Applications that starts the applications on the
destination. -/
def startingMigration : Migration :=
  { applicationsMigration with
    Spec := { applicationsMigration.Spec with StartApplications := some true } }

/-- A custom resource that was suspended before: the integer field `spec.size` is 0
and the annotation of the suspend path stashes 3. -/
def suspendedCustomResource : Content :=
  [("apiVersion", .str "example.io/v1"), ("kind", .str "Broker"),
   ("metadata", .map [("name", .str "broker"), ("namespace", .str "app1"),
     ("annotations", .map [("stork.libopenstorage.org/spec.size", .str "3,0")])]),
   ("spec", .map [("suspend", .bool true), ("size", .int 0)])]

/-! ## Interval schedule policies (`schedule_test.go`, lines 59-99) -/

/-- The interval of a schedule policy, `stork_api.IntervalPolicy`. -/
structure IntervalPolicy where
  IntervalMinutes : Nat
  deriving DecidableEq, Repr

/-- A schedule policy as the test of `schedule_test.go` creates it: its name and its
interval, if it has one. -/
structure SchedulePolicy where
  Name : String
  Interval : Option IntervalPolicy
  deriving DecidableEq, Repr

/-- Modelled from the spec: `TriggerRequired` for the policy type Interval, whose code
(`pkg/schedule/schedule.go`) is not part of the sources at hand. The policy is looked
up by name, an unknown name is an error; a trigger is due when the policy was never
triggered or when the time since the last trigger exceeds the interval of the policy
(section 7: "current time minus last-trigger exceeds the policy's period"). Times are
in seconds, `none` is the zero time. -/
def TriggerRequired (policies : List SchedulePolicy) (now : Nat) (policyName : String)
    (lastTrigger : Time) : Except String Bool :=
  match policies.find? (fun p => p.Name = policyName) with
  | none => .error ("schedule policy " ++ policyName ++ " not found")
  | some policy =>
    match policy.Interval with
    | none => .ok false
    | some interval =>
      match lastTrigger with
      | none => .ok true
      | some t => .ok (decide (t + interval.IntervalMinutes * 60 < now))

/-- The time `meta.Date(2019, time.February, 7, hour, minute, 0, 0, time.Local)` of the
test, in seconds. -/
def testDate (hour minute : Nat) : Nat := 1549497600 + hour * 3600 + minute * 60

/-- The assertions of `triggerIntervalRequiredTest` (lines 59-99) about an
implementation `trigger` of `TriggerRequired`, with the policy `intervalpolicy` of 60
minutes created at lines 65-75: due for the zero time (lines 77-80), an error for a
missing policy (lines 82-83) and, the clock set to 23:16 (lines 85-86), not due for the
last triggers 23:14 and 22:16, due for the last trigger 22:14 (lines 87-98). `realNow`
is the time of the first two calls, made before the clock is set. -/
def triggerIntervalRequiredTest
    (trigger : List SchedulePolicy → Nat → String → Time → Except String Bool)
    (realNow : Nat) : Prop :=
  trigger [{ Name := "intervalpolicy", Interval := some { IntervalMinutes := 60 } }] realNow
    "intervalpolicy" none = .ok true ∧
  (trigger [{ Name := "intervalpolicy", Interval := some { IntervalMinutes := 60 } }] realNow
    "missingpolicy" (some (testDate 23 14))).toOption = none ∧
  trigger [{ Name := "intervalpolicy", Interval := some { IntervalMinutes := 60 } }]
    (testDate 23 16) "intervalpolicy" (some (testDate 23 14)) = .ok false ∧
  trigger [{ Name := "intervalpolicy", Interval := some { IntervalMinutes := 60 } }]
    (testDate 23 16) "intervalpolicy" (some (testDate 22 16)) = .ok false ∧
  trigger [{ Name := "intervalpolicy", Interval := some { IntervalMinutes := 60 } }]
    (testDate 23 16) "intervalpolicy" (some (testDate 22 14)) = .ok true

/-! ## `checkAndUpdateDefaultSA` (lines 1326-1400) -/

/-- A reference to an image-pull secret, `v1.LocalObjectReference`. -/
structure LocalObjectReference where
  Name : String
  deriving DecidableEq, Repr

/-- A reference to a secret of a ServiceAccount, `v1.ObjectReference`: its name, and
its UID standing for the fields other than the name. -/
structure ObjectReference where
  Name : String
  UID : String
  deriving DecidableEq, Repr

/-- What the migration reads and writes of a `v1.ServiceAccount`; `Annotations = none`
is the nil map. -/
structure ServiceAccount where
  Name : String
  Namespace : String
  ImagePullSecrets : List LocalObjectReference
  Secrets : List ObjectReference
  AutomountServiceAccountToken : Option Bool
  Annotations : Option StrMap
  deriving DecidableEq, Repr

def AutoCreatedPrefixes : List String :=
  ["builder-dockercfg-", "builder-token-", "default-dockercfg-", "default-token-",
    "deployer-dockercfg-", "deployer-token-"]

/-- Lines 1326-1333; `strings.HasPrefix` is the prefix test on the characters. -/
def secretToBeMigrated (name : String) : Bool :=
  AutoCreatedPrefixes.all (fun p => ¬ p.toList.isPrefixOf name.toList)

/-- The loop of lines 1355-1366: every image-pull secret of the source whose name the
destination does not have yet is appended. -/
def mergeImagePullSecrets :
    List LocalObjectReference → List LocalObjectReference → List LocalObjectReference
  | [], dest => dest
  | s :: rest, dest =>
    if dest.any (fun d => d.Name = s.Name) then mergeImagePullSecrets rest dest
    else mergeImagePullSecrets rest (dest ++ [s])

/-- The loop of lines 1368-1382. -/
def mergeSecrets : List ObjectReference → List ObjectReference → List ObjectReference
  | [], dest => dest
  | s :: rest, dest =>
    if ¬ secretToBeMigrated s.Name then mergeSecrets rest dest
    else if dest.any (fun d => d.Name = s.Name) then mergeSecrets rest dest
    else mergeSecrets rest (dest ++ [s])

/-- Lines 1386-1394: the annotations of the source are copied into the annotations of
the destination when the destination has a map of annotations. -/
def mergeAnnotations (source dest : Option StrMap) : Option StrMap :=
  match dest with
  | some annotations =>
    some ((source.getD []).foldl (fun acc e => mapSet acc e.1 e.2) annotations)
  | none => none

/-- The answers of the collaborators of `checkAndUpdateDefaultSA`: the error of
converting the object, the error of `getRemoteClient`, the ServiceAccount read from the
destination, the error of the update. -/
structure AccountAnswers where
  fromUnstructuredErr : Option String
  remoteClientErr : Option String
  getAccount : Except String ServiceAccount
  updateErr : Option String

/-- The ServiceAccount that `checkAndUpdateDefaultSA` passed to the update of line
1395, if it got there, and the error it returned. -/
structure MergedAccount where
  written : Option ServiceAccount
  err : Option String
  deriving DecidableEq, Repr

/-- Lines 1335-1400. -/
def checkAndUpdateDefaultSA (answers : AccountAnswers) (sourceSA : ServiceAccount) :
    MergedAccount :=
  match answers.fromUnstructuredErr with
  | some err => { written := none, err := some ("error converting to serviceAccount: " ++ err) }
  | none =>
    match answers.remoteClientErr with
    | some err => { written := none, err := some err }
    | none =>
      match answers.getAccount with
      | .error err => { written := none, err := some err }
      | .ok destSA =>
        { written := some
            { destSA with
              ImagePullSecrets := mergeImagePullSecrets sourceSA.ImagePullSecrets destSA.ImagePullSecrets
              Secrets := mergeSecrets sourceSA.Secrets destSA.Secrets
              AutomountServiceAccountToken := sourceSA.AutomountServiceAccountToken
              Annotations := mergeAnnotations sourceSA.Annotations destSA.Annotations }
          err := answers.updateErr }

/-- A source ServiceAccount `default` with an image-pull secret, a token secret that
the cluster created, a secret of its own and an annotation. -/
def sourceAccount : ServiceAccount :=
  { Name := "default", Namespace := "app1"
    ImagePullSecrets := [{ Name := "registry-key" }]
    Secrets := [{ Name := "default-token-x7k2p", UID := "s-1" }, { Name := "db-credentials", UID := "s-2" }]
    AutomountServiceAccountToken := some true
    Annotations := some [("eks.amazonaws.com/role-arn", "arn:aws:iam::1:role/app")] }

/-- The destination has the ServiceAccount `default`, as the cluster created it:
one token secret, no annotations. -/
def freshAccountAnswers : AccountAnswers :=
  { fromUnstructuredErr := none, remoteClientErr := none
    getAccount := .ok
      { Name := "default", Namespace := "app1", ImagePullSecrets := []
        Secrets := [{ Name := "default-token-q9w8e", UID := "d-1" }]
        AutomountServiceAccountToken := none, Annotations := none }
    updateErr := none }

/-! ## `updateStorageClassOnPV` (lines 1669-1743) -/

/-- The answer of the destination to the creation of a StorageClass: created, an
AlreadyExists error, or another error. -/
inductive ClassCreate
  | created
  | alreadyExists (err : String)
  | failed (err : String)
  deriving DecidableEq, Repr

/-- What `updateStorageClassOnPV` reads of a PersistentVolume of the destination: the
annotation `resourcecollector.CurrentStorageClassName`, if present, and the
storage-class name of its spec. -/
structure DestinationVolume where
  CurrentStorageClassName : Option String
  StorageClassName : String
  deriving DecidableEq, Repr

/-- The answers of the collaborators of `updateStorageClassOnPV`; the calls made for an
object are keyed by the position of the object in the list, the creations also by the
number of the retry. -/
structure ClassAnswers where
  remoteClientErr : Option String
  listClasses : Except String (List String)
  getVolume : Nat → Except String DestinationVolume
  getSourceClassErr : Nat → Option String
  createClass : Nat → Nat → ClassCreate
  updateErr : Nat → Option String

/-- A call that `updateStorageClassOnPV` makes. -/
inductive ClassCall
  | listClasses
  | getVolume (name : String)
  | getSourceClass (scName : String)
  | createClass (scName : String) (result : ClassCreate)
  | updateVolume (name : String) (scName : String)
  deriving DecidableEq, Repr

def maxApplyRetries : Nat := 10

/-- The loop of lines 1713-1722 from retry `retries` on, `fuel` retries being left:
the calls, the value of `err` after the loop, and whether `destScExists[scName]` was
set. -/
def createClassLoop (answers : ClassAnswers) (index : Nat) (scName : String) :
    Nat → Nat → Option String → List ClassCall → List ClassCall × Option String × Bool
  | 0, _, err, calls => (calls, err, false)
  | fuel + 1, retries, _, calls =>
    match answers.createClass index retries with
    | .created => (calls ++ [.createClass scName .created], none, true)
    | .alreadyExists err =>
      (calls ++ [.createClass scName (.alreadyExists err)], some err, true)
    | .failed err =>
      createClassLoop answers index scName fuel (retries + 1) (some err)
        (calls ++ [.createClass scName (.failed err)])

/-- The loop of lines 1690-1741 over the objects, from the object at position `index`
on: the calls and the error returned. `destScExists` holds the names for which the map
of that name is set. -/
def updateClasses (answers : ClassAnswers) :
    List Unstructured → Nat → List String → List ClassCall → List ClassCall × Option String
  | [], _, _, calls => (calls, none)
  | obj :: rest, index, destScExists, calls =>
    match obj.accessorErr with
    | some err => (calls, some err)
    | none =>
      if obj.Kind ≠ "PersistentVolume" then
        updateClasses answers rest (index + 1) destScExists calls
      else
        match answers.getVolume index with
        | .error err => (calls ++ [.getVolume obj.Name], some err)
        | .ok destPV =>
          match destPV.CurrentStorageClassName with
          | none => updateClasses answers rest (index + 1) destScExists (calls ++ [.getVolume obj.Name])
          | some scName =>
            if scName ∈ destScExists then
              if scName = destPV.StorageClassName then
                updateClasses answers rest (index + 1) destScExists (calls ++ [.getVolume obj.Name])
              else
                match answers.updateErr index with
                | some err =>
                  (calls ++ [.getVolume obj.Name, .updateVolume obj.Name scName], some err)
                | none =>
                  updateClasses answers rest (index + 1) destScExists
                    (calls ++ [.getVolume obj.Name, .updateVolume obj.Name scName])
            else
              match answers.getSourceClassErr index with
              | some err => (calls ++ [.getVolume obj.Name, .getSourceClass scName], some err)
              | none =>
                match createClassLoop answers index scName maxApplyRetries 0 none
                    (calls ++ [.getVolume obj.Name, .getSourceClass scName]) with
                | (calls, some err, _) => (calls, some err)
                | (calls, none, registered) =>
                  if scName = destPV.StorageClassName then
                    updateClasses answers rest (index + 1)
                      (if registered then scName :: destScExists else destScExists) calls
                  else
                    match answers.updateErr index with
                    | some err => (calls ++ [.updateVolume obj.Name scName], some err)
                    | none =>
                      updateClasses answers rest (index + 1)
                        (if registered then scName :: destScExists else destScExists)
                        (calls ++ [.updateVolume obj.Name scName])

/-- Lines 1669-1743: the calls made and the error returned. -/
def updateStorageClassOnPV (answers : ClassAnswers) (objects : List Unstructured) :
    List ClassCall × Option String :=
  match answers.remoteClientErr with
  | some err => ([], some err)
  | none =>
    match answers.listClasses with
    | .error err => ([.listClasses], some err)
    | .ok destStorageClasses => updateClasses answers objects 0 destStorageClasses [.listClasses]

/-- Whether a creation was reported as done or as already existing. -/
def ClassCreate.accepted : ClassCreate → Bool
  | .created => true
  | .alreadyExists _ => true
  | .failed _ => false

/-- A storage class that is known to exist on the destination after the calls `pre`:
it was listed, or a creation of it was accepted. -/
def classKnown (listed : List String) (pre : List ClassCall) (scName : String) : Prop :=
  scName ∈ listed ∨ ∃ result, ClassCall.createClass scName result ∈ pre ∧ result.accepted = true

/-- Every update of a PersistentVolume in a list of calls names a storage class that
is known to exist after the calls before it. -/
def safeUpdates (listed : List String) (calls : List ClassCall) : Prop :=
  ∀ pre name scName post,
    calls = pre ++ ClassCall.updateVolume name scName :: post → classKnown listed pre scName

/-- The destination lists the class `standard`; the PersistentVolume `pv1` came from
the class `fast`, which the destination creates at the second attempt. -/
def fastClassAnswers : ClassAnswers :=
  { remoteClientErr := none
    listClasses := .ok ["standard"]
    getVolume := fun _ => .ok { CurrentStorageClassName := some "fast", StorageClassName := "" }
    getSourceClassErr := fun _ => none
    createClass := fun _ retries => if retries = 0 then .failed "timeout" else .created
    updateErr := fun _ => none }

/-- A workload whose `spec.replicas` is negative. -/
def negativeDeployment : Content :=
  [("apiVersion", .str "example.io/v1"), ("kind", .str "Broker"),
   ("metadata", .map [("name", .str "broker"), ("namespace", .str "app1")]),
   ("spec", .map [("replicas", .int (-1))])]

/-! ## Applying the objects (lines 2096-2202, 2326-2526, 2707-2809) -/

/-- What the tests `errors.IsNotFound`, `errors.IsAlreadyExists` and
`errors.IsUnauthorized` tell of an error. -/
inductive ErrorReason
  | NotFound
  | AlreadyExists
  | Unauthorized
  | Other
  deriving DecidableEq, Repr

/-- An error of a call on the destination cluster: what the tests tell of it and the
text `%v` prints. -/
structure ApiError where
  reason : ErrorReason
  message : String
  deriving DecidableEq, Repr

/-- A call on the destination cluster for an object, by the name passed. `readService`
stands for the calls of `isServiceUpdated`, `mergeAccount` for those of
`checkAndUpdateDefaultSA`. -/
inductive ApiCall
  | create (name : String)
  | delete (name : String)
  | get (name : String)
  | update (name : String)
  | readService (name : String)
  | mergeAccount (name : String)
  deriving DecidableEq, Repr

def deletedMaxRetries : Nat := 12

/-- The library function `strconv.ParseUint(s, 10, 64)`: at least one decimal digit, no
sign, within the range of `uint64`. -/
def ParseUint (s : String) : Except String Nat :=
  if s.toList = [] then .error "strconv.ParseUint: invalid syntax"
  else
    match parseDigits s.toList 0 with
    | none => .error "strconv.ParseUint: invalid syntax"
    | some un =>
      if un < 2 ^ 64 then .ok un else .error "strconv.ParseUint: value out of range"

/-- The library function `strconv.FormatUint(n, 10)`. -/
def FormatUint (n : Nat) : String := String.mk (natDigits (n + 1) n [])

/-- Lines 2787-2809; `destination` is the answer of the `Get` of line 2788 and
`hashKey` the constant `resourcecollector.StorkResourceHash`. -/
def isObjectHashEqual (hashKey : String) (destination : Except ApiError Content)
    (inputHashValue : Nat) : Bool :=
  match destination with
  | .error _ => false
  | .ok content =>
    match NestedStringMap content ["metadata", "annotations"] with
    | .error _ => false
    | .ok none => false
    | .ok (some annotations) =>
      match annotations.lookup hashKey with
      | none => false
      | some resHash =>
        match ParseUint resHash with
        | .error _ => false
        | .ok existingHashValue => existingHashValue = inputHashValue

/-! ### The PersistentVolumeClaims (lines 2096-2202) -/

/-- The answers of the collaborators of the loop over the PersistentVolumeClaims, for
one claim. `getClaim` is the answer of the `Get` of line 2122 with the annotations of
the claim read, `poll` the answers of the `Get` of line 2153 by the number of the
retry: whether `deleteStart` is before the creation time of the object read. -/
structure ClaimAnswers where
  StorkResourceHash : String
  fromUnstructuredErr : Option String
  hash : Except String Nat
  getClaim : Except ApiError StrMap
  deleteErr : Option ApiError
  poll : Nat → Except ApiError Bool
  createErr : Option ApiError

/-- What the body of a loop of `applyResources` did for one object: the Migration
and the calls on the destination, in order. -/
structure Applied where
  mig : Migration
  calls : List ApiCall

/-- The loop of lines 2152-2166 from retry `i` on, `fuel` retries being left: the calls
and `isDeleted`. The typed client returns an empty object with an error, whose
creation time is the zero time, so an error other than NotFound is retried. -/
def waitClaimDeleted (answers : ClaimAnswers) (name : String) :
    Nat → Nat → List ApiCall → List ApiCall × Bool
  | 0, _, calls => (calls, false)
  | fuel + 1, i, calls =>
    match answers.poll i with
    | .error err =>
      if err.reason = .NotFound then (calls ++ [.get name], true)
      else waitClaimDeleted answers name fuel (i + 1) (calls ++ [.get name])
    | .ok recreated =>
      if recreated then (calls ++ [.get name], false)
      else waitClaimDeleted answers name fuel (i + 1) (calls ++ [.get name])

/-- The body of the loop of lines 2096-2202 for one claim. The map `pvMapping` and the
object passed to `Create` are not part of the model. -/
def applyClaim (env : Env) (answers : ClaimAnswers) (migration : Migration)
    (obj : Unstructured) : Applied :=
  match answers.fromUnstructuredErr with
  | some err =>
    { mig := (updateResourceStatus env migration obj .Failed
        ("Error applying resource: " ++ err)).mig
      calls := [] }
  | none =>
    match answers.hash with
    | .error err =>
      { mig := (updateResourceStatus env migration obj .Failed
          ("Error applying resource: unable to generate hash for an object " ++ obj.Kind ++
            " " ++ obj.Name ++ ", err: " ++ err)).mig
        calls := [] }
    | .ok objHash =>
      let skip : Bool :=
        match answers.getClaim with
        | .error _ => false
        | .ok annotations =>
          match annotations.lookup answers.StorkResourceHash with
          | none => false
          | some hash =>
            match ParseUint hash with
            | .error _ => false
            | .ok old => old = objHash
      if skip then
        { mig := (updateResourceStatus env migration obj .Successful
            "Resource migrated successfully").mig
          calls := [.get obj.Name] }
      else
        match answers.deleteErr.filter (fun err => decide (err.reason ≠ .NotFound)) with
        | some err =>
          { mig := (updateResourceStatus env migration obj .Failed
              ("Error applying resource: error deleting " ++ obj.Kind ++ " " ++ obj.Name ++
                " during migrate: " ++ err.message)).mig
            calls := [.get obj.Name, .delete obj.Name] }
        | none =>
          let waited := waitClaimDeleted answers obj.Name deletedMaxRetries 0
            [.get obj.Name, .delete obj.Name]
          if ¬ waited.2 then
            { mig := (updateResourceStatus env migration obj .Failed
                ("Error applying resource: error in recreating pvc " ++ obj.Namespace ++ "/" ++
                  obj.Name ++ " during migration: " ++
                  errText (answers.deleteErr.map ApiError.message))).mig
              calls := waited.1 }
          else
            match answers.createErr with
            | some err =>
              { mig := (updateResourceStatus env migration obj .Failed
                  ("Error applying resource: error in recreating pvc " ++ obj.Namespace ++ "/" ++
                    obj.Name ++ " during migration: " ++ err.message)).mig
                calls := waited.1 ++ [.create obj.Name] }
            | none =>
              { mig := (updateResourceStatus env migration obj .Successful
                  "Resource migrated successfully").mig
                calls := waited.1 ++ [.create obj.Name] }

/-! ### The worker (lines 2326-2485) -/

/-- The object that the `Get` of line 2437 returned: whether `deleteStart` is before
its creation time, whether it has finalizers, and the error of the update of line
2449 that removes them. -/
structure PolledObject where
  recreated : Bool
  finalizers : Bool
  updateErr : Option ApiError
  deriving DecidableEq, Repr

/-- The answers of the collaborators of the worker for one object. The calls of the
apply loop are keyed by the value of `retries`, those of the wait loop also by `i`.
`StorkResourceHash` and `ErrAllocated` are the constants
`resourcecollector.StorkResourceHash` and the text of `portallocator.ErrAllocated`;
`stashedName` is the result of `utils.GetStashedConfigMapName`. -/
structure ObjectAnswers where
  StorkResourceHash : String
  ErrAllocated : String
  typeAccessorErr : Option String
  castFails : Bool
  hash : Except String Nat
  marshalErr : Option String
  ownedPVCsErr : Option String
  stashedName : String
  toUnstructuredErr : Option String
  create : Nat → Option ApiError
  defaultAccountErr : Nat → Option ApiError
  serviceUpdated : Nat → Bool × Option ApiError
  destination : Nat → Except ApiError Content
  delete : Nat → Option ApiError
  poll : Nat → Nat → Except ApiError PolledObject
  createAgain : Nat → Option ApiError

/-- Lines 2707-2709. -/
def getAppRegsStashMapKeyName (group version kind : String) : String :=
  group ++ "-" ++ kind ++ "-" ++ version

/-- Lines 2711-2755: the name of the config map returned, `none` for a nil pointer and
the empty name for the empty object of lines 2712-2716 and 2722-2724, and the error. -/
def getStashedConfigMap (answers : ObjectAnswers) : Option String × Option String :=
  match answers.marshalErr with
  | some err => (some "", some err)
  | none =>
    match answers.ownedPVCsErr with
    | some err => (some "", some err)
    | none =>
      match answers.toUnstructuredErr with
      | some err => (none, some err)
      | none => (some answers.stashedName, none)

/-- What a loop of the worker leaves: the calls, the value of `err`, and whether it
ran into a nil pointer. -/
structure LoopResult where
  calls : List ApiCall
  err : Option ApiError
  panicked : Bool
  deriving DecidableEq, Repr

/-- The loop of lines 2436-2456 from retry `i` on, `fuel` retries being left: the calls
and whether it ran into a nil pointer. The dynamic client returns a nil object with an
error, so after an error other than NotFound the call `obj.GetCreationTimestamp()` of
line 2441 dereferences a nil pointer. -/
def waitDeleted (answers : ObjectAnswers) (name : String) (retries : Nat) :
    Nat → Nat → List ApiCall → List ApiCall × Bool
  | 0, _, calls => (calls, false)
  | fuel + 1, i, calls =>
    match answers.poll retries i with
    | .error err =>
      if err.reason = .NotFound then (calls ++ [.get name], false)
      else (calls ++ [.get name], true)
    | .ok obj =>
      if obj.recreated then (calls ++ [.get name], false)
      else if obj.finalizers then
        waitDeleted answers name retries fuel (i + 1) (calls ++ [.get name, .update name])
      else waitDeleted answers name retries fuel (i + 1) (calls ++ [.get name])

/-- The default case of the switch, lines 2419-2459. -/
def replaceObject (answers : ObjectAnswers) (name : String) (objHash retries : Nat)
    (calls : List ApiCall) : LoopResult :=
  if isObjectHashEqual answers.StorkResourceHash (answers.destination retries) objHash then
    { calls := calls ++ [.get name], err := none, panicked := false }
  else
    match (answers.delete retries).filter (fun err => decide (err.reason ≠ .NotFound)) with
    | some err => { calls := calls ++ [.get name, .delete name], err := some err, panicked := false }
    | none =>
      let waited := waitDeleted answers name retries deletedMaxRetries 0
        (calls ++ [.get name, .delete name])
      if waited.2 then { calls := waited.1, err := answers.delete retries, panicked := true }
      else
        { calls := waited.1 ++ [.create name], err := answers.createAgain retries,
          panicked := false }

/-- One pass of the loop of lines 2406-2468 up to the test of line 2463. -/
def applyAttempt (answers : ObjectAnswers) (migration : Migration) (o : Unstructured)
    (name : String) (objHash retries : Nat) (calls : List ApiCall) : LoopResult :=
  match answers.create retries with
  | none => { calls := calls ++ [.create name], err := none, panicked := false }
  | some err =>
    if err.reason = .AlreadyExists ∨ stringsContains err.message answers.ErrAllocated then
      if o.Kind = "ServiceAccount" then
        { calls := calls ++ [.create name, .mergeAccount o.Name]
          err := answers.defaultAccountErr retries, panicked := false }
      else if o.Kind = "Service" then
        if (answers.serviceUpdated retries).2 = none ∧ (answers.serviceUpdated retries).1 ∧
            migration.Spec.TransformSpecs.length = 0 then
          { calls := calls ++ [.create name, .readService o.Name], err := none,
            panicked := false }
        else
          replaceObject answers name objHash retries (calls ++ [.create name, .readService o.Name])
      else replaceObject answers name objHash retries (calls ++ [.create name])
    else { calls := calls ++ [.create name], err := some err, panicked := false }

/-- The loop of lines 2406-2468 from the value `retries` on; `left` is
`maxApplyRetries - retries`, so the test `retries < maxApplyRetries` of line 2463 is
`left > 0`. -/
def applyLoop (answers : ObjectAnswers) (migration : Migration) (o : Unstructured)
    (name : String) (objHash : Nat) : Nat → Nat → List ApiCall → LoopResult
  | left, retries, calls =>
    let attempt := applyAttempt answers migration o name objHash retries calls
    if attempt.panicked then attempt
    else
      match attempt.err with
      | some err =>
        if err.reason = .Unauthorized then
          match left with
          | 0 => attempt
          | left + 1 => applyLoop answers migration o name objHash left (retries + 1) attempt.calls
        else attempt
      | none => attempt

/-- How the body of the worker ended for one object: it sent an error on the error
channel (what it does after that error was received is not part of the model:
`parallelWorker` has returned by then), it ran into a nil pointer, or it recorded the
status of the object and sent nil. -/
inductive BodyOutcome
  | signalled (err : String)
  | panicked
  | recorded
  deriving DecidableEq, Repr

/-- What the body of the worker did for one object. -/
structure Worked where
  mig : Migration
  calls : List ApiCall
  stashCMError : Bool
  outcome : BodyOutcome

/-- The body of the loop of the worker, lines 2329-2484, for the object `o`;
`stashCMError` is the variable of line 2327, which the worker declares once, before the
loop. The annotations and labels set on the object sent are not part of the model. -/
def applyObject (env : Env) (answers : ObjectAnswers) (appRegsStashMap : List String)
    (migration : Migration) (o : Unstructured) (stashCMError : Bool) : Worked :=
  match o.accessorErr with
  | some err =>
    { mig := migration, calls := [], stashCMError := stashCMError, outcome := .signalled err }
  | none =>
    match answers.typeAccessorErr with
    | some err =>
      { mig := migration, calls := [], stashCMError := stashCMError, outcome := .signalled err }
    | none =>
      if answers.castFails then
        { mig := migration, calls := [], stashCMError := stashCMError
          outcome := .signalled "unable to cast object to unstructured" }
      else
        let objHash : Nat := match answers.hash with
          | .ok h => h
          | .error _ => 0
        let hashErr : Option ApiError := match answers.hash with
          | .ok _ => none
          | .error err => some { reason := .Other, message := err }
        let stashCREnabled : Bool :=
          getAppRegsStashMapKeyName o.Group o.Kind o.Version ∈ appRegsStashMap
        let stashed := getStashedConfigMap answers
        if stashCREnabled ∧ stashed.2 ≠ none ∧ stashed.1 = none then
          { mig := migration, calls := [], stashCMError := stashCMError, outcome := .panicked }
        else
          let stashCMError : Bool := stashCMError || (stashCREnabled && stashed.2.isSome)
          let name : String := if stashCREnabled then stashed.1.getD "" else o.Name
          let err : Option ApiError :=
            if stashCREnabled then stashed.2.map (fun e => { reason := .Other, message := e })
            else hashErr
          let applied : LoopResult :=
            if ¬ stashCMError then applyLoop answers migration o name objHash maxApplyRetries 0 []
            else { calls := [], err := err, panicked := false }
          if applied.panicked then
            { mig := migration, calls := applied.calls, stashCMError := stashCMError
              outcome := .panicked }
          else
            match applied.err with
            | some err =>
              { mig := (updateResourceStatus env migration o .Failed
                  ("Error applying resource: " ++ err.message)).mig
                calls := applied.calls, stashCMError := stashCMError, outcome := .recorded }
            | none =>
              { mig := (updateResourceStatus env migration o .Successful
                  "Resource migrated successfully").mig
                calls := applied.calls, stashCMError := stashCMError, outcome := .recorded }

/-! ### The pool of workers (lines 2490-2526) -/

/-- What a worker of the pool is doing: it waits at the receive from the object
channel (line 2328), it runs the body of its loop for the object it received, or it is
blocked at a send on the error channel with the value it sends (`none` for nil). -/
inductive WorkerPhase
  | idle
  | busy (o : Unstructured)
  | sending (signal : Option String)
  deriving DecidableEq, Repr

/-- A worker of the pool: its variable `stashCMError` and what it is doing. -/
structure WorkerState where
  stashCMError : Bool
  phase : WorkerPhase
  deriving DecidableEq, Repr

/-- Where `parallelWorker` is: in the loop of lines 2517-2523, returned with an
error or nil, or gone with the process after a worker ran into a nil pointer. -/
inductive PoolOutcome
  | running
  | returned (err : Option String)
  | crashed
  deriving DecidableEq, Repr

/-- The pool: the objects not yet sent on the object channel, the workers, the number
of values received from the error channel, the Migration and the calls made on the
destination. -/
structure PoolState where
  pending : List Unstructured
  workers : List WorkerState
  received : Nat
  mig : Migration
  calls : List ApiCall
  outcome : PoolOutcome

/-- A step of the pool: the worker `w` receives the next object from the object
channel; the worker `w` runs the body of its loop for the object it holds, up to the
send on the error channel or to the nil pointer; `parallelWorker` receives the value
that the worker `w` sends on the error channel. -/
inductive PoolStep
  | take (w : Nat)
  | run (w : Nat)
  | receive (w : Nat)
  deriving DecidableEq, Repr

/-- The pool after a step; a step that is not possible leaves it as it is. The workers
run side by side: between the receipt of an object by a worker and the end of its
body the other workers and `parallelWorker` take steps of their own. The body itself
is one step: it reads and writes only the entry of its own object in
`Status.Resources` and its own `stashCMError`, so where it stands among the steps of
the others is all that the Migration, the values sent and the return depend on; the
calls of a body are logged together. `answers` gives the answers of the collaborators
for an object, whatever its place in the list. -/
def poolStep (env : Env) (answers : Unstructured → ObjectAnswers)
    (appRegsStashMap : List String)
    (numObjects : Nat) (s : PoolState) : PoolStep → PoolState
  | .take w =>
    if s.outcome ≠ .running then s
    else
      match s.workers.get? w, s.pending with
      | some worker, o :: rest =>
        if worker.phase = .idle then
          { s with pending := rest
                   workers := s.workers.set w { worker with phase := .busy o } }
        else s
      | _, _ => s
  | .run w =>
    if s.outcome ≠ .running then s
    else
      match s.workers.get? w with
      | some worker =>
        match worker.phase with
        | .busy o =>
          let worked := applyObject env (answers o) appRegsStashMap s.mig o
            worker.stashCMError
          match worked.outcome with
          | .panicked =>
            { s with mig := worked.mig, calls := s.calls ++ worked.calls, outcome := .crashed }
          | .signalled err =>
            { s with mig := worked.mig, calls := s.calls ++ worked.calls
                     workers := s.workers.set w
                       { stashCMError := worked.stashCMError, phase := .sending (some err) } }
          | .recorded =>
            { s with mig := worked.mig, calls := s.calls ++ worked.calls
                     workers := s.workers.set w
                       { stashCMError := worked.stashCMError, phase := .sending none } }
        | _ => s
      | none => s
  | .receive w =>
    if s.outcome ≠ .running then s
    else
      match s.workers.get? w with
      | some worker =>
        match worker.phase with
        | .sending (some err) =>
          { s with workers := s.workers.set w { worker with phase := .idle }
                   outcome := .returned (some err) }
        | .sending none =>
          { s with workers := s.workers.set w { worker with phase := .idle }
                   received := s.received + 1
                   outcome := if s.received + 1 = numObjects then .returned none
                     else .running }
        | _ => s
      | none => s

/-- The pool when the workers and the sender were started (line 2515); `objects` are
the objects in the order after the shuffle of line 2503. -/
def poolStart (migration : Migration) (objects : List Unstructured) (threads : Nat) :
    PoolState :=
  { pending := objects
    workers := List.replicate threads { stashCMError := false, phase := .idle }
    received := 0, mig := migration, calls := []
    outcome := if objects.length = 0 then .returned none else .running }

/-- Lines 2490-2526 with the worker of lines 2326-2485, run by a schedule of steps;
`threads` is `m.migrationMaxThreads`. What `parallelWorker` returns is what
`applyResources` returns (line 2487). -/
def parallelWorker (env : Env) (answers : Unstructured → ObjectAnswers)
    (appRegsStashMap : List String) (migration : Migration) (objects : List Unstructured)
    (threads : Nat) (schedule : List PoolStep) : PoolState :=
  schedule.foldl (poolStep env answers appRegsStashMap objects.length)
    (poolStart migration objects threads)

/-- The content of the copy of `web` on the destination: its annotation
`stork.libopenstorage.org/resource-hash` holds `hash`. -/
def destinationCopy (hash : String) : Content :=
  [("apiVersion", .str "apps/v1"), ("kind", .str "Deployment"),
   ("metadata", .map [("name", .str "web"), ("namespace", .str "app1"),
     ("annotations", .map [("stork.libopenstorage.org/resource-hash", .str hash)])]),
   ("spec", .map [("replicas", .int 0)])]

/-- The object exists on the destination with the hash 42, the hash of the source
object; nothing fails. -/
def syncedAnswers : ObjectAnswers :=
  { StorkResourceHash := "stork.libopenstorage.org/resource-hash"
    ErrAllocated := "provided port is already allocated"
    typeAccessorErr := none, castFails := false, hash := .ok 42
    marshalErr := none, ownedPVCsErr := none, stashedName := "", toUnstructuredErr := none
    create := fun _ => some { reason := .AlreadyExists, message := "already exists" }
    defaultAccountErr := fun _ => none
    serviceUpdated := fun _ => (false, none)
    destination := fun _ => .ok (destinationCopy "42")
    delete := fun _ => none
    poll := fun _ _ => .error { reason := .NotFound, message := "not found" }
    createAgain := fun _ => none }

/-- The object exists on the destination with another hash, it is deleted, and the
first read of the wait for its deletion fails with an error that is not NotFound. -/
def stuckAnswers : ObjectAnswers :=
  { syncedAnswers with
    destination := fun _ => .ok (destinationCopy "7")
    poll := fun _ _ => .error { reason := .Other, message := "connection refused" } }

/-- The PersistentVolumeClaim exists on the destination with the hash 42, the hash of
the source object. -/
def syncedClaimAnswers : ClaimAnswers :=
  { StorkResourceHash := "stork.libopenstorage.org/resource-hash"
    fromUnstructuredErr := none, hash := .ok 42
    getClaim := .ok [("stork.libopenstorage.org/resource-hash", "42")]
    deleteErr := none
    poll := fun _ => .error { reason := .NotFound, message := "not found" }
    createErr := none }

/-- A Service `front` of namespace `app1`. -/
def sampleService : Unstructured :=
  { accessorErr := none, Name := "front", Namespace := "app1", Annotations := [],
    Group := "", Version := "v1", Kind := "Service" }

/-- The answers for a batch in which the Deployment `web` runs into the failed read of
`stuckAnswers`; for the other objects nothing fails. -/
def stuckBatchAnswers (o : Unstructured) : ObjectAnswers :=
  if o = sampleWorkload then stuckAnswers else syncedAnswers

/-- A Migration whose `Status.Resources` lists the Deployment `web` and the Service
`front`, both in progress. -/
def batchMigration : Migration :=
  { applicationsMigration with
    Status := { applicationsMigration.Status with
      Resources :=
        [{ Name := "web", Namespace := "app1", Group := "apps", Version := "v1",
           Kind := "Deployment", Status := .InProgress, Reason := "", TransformedBy := "" },
         { Name := "front", Namespace := "app1", Group := "core", Version := "v1",
           Kind := "Service", Status := .InProgress, Reason := "", TransformedBy := "" }] } }

/-! ## A record that excludes volumes (lines 262-389) -/

/-- The test of line 299 on a record that is not at stage Final: the record names a
migration schedule (lines 262-263), the remote cluster is reached (lines 264-279) and
the schedule found there reports the applications as activated. -/
def remoteApplicationsActivated (env : Env) (migration : Migration) : Prop :=
  ∃ annotations schedName, migration.Annotations = some annotations ∧
    annotations.lookup env.StorkMigrationScheduleName = some schedName ∧
    env.schedulerConfigErr = none ∧ env.newForConfigErr = none ∧
    env.remoteSchedule = .found true

/-- The tests of lines 371-375: the query of the cluster domains ended without an
error and reports the local domain as inactive. -/
def localDomainReportedInactive (env : Env) (migration : Migration) : Prop :=
  ∃ domains, (queryClusterDomains env 0 env.domainsExtraRetries []).2 = .ok domains ∧
    localDomainInactive domains migration = true

/-- An environment in which every collaborator succeeds and the driver reports the
local cluster domain `dc1` as inactive. -/
def inactiveDomainEnv : Env :=
  { calmEnv with
    getClusterDomains := fun _ =>
      .ok { LocalDomain := "dc1", ClusterDomainInfos := [{ Name := "dc1", inactive := true }] } }

/-! ## What holds on every run of the batch with the failed read -/

/-- The entry of the Deployment `web` in `Status.Resources` of `batchMigration`. -/
def webEntry : MigrationResourceInfo :=
  { Name := "web", Namespace := "app1", Group := "apps", Version := "v1",
    Kind := "Deployment", Status := .InProgress, Reason := "", TransformedBy := "" }

/-- Whether a worker has yet to deliver the value for the Service `front`: it runs its
body for it, or is blocked at the send of nil. -/
def frontOwed (w : WorkerState) : Nat :=
  if w.phase = .busy sampleService ∨ w.phase = .sending none then 1 else 0

/-- What holds of the pool of two workers at every point of a run on the batch of
`stuckBatchAnswers`, in either order of the two objects: the entry of `web` is as it
was, at most one value was received, and while `parallelWorker` is in its loop, `web`
is still to be sent or is with a worker, no worker has a stash error or sends an
error, and at most one value for `front` is received, owed or to come. -/
def stuckBatchInvariant (s : PoolState) : Prop :=
  ∃ w0 w1 rest, s.workers = [w0, w1] ∧
    s.mig.Status.Resources = webEntry :: rest ∧ s.received ≤ 1 ∧
    (s.outcome = .crashed ∨
      (s.outcome = .running ∧ w0.stashCMError = false ∧ w1.stashCMError = false ∧
        (w0.phase = .idle ∨ w0.phase = .busy sampleWorkload ∨
          w0.phase = .busy sampleService ∨ w0.phase = .sending none) ∧
        (w1.phase = .idle ∨ w1.phase = .busy sampleWorkload ∨
          w1.phase = .busy sampleService ∨ w1.phase = .sending none) ∧
        (s.pending = [sampleWorkload, sampleService] ∨ s.pending = [sampleService] ∨
          s.pending = [sampleService, sampleWorkload] ∨ s.pending = [sampleWorkload] ∨
          s.pending = []) ∧
        s.received + frontOwed w0 + frontOwed w1 +
          (if sampleService ∈ s.pending then 1 else 0) ≤ 1))

/-! ## Facts about the helpers -/

set_option maxHeartbeats 2000000 in
theorem setDefaults_eq (s : MigrationSpec) :
    setDefaults s =
      { s with
        IncludeVolumes := some (s.IncludeVolumes.getD true)
        IncludeResources := some (s.IncludeResources.getD true)
        StartApplications := some (s.StartApplications.getD false)
        PurgeDeletedResources := some (s.PurgeDeletedResources.getD false)
        SkipServiceUpdate := some (s.SkipServiceUpdate.getD false)
        IncludeNetworkPolicyWithCIDR := some (s.IncludeNetworkPolicyWithCIDR.getD false)
        SkipDeletedNamespaces := some (s.SkipDeletedNamespaces.getD true)
        IgnoreOwnerReferencesCheck := some (s.IgnoreOwnerReferencesCheck.getD false) } := by
  obtain ⟨cp, acp, nss, sel, f1, f2, f3, f4, f5, f6, f7, f8, pre, post, ts, s1, s2, ex, opt⟩ := s
  cases f1 <;> cases f2 <;> cases f3 <;> cases f4 <;> cases f5 <;> cases f6 <;> cases f7 <;>
    cases f8 <;> rfl

theorem allOwnNamespace_iff (own : String) (nss : List String) :
    allOwnNamespace own nss = true ↔ ∀ ns ∈ nss, ns = own := by
  induction nss with
  | nil => simp [allOwnNamespace]
  | cons ns rest ih =>
    by_cases h : ns = own
    · simp [allOwnNamespace, h, ih]
    · simp [allOwnNamespace, h]

@[simp] theorem updateMigrationCR_stage (env : Env) (line : Nat) (m : Migration) :
    (updateMigrationCR env line m).mig.Status.Stage = m.Status.Stage := rfl

@[simp] theorem updateMigrationCR_status (env : Env) (line : Nat) (m : Migration) :
    (updateMigrationCR env line m).mig.Status.Status = m.Status.Status := rfl

@[simp] theorem updateMigrationCR_spec (env : Env) (line : Nat) (m : Migration) :
    (updateMigrationCR env line m).mig.Spec = m.Spec := rfl

@[simp] theorem updateMigrationCR_volumes (env : Env) (line : Nat) (m : Migration) :
    (updateMigrationCR env line m).mig.Status.Volumes = m.Status.Volumes := rfl

@[simp] theorem updateMigrationCR_ret (env : Env) (line : Nat) (m : Migration) :
    (updateMigrationCR env line m).ret = env.updateErr line := rfl

@[simp] theorem updateMigrationCR_log (env : Env) (line : Nat) (m : Migration) :
    (updateMigrationCR env line m).log =
      [.update line (updateMigrationCR env line m).mig (env.updateErr line)] := rfl

/-- The schedule check on a record at stage Final: it lets the record through
unchanged, or returns with the record unchanged and one warning event. -/
theorem scheduleCheck_final (env : Env) (m : Migration) (h : m.Status.Stage = .Final) :
    scheduleCheck env m = .next m [] () ∨
      ∃ ret, scheduleCheck env m = .done { mig := m, log := [failedEvent], ret := ret } := by
  unfold scheduleCheck
  split
  · exact Or.inl rfl
  · split
    · exact Or.inl rfl
    · split
      · exact Or.inr ⟨_, rfl⟩
      · split
        · exact Or.inr ⟨_, rfl⟩
        · split
          · exact Or.inr ⟨_, rfl⟩
          · exact Or.inl rfl
          · simp [h]

/-- The target check never changes the record. -/
theorem checkTargets_cases (c : MigrationController) (env : Env) (m : Migration) :
    (∃ nss, checkTargets c env m = .next m [] nss) ∨
      checkTargets c env m = .done { mig := m, log := [failedEvent], ret := none } := by
  unfold checkTargets
  split
  · exact Or.inr rfl
  · split
    · exact Or.inr rfl
    · split
      · exact Or.inr rfl
      · split
        · exact Or.inr rfl
        · exact Or.inl ⟨_, rfl⟩

theorem queryClusterDomains_log (env : Env) (attempt extra : Nat) (log : List Event)
    (h : ∀ e ∈ log, e = Event.GetClusterDomains) :
    ∀ e ∈ (queryClusterDomains env attempt extra log).1, e = Event.GetClusterDomains := by
  induction extra generalizing attempt log with
  | zero =>
    intro e he
    simp only [queryClusterDomains, List.mem_append, List.mem_singleton] at he
    rcases he with he | he
    · exact h e he
    · exact he
  | succ n ih =>
    unfold queryClusterDomains
    split
    · intro e he
      simp only [List.mem_append, List.mem_singleton] at he
      rcases he with he | he
      · exact h e he
      · exact he
    · apply ih
      intro e he
      simp only [List.mem_append, List.mem_singleton] at he
      rcases he with he | he
      · exact h e he
      · exact he

/-- The cluster-domain check on a record at stage Final lets it through, after
queries of the cluster domains only. -/
theorem clusterDomainCheck_final (env : Env) (m : Migration) (h : m.Status.Stage = .Final) :
    ∃ log, clusterDomainCheck env m = .next m log () ∧ ∀ e ∈ log, e = Event.GetClusterDomains := by
  unfold clusterDomainCheck
  split
  · have hq := queryClusterDomains_log env 0 env.domainsExtraRetries [] (by simp)
    split
    · rename_i log _ heq
      refine ⟨log, rfl, ?_⟩
      rw [heq] at hq
      exact hq
    · rename_i log domains heq
      have hno : localDomainInactive domains m = false := by
        simp [localDomainInactive, h]
      rw [if_neg (by simp [hno])]
      refine ⟨log, rfl, ?_⟩
      rw [heq] at hq
      exact hq
  · exact ⟨[], rfl, by simp⟩

/-- C1. A Migration without a deletion timestamp whose stage is Final: one invocation
of `handle` leaves `Status.Stage` and `Status.Status` unchanged, calls none of the
driver's StartMigration, GetMigrationStatus and CancelMigration, runs no step of the
resource sub-workflow (so no apply) and writes nothing. -/
theorem handle_final_is_absorbing (c : MigrationController) (env : Env) (m : Migration)
    (hdel : m.DeletionTimestamp = none) (hfinal : m.Status.Stage = .Final) :
    (handle c env m).mig.Status.Stage = .Final ∧
    (handle c env m).mig.Status.Status = m.Status.Status ∧
    Event.StartMigration ∉ (handle c env m).log ∧
    Event.GetMigrationStatus ∉ (handle c env m).log ∧
    Event.CancelMigration ∉ (handle c env m).log ∧
    (∀ step, Event.resource step ∉ (handle c env m).log) ∧
    (∀ line snapshot err, Event.update line snapshot err ∉ (handle c env m).log) := by
  have key : (handle c env m).mig = withDefaults m ∧
      ∀ e ∈ (handle c env m).log, e = failedEvent ∨ e = Event.GetClusterDomains := by
    unfold handle
    rw [if_neg (by simp [hdel])]
    rcases scheduleCheck_final env (withDefaults m) hfinal with h1 | ⟨ret, h1⟩
    · rcases checkTargets_cases c env (withDefaults m) with ⟨nss, h2⟩ | h2
      · obtain ⟨log, h3, hlog⟩ := clusterDomainCheck_final env (withDefaults m) hfinal
        have hst : (withDefaults m).Status.Stage = .Final := hfinal
        simp only [h1, h2, h3, stageSwitch, hst, List.append_nil]
        exact ⟨trivial, fun e he => Or.inr (hlog e he)⟩
      · simp [h1, h2]
    · simp [h1]
  obtain ⟨hmig, hlog⟩ := key
  rw [hmig]
  refine ⟨hfinal, rfl, ?_, ?_, ?_, ?_, ?_⟩
  · intro h
    rcases hlog _ h with h | h <;> simp [failedEvent] at h
  · intro h
    rcases hlog _ h with h | h <;> simp [failedEvent] at h
  · intro h
    rcases hlog _ h with h | h <;> simp [failedEvent] at h
  · intro step h
    rcases hlog _ h with h | h <;> simp [failedEvent] at h
  · intro line snapshot err h
    rcases hlog _ h with h | h <;> simp [failedEvent] at h

/-- C1, at a sample: a finished Migration is left as it is. -/
theorem handle_final_is_absorbing_witness :
    (handle sampleController calmEnv
        { sampleMigration with Status := { freshStatus with Stage := .Final, Status := .Successful } }
      ).mig.Status.Stage = .Final ∧
    (handle sampleController calmEnv
        { sampleMigration with Status := { freshStatus with Stage := .Final, Status := .Successful } }
      ).mig.Status.Status = .Successful :=
  ⟨(handle_final_is_absorbing sampleController calmEnv
      { sampleMigration with Status := { freshStatus with Stage := .Final, Status := .Successful } }
      rfl rfl).1,
   (handle_final_is_absorbing sampleController calmEnv
      { sampleMigration with Status := { freshStatus with Stage := .Final, Status := .Successful } }
      rfl rfl).2.1⟩

/-- C3. `setDefaults` sets all eight feature flags: an unset flag gets its default
(IncludeVolumes, IncludeResources and SkipDeletedNamespaces true, the other five
false), a set flag keeps its value, and every other field of the spec is unchanged. -/
theorem setDefaults_sets_all_flags (s : MigrationSpec) :
    setDefaults s =
      { s with
        IncludeVolumes := some (s.IncludeVolumes.getD true)
        IncludeResources := some (s.IncludeResources.getD true)
        StartApplications := some (s.StartApplications.getD false)
        PurgeDeletedResources := some (s.PurgeDeletedResources.getD false)
        SkipServiceUpdate := some (s.SkipServiceUpdate.getD false)
        IncludeNetworkPolicyWithCIDR := some (s.IncludeNetworkPolicyWithCIDR.getD false)
        SkipDeletedNamespaces := some (s.SkipDeletedNamespaces.getD true)
        IgnoreOwnerReferencesCheck := some (s.IgnoreOwnerReferencesCheck.getD false) } ∧
    (setDefaults s).IncludeVolumes ≠ none ∧ (setDefaults s).IncludeResources ≠ none ∧
    (setDefaults s).StartApplications ≠ none ∧ (setDefaults s).PurgeDeletedResources ≠ none ∧
    (setDefaults s).SkipServiceUpdate ≠ none ∧ (setDefaults s).IncludeNetworkPolicyWithCIDR ≠ none ∧
    (setDefaults s).SkipDeletedNamespaces ≠ none ∧
    (setDefaults s).IgnoreOwnerReferencesCheck ≠ none := by
  refine ⟨setDefaults_eq s, ?_⟩
  rw [setDefaults_eq s]
  simp

/-- C4. `namespaceMigrationAllowed` answers true exactly when the Migration's own
namespace is the admin namespace or every target namespace is the Migration's own
namespace; a non-admin Migration whose targets hold its own namespace and another
one is rejected. -/
theorem namespaceMigrationAllowed_iff (c : MigrationController) (m : Migration)
    (nss : List String) :
    (namespaceMigrationAllowed c m nss = true ↔
      (m.Namespace = c.migrationAdminNamespace ∨ ∀ ns ∈ nss, ns = m.Namespace)) ∧
    (∀ other, m.Namespace ≠ c.migrationAdminNamespace → m.Namespace ∈ nss → other ∈ nss →
      other ≠ m.Namespace → namespaceMigrationAllowed c m nss = false) := by
  have hiff : namespaceMigrationAllowed c m nss = true ↔
      (m.Namespace = c.migrationAdminNamespace ∨ ∀ ns ∈ nss, ns = m.Namespace) := by
    unfold namespaceMigrationAllowed
    by_cases h : m.Namespace = c.migrationAdminNamespace
    · simp [h]
    · simp [h, allOwnNamespace_iff]
  refine ⟨hiff, ?_⟩
  intro other hadmin _ hother hne
  cases hv : namespaceMigrationAllowed c m nss with
  | false => rfl
  | true =>
    rcases hiff.mp hv with h | h
    · exact absurd h hadmin
    · exact absurd (h other hother) hne

/-- C4, at a sample: own namespace alone is allowed, own namespace with another is not. -/
theorem namespaceMigrationAllowed_iff_witness :
    namespaceMigrationAllowed sampleController sampleMigration ["app1"] = true ∧
    namespaceMigrationAllowed sampleController sampleMigration ["app1", "app2"] = false :=
  ⟨(namespaceMigrationAllowed_iff sampleController sampleMigration ["app1"]).1.mpr
      (Or.inr (by decide)),
   (namespaceMigrationAllowed_iff sampleController sampleMigration ["app1", "app2"]).2 "app2"
      (by decide) (by decide) (by decide) (by decide)⟩

/-- C7. With no pre-exec rule configured, `runPreExecRule` sets stage Volumes and
status Pending, writes that record (its only side effect: no rule is executed), and
returns no termination channels, and no error when the write succeeds. -/
theorem runPreExecRule_without_rule (env : Env) (m : Migration) (nss : List String)
    (hrule : m.Spec.PreExecRule = "") :
    (runPreExecRule env m nss).mig.Status.Stage = .Volumes ∧
    (runPreExecRule env m nss).mig.Status.Status = .Pending ∧
    (runPreExecRule env m nss).log =
      [.update 885 (runPreExecRule env m nss).mig (env.updateErr 885)] ∧
    (∀ phase idx, Event.ExecuteRule phase idx ∉ (runPreExecRule env m nss).log) ∧
    (runPreExecRule env m nss).ret.1 = none ∧
    (runPreExecRule env m nss).ret.2 = env.updateErr 885 ∧
    (env.updateErr 885 = none → (runPreExecRule env m nss).ret = (none, none)) := by
  have h : runPreExecRule env m nss =
      { mig := (updateMigrationCR env 885 (setStatus (setStage m .Volumes) .Pending)).mig
        log := (updateMigrationCR env 885 (setStatus (setStage m .Volumes) .Pending)).log
        ret := (none, env.updateErr 885) } := by
    unfold runPreExecRule
    rw [if_pos hrule]
    rfl
  rw [h]
  refine ⟨rfl, rfl, rfl, ?_, rfl, rfl, ?_⟩
  · intro phase idx hmem
    simp at hmem
  · intro hok
    simp [hok]

/-- C7, at a sample: the record without a rule moves to Volumes/Pending. -/
theorem runPreExecRule_without_rule_witness :
    (runPreExecRule calmEnv sampleMigration ["app1"]).mig.Status.Stage = .Volumes ∧
    (runPreExecRule calmEnv sampleMigration ["app1"]).mig.Status.Status = .Pending ∧
    (runPreExecRule calmEnv sampleMigration ["app1"]).ret = (none, none) :=
  ⟨(runPreExecRule_without_rule calmEnv sampleMigration ["app1"] rfl).1,
   (runPreExecRule_without_rule calmEnv sampleMigration ["app1"] rfl).2.1,
   (runPreExecRule_without_rule calmEnv sampleMigration ["app1"] rfl).2.2.2.2.2.2 rfl⟩

/-- C5, refuted as stated: a fresh Migration with an empty cluster-pair reference is
not moved to Final/Failed, it stays at stage Initial with status Initial; and when
the record carries a schedule annotation and the look-up of the cluster pair's
scheduler config fails, `handle` returns that error. -/
theorem handle_empty_cluster_pair_counterexample :
    unpairedMigration.DeletionTimestamp = none ∧ unpairedMigration.Spec.ClusterPair = "" ∧
    (handle sampleController calmEnv unpairedMigration).mig.Status.Stage = .Initial ∧
    (handle sampleController calmEnv unpairedMigration).mig.Status.Status = .Initial ∧
    scheduledUnpairedMigration.DeletionTimestamp = none ∧
    scheduledUnpairedMigration.Spec.ClusterPair = "" ∧
    (handle sampleController { calmEnv with schedulerConfigErr := some "clusterpair not found" }
      scheduledUnpairedMigration).ret = some "clusterpair not found" := by
  refine ⟨rfl, rfl, ?_, ?_, rfl, rfl, ?_⟩ <;> decide

/-- C5, amended. A Migration without a deletion timestamp and without a schedule
annotation whose cluster-pair reference is empty: `handle` only applies the spec
defaults and records one warning event with reason Failed; stage and status are
unchanged, nothing is written, and no error is returned. -/
theorem handle_empty_cluster_pair (c : MigrationController) (env : Env) (m : Migration)
    (hdel : m.DeletionTimestamp = none) (hpair : m.Spec.ClusterPair = "")
    (hsched : (m.Annotations.getD []).lookup env.StorkMigrationScheduleName = none) :
    (handle c env m).mig = withDefaults m ∧
    (handle c env m).mig.Status.Stage = m.Status.Stage ∧
    (handle c env m).mig.Status.Status = m.Status.Status ∧
    (handle c env m).log = [.recorded true "Failed"] ∧
    (handle c env m).ret = none := by
  have h1 : scheduleCheck env (withDefaults m) = .next (withDefaults m) [] () := by
    unfold scheduleCheck
    have ha : (withDefaults m).Annotations = m.Annotations := rfl
    rw [ha]
    cases hann : m.Annotations with
    | none => rfl
    | some annotations =>
      rw [hann] at hsched
      simp only [Option.getD_some] at hsched
      simp only [hsched]
  have h2 : checkTargets c env (withDefaults m) =
      .done { mig := withDefaults m, log := [failedEvent], ret := none } := by
    unfold checkTargets
    have hp : (withDefaults m).Spec.ClusterPair = "" := by
      simp only [withDefaults, setDefaults_eq]
      exact hpair
    rw [if_pos hp]
  have h : handle c env m = { mig := withDefaults m, log := [failedEvent], ret := none } := by
    unfold handle
    rw [if_neg (by simp [hdel])]
    simp only [h1, h2]
  rw [h]
  exact ⟨rfl, rfl, rfl, rfl, rfl⟩

/-- C5 amended, at a sample. -/
theorem handle_empty_cluster_pair_witness :
    (handle sampleController calmEnv unpairedMigration).mig.Status.Stage = .Initial ∧
    (handle sampleController calmEnv unpairedMigration).ret = none :=
  ⟨(handle_empty_cluster_pair sampleController calmEnv unpairedMigration rfl rfl rfl).2.1,
   (handle_empty_cluster_pair sampleController calmEnv unpairedMigration rfl rfl rfl).2.2.2.2⟩

@[simp] theorem setStage_stage (m : Migration) (s : MigrationStageType) :
    (setStage m s).Status.Stage = s := rfl

@[simp] theorem setStage_status (m : Migration) (s : MigrationStageType) :
    (setStage m s).Status.Status = m.Status.Status := rfl

@[simp] theorem setStage_spec (m : Migration) (s : MigrationStageType) :
    (setStage m s).Spec = m.Spec := rfl

@[simp] theorem setStage_volumes (m : Migration) (s : MigrationStageType) :
    (setStage m s).Status.Volumes = m.Status.Volumes := rfl

@[simp] theorem setStatus_stage (m : Migration) (s : MigrationStatusType) :
    (setStatus m s).Status.Stage = m.Status.Stage := rfl

@[simp] theorem setStatus_status (m : Migration) (s : MigrationStatusType) :
    (setStatus m s).Status.Status = s := rfl

@[simp] theorem setStatus_spec (m : Migration) (s : MigrationStatusType) :
    (setStatus m s).Spec = m.Spec := rfl

@[simp] theorem setStatus_volumes (m : Migration) (s : MigrationStatusType) :
    (setStatus m s).Status.Volumes = m.Status.Volumes := rfl

@[simp] theorem setFinish_stage (env : Env) (line : Nat) (m : Migration) :
    (setFinish env line m).Status.Stage = m.Status.Stage := rfl

@[simp] theorem setFinish_status (env : Env) (line : Nat) (m : Migration) :
    (setFinish env line m).Status.Status = m.Status.Status := rfl

@[simp] theorem setFinish_spec (env : Env) (line : Nat) (m : Migration) :
    (setFinish env line m).Spec = m.Spec := rfl

@[simp] theorem setFinish_volumes (env : Env) (line : Nat) (m : Migration) :
    (setFinish env line m).Status.Volumes = m.Status.Volumes := rfl

@[simp] theorem Step.mig_done {α : Type} (out : Out (Option String)) :
    (Step.done out : Step α).mig = out.mig := rfl

@[simp] theorem Step.mig_next {α : Type} (m : Migration) (log : List Event) (a : α) :
    (Step.next m log a).mig = m := rfl

@[simp] theorem Step.log_done {α : Type} (out : Out (Option String)) :
    (Step.done out : Step α).log = out.log := rfl

@[simp] theorem Step.log_next {α : Type} (m : Migration) (log : List Event) (a : α) :
    (Step.next m log a).log = log := rfl

/-! ## Which side effects a function can have -/

@[simp] theorem within_nil (kinds : List EventKind) : within kinds [] := by
  simp [within]

@[simp] theorem within_cons (kinds : List EventKind) (e : Event) (log : List Event) :
    within kinds (e :: log) ↔ e.kind ∈ kinds ∧ within kinds log := by
  simp [within]

@[simp] theorem within_append (kinds : List EventKind) (log₁ log₂ : List Event) :
    within kinds (log₁ ++ log₂) ↔ within kinds log₁ ∧ within kinds log₂ := by
  simp only [within, List.mem_append]
  constructor
  · intro h
    exact ⟨fun e he => h e (Or.inl he), fun e he => h e (Or.inr he)⟩
  · rintro ⟨h1, h2⟩ e (he | he)
    · exact h1 e he
    · exact h2 e he

theorem within_mono {kinds kinds' : List EventKind} {log : List Event}
    (hsub : ∀ k ∈ kinds, k ∈ kinds') (h : within kinds log) : within kinds' log :=
  fun e he => hsub _ (h e he)

theorem not_mem_of_within {kinds : List EventKind} {log : List Event} (h : within kinds log)
    (e : Event) (hk : e.kind ∉ kinds) : e ∉ log :=
  fun he => hk (h e he)

theorem within_terminateAll (kinds : List EventKind) (channels : List Nat)
    (hk : EventKind.terminate ∈ kinds) : within kinds (terminateAll channels) := by
  intro e he
  simp only [terminateAll, List.mem_map] at he
  obtain ⟨ch, _, rfl⟩ := he
  exact hk

theorem within_updateMigrationCR (kinds : List EventKind) (env : Env) (line : Nat) (m : Migration)
    (hk : EventKind.update ∈ kinds) : within kinds (updateMigrationCR env line m).log := by
  simp [updateMigrationCR, Event.kind, hk]

/-! ## The resource sub-workflow keeps the stage or ends it -/

theorem updateResourceList_log (kinds : List EventKind) (hk : EventKind.recorded ∈ kinds)
    (env : Env) (spec : MigrationSpec) (object : Unstructured) (status : MigrationStatusType)
    (reason : String) (resources : List MigrationResourceInfo) :
    within kinds (updateResourceList env spec object status reason resources).2 := by
  induction resources with
  | nil => simp [updateResourceList]
  | cons r rest ih =>
    unfold updateResourceList
    split
    · exact ih
    · split
      · simp [Event.kind, hk]
      · exact ih

theorem applyStatusUpdates_frame (kinds : List EventKind) (hk : EventKind.recorded ∈ kinds)
    (env : Env) (updates : List (Unstructured × MigrationStatusType × String)) (m : Migration)
    (log : List Event) (hlog : within kinds log) :
    (applyStatusUpdates env updates m log).1.Status.Stage = m.Status.Stage ∧
    (applyStatusUpdates env updates m log).1.Status.Status = m.Status.Status ∧
    (applyStatusUpdates env updates m log).1.Spec = m.Spec ∧
    within kinds (applyStatusUpdates env updates m log).2 := by
  induction updates generalizing m log with
  | nil => exact ⟨rfl, rfl, rfl, hlog⟩
  | cons u rest ih =>
    obtain ⟨object, status, reason⟩ := u
    unfold applyStatusUpdates
    have hl : within kinds (log ++ (updateResourceStatus env m object status reason).log) := by
      rw [within_append]
      exact ⟨hlog, updateResourceList_log kinds hk env _ _ _ _ _⟩
    obtain ⟨h1, h2, h3, h4⟩ := ih (updateResourceStatus env m object status reason).mig _ hl
    exact ⟨h1, h2, h3, h4⟩

theorem applyResources_frame (env : Env) (m : Migration) :
    ((applyResources env m).mig.Status.Stage = m.Status.Stage ∨
      (applyResources env m).mig.Status.Stage = .Final) ∧
    (applyResources env m).mig.Spec = m.Spec ∧
    within [.recorded, .update, .resource] (applyResources env m).log := by
  obtain ⟨h1, _, h3, h4⟩ := applyStatusUpdates_frame [.recorded, .update, .resource] (by simp)
    env env.applyUpdates m [.resource .apply] (by simp [Event.kind])
  unfold applyResources
  split
  · exact ⟨Or.inl h1, h3, h4⟩
  · refine ⟨Or.inr rfl, h3, ?_⟩
    simp only [within_append]
    exact ⟨h4, within_updateMigrationCR _ _ _ _ (by simp)⟩

theorem purgeMigratedResources_frame (env : Env) (m : Migration) :
    (purgeMigratedResources env m).mig.Status.Stage = m.Status.Stage ∧
    (purgeMigratedResources env m).mig.Status.Status = m.Status.Status ∧
    within [.recorded, .update, .resource] (purgeMigratedResources env m).log := by
  unfold purgeMigratedResources
  repeat' split
  all_goals simp [failedEvent, Event.kind]

theorem collectResources_log (env : Env) (volumesOnly : Bool) :
    within [.recorded, .update, .resource] (collectResources env volumesOnly).1 := by
  unfold collectResources
  repeat' split
  all_goals simp [failedEvent, Event.kind]

theorem recordResources_frame (env : Env) (m : Migration) (volumesOnly : Bool) :
    (recordResources env m volumesOnly).mig.Status.Stage = m.Status.Stage ∧
    (recordResources env m volumesOnly).mig.Status.Status = m.Status.Status ∧
    (recordResources env m volumesOnly).mig.Spec = m.Spec ∧
    within [.recorded, .update, .resource] (recordResources env m volumesOnly).log := by
  have hc := collectResources_log env volumesOnly
  simp only [recordResources]
  split
  · rename_i heq
    rw [heq] at hc
    exact ⟨rfl, rfl, rfl, hc⟩
  · rename_i heq
    rw [heq] at hc
    split
    · exact ⟨rfl, rfl, rfl, hc⟩
    · split
      · refine ⟨rfl, rfl, rfl, ?_⟩
        simp only [Step.log]
        rw [within_append]
        exact ⟨hc, within_updateMigrationCR _ _ _ _ (by simp)⟩
      · refine ⟨rfl, rfl, rfl, ?_⟩
        simp only [Step.log]
        rw [within_append]
        exact ⟨hc, within_updateMigrationCR _ _ _ _ (by simp)⟩

theorem transferResources_frame (env : Env) (m : Migration) :
    ((transferResources env m).mig.Status.Stage = m.Status.Stage ∨
      (transferResources env m).mig.Status.Stage = .Final) ∧
    (transferResources env m).mig.Spec = m.Spec ∧
    within [.recorded, .update, .resource] (transferResources env m).log := by
  obtain ⟨h1, h2, h3⟩ := applyResources_frame env m
  simp only [transferResources]
  repeat' split
  all_goals simp [Step.mig, Step.log, failedEvent, Event.kind, h1, h2, h3]

theorem finishResources_frame (env : Env) (m : Migration) :
    (finishResources env m).mig.Status.Stage = .Final ∧
    within [.recorded, .update, .resource] (finishResources env m).log := by
  obtain ⟨h1, _, h3⟩ := purgeMigratedResources_frame env
    (setStatus (setStage m .Final) (overallStatus m.Status.Resources))
  simp only [finishResources]
  repeat' split
  · simp [h1, h3, Event.kind]
  · simp [h1, h3, stampResources, Event.kind]
  · simp [stampResources, Event.kind]

/-- The resource sub-workflow leaves the stage as it is or sets it to Final, and its
side effects are events, writes of the record and resource steps. -/
theorem migrateResources_frame (env : Env) (m : Migration) (volumesOnly : Bool) :
    ((migrateResources env m volumesOnly).mig.Status.Stage = m.Status.Stage ∨
      (migrateResources env m volumesOnly).mig.Status.Stage = .Final) ∧
    within [.recorded, .update, .resource] (migrateResources env m volumesOnly).log := by
  obtain ⟨hr1, _, _, hr4⟩ := recordResources_frame env m volumesOnly
  simp only [migrateResources]
  split
  · simp
  · split
    · rename_i out heq
      rw [heq] at hr1 hr4
      exact ⟨Or.inl hr1, hr4⟩
    · rename_i m1 log1 _ heq
      rw [heq] at hr1 hr4
      obtain ⟨ht1, _, ht3⟩ := transferResources_frame env m1
      split
      · rename_i out heq2
        rw [heq2] at ht1 ht3
        refine ⟨?_, ?_⟩
        · rcases ht1 with h | h
          · exact Or.inl (h.trans hr1)
          · exact Or.inr h
        · rw [within_append]
          exact ⟨hr4, ht3⟩
      · rename_i m2 log2 _ heq2
        rw [heq2] at ht1 ht3
        obtain ⟨hf1, hf2⟩ := finishResources_frame env m2
        refine ⟨Or.inr hf1, ?_⟩
        simp only [within_append]
        exact ⟨⟨hr4, ht3⟩, hf2⟩

/-! ## The rules -/

theorem executePreExecRules_log (env : Env) (nss : List String) (idx : Nat) (channels : List Nat)
    (log : List Event) (h : within [.recorded, .update, .ExecuteRule, .terminate] log) :
    within [.recorded, .update, .ExecuteRule, .terminate]
      (executePreExecRules env nss idx channels log).1 := by
  induction nss generalizing idx channels log with
  | nil => exact h
  | cons ns rest ih =>
    unfold executePreExecRules
    split
    · simp only [within_append]
      exact ⟨⟨h, by simp [Event.kind]⟩, within_terminateAll _ _ (by simp)⟩
    · apply ih
      simp only [within_append]
      exact ⟨h, by simp [Event.kind]⟩

/-- `runPreExecRule` keeps the spec; it leaves the stage at Volumes when no rule is
configured, and otherwise at PreExecRule for a record that came at Initial and
unchanged for any other. -/
theorem runPreExecRule_frame (env : Env) (m : Migration) (nss : List String) :
    (runPreExecRule env m nss).mig.Spec = m.Spec ∧
    (runPreExecRule env m nss).mig.Status.Stage =
      (if m.Spec.PreExecRule = "" then .Volumes
        else if m.Status.Stage = .Initial then .PreExecRule else m.Status.Stage) ∧
    within [.recorded, .update, .ExecuteRule, .terminate] (runPreExecRule env m nss).log := by
  have hexec := fun log h => executePreExecRules_log env nss 0 [] log h
  by_cases hrule : m.Spec.PreExecRule = ""
  · simp [runPreExecRule, hrule, Event.kind]
  · by_cases hst : m.Status.Stage = .Initial
    · simp only [runPreExecRule, hrule, hst, if_true, if_false, setStatus_stage, setStage_stage,
        setStatus_status]
      repeat' split
      all_goals first
        | (refine ⟨rfl, rfl, ?_⟩; simp [Event.kind]; done)
        | (rename_i heq
           have := hexec (updateMigrationCR env 898
             (setStatus (setStatus (setStage m .PreExecRule) .Pending) .InProgress)).log
             (by simp [Event.kind])
           rw [heq] at this
           exact ⟨rfl, rfl, this⟩)
    · simp only [runPreExecRule, hrule, hst, if_false]
      repeat' split
      all_goals first
        | (refine ⟨rfl, rfl, ?_⟩; simp [Event.kind]; done)
        | (rename_i heq
           have := hexec (updateMigrationCR env 898 (setStatus m .InProgress)).log
             (by simp [Event.kind])
           rw [heq] at this
           exact ⟨rfl, rfl, this⟩)
        | (rename_i heq
           have := hexec [] (by simp)
           rw [heq] at this
           exact ⟨rfl, rfl, this⟩)

theorem executePostExecRules_log (env : Env) (nss : List String) (idx : Nat)
    (log : List Event) (h : within [.ExecuteRule] log) :
    within [.ExecuteRule] (executePostExecRules env nss idx log).1 := by
  induction nss generalizing idx log with
  | nil => exact h
  | cons ns rest ih =>
    unfold executePostExecRules
    split
    · simp only [within_append]
      exact ⟨h, by simp [Event.kind]⟩
    · apply ih
      simp only [within_append]
      exact ⟨h, by simp [Event.kind]⟩

theorem runPostExecRule_frame (env : Env) (m : Migration) (nss : List String) :
    (runPostExecRule env m nss).mig = m ∧
    within [.ExecuteRule] (runPostExecRule env m nss).log := by
  unfold runPostExecRule
  split
  · simp
  · exact ⟨rfl, executePostExecRules_log env nss 0 [] (by simp)⟩

@[simp] theorem setVolumes_stage (m : Migration) (v : List MigrationVolumeInfo) :
    (setVolumes m v).Status.Stage = m.Status.Stage := rfl

@[simp] theorem setVolumes_status (m : Migration) (v : List MigrationVolumeInfo) :
    (setVolumes m v).Status.Status = m.Status.Status := rfl

@[simp] theorem setVolumes_spec (m : Migration) (v : List MigrationVolumeInfo) :
    (setVolumes m v).Spec = m.Spec := rfl

@[simp] theorem setVolumes_volumes (m : Migration) (v : List MigrationVolumeInfo) :
    (setVolumes m v).Status.Volumes = some v := rfl

@[simp] theorem setVolumeFinish_stage (env : Env) (line : Nat) (m : Migration) :
    (setVolumeFinish env line m).Status.Stage = m.Status.Stage := rfl

@[simp] theorem setVolumeFinish_status (env : Env) (line : Nat) (m : Migration) :
    (setVolumeFinish env line m).Status.Status = m.Status.Status := rfl

@[simp] theorem setVolumeFinish_spec (env : Env) (line : Nat) (m : Migration) :
    (setVolumeFinish env line m).Spec = m.Spec := rfl

/-! ## The volume sub-workflow -/

theorem startVolumes_frame (env : Env) (m : Migration) (nss : List String) (channels : List Nat) :
    ((startVolumes env m nss channels).mig.Status.Stage = m.Status.Stage ∨
      (startVolumes env m nss channels).mig.Status.Stage = .Final ∨
      ((startVolumes env m nss channels).mig.Status.Stage = .Initial ∧ storageNotReady env ∧
        m.Spec.PreExecRule ≠ "")) ∧
    (startVolumes env m nss channels).mig.Spec = m.Spec ∧
    within volumeKinds (startVolumes env m nss channels).log := by
  have hterm := within_terminateAll volumeKinds channels (by simp [volumeKinds])
  have hpost := fun m' => runPostExecRule_frame env m' nss
  have hpostlog : ∀ m', within volumeKinds (runPostExecRule env m' nss).log :=
    fun m' => within_mono (by simp [volumeKinds]) (hpost m').2
  simp only [startVolumes]
  repeat' split
  all_goals simp_all [storageNotReady, Event.kind, failedEvent, volumeKinds]

theorem classifyVolumes_frame (env : Env) (infos : List MigrationVolumeInfo) (m : Migration)
    (inProgress : Bool) (log : List Event) (hlog : within volumeKinds log) :
    ((classifyVolumes env infos m inProgress log).1.Status.Stage = m.Status.Stage ∨
      (classifyVolumes env infos m inProgress log).1.Status.Stage = .Final) ∧
    (classifyVolumes env infos m inProgress log).1.Spec = m.Spec ∧
    within volumeKinds (classifyVolumes env infos m inProgress log).2.2 := by
  have hrec : ∀ w r, within volumeKinds [Event.recorded w r] := by
    intro w r
    simp [Event.kind, volumeKinds]
  induction infos generalizing m inProgress log with
  | nil => exact ⟨Or.inl rfl, rfl, hlog⟩
  | cons v rest ih =>
    unfold classifyVolumes
    split
    · exact ih m true log hlog
    · split
      · obtain ⟨h1, h2, h3⟩ := ih (setStatus (setFinish env 833 (setStage m .Final)) .Failed)
          inProgress (log ++ [.recorded true v.Status.text])
          ((within_append _ _ _).mpr ⟨hlog, hrec _ _⟩)
        refine ⟨Or.inr ?_, h2, h3⟩
        rcases h1 with h | h
        · exact h
        · exact h
      · split
        · exact ih m inProgress _ ((within_append _ _ _).mpr ⟨hlog, hrec _ _⟩)
        · exact ih m inProgress log hlog

theorem pollVolumes_frame (env : Env) (m : Migration) :
    ((pollVolumes env m).mig.Status.Stage = m.Status.Stage ∨
      (pollVolumes env m).mig.Status.Stage = .Final) ∧
    (pollVolumes env m).mig.Spec = m.Spec ∧
    within volumeKinds (pollVolumes env m).log := by
  have hc := fun infos m' => classifyVolumes_frame env infos m' false [] (by simp)
  have hpoll : within volumeKinds [Event.GetMigrationStatus] := by
    simp [Event.kind, volumeKinds]
  have hupd : ∀ line m', within volumeKinds (updateMigrationCR env line m').log :=
    fun line m' => within_updateMigrationCR _ _ _ _ (by simp [volumeKinds])
  simp only [pollVolumes]
  split
  · split
    · exact ⟨Or.inl rfl, rfl, hpoll⟩
    · rename_i infos _
      obtain ⟨h1, h2, h3⟩ := hc (infos.getD [])
        (updateMigrationCR env 816 (setVolumes m (infos.getD []))).mig
      split
      · refine ⟨Or.inl rfl, rfl, ?_⟩
        exact (within_append _ _ _).mpr ⟨hpoll, hupd _ _⟩
      · split
        · refine ⟨h1, h2, ?_⟩
          simp only [Step.log_done, within_append]
          exact ⟨⟨hpoll, hupd _ _⟩, h3⟩
        · refine ⟨h1, h2, ?_⟩
          simp only [Step.log_next, within_append]
          exact ⟨⟨hpoll, hupd _ _⟩, h3⟩
  · simp

theorem advanceVolumes_frame (env : Env) (m : Migration) :
    ((advanceVolumes env m).mig.Status.Stage = m.Status.Stage ∨
      (advanceVolumes env m).mig.Status.Stage = .Applications ∨
      (advanceVolumes env m).mig.Status.Stage = .Final) ∧
    within volumeKinds (advanceVolumes env m).log := by
  have hres : ∀ m' v, within volumeKinds (migrateResources env m' v).log :=
    fun m' v => within_mono (by simp [volumeKinds]) (migrateResources_frame env m' v).2
  have hstage := fun m' v => (migrateResources_frame env m' v).1
  have hupd : ∀ line m', within volumeKinds (updateMigrationCR env line m').log :=
    fun line m' => within_updateMigrationCR _ _ _ _ (by simp [volumeKinds])
  simp only [advanceVolumes]
  repeat' split
  · exact ⟨Or.inr (Or.inl rfl), hupd _ _⟩
  · refine ⟨?_, (within_append _ _ _).mpr ⟨hupd _ _, hres _ _⟩⟩
    rcases hstage (updateMigrationCR env 857
      (setStatus (setStage m .Applications) .InProgress)).mig false with h | h
    · exact Or.inr (Or.inl h)
    · exact Or.inr (Or.inr h)
  · refine ⟨?_, ?_⟩
    · rcases hstage (updateMigrationCR env 857
        (setStatus (setStage m .Applications) .InProgress)).mig false with h | h
      · exact Or.inr (Or.inl h)
      · exact Or.inr (Or.inr h)
    · simp only [within_append]
      exact ⟨⟨hupd _ _, hres _ _⟩, hupd _ _⟩
  · refine ⟨?_, hres _ _⟩
    rcases hstage m true with h | h
    · exact Or.inl h
    · exact Or.inr (Or.inr h)
  · exact ⟨Or.inr (Or.inr rfl), (within_append _ _ _).mpr ⟨hres _ _, hupd _ _⟩⟩

theorem finishVolumes_frame (env : Env) (m : Migration) :
    ((finishVolumes env m).mig.Status.Stage = m.Status.Stage ∨
      (finishVolumes env m).mig.Status.Stage = .Applications ∨
      (finishVolumes env m).mig.Status.Stage = .Final) ∧
    within volumeKinds (finishVolumes env m).log := by
  simp only [finishVolumes]
  split
  · exact advanceVolumes_frame env (setVolumeFinish env 849 m)
  · exact ⟨Or.inl rfl, within_updateMigrationCR _ _ _ _ (by simp [volumeKinds])⟩

theorem watchVolumes_frame (env : Env) (m : Migration) :
    ((watchVolumes env m).mig.Status.Stage = m.Status.Stage ∨
      (watchVolumes env m).mig.Status.Stage = .Applications ∨
      (watchVolumes env m).mig.Status.Stage = .Final) ∧
    within volumeKinds (watchVolumes env m).log := by
  obtain ⟨h1, _, h3⟩ := pollVolumes_frame env m
  simp only [watchVolumes]
  split
  · rename_i out heq
    rw [heq] at h1 h3
    refine ⟨?_, h3⟩
    rcases h1 with h | h
    · exact Or.inl h
    · exact Or.inr (Or.inr h)
  · rename_i m1 log1 _ heq
    rw [heq] at h1 h3
    obtain ⟨hf1, hf2⟩ := finishVolumes_frame env m1
    refine ⟨?_, (within_append _ _ _).mpr ⟨h3, hf2⟩⟩
    rcases hf1 with h | h | h
    · rcases h1 with h' | h'
      · exact Or.inl (h.trans h')
      · exact Or.inr (Or.inr (h.trans h'))
    · exact Or.inr (Or.inl h)
    · exact Or.inr (Or.inr h)

/-- The volume sub-workflow ends at stage Volumes, Applications or Final, or at
Initial when the storage is not ready and a pre-exec rule is configured. -/
theorem migrateVolumes_frame (env : Env) (m : Migration) (nss : List String)
    (channels : List Nat) :
    ((migrateVolumes env m nss channels).mig.Status.Stage = .Volumes ∨
      (migrateVolumes env m nss channels).mig.Status.Stage = .Applications ∨
      (migrateVolumes env m nss channels).mig.Status.Stage = .Final ∨
      ((migrateVolumes env m nss channels).mig.Status.Stage = .Initial ∧ storageNotReady env ∧
        m.Spec.PreExecRule ≠ "")) ∧
    within volumeKinds (migrateVolumes env m nss channels).log := by
  have hterm := within_terminateAll volumeKinds channels (by simp [volumeKinds])
  obtain ⟨hs1, hs2, hs3⟩ := startVolumes_frame env (setStage m .Volumes) nss channels
  simp only [migrateVolumes]
  split
  · split
    · rename_i out heq
      rw [heq] at hs1 hs3
      refine ⟨?_, hs3⟩
      rcases hs1 with h | h | h
      · exact Or.inl h
      · exact Or.inr (Or.inr (Or.inl h))
      · exact Or.inr (Or.inr (Or.inr h))
    · rename_i m1 log1 _ heq
      rw [heq] at hs1 hs3
      obtain ⟨hw1, hw2⟩ := watchVolumes_frame env m1
      refine ⟨?_, (within_append _ _ _).mpr ⟨hs3, hw2⟩⟩
      rcases hw1 with h | h | h
      · rcases hs1 with h' | h' | h'
        · exact Or.inl (h.trans h')
        · exact Or.inr (Or.inr (Or.inl (h.trans h')))
        · exact Or.inr (Or.inr (Or.inr ⟨h.trans h'.1, h'.2⟩))
      · exact Or.inr (Or.inl h)
      · exact Or.inr (Or.inr (Or.inl h))
  · obtain ⟨hw1, hw2⟩ := watchVolumes_frame env (setStage m .Volumes)
    refine ⟨?_, (within_append _ _ _).mpr ⟨hw2, hterm⟩⟩
    rcases hw1 with h | h | h
    · exact Or.inl h
    · exact Or.inr (Or.inl h)
    · exact Or.inr (Or.inr (Or.inl h))

/-! ## The blocks of `handle` -/

@[simp] theorem failMigration_stage (env : Env) (line : Nat) (m : Migration) :
    (failMigration env line m).Status.Stage = .Final := rfl

@[simp] theorem failMigration_status (env : Env) (line : Nat) (m : Migration) :
    (failMigration env line m).Status.Status = .Failed := rfl

@[simp] theorem failMigration_spec (env : Env) (line : Nat) (m : Migration) :
    (failMigration env line m).Spec = m.Spec := rfl

theorem scheduleCheck_frame (env : Env) (m : Migration) :
    ((scheduleCheck env m).mig.Status.Stage = m.Status.Stage ∨
      (scheduleCheck env m).mig.Status.Stage = .Final) ∧
    within [.recorded, .update] (scheduleCheck env m).log ∧
    (∀ m' log u, scheduleCheck env m = .next m' log u → m' = m ∧ log = []) := by
  simp only [scheduleCheck]
  repeat' split
  all_goals simp [failedEvent, Event.kind]

theorem checkTargets_frame (c : MigrationController) (env : Env) (m : Migration) :
    (checkTargets c env m).mig = m ∧
    within [.recorded, .update] (checkTargets c env m).log ∧
    (∀ m' log nss, checkTargets c env m = .next m' log nss → m' = m ∧ log = []) := by
  simp only [checkTargets]
  repeat' split
  all_goals simp [failedEvent, Event.kind]

theorem queryClusterDomains_within (env : Env) (attempt extra : Nat) (log : List Event)
    (h : within [.recorded, .update, .GetClusterDomains] log) :
    within [.recorded, .update, .GetClusterDomains] (queryClusterDomains env attempt extra log).1 := by
  induction extra generalizing attempt log with
  | zero => simp [queryClusterDomains, h, Event.kind]
  | succ n ih =>
    unfold queryClusterDomains
    split
    · simp [h, Event.kind]
    · exact ih _ _ (by simp [h, Event.kind])

theorem clusterDomainCheck_frame (env : Env) (m : Migration) :
    ((clusterDomainCheck env m).mig.Status.Stage = m.Status.Stage ∨
      (clusterDomainCheck env m).mig.Status.Stage = .Final) ∧
    within [.recorded, .update, .GetClusterDomains] (clusterDomainCheck env m).log ∧
    (∀ m' log u, clusterDomainCheck env m = .next m' log u → m' = m) := by
  have hq := queryClusterDomains_within env 0 env.domainsExtraRetries [] (by simp)
  simp only [clusterDomainCheck]
  split
  · split
    · rename_i heq
      rw [heq] at hq
      simp [hq]
    · rename_i heq
      rw [heq] at hq
      split
      · simp [hq, failedEvent, Event.kind]
      · simp [hq]
  · simp

theorem namespaceExists_frame (env : Env) (ns : String) (idx : Nat) (m : Migration) :
    (namespaceExists env ns idx m).mig.Spec = m.Spec ∧
    within [.recorded, .update] (namespaceExists env ns idx m).log := by
  simp only [namespaceExists]
  repeat' split
  all_goals simp [failedEvent, Event.kind]

theorem transformationReady_frame (env : Env) (idx : Nat) (m : Migration) :
    (transformationReady env idx m).mig.Spec = m.Spec ∧
    within [.recorded, .update] (transformationReady env idx m).log := by
  simp only [transformationReady]
  repeat' split
  all_goals simp [failedEvent, Event.kind]

theorem checkNamespaces_frame (env : Env) (nss : List String) (idx : Nat) (m : Migration)
    (log : List Event) (hlog : within [.recorded, .update] log) :
    (checkNamespaces env nss idx m log).mig.Spec = m.Spec ∧
    within [.recorded, .update] (checkNamespaces env nss idx m log).log := by
  induction nss generalizing idx m log with
  | nil => exact ⟨rfl, hlog⟩
  | cons ns rest ih =>
    obtain ⟨h1, h2⟩ := namespaceExists_frame env ns idx m
    simp only [checkNamespaces]
    split
    · rename_i out heq
      rw [heq] at h1 h2
      exact ⟨h1, (within_append _ _ _).mpr ⟨hlog, h2⟩⟩
    · rename_i m1 log1 _ heq
      rw [heq] at h1 h2
      obtain ⟨h3, h4⟩ := transformationReady_frame env idx m1
      split
      · rename_i out heq2
        rw [heq2] at h3 h4
        refine ⟨h3.trans h1, ?_⟩
        simp only [Step.log_done, within_append]
        exact ⟨⟨hlog, h2⟩, h4⟩
      · rename_i m2 log2 _ heq2
        rw [heq2] at h3 h4
        obtain ⟨h5, h6⟩ := ih (idx + 1) m2 (log ++ log1 ++ log2) (by
          simp only [within_append]
          exact ⟨⟨hlog, h2⟩, h4⟩)
        exact ⟨h5.trans (h3.trans h1), h6⟩

theorem stageInitial_frame (env : Env) (m : Migration) (nss : List String) :
    (stageInitial env m nss).mig.Spec = m.Spec ∧
    within [.recorded, .update] (stageInitial env m nss).log := by
  obtain ⟨h1, h2⟩ := checkNamespaces_frame env nss 0 m [] (by simp)
  simp only [stageInitial]
  split
  · rename_i out heq
    rw [heq] at h1 h2
    exact ⟨h1, h2⟩
  · rename_i m1 log1 _ heq
    rw [heq] at h1 h2
    simp only [Step.mig_next, Step.log_next] at h1 h2
    repeat' split
    all_goals simp [h1, h2, failedEvent, Event.kind]

/-- The pre-exec rule case either returns, with the stage reset to Initial and the
write of line 509 among its side effects, or falls through with the stage that
`runPreExecRule` leaves. -/
theorem stagePreExecRule_frame (env : Env) (m : Migration) (nss : List String) :
    (stagePreExecRule env m nss).mig.Spec = m.Spec ∧
    within [.recorded, .update, .ExecuteRule, .terminate] (stagePreExecRule env m nss).log ∧
    (∀ out, stagePreExecRule env m nss = .done out →
      out.mig.Status.Stage = .Initial ∧ ∃ snapshot err, Event.update 509 snapshot err ∈ out.log) ∧
    (∀ m' log chs, stagePreExecRule env m nss = .next m' log chs →
      m'.Status.Stage = (if m.Spec.PreExecRule = "" then .Volumes
        else if m.Status.Stage = .Initial then .PreExecRule else m.Status.Stage)) := by
  obtain ⟨h1, h2, h3⟩ := runPreExecRule_frame env m nss
  simp only [stagePreExecRule]
  split
  · refine ⟨h1, ?_, ?_, ?_⟩
    · simp [h3, failedEvent, Event.kind]
    · intro out hout
      simp only [Step.done.injEq] at hout
      subst hout
      refine ⟨rfl, (updateMigrationCR env 509
        (setStatus (setStage (runPreExecRule env m nss).mig .Initial) .Initial)).mig,
        env.updateErr 509, ?_⟩
      simp [updateMigrationCR_log]
    · intro m' log chs h
      simp at h
  · refine ⟨h1, h3, ?_, ?_⟩
    · intro out h
      simp at h
    · intro m' log chs h
      simp only [Step.next.injEq] at h
      obtain ⟨rfl, _, _⟩ := h
      exact h2

theorem stageVolumes_frame (env : Env) (m : Migration) (nss : List String) (channels : List Nat) :
    ((stageVolumes env m nss channels).mig.Status.Stage = .Volumes ∨
      (stageVolumes env m nss channels).mig.Status.Stage = .Applications ∨
      (stageVolumes env m nss channels).mig.Status.Stage = .Final ∨
      ((stageVolumes env m nss channels).mig.Status.Stage = .Initial ∧ storageNotReady env ∧
        m.Spec.PreExecRule ≠ "")) ∧
    within volumeKinds (stageVolumes env m nss channels).log ∧
    (deref m.Spec.IncludeVolumes = false →
      stageVolumes env m nss channels = updateMigrationCR env 535
        (setVolumeFinish env 534 (setStatus (setStage m .Applications) .Initial))) := by
  obtain ⟨h1, h2⟩ := migrateVolumes_frame env m nss channels
  have hrec : within volumeKinds [failedEvent] := by
    simp [failedEvent, Event.kind, volumeKinds]
  simp only [stageVolumes]
  split
  · rename_i hflag
    repeat' split
    all_goals first
      | exact ⟨h1, (within_append _ _ _).mpr ⟨h2, hrec⟩, by simp [hflag]⟩
      | exact ⟨h1, h2, by simp [hflag]⟩
  · refine ⟨Or.inr (Or.inl rfl), within_updateMigrationCR _ _ _ _ (by simp [volumeKinds]), ?_⟩
    intro _
    rfl

theorem stageApplications_frame (env : Env) (m : Migration) :
    ((stageApplications env m).mig.Status.Stage = m.Status.Stage ∨
      (stageApplications env m).mig.Status.Stage = .Final) ∧
    within [.recorded, .update, .resource] (stageApplications env m).log := by
  have h := fun v => migrateResources_frame env m v
  simp only [stageApplications]
  repeat' split
  all_goals simp [h, failedEvent, Event.kind]

/-- The switch over the stage: the stage does not regress, except that it is reset to
Initial by the volume sub-workflow (storage not ready, pre-exec rule configured) or,
for a record at stage PreExecRule, by the failure branch of lines 500-513. -/
theorem stageSwitch_rank (env : Env) (m : Migration) (nss : List String) :
    m.Status.Stage.rank ≤ (stageSwitch env m nss).mig.Status.Stage.rank ∨
    ((stageSwitch env m nss).mig.Status.Stage = .Initial ∧
      ((storageNotReady env ∧ m.Spec.PreExecRule ≠ "") ∨
        (m.Status.Stage = .PreExecRule ∧
          ∃ snapshot err, Event.update 509 snapshot err ∈ (stageSwitch env m nss).log))) := by
  cases hst : m.Status.Stage with
  | Initial => exact Or.inl (Nat.zero_le _)
  | PreExecRule =>
    obtain ⟨hp1, _, hp3, hp4⟩ := stagePreExecRule_frame env m nss
    simp only [stageSwitch, hst]
    split
    · rename_i out heq
      obtain ⟨h1, snapshot, err, h2⟩ := hp3 out heq
      refine Or.inr ⟨h1, Or.inr ⟨trivial, snapshot, err, ?_⟩⟩
      simpa using h2
    · rename_i m1 log1 chs heq
      rw [heq] at hp1
      simp only [Step.mig_next] at hp1
      obtain ⟨hv, _, _⟩ := stageVolumes_frame env m1 nss chs
      rcases hv with h | h | h | ⟨h, h', h''⟩
      · exact Or.inl (by simp [h, MigrationStageType.rank])
      · exact Or.inl (by simp [h, MigrationStageType.rank])
      · exact Or.inl (by simp [h, MigrationStageType.rank])
      · refine Or.inr ⟨h, Or.inl ⟨h', ?_⟩⟩
        rw [← hp1]
        exact h''
  | Volumes =>
    obtain ⟨hv, _, _⟩ := stageVolumes_frame env m nss []
    simp only [stageSwitch, hst]
    rcases hv with h | h | h | ⟨h, h', h''⟩
    · exact Or.inl (by simp [h, MigrationStageType.rank])
    · exact Or.inl (by simp [h, MigrationStageType.rank])
    · exact Or.inl (by simp [h, MigrationStageType.rank])
    · exact Or.inr ⟨h, Or.inl ⟨h', h''⟩⟩
  | Applications =>
    obtain ⟨ha, _⟩ := stageApplications_frame env m
    simp only [stageSwitch, hst]
    rcases ha with h | h
    · exact Or.inl (by simp [h, hst])
    · exact Or.inl (by simp [h, MigrationStageType.rank])
  | Final =>
    simp only [stageSwitch, hst]
    exact Or.inl (by simp [hst])

theorem withDefaults_preExecRule (m : Migration) :
    (withDefaults m).Spec.PreExecRule = m.Spec.PreExecRule := by
  simp only [withDefaults, setDefaults_eq]

theorem handleDeletion_frame (env : Env) (m : Migration) :
    (handleDeletion env m).mig.Status = m.Status ∧
    within quietKinds (handleDeletion env m).log := by
  simp only [handleDeletion, cleanup]
  repeat' split
  all_goals simp [RemoveFinalizer, Event.kind, quietKinds]

/-- The stage after `handle`, against the stage before: not lower, except for the
two resets to Initial. -/
theorem handle_rank (c : MigrationController) (env : Env) (m : Migration) :
    m.Status.Stage.rank ≤ (handle c env m).mig.Status.Stage.rank ∨
    ((handle c env m).mig.Status.Stage = .Initial ∧
      ((storageNotReady env ∧ m.Spec.PreExecRule ≠ "") ∨
        (m.Status.Stage = .PreExecRule ∧
          ∃ snapshot err, Event.update 509 snapshot err ∈ (handle c env m).log))) := by
  have hfinal : ∀ s : MigrationStageType, s.rank ≤ MigrationStageType.Final.rank := by
    intro s
    cases s <;> simp [MigrationStageType.rank]
  by_cases hdel : m.DeletionTimestamp = none
  · obtain ⟨hs1, _, hs3⟩ := scheduleCheck_frame env (withDefaults m)
    simp only [handle, hdel, ne_eq, not_true_eq_false, if_false]
    split
    · rename_i out heq
      rw [heq] at hs1
      simp only [Step.mig_done] at hs1
      rcases hs1 with h | h
      · exact Or.inl (Nat.le_of_eq (congrArg _ h.symm))
      · exact Or.inl (by rw [h]; exact hfinal _)
    · rename_i m1 log1 _ heq
      obtain ⟨rfl, _⟩ := hs3 _ _ _ heq
      obtain ⟨ht1, _, ht3⟩ := checkTargets_frame c env (withDefaults m)
      split
      · rename_i out heq2
        rw [heq2] at ht1
        exact Or.inl (Nat.le_of_eq (by rw [show out.mig = withDefaults m from ht1]; rfl))
      · rename_i m2 log2 nss heq2
        obtain ⟨rfl, _⟩ := ht3 _ _ _ heq2
        obtain ⟨hc1, _, hc3⟩ := clusterDomainCheck_frame env (withDefaults m)
        split
        · rename_i out heq3
          rw [heq3] at hc1
          simp only [Step.mig_done] at hc1
          rcases hc1 with h | h
          · exact Or.inl (Nat.le_of_eq (congrArg _ h.symm))
          · exact Or.inl (by rw [h]; exact hfinal _)
        · rename_i m3 log3 _ heq3
          have := hc3 _ _ _ heq3
          subst this
          rcases stageSwitch_rank env (withDefaults m) nss with h | ⟨h, h' | ⟨h', snapshot, err, h''⟩⟩
          · exact Or.inl h
          · exact Or.inr ⟨h, Or.inl ⟨h'.1, by rw [← withDefaults_preExecRule]; exact h'.2⟩⟩
          · exact Or.inr ⟨h, Or.inr ⟨h', snapshot, err, List.mem_append_right _ h''⟩⟩
  · obtain ⟨h, _⟩ := handleDeletion_frame env m
    simp only [handle, hdel, ne_eq, not_false_eq_true, if_true]
    exact Or.inl (by rw [h])

theorem scheduleCheck_status (env : Env) (m : Migration) :
    (scheduleCheck env m).mig.Status = m.Status ∨
    ((scheduleCheck env m).mig.Status.Stage = .Final ∧
      (scheduleCheck env m).mig.Status.Status = .Failed) := by
  simp only [scheduleCheck]
  repeat' split
  all_goals simp

theorem clusterDomainCheck_status (env : Env) (m : Migration) :
    (clusterDomainCheck env m).mig.Status = m.Status ∨
    ((clusterDomainCheck env m).mig.Status.Stage = .Final ∧
      (clusterDomainCheck env m).mig.Status.Status = .Failed) := by
  simp only [clusterDomainCheck]
  repeat' split
  all_goals simp

theorem withDefaults_includeVolumes (m : Migration) (b : Bool)
    (h : m.Spec.IncludeVolumes = some b) : (withDefaults m).Spec.IncludeVolumes = some b := by
  simp only [withDefaults, setDefaults_eq, h, Option.getD_some]

theorem within_quiet_of_bookkeeping {log : List Event}
    (h : within [.recorded, .update] log) : within quietKinds log :=
  within_mono (by simp [quietKinds]) h

/-- With volumes excluded, the switch over the stage starts and polls no volume
migration. -/
theorem stageSwitch_quiet (env : Env) (m : Migration) (nss : List String)
    (hflag : m.Spec.IncludeVolumes = some false) :
    within quietKinds (stageSwitch env m nss).log := by
  have hvol : ∀ m' chs, m'.Spec = m.Spec → within quietKinds (stageVolumes env m' nss chs).log := by
    intro m' chs hspec
    obtain ⟨_, _, h⟩ := stageVolumes_frame env m' nss chs
    rw [h (by simp [hspec, hflag, deref])]
    exact within_updateMigrationCR _ _ _ _ (by simp [quietKinds])
  have hpre : ∀ m', m'.Spec = m.Spec →
      within quietKinds
        (match stagePreExecRule env m' nss with
          | .done out => out
          | .next migration log2 terminationChannels =>
            { mig := (stageVolumes env migration nss terminationChannels).mig
              log := log2 ++ (stageVolumes env migration nss terminationChannels).log
              ret := (stageVolumes env migration nss terminationChannels).ret } :
          Out (Option String)).log := by
    intro m' hspec
    obtain ⟨hp1, hp2, _, _⟩ := stagePreExecRule_frame env m' nss
    have hp2' : within quietKinds (stagePreExecRule env m' nss).log :=
      within_mono (by simp [quietKinds]) hp2
    split
    · rename_i out heq
      rw [heq] at hp2'
      exact hp2'
    · rename_i m1 log1 chs heq
      rw [heq] at hp1 hp2'
      exact (within_append _ _ _).mpr ⟨hp2', hvol m1 chs (hp1.trans hspec)⟩
  cases hst : m.Status.Stage with
  | Initial =>
    obtain ⟨hi1, hi2⟩ := stageInitial_frame env m nss
    simp only [stageSwitch, hst]
    split
    · rename_i out heq
      rw [heq] at hi2
      exact within_quiet_of_bookkeeping hi2
    · rename_i m1 log1 _ heq
      rw [heq] at hi1 hi2
      have := hpre m1 hi1
      split
      · rename_i out heq2
        rw [heq2] at this
        exact (within_append _ _ _).mpr ⟨within_quiet_of_bookkeeping hi2, this⟩
      · rename_i m2 log2 chs heq2
        rw [heq2] at this
        simp only [within_append] at this ⊢
        exact ⟨⟨within_quiet_of_bookkeeping hi2, this.1⟩, this.2⟩
  | PreExecRule =>
    have := hpre m rfl
    simp only [stageSwitch, hst]
    split
    · rename_i out heq
      rw [heq] at this
      simpa using this
    · rename_i m2 log2 chs heq
      rw [heq] at this
      simpa using this
  | Volumes =>
    simp only [stageSwitch, hst]
    exact hvol m [] rfl
  | Applications =>
    simp only [stageSwitch, hst]
    exact within_mono (by simp [quietKinds]) (stageApplications_frame env m).2
  | Final =>
    simp [stageSwitch, hst]

/-- With volumes excluded, `handle` starts and polls no volume migration. -/
theorem handle_quiet (c : MigrationController) (env : Env) (m : Migration)
    (hflag : m.Spec.IncludeVolumes = some false) : within quietKinds (handle c env m).log := by
  by_cases hdel : m.DeletionTimestamp = none
  · obtain ⟨_, hs2, hs3⟩ := scheduleCheck_frame env (withDefaults m)
    simp only [handle, hdel, ne_eq, not_true_eq_false, if_false]
    split
    · rename_i out heq
      rw [heq] at hs2
      exact within_quiet_of_bookkeeping hs2
    · rename_i m1 log1 _ heq
      obtain ⟨rfl, _⟩ := hs3 _ _ _ heq
      obtain ⟨_, ht2, ht3⟩ := checkTargets_frame c env (withDefaults m)
      split
      · rename_i out heq2
        rw [heq2] at ht2
        exact within_quiet_of_bookkeeping ht2
      · rename_i m2 log2 nss heq2
        obtain ⟨rfl, _⟩ := ht3 _ _ _ heq2
        obtain ⟨_, hc2, hc3⟩ := clusterDomainCheck_frame env (withDefaults m)
        have hc2' : within quietKinds (clusterDomainCheck env (withDefaults m)).log :=
          within_mono (by simp [quietKinds]) hc2
        split
        · rename_i out heq3
          rw [heq3] at hc2'
          exact hc2'
        · rename_i m3 log3 _ heq3
          have := hc3 _ _ _ heq3
          subst this
          rw [heq3] at hc2'
          exact (within_append _ _ _).mpr
            ⟨hc2', stageSwitch_quiet env (withDefaults m) nss (withDefaults_includeVolumes m false hflag)⟩
  · simp only [handle, hdel, ne_eq, not_false_eq_true, if_true]
    exact (handleDeletion_frame env m).2

/-- With volumes excluded, `handle` on a record at stage Volumes: the record's status
is untouched (a precondition failed), or the migration is failed (Final/Failed), or
the stage is Applications with status Initial; and there are no side effects but
events, writes of the record and queries of the cluster domains. -/
theorem handle_volumes_stage_skipped (c : MigrationController) (env : Env) (m : Migration)
    (hflag : m.Spec.IncludeVolumes = some false) (hdel : m.DeletionTimestamp = none)
    (hst : m.Status.Stage = .Volumes) :
    ((handle c env m).mig.Status = m.Status ∨
      ((handle c env m).mig.Status.Stage = .Final ∧ (handle c env m).mig.Status.Status = .Failed) ∨
      ((handle c env m).mig.Status.Stage = .Applications ∧
        (handle c env m).mig.Status.Status = .Initial)) ∧
    within [.recorded, .update, .GetClusterDomains] (handle c env m).log := by
  obtain ⟨_, hs2, hs3⟩ := scheduleCheck_frame env (withDefaults m)
  have hs4 := scheduleCheck_status env (withDefaults m)
  simp only [handle, hdel, ne_eq, not_true_eq_false, if_false]
  split
  · rename_i out heq
    rw [heq] at hs2 hs4
    refine ⟨?_, within_mono (by simp) hs2⟩
    rcases hs4 with h | h
    · exact Or.inl h
    · exact Or.inr (Or.inl h)
  · rename_i m1 log1 _ heq
    obtain ⟨rfl, _⟩ := hs3 _ _ _ heq
    obtain ⟨ht1, ht2, ht3⟩ := checkTargets_frame c env (withDefaults m)
    split
    · rename_i out heq2
      rw [heq2] at ht1 ht2
      simp only [Step.mig_done] at ht1
      exact ⟨Or.inl (by rw [ht1]; rfl), within_mono (by simp) ht2⟩
    · rename_i m2 log2 nss heq2
      obtain ⟨rfl, _⟩ := ht3 _ _ _ heq2
      obtain ⟨_, hc2, hc3⟩ := clusterDomainCheck_frame env (withDefaults m)
      have hc4 := clusterDomainCheck_status env (withDefaults m)
      split
      · rename_i out heq3
        rw [heq3] at hc2 hc4
        refine ⟨?_, hc2⟩
        rcases hc4 with h | h
        · exact Or.inl h
        · exact Or.inr (Or.inl h)
      · rename_i m3 log3 _ heq3
        have := hc3 _ _ _ heq3
        subst this
        rw [heq3] at hc2
        have hsw : stageSwitch env (withDefaults m) nss = updateMigrationCR env 535
            (setVolumeFinish env 534 (setStatus (setStage (withDefaults m) .Applications) .Initial)) := by
          have hst' : (withDefaults m).Status.Stage = .Volumes := hst
          simp only [stageSwitch, hst']
          exact (stageVolumes_frame env (withDefaults m) nss []).2.2
            (by simp [withDefaults_includeVolumes m false hflag, deref])
        rw [hsw]
        refine ⟨Or.inr (Or.inr ⟨rfl, rfl⟩), ?_⟩
        exact (within_append _ _ _).mpr ⟨hc2, within_updateMigrationCR _ _ _ _ (by simp)⟩

/-- C2, refuted as stated: a record at stage PreExecRule whose rule cannot be read is
taken back to stage Initial by `handle`, on a cluster pair whose storage is Ready. -/
theorem handle_stage_regresses_counterexample :
    pendingRuleMigration.Status.Stage = .PreExecRule ∧
    ¬ storageNotReady missingRuleEnv ∧
    (handle sampleController missingRuleEnv pendingRuleMigration).mig.Status.Stage = .Initial ∧
    ¬ (pendingRuleMigration.Status.Stage.rank ≤
      (handle sampleController missingRuleEnv pendingRuleMigration).mig.Status.Stage.rank) := by
  refine ⟨rfl, ?_, ?_, ?_⟩ <;> decide

/-- C2, amended. In the order Initial < PreExecRule < Volumes < Applications < Final
the stage after an invocation of `handle` is never lower than the stage before it,
except when the stage is reset to Initial: either because the cluster-pair storage
status is not Ready and a pre-exec rule is configured, or, for a record at stage
PreExecRule, because `runPreExecRule` returned an error (the reset of lines 507-509,
whose write is then among the side effects). -/
theorem handle_stage_monotone (c : MigrationController) (env : Env) (m : Migration) :
    m.Status.Stage.rank ≤ (handle c env m).mig.Status.Stage.rank ∨
    ((handle c env m).mig.Status.Stage = .Initial ∧
      ((storageNotReady env ∧ m.Spec.PreExecRule ≠ "") ∨
        (m.Status.Stage = .PreExecRule ∧
          ∃ snapshot err, Event.update 509 snapshot err ∈ (handle c env m).log))) :=
  handle_rank c env m

/-! ## Classifying the polled volumes -/

theorem classifyVolumes_log (env : Env) (infos : List MigrationVolumeInfo) (m : Migration)
    (inProgress : Bool) (log : List Event) (hlog : within [.recorded] log) :
    within [.recorded] (classifyVolumes env infos m inProgress log).2.2 := by
  induction infos generalizing m inProgress log with
  | nil => exact hlog
  | cons v rest ih =>
    unfold classifyVolumes
    repeat' split
    all_goals first
      | exact ih _ _ _ hlog
      | exact ih _ _ _ ((within_append _ _ _).mpr ⟨hlog, by simp [Event.kind]⟩)

/-- A volume in progress makes the scan answer "in progress". -/
theorem classifyVolumes_inProgress (env : Env) (infos : List MigrationVolumeInfo) (m : Migration)
    (inProgress : Bool) (log : List Event)
    (h : inProgress = true ∨ hasVolume .InProgress infos) :
    (classifyVolumes env infos m inProgress log).2.1 = true := by
  induction infos generalizing m inProgress log with
  | nil =>
    rcases h with h | ⟨v, hv, _⟩
    · exact h
    · simp at hv
  | cons v rest ih =>
    unfold classifyVolumes
    split
    · exact ih _ _ _ (Or.inl rfl)
    · rename_i hne
      have h' : inProgress = true ∨ hasVolume .InProgress rest := by
        rcases h with h | ⟨w, hw, hws⟩
        · exact Or.inl h
        · rcases List.mem_cons.mp hw with rfl | hw
          · exact absurd hws hne
          · exact Or.inr ⟨w, hw, hws⟩
      repeat' split
      all_goals exact ih _ _ _ h'

/-- Without a volume in progress the scan leaves the "in progress" answer as it was. -/
theorem classifyVolumes_not_inProgress (env : Env) (infos : List MigrationVolumeInfo)
    (m : Migration) (inProgress : Bool) (log : List Event)
    (h : ¬ hasVolume .InProgress infos) :
    (classifyVolumes env infos m inProgress log).2.1 = inProgress := by
  induction infos generalizing m inProgress log with
  | nil => rfl
  | cons v rest ih =>
    have hrest : ¬ hasVolume .InProgress rest := fun ⟨w, hw, hws⟩ =>
      h ⟨w, List.mem_cons_of_mem _ hw, hws⟩
    unfold classifyVolumes
    split
    · rename_i hv
      exact absurd ⟨v, List.mem_cons_self _ _, hv⟩ h
    · repeat' split
      all_goals exact ih _ _ _ hrest

/-- Without a failed volume the scan leaves the record as it was. -/
theorem classifyVolumes_no_failed (env : Env) (infos : List MigrationVolumeInfo) (m : Migration)
    (inProgress : Bool) (log : List Event) (h : ¬ hasVolume .Failed infos) :
    (classifyVolumes env infos m inProgress log).1 = m := by
  induction infos generalizing m inProgress log with
  | nil => rfl
  | cons v rest ih =>
    have hrest : ¬ hasVolume .Failed rest := fun ⟨w, hw, hws⟩ =>
      h ⟨w, List.mem_cons_of_mem _ hw, hws⟩
    unfold classifyVolumes
    split
    · exact ih _ _ _ hrest
    · split
      · rename_i hv
        exact absurd ⟨v, List.mem_cons_self _ _, hv⟩ h
      · split
        · exact ih _ _ _ hrest
        · exact ih _ _ _ hrest

/-- A record that is Final/Failed stays so through the scan, and a failed volume
makes it so. -/
theorem classifyVolumes_failed (env : Env) (infos : List MigrationVolumeInfo) (m : Migration)
    (inProgress : Bool) (log : List Event)
    (h : (m.Status.Stage = .Final ∧ m.Status.Status = .Failed) ∨ hasVolume .Failed infos) :
    (classifyVolumes env infos m inProgress log).1.Status.Stage = .Final ∧
    (classifyVolumes env infos m inProgress log).1.Status.Status = .Failed := by
  induction infos generalizing m inProgress log with
  | nil =>
    rcases h with h | ⟨v, hv, _⟩
    · exact h
    · simp at hv
  | cons v rest ih =>
    have hstep : ¬ v.Status = .Failed →
        (m.Status.Stage = .Final ∧ m.Status.Status = .Failed) ∨ hasVolume .Failed rest := by
      intro hne
      rcases h with h | ⟨w, hw, hws⟩
      · exact Or.inl h
      · rcases List.mem_cons.mp hw with rfl | hw
        · exact absurd hws hne
        · exact Or.inr ⟨w, hw, hws⟩
    unfold classifyVolumes
    split
    · rename_i hv
      exact ih _ _ _ (hstep (by rw [hv]; decide))
    · split
      · exact ih _ _ _ (Or.inl ⟨rfl, rfl⟩)
      · rename_i hne
        split
        · exact ih _ _ _ (hstep hne)
        · exact ih _ _ _ (hstep hne)

/-! ## Polling (lines 803-847) -/

/-- The poll when the driver answers a list with a volume in progress: the function
returns, with the error of the write of line 816 if any; what it writes is the record
with the refreshed list, stage and status untouched; the record it returns has stage
and status untouched unless the list also holds a failed volume and the write
succeeded, in which case it is Final/Failed. -/
theorem pollVolumes_inProgress (env : Env) (m : Migration) (infos : List MigrationVolumeInfo)
    (hvols : (m.Status.Volumes.getD []).length ≠ 0)
    (hans : env.GetMigrationStatus = .ok (some infos))
    (hin : hasVolume .InProgress infos) :
    ∃ out, pollVolumes env m = .done out ∧ out.ret = env.updateErr 816 ∧
      (∃ events, within [.recorded] events ∧
        out.log = [Event.GetMigrationStatus,
          .update 816 (withSummary env 816 (setVolumes m infos)) (env.updateErr 816)] ++ events) ∧
      (¬ hasVolume .Failed infos →
        out.mig.Status.Stage = m.Status.Stage ∧ out.mig.Status.Status = m.Status.Status) ∧
      (env.updateErr 816 ≠ none →
        out.mig.Status.Stage = m.Status.Stage ∧ out.mig.Status.Status = m.Status.Status) ∧
      (hasVolume .Failed infos → env.updateErr 816 = none →
        out.mig.Status.Stage = .Final ∧ out.mig.Status.Status = .Failed) := by
  simp only [pollVolumes, hvols, ne_eq, not_false_eq_true, if_true, hans, Option.getD_some,
    updateMigrationCR_ret]
  cases hupd : env.updateErr 816 with
  | some err =>
    refine ⟨_, rfl, rfl, ⟨[], by simp, by simp [updateMigrationCR, hupd]⟩, ?_, ?_, ?_⟩
    · intro _
      exact ⟨rfl, rfl⟩
    · intro _
      exact ⟨rfl, rfl⟩
    · intro _ h
      cases h
  | none =>
    have hip := classifyVolumes_inProgress env infos
      (updateMigrationCR env 816 (setVolumes m infos)).mig false [] (Or.inr hin)
    simp only [hip, if_true]
    refine ⟨_, rfl, rfl, ⟨(classifyVolumes env infos
      (updateMigrationCR env 816 (setVolumes m infos)).mig false []).2.2,
      classifyVolumes_log env infos _ false [] (by simp), ?_⟩, ?_, ?_, ?_⟩
    · simp [updateMigrationCR, hupd]
    · intro hnf
      rw [classifyVolumes_no_failed env infos _ false [] hnf]
      exact ⟨rfl, rfl⟩
    · intro h
      exact absurd trivial h
    · intro hf _
      exact classifyVolumes_failed env infos _ false [] (Or.inr hf)

/-! ## What is written -/

@[simp] theorem writes_nil (P : Migration → Prop) : writes P [] := by
  simp [writes]

@[simp] theorem writes_append (P : Migration → Prop) (log₁ log₂ : List Event) :
    writes P (log₁ ++ log₂) ↔ writes P log₁ ∧ writes P log₂ := by
  simp only [writes, List.mem_append]
  constructor
  · intro h
    exact ⟨fun l s e he => h l s e (Or.inl he), fun l s e he => h l s e (Or.inr he)⟩
  · rintro ⟨h1, h2⟩ l s e (he | he)
    · exact h1 l s e he
    · exact h2 l s e he

theorem writes_of_within (P : Migration → Prop) {kinds : List EventKind} {log : List Event}
    (hk : EventKind.update ∉ kinds) (h : within kinds log) : writes P log := by
  intro line snapshot err he
  exact absurd (h _ he) hk

theorem writes_updateMigrationCR (P : Migration → Prop) (env : Env) (line : Nat) (m : Migration)
    (h : P (updateMigrationCR env line m).mig) : writes P (updateMigrationCR env line m).log := by
  intro l s e he
  simp only [updateMigrationCR_log, List.mem_singleton, Event.update.injEq] at he
  obtain ⟨_, rfl, _⟩ := he
  exact h

theorem lastWritten_append (log₁ log₂ : List Event) :
    lastWritten (log₁ ++ log₂) = (lastWritten log₂).orElse (fun _ => lastWritten log₁) := by
  unfold lastWritten
  rw [List.foldl_append]
  generalize List.foldl _ none log₁ = acc
  induction log₂ using List.reverseRecOn with
  | nil => simp
  | append_singleton rest e ih =>
    simp only [List.foldl_append, List.foldl_cons, List.foldl_nil]
    cases e with
    | update line snapshot err =>
      cases err with
      | none => simp
      | some e' => simpa using ih
    | _ => simpa using ih

theorem lastWritten_of_within {kinds : List EventKind} {log : List Event}
    (hk : EventKind.update ∉ kinds) (h : within kinds log) : lastWritten log = none := by
  induction log using List.reverseRecOn with
  | nil => rfl
  | append_singleton rest e ih =>
    rw [within_append] at h
    rw [lastWritten_append, ih h.1]
    have he : e.kind ∈ kinds := h.2 e (by simp)
    cases e with
    | update line snapshot err => exact absurd he hk
    | _ => rfl

theorem lastWritten_updateMigrationCR (env : Env) (line : Nat) (m : Migration) :
    lastWritten (updateMigrationCR env line m).log =
      if env.updateErr line = none then some (updateMigrationCR env line m).mig else none := by
  simp only [updateMigrationCR_log, lastWritten, List.foldl_cons, List.foldl_nil]
  cases h : env.updateErr line <;> simp

/-! ## The parts of the volume sub-workflow, in detail -/

theorem startVolumes_log (env : Env) (m : Migration) (nss : List String) (channels : List Nat) :
    within startKinds (startVolumes env m nss channels).log := by
  have hterm := within_terminateAll startKinds channels (by simp [startKinds])
  have hpost : ∀ m', within startKinds (runPostExecRule env m' nss).log :=
    fun m' => within_mono (by simp [startKinds]) (runPostExecRule_frame env m' nss).2
  have hupd : ∀ line m', within startKinds (updateMigrationCR env line m').log :=
    fun line m' => within_updateMigrationCR _ _ _ _ (by simp [startKinds])
  have hstart : within startKinds [Event.StartMigration] := by
    simp [Event.kind, startKinds]
  have hcancel : within startKinds [failedEvent, Event.CancelMigration] := by
    simp [failedEvent, Event.kind, startKinds]
  simp only [startVolumes]
  repeat' split
  all_goals simp only [Step.log_done, Step.log_next, within_append]
  all_goals simp only [hterm, hpost, hupd, hstart, hcancel, and_self]

/-- When the first entry falls through, the record is in progress at the stage it
had, with a volume list, and so is every record written on the way. -/
theorem startVolumes_next (env : Env) (m : Migration) (nss : List String) (channels : List Nat)
    (m' : Migration) (log : List Event) (u : Unit)
    (h : startVolumes env m nss channels = .next m' log u) :
    m'.Status.Stage = m.Status.Stage ∧ m'.Status.Status = .InProgress ∧
    m'.Status.Volumes ≠ none ∧ m'.DeletionTimestamp = m.DeletionTimestamp ∧
    writes (fun s => s.Status.Stage = m.Status.Stage ∧ s.Status.Status = .InProgress) log := by
  have hterm := within_terminateAll [.terminate] channels (by simp)
  have hpost : ∀ m', within [.ExecuteRule] (runPostExecRule env m' nss).log :=
    fun m' => (runPostExecRule_frame env m' nss).2
  have hstart : within [.StartMigration] [Event.StartMigration] := by
    simp [Event.kind]
  simp only [startVolumes] at h
  repeat' split at h
  all_goals first
    | (simp at h; done)
    | (simp only [Step.next.injEq] at h
       obtain ⟨rfl, rfl, _⟩ := h
       refine ⟨rfl, rfl, Option.some_ne_none _, rfl, ?_⟩
       simp only [writes_append]
       repeat' apply And.intro
       all_goals first
        | exact writes_of_within _ (by decide) hstart
        | exact writes_updateMigrationCR _ _ _ _ ⟨rfl, rfl⟩
        | exact writes_of_within _ (by decide) hterm
        | exact writes_of_within _ (by decide) (hpost _))

theorem finishVolumes_log (env : Env) (m : Migration) :
    within [.recorded, .update, .resource] (finishVolumes env m).log := by
  have hres : ∀ m' v, within [.recorded, .update, .resource] (migrateResources env m' v).log :=
    fun m' v => (migrateResources_frame env m' v).2
  have hupd : ∀ line m', within [.recorded, .update, .resource] (updateMigrationCR env line m').log :=
    fun line m' => within_updateMigrationCR _ _ _ _ (by simp)
  simp only [finishVolumes, advanceVolumes]
  repeat' split
  all_goals simp only [within_append, hres, hupd, and_self]

theorem pollVolumes_log (env : Env) (m : Migration) :
    within [.recorded, .update, .GetMigrationStatus] (pollVolumes env m).log := by
  have hc : ∀ infos m', within [.recorded, .update, .GetMigrationStatus]
      (classifyVolumes env infos m' false []).2.2 :=
    fun infos m' => within_mono (by simp) (classifyVolumes_log env infos m' false [] (by simp))
  have hupd : ∀ line m', within [.recorded, .update, .GetMigrationStatus]
      (updateMigrationCR env line m').log :=
    fun line m' => within_updateMigrationCR _ _ _ _ (by simp)
  have hpoll : within [.recorded, .update, .GetMigrationStatus] [Event.GetMigrationStatus] := by
    simp [Event.kind]
  simp only [pollVolumes]
  repeat' split
  all_goals simp only [Step.log_done, Step.log_next, within_append, within_nil, hc, hupd, hpoll,
    and_self]

theorem watchVolumes_log (env : Env) (m : Migration) :
    within watchKinds (watchVolumes env m).log := by
  have hp : within watchKinds (pollVolumes env m).log :=
    within_mono (by simp [watchKinds]) (pollVolumes_log env m)
  have hf : ∀ m', within watchKinds (finishVolumes env m').log :=
    fun m' => within_mono (by simp [watchKinds]) (finishVolumes_log env m')
  simp only [watchVolumes]
  split
  · rename_i out heq
    rw [heq] at hp
    exact hp
  · rename_i m1 log1 _ heq
    rw [heq] at hp
    exact (within_append _ _ _).mpr ⟨hp, hf m1⟩

/-! ## Watching the volumes (lines 803-878) -/

/-- When the driver was polled and answered a list with a volume in progress. -/
theorem watchVolumes_inProgress (env : Env) (m : Migration) (infos : List MigrationVolumeInfo)
    (hpoll : Event.GetMigrationStatus ∈ (watchVolumes env m).log)
    (hans : env.GetMigrationStatus = .ok (some infos))
    (hin : hasVolume .InProgress infos) :
    within [.recorded, .update, .GetMigrationStatus] (watchVolumes env m).log ∧
    writes (fun s => s.Status.Stage = m.Status.Stage ∧ s.Status.Status = m.Status.Status)
      (watchVolumes env m).log ∧
    (watchVolumes env m).ret = env.updateErr 816 ∧
    (¬ hasVolume .Failed infos →
      (watchVolumes env m).mig.Status.Stage = m.Status.Stage ∧
      (watchVolumes env m).mig.Status.Status = m.Status.Status) ∧
    (hasVolume .Failed infos → env.updateErr 816 = none →
      (watchVolumes env m).mig.Status.Stage = .Final ∧
      (watchVolumes env m).mig.Status.Status = .Failed) := by
  by_cases hvols : (m.Status.Volumes.getD []).length ≠ 0
  · obtain ⟨out, hout, hret, ⟨events, hev, hlog⟩, h1, _, h3⟩ :=
      pollVolumes_inProgress env m infos hvols hans hin
    have hpl := pollVolumes_log env m
    have hw : watchVolumes env m = out := by
      simp only [watchVolumes, hout]
    rw [hw]
    rw [hout] at hpl
    refine ⟨hpl, ?_, hret, h1, h3⟩
    rw [hlog]
    intro line snapshot err he
    simp only [List.cons_append, List.nil_append, List.mem_cons, Event.update.injEq] at he
    rcases he with he | ⟨_, rfl, _⟩ | he
    · cases he
    · exact ⟨rfl, rfl⟩
    · exact absurd (hev _ he) (by simp [Event.kind])
  · exfalso
    have hp : pollVolumes env m = .next m [] () := by
      simp only [pollVolumes, hvols, if_false]
    have hf := finishVolumes_log env m
    simp only [watchVolumes, hp, List.nil_append] at hpoll
    exact absurd (hf _ hpoll) (by simp [Event.kind])

/-- When the driver was polled, the refreshed list was stored, and the list holds a
failed volume and none in progress. -/
theorem watchVolumes_failed (env : Env) (m : Migration) (infos : List MigrationVolumeInfo)
    (hpoll : Event.GetMigrationStatus ∈ (watchVolumes env m).log)
    (hans : env.GetMigrationStatus = .ok (some infos))
    (hfailed : hasVolume .Failed infos) (hnone : ¬ hasVolume .InProgress infos)
    (hstored : env.updateErr 816 = none) :
    (watchVolumes env m).mig.Status.Stage = .Final ∧
    (watchVolumes env m).mig.Status.Status = .Failed ∧
    (watchVolumes env m).ret = env.updateErr 878 ∧
    ∃ before, within [.recorded, .update, .GetMigrationStatus] before ∧
      (watchVolumes env m).log =
        before ++ [.update 878 (watchVolumes env m).mig (env.updateErr 878)] := by
  by_cases hvols : (m.Status.Volumes.getD []).length ≠ 0
  · have hpl := pollVolumes_log env m
    have hni := classifyVolumes_not_inProgress env infos
      (updateMigrationCR env 816 (setVolumes m infos)).mig false [] hnone
    obtain ⟨hc1, hc2⟩ := classifyVolumes_failed env infos
      (updateMigrationCR env 816 (setVolumes m infos)).mig false [] (Or.inr hfailed)
    have hp : pollVolumes env m = .next
        (classifyVolumes env infos (updateMigrationCR env 816 (setVolumes m infos)).mig false []).1
        ([.GetMigrationStatus] ++ (updateMigrationCR env 816 (setVolumes m infos)).log ++
          (classifyVolumes env infos (updateMigrationCR env 816 (setVolumes m infos)).mig
            false []).2.2) () := by
      simp only [pollVolumes, hvols, ne_eq, not_false_eq_true, if_true, hans, Option.getD_some,
        updateMigrationCR_ret, hstored, hni, Bool.false_eq_true, if_false]
    rw [hp] at hpl
    have hfin : ∀ m', m'.Status.Status = .Failed →
        finishVolumes env m' = updateMigrationCR env 878 (setVolumeFinish env 849 m') := by
      intro m' hm'
      simp only [finishVolumes, setVolumeFinish_status, hm', ne_eq, not_true_eq_false, if_false]
    simp only [watchVolumes, hp, hfin _ hc2]
    exact ⟨hc1, hc2, rfl, _, hpl, rfl⟩
  · exfalso
    have hp : pollVolumes env m = .next m [] () := by
      simp only [pollVolumes, hvols, if_false]
    have hf := finishVolumes_log env m
    simp only [watchVolumes, hp, List.nil_append] at hpoll
    exact absurd (hf _ hpoll) (by simp [Event.kind])

/-! ## The volume sub-workflow while volumes are in progress, and when one failed -/

theorem entryStatus_first (m : Migration) (h : m.Status.Volumes = none) :
    entryStatus m = .InProgress := by
  simp [entryStatus, h]

theorem entryStatus_later (m : Migration) (h : ¬ m.Status.Volumes = none) :
    entryStatus m = m.Status.Status := by
  simp [entryStatus, h]

/-- The volume sub-workflow when the driver was polled and answered a list with a
volume in progress. -/
theorem migrateVolumes_polled_inProgress (env : Env) (m : Migration) (nss : List String)
    (channels : List Nat) (infos : List MigrationVolumeInfo)
    (hpoll : Event.GetMigrationStatus ∈ (migrateVolumes env m nss channels).log)
    (hans : env.GetMigrationStatus = .ok (some infos))
    (hin : hasVolume .InProgress infos) :
    (∀ step, Event.resource step ∉ (migrateVolumes env m nss channels).log) ∧
    writes (fun s => s.Status.Stage = .Volumes ∧ s.Status.Status = entryStatus m)
      (migrateVolumes env m nss channels).log ∧
    (migrateVolumes env m nss channels).ret = env.updateErr 816 ∧
    (¬ hasVolume .Failed infos →
      (migrateVolumes env m nss channels).mig.Status.Stage = .Volumes ∧
      (migrateVolumes env m nss channels).mig.Status.Status = entryStatus m) ∧
    (hasVolume .Failed infos → env.updateErr 816 = none →
      (migrateVolumes env m nss channels).mig.Status.Stage = .Final ∧
      (migrateVolumes env m nss channels).mig.Status.Status = .Failed) := by
  have hterm := within_terminateAll [.terminate] channels (by simp)
  by_cases hvol : m.Status.Volumes = none
  · have hvol' : (setStage m .Volumes).Status.Volumes = none := hvol
    have hsl := startVolumes_log env (setStage m .Volumes) nss channels
    rw [entryStatus_first m hvol]
    cases hs : startVolumes env (setStage m .Volumes) nss channels with
    | done out =>
      exfalso
      simp only [migrateVolumes, hvol', if_true, hs] at hpoll
      rw [hs] at hsl
      exact absurd (hsl _ hpoll) (by simp [Event.kind, startKinds])
    | next m1 log1 u =>
      obtain ⟨hn1, hn2, _, _, hn4⟩ := startVolumes_next env _ nss channels m1 log1 u hs
      rw [hs] at hsl
      simp only [Step.log_next] at hsl
      simp only [migrateVolumes, hvol', if_true, hs] at hpoll ⊢
      have hpoll' : Event.GetMigrationStatus ∈ (watchVolumes env m1).log := by
        rcases List.mem_append.mp hpoll with h | h
        · exact absurd (hsl _ h) (by simp [Event.kind, startKinds])
        · exact h
      obtain ⟨hw1, hw2, hw3, hw4, hw5⟩ := watchVolumes_inProgress env m1 infos hpoll' hans hin
      rw [hn1, hn2] at hw2 hw4
      refine ⟨?_, ?_, hw3, hw4, hw5⟩
      · intro step hmem
        rcases List.mem_append.mp hmem with h | h
        · exact absurd (hsl _ h) (by simp [Event.kind, startKinds])
        · exact absurd (hw1 _ h) (by simp [Event.kind])
      · exact (writes_append _ _ _).mpr ⟨hn4, hw2⟩
  · have hvol' : ¬ (setStage m .Volumes).Status.Volumes = none := hvol
    rw [entryStatus_later m hvol]
    simp only [migrateVolumes, hvol', if_false] at hpoll ⊢
    have hpoll' : Event.GetMigrationStatus ∈ (watchVolumes env (setStage m .Volumes)).log := by
      rcases List.mem_append.mp hpoll with h | h
      · exact h
      · exact absurd (hterm _ h) (by simp [Event.kind])
    obtain ⟨hw1, hw2, hw3, hw4, hw5⟩ :=
      watchVolumes_inProgress env (setStage m .Volumes) infos hpoll' hans hin
    refine ⟨?_, ?_, hw3, hw4, hw5⟩
    · intro step hmem
      rcases List.mem_append.mp hmem with h | h
      · exact absurd (hw1 _ h) (by simp [Event.kind])
      · exact absurd (hterm _ h) (by simp [Event.kind])
    · exact (writes_append _ _ _).mpr ⟨hw2, writes_of_within _ (by decide) hterm⟩

/-- The volume sub-workflow when the driver was polled, the refreshed list was
stored, and the list holds a failed volume and none in progress. -/
theorem migrateVolumes_polled_failed (env : Env) (m : Migration) (nss : List String)
    (channels : List Nat) (infos : List MigrationVolumeInfo)
    (hpoll : Event.GetMigrationStatus ∈ (migrateVolumes env m nss channels).log)
    (hans : env.GetMigrationStatus = .ok (some infos))
    (hfailed : hasVolume .Failed infos) (hnone : ¬ hasVolume .InProgress infos)
    (hstored : env.updateErr 816 = none) :
    (migrateVolumes env m nss channels).mig.Status.Stage = .Final ∧
    (migrateVolumes env m nss channels).mig.Status.Status = .Failed ∧
    (migrateVolumes env m nss channels).ret = env.updateErr 878 ∧
    (∀ step, Event.resource step ∉ (migrateVolumes env m nss channels).log) ∧
    Event.update 878 (migrateVolumes env m nss channels).mig (env.updateErr 878) ∈
      (migrateVolumes env m nss channels).log ∧
    (env.updateErr 878 = none →
      persisted m (migrateVolumes env m nss channels).log =
        (migrateVolumes env m nss channels).mig) := by
  have hterm := within_terminateAll [.terminate] channels (by simp)
  have hlast : ∀ (before after : List Event) (s : Migration), within [.terminate] after →
      env.updateErr 878 = none →
      persisted m (before ++ [.update 878 s (env.updateErr 878)] ++ after) = s := by
    intro before after s hafter hok
    simp only [persisted, lastWritten_append, lastWritten_of_within (by decide) hafter, hok]
    simp [lastWritten]
  by_cases hvol : m.Status.Volumes = none
  · have hvol' : (setStage m .Volumes).Status.Volumes = none := hvol
    have hsl := startVolumes_log env (setStage m .Volumes) nss channels
    cases hs : startVolumes env (setStage m .Volumes) nss channels with
    | done out =>
      exfalso
      simp only [migrateVolumes, hvol', if_true, hs] at hpoll
      rw [hs] at hsl
      exact absurd (hsl _ hpoll) (by simp [Event.kind, startKinds])
    | next m1 log1 u =>
      rw [hs] at hsl
      simp only [Step.log_next] at hsl
      simp only [migrateVolumes, hvol', if_true, hs] at hpoll ⊢
      have hpoll' : Event.GetMigrationStatus ∈ (watchVolumes env m1).log := by
        rcases List.mem_append.mp hpoll with h | h
        · exact absurd (hsl _ h) (by simp [Event.kind, startKinds])
        · exact h
      obtain ⟨hw1, hw2, hw3, before, hb, hlog⟩ :=
        watchVolumes_failed env m1 infos hpoll' hans hfailed hnone hstored
      refine ⟨hw1, hw2, hw3, ?_, ?_, ?_⟩
      · intro step hmem
        rw [hlog] at hmem
        simp only [List.mem_append, List.mem_singleton] at hmem
        rcases hmem with h | h | h
        · exact absurd (hsl _ h) (by simp [Event.kind, startKinds])
        · exact absurd (hb _ h) (by simp [Event.kind])
        · cases h
      · rw [hlog]
        simp
      · intro hok
        rw [hlog, ← List.append_assoc]
        have := hlast (log1 ++ before) [] (watchVolumes env m1).mig (by simp) hok
        simpa using this
  · have hvol' : ¬ (setStage m .Volumes).Status.Volumes = none := hvol
    simp only [migrateVolumes, hvol', if_false] at hpoll ⊢
    have hpoll' : Event.GetMigrationStatus ∈ (watchVolumes env (setStage m .Volumes)).log := by
      rcases List.mem_append.mp hpoll with h | h
      · exact h
      · exact absurd (hterm _ h) (by simp [Event.kind])
    obtain ⟨hw1, hw2, hw3, before, hb, hlog⟩ :=
      watchVolumes_failed env (setStage m .Volumes) infos hpoll' hans hfailed hnone hstored
    refine ⟨hw1, hw2, hw3, ?_, ?_, ?_⟩
    · intro step hmem
      rw [hlog] at hmem
      simp only [List.mem_append, List.mem_singleton] at hmem
      rcases hmem with (h | h) | h
      · exact absurd (hb _ h) (by simp [Event.kind])
      · cases h
      · exact absurd (hterm _ h) (by simp [Event.kind])
    · rw [hlog]
      simp
    · intro hok
      rw [hlog]
      exact hlast before (terminateAll channels) _ hterm hok

/-- C9, refuted as stated: the driver reports one volume in progress and one failed;
`migrateVolumes` returns without error and without running the resource
sub-workflow, but the record it returns is at stage Final with status Failed. -/
theorem migrateVolumes_in_progress_counterexample :
    stalledMigration.Status.Stage = .Volumes ∧ stalledMigration.Status.Status = .InProgress ∧
    mixedPollEnv.GetMigrationStatus =
      .ok (some [sampleVolume "v1" .InProgress, sampleVolume "v2" .Failed]) ∧
    Event.GetMigrationStatus ∈ (migrateVolumes mixedPollEnv stalledMigration ["app1"] []).log ∧
    (migrateVolumes mixedPollEnv stalledMigration ["app1"] []).mig.Status.Stage = .Final ∧
    (migrateVolumes mixedPollEnv stalledMigration ["app1"] []).mig.Status.Status = .Failed ∧
    (migrateVolumes mixedPollEnv stalledMigration ["app1"] []).ret = none := by
  refine ⟨rfl, rfl, rfl, ?_, ?_, ?_, ?_⟩ <;> decide

/-- C9, amended. When the driver is polled and answers a list with a volume in
progress, `migrateVolumes` returns without advancing and without running the resource
sub-workflow: every record it writes is at stage Volumes with the status it polls
with (InProgress on the first entry, the record's status on a later one), it returns
the error of the write of the refreshed list, if any, and the record it returns is
at stage Volumes with that status when no volume of the list is Failed. When the
list also holds a Failed volume (and the refreshed list was stored), the returned
record is Final/Failed, a state that is not written. -/
theorem migrateVolumes_in_progress (env : Env) (m : Migration) (nss : List String)
    (channels : List Nat) (infos : List MigrationVolumeInfo)
    (hpoll : Event.GetMigrationStatus ∈ (migrateVolumes env m nss channels).log)
    (hans : env.GetMigrationStatus = .ok (some infos))
    (hin : hasVolume .InProgress infos) :
    (∀ step, Event.resource step ∉ (migrateVolumes env m nss channels).log) ∧
    writes (fun s => s.Status.Stage = .Volumes ∧ s.Status.Status = entryStatus m)
      (migrateVolumes env m nss channels).log ∧
    (migrateVolumes env m nss channels).ret = env.updateErr 816 ∧
    (¬ hasVolume .Failed infos →
      (migrateVolumes env m nss channels).mig.Status.Stage = .Volumes ∧
      (migrateVolumes env m nss channels).mig.Status.Status = entryStatus m) ∧
    (hasVolume .Failed infos → env.updateErr 816 = none →
      (migrateVolumes env m nss channels).mig.Status.Stage = .Final ∧
      (migrateVolumes env m nss channels).mig.Status.Status = .Failed) :=
  migrateVolumes_polled_inProgress env m nss channels infos hpoll hans hin

/-- C9 amended, at a sample: one volume in progress, one migrated; the record stays
at Volumes/InProgress. -/
theorem migrateVolumes_in_progress_witness :
    Event.GetMigrationStatus ∈ (migrateVolumes busyPollEnv stalledMigration ["app1"] []).log ∧
    hasVolume .InProgress [sampleVolume "v1" .InProgress, sampleVolume "v2" .Successful] ∧
    (migrateVolumes busyPollEnv stalledMigration ["app1"] []).mig.Status.Stage = .Volumes ∧
    (migrateVolumes busyPollEnv stalledMigration ["app1"] []).mig.Status.Status = .InProgress :=
  ⟨by decide, ⟨_, List.mem_cons_self _ _, rfl⟩,
   ((migrateVolumes_in_progress busyPollEnv stalledMigration ["app1"] []
      [sampleVolume "v1" .InProgress, sampleVolume "v2" .Successful] (by decide) rfl
      ⟨_, List.mem_cons_self _ _, rfl⟩).2.2.2.1 (by unfold hasVolume; decide)).1,
   ((migrateVolumes_in_progress busyPollEnv stalledMigration ["app1"] []
      [sampleVolume "v1" .InProgress, sampleVolume "v2" .Successful] (by decide) rfl
      ⟨_, List.mem_cons_self _ _, rfl⟩).2.2.2.1 (by unfold hasVolume; decide)).2⟩

/-- C10, refuted as stated: the driver reports a failed volume and none in progress,
but the write that stores the refreshed list is refused; `migrateVolumes` returns
that error with the record still at Volumes/InProgress and writes no failed state. -/
theorem migrateVolumes_failed_volume_counterexample :
    conflictPollEnv.GetMigrationStatus =
      .ok (some [sampleVolume "v1" .Successful, sampleVolume "v2" .Failed]) ∧
    Event.GetMigrationStatus ∈ (migrateVolumes conflictPollEnv stalledMigration ["app1"] []).log ∧
    (migrateVolumes conflictPollEnv stalledMigration ["app1"] []).mig.Status.Stage = .Volumes ∧
    (migrateVolumes conflictPollEnv stalledMigration ["app1"] []).mig.Status.Status = .InProgress ∧
    (migrateVolumes conflictPollEnv stalledMigration ["app1"] []).ret = some "conflict" := by
  refine ⟨rfl, ?_, ?_, ?_, ?_⟩ <;> decide

/-- C10, amended. When the driver is polled and answers a list with a Failed volume
and no volume in progress, and the write that stores the refreshed list (line 816)
succeeds, `migrateVolumes` ends with stage Final and status Failed, issues the write
of that record (line 878) and returns its error, if any, so that the stored record
is the failed one when the write succeeds; the resource sub-workflow is not run. -/
theorem migrateVolumes_failed_volume (env : Env) (m : Migration) (nss : List String)
    (channels : List Nat) (infos : List MigrationVolumeInfo)
    (hpoll : Event.GetMigrationStatus ∈ (migrateVolumes env m nss channels).log)
    (hans : env.GetMigrationStatus = .ok (some infos))
    (hfailed : hasVolume .Failed infos) (hnone : ¬ hasVolume .InProgress infos)
    (hstored : env.updateErr 816 = none) :
    (migrateVolumes env m nss channels).mig.Status.Stage = .Final ∧
    (migrateVolumes env m nss channels).mig.Status.Status = .Failed ∧
    (migrateVolumes env m nss channels).ret = env.updateErr 878 ∧
    (∀ step, Event.resource step ∉ (migrateVolumes env m nss channels).log) ∧
    Event.update 878 (migrateVolumes env m nss channels).mig (env.updateErr 878) ∈
      (migrateVolumes env m nss channels).log ∧
    (env.updateErr 878 = none →
      persisted m (migrateVolumes env m nss channels).log =
        (migrateVolumes env m nss channels).mig) :=
  migrateVolumes_polled_failed env m nss channels infos hpoll hans hfailed hnone hstored

/-- C10 amended, at a sample: one volume migrated, one failed. -/
theorem migrateVolumes_failed_volume_witness :
    Event.GetMigrationStatus ∈ (migrateVolumes failedPollEnv stalledMigration ["app1"] []).log ∧
    hasVolume .Failed [sampleVolume "v1" .Successful, sampleVolume "v2" .Failed] ∧
    (migrateVolumes failedPollEnv stalledMigration ["app1"] []).mig.Status.Stage = .Final ∧
    (migrateVolumes failedPollEnv stalledMigration ["app1"] []).mig.Status.Status = .Failed :=
  ⟨by decide, ⟨_, List.mem_cons_of_mem _ (List.mem_cons_self _ _), rfl⟩,
   (migrateVolumes_failed_volume failedPollEnv stalledMigration ["app1"] []
      [sampleVolume "v1" .Successful, sampleVolume "v2" .Failed] (by decide) rfl
      ⟨_, List.mem_cons_of_mem _ (List.mem_cons_self _ _), rfl⟩
      (by unfold hasVolume; decide) rfl).1,
   (migrateVolumes_failed_volume failedPollEnv stalledMigration ["app1"] []
      [sampleVolume "v1" .Successful, sampleVolume "v2" .Failed] (by decide) rfl
      ⟨_, List.mem_cons_of_mem _ (List.mem_cons_self _ _), rfl⟩
      (by unfold hasVolume; decide) rfl).2.1⟩

/-! ## A failed post-exec rule (lines 775-800) -/

theorem runPostExecRule_ret (env : Env) (m₁ m₂ : Migration) (nss : List String) :
    (runPostExecRule env m₁ nss).ret = (runPostExecRule env m₂ nss).ret := by
  simp only [runPostExecRule]
  cases env.getRuleErr 931 <;> rfl

theorem runPostExecRule_log (env : Env) (m₁ m₂ : Migration) (nss : List String) :
    (runPostExecRule env m₁ nss).log = (runPostExecRule env m₂ nss).log := by
  simp only [runPostExecRule]
  cases env.getRuleErr 931 <;> rfl

theorem count_eq_zero_of_within {kinds : List EventKind} {log : List Event} (e : Event)
    (hk : e.kind ∉ kinds) (h : within kinds log) : log.count e = 0 :=
  List.count_eq_zero.mpr (not_mem_of_within h e hk)

/-- The first entry of the volume sub-workflow when the post-exec rule fails, spelled
out. -/
theorem migrateVolumes_postExecRule_eq (env : Env) (m : Migration) (nss : List String)
    (channels : List Nat) (infos : Option (List MigrationVolumeInfo))
    (hvol : m.Status.Volumes = none) (hready : ¬ storageNotReady env)
    (hstart : env.StartMigration = .ok infos) (hrecorded : env.updateErr 764 = none)
    (hrule : m.Spec.PostExecRule ≠ "") (hfail : (runPostExecRule env m nss).ret ≠ none) :
    (migrateVolumes env m nss channels).mig = cancelledRecord env m infos ∧
    (migrateVolumes env m nss channels).log =
      [.StartMigration, .update 764 (startedRecord env m infos) none] ++ terminateAll channels ++
        (runPostExecRule env m nss).log ++
        [failedEvent, .CancelMigration,
          .update 794 (cancelledRecord env m infos) (env.updateErr 794)] ∧
    (migrateVolumes env m nss channels).ret ≠ none := by
  have hvol' : (setStage m .Volumes).Status.Volumes = none := hvol
  have hrule' : (setStage m .Volumes).Spec.PostExecRule ≠ "" := hrule
  obtain ⟨err, herr⟩ := Option.ne_none_iff_exists'.mp hfail
  have herr' : ∀ m', (runPostExecRule env m' nss).ret = some err := by
    intro m'
    rw [runPostExecRule_ret env m' m nss]
    exact herr
  have hs : startVolumes env (setStage m .Volumes) nss channels =
      .done { mig := cancelledRecord env m infos
              log := [.StartMigration, .update 764 (startedRecord env m infos) none] ++
                terminateAll channels ++ (runPostExecRule env m nss).log ++
                [failedEvent, .CancelMigration,
                  .update 794 (cancelledRecord env m infos) (env.updateErr 794)]
              ret := match env.updateErr 794 with
                | some e => some e
                | none => some ("Error running PostExecRule: " ++ err) } := by
    unfold storageNotReady at hready
    simp only [startVolumes, hready, if_false, hstart, updateMigrationCR_ret, hrecorded,
      hrule, ne_eq, not_false_eq_true, if_true, herr', updateMigrationCR_log,
      runPostExecRule_log env _ m nss, cancelledRecord, startedRecord, updateMigrationCR_spec,
      setStatus_spec, setVolumes_spec, setStage_spec]
    simp only [List.cons_append, List.nil_append, List.append_assoc, Step.done.injEq,
      Out.mk.injEq, true_and]
  have hm : migrateVolumes env m nss channels =
      { mig := cancelledRecord env m infos
        log := [.StartMigration, .update 764 (startedRecord env m infos) none] ++
          terminateAll channels ++ (runPostExecRule env m nss).log ++
          [failedEvent, .CancelMigration,
            .update 794 (cancelledRecord env m infos) (env.updateErr 794)]
        ret := match env.updateErr 794 with
          | some e => some e
          | none => some ("Error running PostExecRule: " ++ err) } := by
    simp only [migrateVolumes, hvol', if_true, hs]
  rw [hm]
  refine ⟨rfl, rfl, ?_⟩
  cases env.updateErr 794 <;> simp

/-! ## The invocation that follows -/

/-- On a record at stage Final `handle` cancels nothing, deleted or not. -/
theorem handle_final_log (c : MigrationController) (env : Env) (p : Migration)
    (hfinal : p.Status.Stage = .Final) :
    within [.recorded, .update, .GetClusterDomains] (handle c env p).log := by
  by_cases hdel : p.DeletionTimestamp = none
  · obtain ⟨_, hs2, hs3⟩ := scheduleCheck_frame env (withDefaults p)
    simp only [handle, hdel, ne_eq, not_true_eq_false, if_false]
    split
    · rename_i out heq
      rw [heq] at hs2
      exact within_mono (by simp) hs2
    · rename_i m1 log1 _ heq
      obtain ⟨rfl, _⟩ := hs3 _ _ _ heq
      obtain ⟨_, ht2, ht3⟩ := checkTargets_frame c env (withDefaults p)
      split
      · rename_i out heq2
        rw [heq2] at ht2
        exact within_mono (by simp) ht2
      · rename_i m2 log2 nss heq2
        obtain ⟨rfl, _⟩ := ht3 _ _ _ heq2
        obtain ⟨_, hc2, hc3⟩ := clusterDomainCheck_frame env (withDefaults p)
        split
        · rename_i out heq3
          rw [heq3] at hc2
          exact hc2
        · rename_i m3 log3 _ heq3
          have := hc3 _ _ _ heq3
          subst this
          rw [heq3] at hc2
          have hst : (withDefaults p).Status.Stage = .Final := hfinal
          simp only [stageSwitch, hst, List.append_nil]
          exact hc2
  · simp only [handle, hdel, ne_eq, not_false_eq_true, if_true, handleDeletion, cleanup, hfinal,
      not_true_eq_false, if_false, ite_self]
    split <;> simp [Event.kind]

theorem migrateVolumes_later_log (env : Env) (m : Migration) (nss : List String)
    (channels : List Nat) (hv : ¬ m.Status.Volumes = none) :
    within watchKinds (migrateVolumes env m nss channels).log := by
  have hv' : ¬ (setStage m .Volumes).Status.Volumes = none := hv
  simp only [migrateVolumes, hv', if_false, within_append]
  exact ⟨watchVolumes_log env _, within_terminateAll _ _ (by simp [watchKinds])⟩

/-- On a live record at stage Volumes that has a volume list `handle` cancels
nothing: it polls the driver or moves on. -/
theorem handle_watching_log (c : MigrationController) (env : Env) (p : Migration)
    (hdel : p.DeletionTimestamp = none) (hst : p.Status.Stage = .Volumes)
    (hv : ¬ p.Status.Volumes = none) :
    within pollingKinds (handle c env p).log := by
  have hsw : ∀ nss, within pollingKinds (stageSwitch env (withDefaults p) nss).log := by
    intro nss
    have hst' : (withDefaults p).Status.Stage = .Volumes := hst
    have hv' : ¬ (withDefaults p).Status.Volumes = none := hv
    have hm : within pollingKinds (migrateVolumes env (withDefaults p) nss []).log :=
      within_mono (by simp [watchKinds, pollingKinds])
        (migrateVolumes_later_log env (withDefaults p) nss [] hv')
    have hr : EventKind.recorded ∈ pollingKinds := by decide
    have hu : EventKind.update ∈ pollingKinds := by decide
    simp only [stageSwitch, hst', stageVolumes]
    repeat' split
    all_goals simp [hm, failedEvent, Event.kind, hr, hu]
  obtain ⟨_, hs2, hs3⟩ := scheduleCheck_frame env (withDefaults p)
  simp only [handle, hdel, ne_eq, not_true_eq_false, if_false]
  split
  · rename_i out heq
    rw [heq] at hs2
    exact within_mono (by simp [pollingKinds]) hs2
  · rename_i m1 log1 _ heq
    obtain ⟨rfl, _⟩ := hs3 _ _ _ heq
    obtain ⟨_, ht2, ht3⟩ := checkTargets_frame c env (withDefaults p)
    split
    · rename_i out heq2
      rw [heq2] at ht2
      exact within_mono (by simp [pollingKinds]) ht2
    · rename_i m2 log2 nss heq2
      obtain ⟨rfl, _⟩ := ht3 _ _ _ heq2
      obtain ⟨_, hc2, hc3⟩ := clusterDomainCheck_frame env (withDefaults p)
      have hc2' : within pollingKinds (clusterDomainCheck env (withDefaults p)).log :=
        within_mono (by simp [pollingKinds]) hc2
      split
      · rename_i out heq3
        rw [heq3] at hc2'
        exact hc2'
      · rename_i m3 log3 _ heq3
        have := hc3 _ _ _ heq3
        subst this
        rw [heq3] at hc2'
        exact (within_append _ _ _).mpr ⟨hc2', hsw nss⟩

/-- The stored record after the first entry with a failed post-exec rule: the
cancelled record when its write succeeded, the started record otherwise. -/
theorem persisted_postExecRule (env : Env) (m s₁ s₂ : Migration) (channels : List Nat)
    (ruleLog : List Event) (hrule : within [.ExecuteRule] ruleLog) :
    persisted m ([.StartMigration, .update 764 s₁ none] ++ terminateAll channels ++ ruleLog ++
      [failedEvent, .CancelMigration, .update 794 s₂ (env.updateErr 794)]) =
      if env.updateErr 794 = none then s₂ else s₁ := by
  have hterm := within_terminateAll [.terminate] channels (by simp)
  simp only [persisted, lastWritten_append, lastWritten_of_within (by decide) hrule,
    lastWritten_of_within (by decide) hterm]
  cases env.updateErr 794 <;> simp [lastWritten, failedEvent]

/-- C8. On the first entry of `migrateVolumes` (no volume list yet, storage Ready,
StartMigration succeeds and the started volumes are recorded) with a post-exec rule
whose execution fails: CancelMigration is invoked exactly once, the record ends at
stage Final with status Failed and its write is issued, `migrateVolumes` returns an
error, and an invocation of `handle` that follows on the stored record (the failed
record when its write succeeded; otherwise the started record, for which `handle`
is on its live path, where `migrateVolumes` is called) invokes CancelMigration no
further time. -/
theorem migrateVolumes_postExecRule_failure (env : Env) (m : Migration) (nss : List String)
    (channels : List Nat) (infos : Option (List MigrationVolumeInfo))
    (hvol : m.Status.Volumes = none) (hready : ¬ storageNotReady env)
    (hstart : env.StartMigration = .ok infos) (hrecorded : env.updateErr 764 = none)
    (hrule : m.Spec.PostExecRule ≠ "") (hfail : (runPostExecRule env m nss).ret ≠ none) :
    (migrateVolumes env m nss channels).log.count .CancelMigration = 1 ∧
    (migrateVolumes env m nss channels).mig.Status.Stage = .Final ∧
    (migrateVolumes env m nss channels).mig.Status.Status = .Failed ∧
    (migrateVolumes env m nss channels).ret ≠ none ∧
    Event.update 794 (migrateVolumes env m nss channels).mig (env.updateErr 794) ∈
      (migrateVolumes env m nss channels).log ∧
    (env.updateErr 794 = none ∨ m.DeletionTimestamp = none → ∀ c env',
      Event.CancelMigration ∉
        (handle c env' (persisted m (migrateVolumes env m nss channels).log)).log) := by
  obtain ⟨hmig, hlog, hret⟩ :=
    migrateVolumes_postExecRule_eq env m nss channels infos hvol hready hstart hrecorded hrule hfail
  have hrl := (runPostExecRule_frame env m nss).2
  have hR : (runPostExecRule env m nss).log.count .CancelMigration = 0 :=
    count_eq_zero_of_within _ (by simp [Event.kind]) hrl
  have hT : (terminateAll channels).count .CancelMigration = 0 :=
    count_eq_zero_of_within _ (by simp [Event.kind])
      (within_terminateAll [.terminate] channels (by simp))
  refine ⟨?_, ?_, ?_, hret, ?_, ?_⟩
  · rw [hlog]
    simp only [List.count_append, hR, hT]
    simp [List.count_cons, failedEvent]
  · rw [hmig]
    rfl
  · rw [hmig]
    rfl
  · rw [hlog, hmig]
    simp
  · intro hfollow c env'
    rw [hlog, persisted_postExecRule env m _ _ channels _ hrl]
    split
    · exact not_mem_of_within
        (handle_final_log c env' (cancelledRecord env m infos) rfl) _ (by simp [Event.kind])
    · rename_i hwrite
      have hlive : m.DeletionTimestamp = none := hfollow.resolve_left hwrite
      exact not_mem_of_within
        (handle_watching_log c env' (startedRecord env m infos) hlive rfl
          (Option.some_ne_none _)) _ (by simp [Event.kind, pollingKinds])

/-- C8, at a sample: the post-exec rule `resume` fails after one volume was started. -/
theorem migrateVolumes_postExecRule_failure_witness :
    (migrateVolumes failingPostRuleEnv postRuleMigration ["app1"] []).log.count
      .CancelMigration = 1 ∧
    (migrateVolumes failingPostRuleEnv postRuleMigration ["app1"] []).mig.Status.Stage = .Final ∧
    (migrateVolumes failingPostRuleEnv postRuleMigration ["app1"] []).mig.Status.Status = .Failed :=
  ⟨(migrateVolumes_postExecRule_failure failingPostRuleEnv postRuleMigration ["app1"] []
      (some [sampleVolume "v1" .InProgress]) rfl (by decide) rfl rfl (by decide) (by decide)).1,
   (migrateVolumes_postExecRule_failure failingPostRuleEnv postRuleMigration ["app1"] []
      (some [sampleVolume "v1" .InProgress]) rfl (by decide) rfl rfl (by decide) (by decide)).2.1,
   (migrateVolumes_postExecRule_failure failingPostRuleEnv postRuleMigration ["app1"] []
      (some [sampleVolume "v1" .InProgress]) rfl (by decide) rfl rfl (by decide) (by decide)).2.2.1⟩

/-! ## The end of the resource sub-workflow (lines 1011-1129, 1209-1246) -/

theorem overallStatus_successful (resources : List MigrationResourceInfo)
    (h : ∀ r ∈ resources, r.Status = .Successful) : overallStatus resources = .Successful := by
  induction resources with
  | nil => rfl
  | cons r rest ih =>
    simp only [List.mem_cons, forall_eq_or_imp] at h
    simp [overallStatus, h.1, ih h.2]

theorem overallStatus_partial (resources : List MigrationResourceInfo)
    (h : ∃ r ∈ resources, r.Status ≠ .Successful) : overallStatus resources = .PartialSuccess := by
  induction resources with
  | nil => simp at h
  | cons r rest ih =>
    simp only [overallStatus]
    split
    · rfl
    · rename_i hr
      simp only [ne_eq, Decidable.not_not] at hr
      obtain ⟨x, hx, hne⟩ := h
      simp only [List.mem_cons] at hx
      rcases hx with rfl | hx
      · exact absurd hr hne
      · exact ih ⟨x, hx, hne⟩

theorem stampResources_frame (env : Env) (m : Migration) :
    (stampResources env m).mig.Status.Stage = m.Status.Stage ∧
    (stampResources env m).mig.Status.Status = m.Status.Status ∧
    (stampResources env m).mig.Status.Resources = m.Status.Resources ∧
    (stampResources env m).mig.Status.ResourceMigrationFinishTimestamp = some (env.now 1122) ∧
    (stampResources env m).mig.Status.FinishTimestamp = some (env.now 1123) :=
  ⟨rfl, rfl, rfl, rfl, rfl⟩

theorem recordResources_next_spec (env : Env) (m m1 : Migration) (volumesOnly : Bool)
    (log1 : List Event) (h : recordResources env m volumesOnly = .next m1 log1 ()) :
    m1.Spec = m.Spec := by
  have := (recordResources_frame env m volumesOnly).2.2.1
  rw [h] at this
  exact this

theorem transferResources_next_spec (env : Env) (m m1 : Migration)
    (log1 : List Event) (h : transferResources env m = .next m1 log1 ()) :
    m1.Spec = m.Spec := by
  have := (transferResources_frame env m).2.1
  rw [h] at this
  exact this

theorem migrateResources_completed (env : Env) (m m1 m2 : Migration) (volumesOnly : Bool)
    (log1 log2 : List Event)
    (hready : resourcesNotReady env m = none)
    (hrecord : recordResources env m volumesOnly = .next m1 log1 ())
    (htransfer : transferResources env m1 = .next m2 log2 ()) :
    migrateResources env m volumesOnly =
      { mig := (finishResources env m2).mig, log := log1 ++ log2 ++ (finishResources env m2).log,
        ret := (finishResources env m2).ret } ∧ m2.Spec = m.Spec := by
  refine ⟨?_, ?_⟩
  · simp only [migrateResources, hready, hrecord, htransfer]
  · rw [transferResources_next_spec env m1 m2 log2 htransfer,
      recordResources_next_spec env m m1 volumesOnly log1 hrecord]

theorem finishResources_without_purge (env : Env) (m : Migration)
    (hpurge : deref m.Spec.PurgeDeletedResources = false) :
    finishResources env m =
      stampResources env (setStatus (setStage m .Final) (overallStatus m.Status.Resources)) := by
  simp only [finishResources, setStatus_spec, setStage_spec, hpurge]
  simp

/-- C11: when the resource sub-workflow has collected and recorded the objects
and has prepared, applied and repaired them without an error, and no purge is
requested, the Migration ends at stage Final with status Successful if every entry
of `Status.Resources` is Successful and with status PartialSuccess otherwise. -/
theorem migrateResources_overall_status (env : Env) (m m1 m2 : Migration) (volumesOnly : Bool)
    (log1 log2 : List Event)
    (hready : resourcesNotReady env m = none)
    (hrecord : recordResources env m volumesOnly = .next m1 log1 ())
    (htransfer : transferResources env m1 = .next m2 log2 ())
    (hpurge : deref m.Spec.PurgeDeletedResources = false) :
    (migrateResources env m volumesOnly).mig.Status.Stage = .Final ∧
    ((∀ r ∈ (migrateResources env m volumesOnly).mig.Status.Resources, r.Status = .Successful) →
      (migrateResources env m volumesOnly).mig.Status.Status = .Successful) ∧
    ((∃ r ∈ (migrateResources env m volumesOnly).mig.Status.Resources, r.Status ≠ .Successful) →
      (migrateResources env m volumesOnly).mig.Status.Status = .PartialSuccess) := by
  obtain ⟨heq, hspec⟩ := migrateResources_completed env m m1 m2 volumesOnly log1 log2 hready
    hrecord htransfer
  rw [← hspec] at hpurge
  rw [heq, finishResources_without_purge env m2 hpurge]
  refine ⟨rfl, ?_, ?_⟩
  · intro h
    exact overallStatus_successful _ h
  · intro h
    exact overallStatus_partial _ h

theorem migrateResources_overall_status_witness :
    (migrateResources oneWorkloadEnv applicationsMigration false).mig.Status.Stage = .Final ∧
    ((∀ r ∈ (migrateResources oneWorkloadEnv applicationsMigration false).mig.Status.Resources,
        r.Status = .Successful) →
      (migrateResources oneWorkloadEnv applicationsMigration false).mig.Status.Status =
        .Successful) ∧
    ((∃ r ∈ (migrateResources oneWorkloadEnv applicationsMigration false).mig.Status.Resources,
        r.Status ≠ .Successful) →
      (migrateResources oneWorkloadEnv applicationsMigration false).mig.Status.Status =
        .PartialSuccess) :=
  migrateResources_overall_status oneWorkloadEnv applicationsMigration
    (recordResources oneWorkloadEnv applicationsMigration false).mig
    (transferResources oneWorkloadEnv
      (recordResources oneWorkloadEnv applicationsMigration false).mig).mig false
    (recordResources oneWorkloadEnv applicationsMigration false).log
    (transferResources oneWorkloadEnv
      (recordResources oneWorkloadEnv applicationsMigration false).mig).log
    (by decide) (by rfl) (by rfl) (by decide)

/-- C12: a volumes-only migration whose volume has finished and whose
PersistentVolumeClaim entry is recorded as Failed ends `migrateVolumes` with status
Successful (lines 872-874 overwrite the status that lines 1101-1108 computed), although
the recorded entries yield PartialSuccess. -/
theorem migrateVolumes_volumes_only_overwrites :
    (migrateVolumes claimFailsEnv volumesOnlyMigration ["app1"] []).ret = none ∧
    (migrateVolumes claimFailsEnv volumesOnlyMigration ["app1"] []).mig.Status.Stage = .Final ∧
    (migrateVolumes claimFailsEnv volumesOnlyMigration ["app1"] []).mig.Status.Status =
      .Successful ∧
    ((migrateVolumes claimFailsEnv volumesOnlyMigration ["app1"] []).mig.Status.Resources.map
      (fun r => (r.Kind, r.Status))) =
      [("PersistentVolume", .Successful), ("PersistentVolumeClaim", .Failed)] ∧
    overallStatus (migrateVolumes claimFailsEnv volumesOnlyMigration ["app1"] []).mig.Status.Resources =
      .PartialSuccess := by
  decide

/-- C13: when a PersistentVolume cannot be applied and the write of line 2087
succeeds, `applyResources` returns nil, the resource sub-workflow goes on and ends at
stage Final with status PartialSuccess: lines 1101-1108 overwrite the status Failed
that lines 2083-2086 had set. -/
theorem migrateResources_pv_apply_failure :
    (applyResources diskFailsEnv
      (recordResources diskFailsEnv applicationsMigration false).mig).mig.Status.Status = .Failed ∧
    (migrateResources diskFailsEnv applicationsMigration false).ret = none ∧
    (migrateResources diskFailsEnv applicationsMigration false).mig.Status.Stage = .Final ∧
    (migrateResources diskFailsEnv applicationsMigration false).mig.Status.Status =
      .PartialSuccess := by
  decide

/-- C14, as written, fails: with a purge that cannot delete, after a Deployment was
applied successfully, `migrateResources` returns nil with status Successful, and
neither finish time is stamped. -/
theorem migrateResources_purge_failure_counterexample :
    (migrateResources purgeFailsEnv purgingMigration false).ret = none ∧
    (migrateResources purgeFailsEnv purgingMigration false).mig.Status.Status = .Successful ∧
    (migrateResources purgeFailsEnv purgingMigration false).mig.Status.ResourceMigrationFinishTimestamp
      = none ∧
    (migrateResources purgeFailsEnv purgingMigration false).mig.Status.FinishTimestamp = none := by
  decide

theorem purgeMigratedResources_ret (env : Env) (m₁ m₂ : Migration) :
    (purgeMigratedResources env m₁).ret = (purgeMigratedResources env m₂).ret := by
  simp only [purgeMigratedResources]
  repeat' split
  all_goals rfl

theorem purgeMigratedResources_failed (env : Env) (m : Migration) (err : String)
    (h : (purgeMigratedResources env m).ret = some err) :
    (purgeMigratedResources env m).mig.Status = m.Status := by
  revert h
  simp only [purgeMigratedResources]
  repeat' split
  all_goals first | (intro _; rfl) | (intro h; simp at h)

theorem finishResources_purge_failed (env : Env) (m : Migration) (err : String)
    (hpurge : deref m.Spec.PurgeDeletedResources = true)
    (hfail : (purgeMigratedResources env m).ret = some err) :
    (finishResources env m).ret = none ∧
    (finishResources env m).mig.Status =
      (setStatus (setStage m .Final) (overallStatus m.Status.Resources)).Status ∧
    (finishResources env m).log.getLast? =
      some (.recorded true MigrationStatusType.PartialSuccess.text) := by
  have hfail2 : (purgeMigratedResources env
      (setStatus (setStage m .Final) (overallStatus m.Status.Resources))).ret = some err := by
    rw [purgeMigratedResources_ret env _ m]
    exact hfail
  have hst := purgeMigratedResources_failed env _ err hfail2
  simp only [finishResources, setStatus_spec, setStage_spec, hpurge, if_true, hfail2]
  refine ⟨trivial, hst, ?_⟩
  simp

/-- C14, amended: when the purge fails after a successful apply, `migrateResources`
returns no error and records a warning event with reason PartialSuccess; the record
is at stage Final and its status is the one computed from the resource entries:
Successful if every entry is Successful, PartialSuccess otherwise. -/
theorem migrateResources_purge_failure (env : Env) (m m1 m2 : Migration) (volumesOnly : Bool)
    (log1 log2 : List Event) (err : String)
    (hready : resourcesNotReady env m = none)
    (hrecord : recordResources env m volumesOnly = .next m1 log1 ())
    (htransfer : transferResources env m1 = .next m2 log2 ())
    (hpurge : deref m.Spec.PurgeDeletedResources = true)
    (hfail : (purgeMigratedResources env m2).ret = some err) :
    (migrateResources env m volumesOnly).ret = none ∧
    (migrateResources env m volumesOnly).log.getLast? =
      some (.recorded true MigrationStatusType.PartialSuccess.text) ∧
    (migrateResources env m volumesOnly).mig.Status.Stage = .Final ∧
    ((∀ r ∈ (migrateResources env m volumesOnly).mig.Status.Resources, r.Status = .Successful) →
      (migrateResources env m volumesOnly).mig.Status.Status = .Successful) ∧
    ((∃ r ∈ (migrateResources env m volumesOnly).mig.Status.Resources, r.Status ≠ .Successful) →
      (migrateResources env m volumesOnly).mig.Status.Status = .PartialSuccess) := by
  obtain ⟨heq, hspec⟩ := migrateResources_completed env m m1 m2 volumesOnly log1 log2 hready
    hrecord htransfer
  rw [← hspec] at hpurge
  obtain ⟨hret, hstatus, hlog⟩ := finishResources_purge_failed env m2 err hpurge hfail
  rw [heq]
  refine ⟨hret, ?_, ?_, ?_, ?_⟩
  · show (log1 ++ log2 ++ (finishResources env m2).log).getLast? = _
    rw [List.getLast?_append, hlog]
    rfl
  · show (finishResources env m2).mig.Status.Stage = _
    rw [hstatus]
    rfl
  · intro h
    show (finishResources env m2).mig.Status.Status = _
    have h' : ∀ r ∈ (finishResources env m2).mig.Status.Resources, r.Status = .Successful := h
    rw [hstatus] at h' ⊢
    exact overallStatus_successful _ h'
  · intro h
    show (finishResources env m2).mig.Status.Status = _
    have h' : ∃ r ∈ (finishResources env m2).mig.Status.Resources, r.Status ≠ .Successful := h
    rw [hstatus] at h' ⊢
    exact overallStatus_partial _ h'

theorem migrateResources_purge_failure_witness :
    (migrateResources purgeFailsEnv purgingMigration false).ret = none ∧
    (migrateResources purgeFailsEnv purgingMigration false).log.getLast? =
      some (.recorded true MigrationStatusType.PartialSuccess.text) ∧
    (migrateResources purgeFailsEnv purgingMigration false).mig.Status.Stage = .Final ∧
    ((∀ r ∈ (migrateResources purgeFailsEnv purgingMigration false).mig.Status.Resources,
        r.Status = .Successful) →
      (migrateResources purgeFailsEnv purgingMigration false).mig.Status.Status = .Successful) ∧
    ((∃ r ∈ (migrateResources purgeFailsEnv purgingMigration false).mig.Status.Resources,
        r.Status ≠ .Successful) →
      (migrateResources purgeFailsEnv purgingMigration false).mig.Status.Status =
        .PartialSuccess) :=
  migrateResources_purge_failure purgeFailsEnv purgingMigration
    (recordResources purgeFailsEnv purgingMigration false).mig
    (transferResources purgeFailsEnv
      (recordResources purgeFailsEnv purgingMigration false).mig).mig false
    (recordResources purgeFailsEnv purgingMigration false).log
    (transferResources purgeFailsEnv
      (recordResources purgeFailsEnv purgingMigration false).mig).log
    "forbidden" (by decide) (by rfl) (by rfl) (by decide) (by decide)

theorem buildResourceInfos_ok (volumesOnly : Bool) (objects : List Unstructured)
    (infos result : List MigrationResourceInfo)
    (h : buildResourceInfos volumesOnly objects infos = .ok result) :
    result = infos ++
      (objects.filter (fun o =>
        !volumesOnly || o.Kind == "PersistentVolume" || o.Kind == "PersistentVolumeClaim")).map
        (fun o =>
          { Name := o.Name, Namespace := o.Namespace,
            Group := if o.Group = "" then "core" else o.Group,
            Version := o.Version, Kind := o.Kind,
            Status := .InProgress, Reason := "", TransformedBy := "" }) := by
  induction objects generalizing infos with
  | nil =>
    simp only [buildResourceInfos, Except.ok.injEq] at h
    simp [h]
  | cons obj rest ih =>
    simp only [buildResourceInfos] at h
    split at h
    · exact absurd h (by simp)
    · split at h
      · rename_i hskip
        have hk : (!volumesOnly || obj.Kind == "PersistentVolume" ||
            obj.Kind == "PersistentVolumeClaim") = false := by
          obtain ⟨hv, hkind⟩ := hskip
          simp only [not_or] at hkind
          simp [hv, hkind.1, hkind.2]
        simp only [List.filter_cons, hk]
        exact ih infos h
      · rename_i hkeep
        have hk : (!volumesOnly || obj.Kind == "PersistentVolume" ||
            obj.Kind == "PersistentVolumeClaim") = true := by
          cases volumesOnly
          · simp
          · simp only [true_and, not_not] at hkeep
            rcases hkeep with h1 | h1 <;> simp [h1]
        simp only [List.filter_cons, hk, if_true, List.map_cons]
        rw [ih _ h]
        simp

theorem buildResourceInfos_readable (volumesOnly : Bool) (objects : List Unstructured)
    (infos : List MigrationResourceInfo) (hacc : ∀ o ∈ objects, o.accessorErr = none) :
    ∃ result, buildResourceInfos volumesOnly objects infos = .ok result := by
  induction objects generalizing infos with
  | nil => exact ⟨infos, rfl⟩
  | cons obj rest ih =>
    simp only [List.mem_cons, forall_eq_or_imp] at hacc
    simp only [buildResourceInfos, hacc.1]
    split
    · exact ih _ hacc.2
    · exact ih _ hacc.2

theorem collectResources_ok_log (env : Env) (volumesOnly : Bool) (log : List Event)
    (objects : List Unstructured) (h : collectResources env volumesOnly = (log, .ok objects)) :
    log = [.resource (.collect volumesOnly)] := by
  revert h
  simp only [collectResources]
  repeat' split
  all_goals simp_all

theorem recordResources_log_eq (env : Env) (m : Migration) (volumesOnly : Bool)
    (log : List Event) (objects : List Unstructured) (infos : List MigrationResourceInfo)
    (hcollect : collectResources env volumesOnly = (log, .ok objects))
    (hbuild : buildResourceInfos volumesOnly objects [] = .ok infos) :
    (recordResources env m volumesOnly).log =
      log ++ [.update 1046 (withSummary env 1046 (setResources m infos)) (env.updateErr 1046)] := by
  simp only [recordResources, hcollect, hbuild, updateMigrationCR]
  split <;> rfl

/-- C15: when the objects are collected and their metadata can be read, the
first side effect of `migrateResources` after the collection, before anything is
prepared or applied, is the write of line 1046, and the `Status.Resources` it writes
has one entry per collected object, in the order of the collection (in volumes-only
mode: per PersistentVolume and PersistentVolumeClaim, none for another kind), with
status InProgress, the name, namespace, version and kind of the object, and its group,
`core` standing for the empty group. -/
theorem migrateResources_records_collected (env : Env) (m : Migration) (volumesOnly : Bool)
    (log : List Event) (objects : List Unstructured)
    (hready : resourcesNotReady env m = none)
    (hcollect : collectResources env volumesOnly = (log, .ok objects))
    (hacc : ∀ o ∈ objects, o.accessorErr = none) :
    log = [.resource (.collect volumesOnly)] ∧
    ∃ snapshot rest,
      (migrateResources env m volumesOnly).log =
        log ++ Event.update 1046 snapshot (env.updateErr 1046) :: rest ∧
      snapshot.Status.Resources =
        (objects.filter (fun o =>
          !volumesOnly || o.Kind == "PersistentVolume" || o.Kind == "PersistentVolumeClaim")).map
          (fun o =>
            { Name := o.Name, Namespace := o.Namespace,
              Group := if o.Group = "" then "core" else o.Group,
              Version := o.Version, Kind := o.Kind,
              Status := .InProgress, Reason := "", TransformedBy := "" }) := by
  refine ⟨collectResources_ok_log env volumesOnly log objects hcollect, ?_⟩
  obtain ⟨infos, hbuild⟩ := buildResourceInfos_readable volumesOnly objects [] hacc
  have hinfos := buildResourceInfos_ok volumesOnly objects [] infos hbuild
  have hlog := recordResources_log_eq env m volumesOnly log objects infos hcollect hbuild
  simp only [List.nil_append] at hinfos
  refine ⟨withSummary env 1046 (setResources m infos), ?_, ?_, ?_⟩
  · exact match recordResources env m volumesOnly with
      | .done _ => []
      | .next m1 _ _ =>
        match transferResources env m1 with
        | .done out => out.log
        | .next m2 log2 _ => log2 ++ (finishResources env m2).log
  · simp only [migrateResources, hready]
    split
    · rename_i out heq
      rw [heq] at hlog
      simp only [Step.log_done] at hlog
      simp [hlog, heq]
    · rename_i m1 log1 _ heq
      rw [heq] at hlog
      simp only [Step.log_next] at hlog
      split
      · rename_i heq2
        simp [hlog, heq, heq2]
      · rename_i heq2
        simp [hlog, heq, heq2]
  · rw [← hinfos]
    rfl

theorem migrateResources_records_collected_witness :
    [Event.resource (.collect true)] = [.resource (.collect true)] ∧
    ∃ snapshot rest,
      (migrateResources claimFailsEnv volumesOnlyMigration true).log =
        [Event.resource (.collect true)] ++
          Event.update 1046 snapshot (claimFailsEnv.updateErr 1046) :: rest ∧
      snapshot.Status.Resources =
        ([sampleDisk, sampleClaim].filter (fun o =>
          !true || o.Kind == "PersistentVolume" || o.Kind == "PersistentVolumeClaim")).map
          (fun o =>
            { Name := o.Name, Namespace := o.Namespace,
              Group := if o.Group = "" then "core" else o.Group,
              Version := o.Version, Kind := o.Kind,
              Status := .InProgress, Reason := "", TransformedBy := "" }) :=
  migrateResources_records_collected claimFailsEnv volumesOnlyMigration true
    [.resource (.collect true)] [sampleDisk, sampleClaim] (by decide) (by rfl) (by decide)

theorem updateResourceList_length (env : Env) (spec : MigrationSpec) (object : Unstructured)
    (status : MigrationStatusType) (reason : String) (resources : List MigrationResourceInfo) :
    (updateResourceList env spec object status reason resources).1.length = resources.length := by
  induction resources with
  | nil => rfl
  | cons r rest ih =>
    unfold updateResourceList
    split
    · simp [ih]
    · split
      · simp
      · simp [ih]

theorem updateResourceList_unreadable (env : Env) (spec : MigrationSpec) (object : Unstructured)
    (status : MigrationStatusType) (reason : String) (resources : List MigrationResourceInfo)
    (h : object.accessorErr ≠ none) :
    (updateResourceList env spec object status reason resources).1 = resources := by
  induction resources with
  | nil => rfl
  | cons r rest ih =>
    unfold updateResourceList
    simp [h, ih]

theorem updateResourceList_no_match (env : Env) (spec : MigrationSpec) (object : Unstructured)
    (status : MigrationStatusType) (reason : String) (resources : List MigrationResourceInfo)
    (h : ∀ r ∈ resources, resourceMatches r object = false) :
    (updateResourceList env spec object status reason resources).1 = resources := by
  induction resources with
  | nil => rfl
  | cons r rest ih =>
    simp only [List.mem_cons, forall_eq_or_imp] at h
    unfold updateResourceList
    split
    · simp [ih h.2]
    · simp [h.1, ih h.2]

theorem updateResourceList_first_match (env : Env) (spec : MigrationSpec) (object : Unstructured)
    (status : MigrationStatusType) (reason : String) (pre post : List MigrationResourceInfo)
    (r : MigrationResourceInfo) (hacc : object.accessorErr = none)
    (hpre : ∀ x ∈ pre, resourceMatches x object = false) (hr : resourceMatches r object = true) :
    ∃ r', (updateResourceList env spec object status reason (pre ++ r :: post)).1 =
        pre ++ r' :: post ∧
      r'.Status = status ∧ r'.Reason = reason ∧ r'.Name = r.Name ∧ r'.Namespace = r.Namespace ∧
      r'.Group = r.Group ∧ r'.Version = r.Version ∧ r'.Kind = r.Kind := by
  induction pre with
  | nil =>
    simp only [List.nil_append]
    unfold updateResourceList
    simp only [hacc, ne_eq, not_true_eq_false, if_false, hr, if_true]
    refine ⟨_, rfl, rfl, rfl, ?_⟩
    split
    · split <;> exact ⟨rfl, rfl, rfl, rfl, rfl⟩
    · exact ⟨rfl, rfl, rfl, rfl, rfl⟩
  | cons x rest ih =>
    simp only [List.mem_cons, forall_eq_or_imp] at hpre
    obtain ⟨r', h1, h2⟩ := ih hpre.2
    refine ⟨r', ?_, h2⟩
    simp only [List.cons_append]
    unfold updateResourceList
    simp [hacc, hpre.1, h1]

/-- C16: `updateResourceStatus` keeps the length and the order of
`Status.Resources`. For an object whose metadata can be read it sets the status and
the reason of the first entry whose name, namespace, group, version and kind are the
object's (an entry of group `core` matching the empty group) and keeps every other
entry; when no entry matches, or the metadata cannot be read, the list is unchanged. -/
theorem updateResourceStatus_first_match (env : Env) (m : Migration) (object : Unstructured)
    (status : MigrationStatusType) (reason : String) :
    (updateResourceStatus env m object status reason).mig.Status.Resources.length =
      m.Status.Resources.length ∧
    (object.accessorErr ≠ none →
      (updateResourceStatus env m object status reason).mig.Status.Resources =
        m.Status.Resources) ∧
    ((∀ r ∈ m.Status.Resources, resourceMatches r object = false) →
      (updateResourceStatus env m object status reason).mig.Status.Resources =
        m.Status.Resources) ∧
    (object.accessorErr = none →
      ∀ (pre post : List MigrationResourceInfo) (r : MigrationResourceInfo),
        m.Status.Resources = pre ++ r :: post →
        (∀ x ∈ pre, resourceMatches x object = false) → resourceMatches r object = true →
        ∃ r', (updateResourceStatus env m object status reason).mig.Status.Resources =
            pre ++ r' :: post ∧
          r'.Status = status ∧ r'.Reason = reason ∧ r'.Name = r.Name ∧
          r'.Namespace = r.Namespace ∧ r'.Group = r.Group ∧ r'.Version = r.Version ∧
          r'.Kind = r.Kind) := by
  refine ⟨updateResourceList_length env _ _ _ _ _, updateResourceList_unreadable env _ _ _ _ _,
    updateResourceList_no_match env _ _ _ _ _, ?_⟩
  intro hacc pre post r hres hpre hr
  show ∃ r', (updateResourceList env m.Spec object status reason m.Status.Resources).1 = _ ∧ _
  rw [hres]
  exact updateResourceList_first_match env _ _ _ _ pre post r hacc hpre hr

theorem updateResourceStatus_first_match_witness :
    ((updateResourceStatus calmEnv listedMigration sampleClaim .Failed
        "Error applying resource").mig.Status.Resources.map
      (fun r => (r.Name, r.Kind, r.Status, r.Reason))) =
      [("web", "Deployment", .InProgress, ""),
       ("data", "PersistentVolumeClaim", .Failed, "Error applying resource"),
       ("data", "PersistentVolumeClaim", .InProgress, "")] ∧
    (updateResourceStatus calmEnv listedMigration sampleClaim .Failed
        "Error applying resource").mig.Status.Resources.length =
      listedMigration.Status.Resources.length :=
  ⟨by decide,
    (updateResourceStatus_first_match calmEnv listedMigration sampleClaim .Failed
      "Error applying resource").1⟩

/-! ## Unstructured content -/

theorem lookup_cons_eq {β : Type} (a k : String) (b : β) (es : List (String × β)) :
    List.lookup a ((k, b) :: es) = if a = k then some b else List.lookup a es := by
  by_cases h : a = k
  · subst h
    simp [List.lookup]
  · have hb : (a == k) = false := by simpa using h
    simp [List.lookup, hb, h]

theorem lookup_fieldSet (m : Content) (k k' : String) (v : Value) :
    (fieldSet m k v).lookup k' = if k' = k then some v else m.lookup k' := by
  induction m with
  | nil => simp [fieldSet, lookup_cons_eq]
  | cons e rest ih =>
    obtain ⟨k₀, v₀⟩ := e
    unfold fieldSet
    by_cases h0 : k₀ = k <;> by_cases h : k' = k <;> by_cases h1 : k' = k₀ <;>
      simp_all [lookup_cons_eq]

theorem lookup_mapSet (m : StrMap) (k k' v : String) :
    (mapSet m k v).lookup k' = if k' = k then some v else m.lookup k' := by
  have hmap : ∀ l : StrMap,
      (l.map (fun e => if e.1 == k then (k, v) else e)).lookup k' =
        if k' = k then (if l.any (fun e => e.1 == k) then some v else none)
        else l.lookup k' := by
    intro l
    induction l with
    | nil => simp
    | cons e rest ih =>
      obtain ⟨k₀, v₀⟩ := e
      by_cases h0 : k₀ = k
      · by_cases h : k' = k <;> by_cases h1 : k' = k₀ <;> simp_all [lookup_cons_eq]
      · have hb : (k₀ == k) = false := by simpa using h0
        simp only [List.map_cons, hb, Bool.false_eq_true, if_false, lookup_cons_eq,
          List.any_cons, Bool.false_or, ih]
        by_cases h : k' = k <;> by_cases h1 : k' = k₀ <;> simp_all
  have happ : ∀ l : StrMap, ¬ l.any (fun e => e.1 == k) = true →
      (l ++ [(k, v)]).lookup k' = if k' = k then some v else l.lookup k' := by
    intro l
    induction l with
    | nil => simp [lookup_cons_eq]
    | cons e rest ih =>
      obtain ⟨k₀, v₀⟩ := e
      intro hany
      have h0 : ¬ k₀ = k := by
        intro e
        apply hany
        simp [e]
      have hany' : ¬ rest.any (fun e => e.1 == k) = true := by
        intro e
        apply hany
        simp only [List.any_cons, e, Bool.or_true]
      have ih' := ih hany'
      by_cases h : k' = k <;> by_cases h1 : k' = k₀ <;>
        simp_all [lookup_cons_eq]
  unfold mapSet
  split
  · rename_i hany
    rw [hmap, hany]
    simp
  · rename_i hany
    exact happ m hany

theorem NestedFieldNoCopy_map_cons (m : Content) (field : String) (rest : List String) :
    NestedFieldNoCopy (.map m) (field :: rest) =
      match m.lookup field with
      | none => .ok none
      | some val => NestedFieldNoCopy val rest := by
  simp only [NestedFieldNoCopy]

theorem NestedFieldNoCopy_empty (field : String) (rest : List String) :
    NestedFieldNoCopy (.map []) (field :: rest) = .ok none := by
  simp [NestedFieldNoCopy_map_cons]

/-- Reading the path that `SetNestedField` wrote gives the value written. -/
theorem SetNestedField_get_same (path : List String) (obj obj' : Content) (value : Value)
    (h : SetNestedField obj value path = .ok obj') :
    NestedFieldNoCopy (.map obj') path = .ok (some value) := by
  induction path generalizing obj obj' with
  | nil => simp [SetNestedField] at h
  | cons field rest ih =>
    cases rest with
    | nil =>
      simp only [SetNestedField, Except.ok.injEq] at h
      subst h
      simp [NestedFieldNoCopy_map_cons, lookup_fieldSet, NestedFieldNoCopy]
    | cons next rest =>
      simp only [SetNestedField] at h
      split at h
      · split at h
        · simp at h
        · rename_i sub' hsub
          simp only [Except.ok.injEq] at h
          subst h
          simp [NestedFieldNoCopy_map_cons, lookup_fieldSet, ih _ _ hsub]
      · simp at h
      · split at h
        · simp at h
        · rename_i sub' hsub
          simp only [Except.ok.injEq] at h
          subst h
          simp [NestedFieldNoCopy_map_cons, lookup_fieldSet, ih _ _ hsub]

/-- A path that neither leads to the path `SetNestedField` wrote nor lies below it
reads the same before and after. -/
theorem SetNestedField_get_disjoint (written : List String) (obj obj' : Content) (value : Value)
    (path : List String) (h : SetNestedField obj value written = .ok obj')
    (h1 : ¬ path <+: written) (h2 : ¬ written <+: path) :
    NestedFieldNoCopy (.map obj') path = NestedFieldNoCopy (.map obj) path := by
  induction written generalizing obj obj' path with
  | nil => simp [SetNestedField] at h
  | cons field rest ih =>
    cases path with
    | nil => exact absurd List.nil_prefix h1
    | cons p ps =>
      by_cases hp : p = field
      · subst hp
        cases rest with
        | nil => exact absurd (List.cons_prefix_cons.mpr ⟨rfl, List.nil_prefix⟩) h2
        | cons next rest =>
          have h1' : ¬ ps <+: next :: rest := fun e => h1 (List.cons_prefix_cons.mpr ⟨rfl, e⟩)
          have h2' : ¬ next :: rest <+: ps := fun e => h2 (List.cons_prefix_cons.mpr ⟨rfl, e⟩)
          simp only [SetNestedField] at h
          split at h
          · rename_i sub hlook
            split at h
            · simp at h
            · rename_i sub' hsub
              simp only [Except.ok.injEq] at h
              subst h
              simp [NestedFieldNoCopy_map_cons, lookup_fieldSet, hlook, ih _ _ _ hsub h1' h2']
          · simp at h
          · rename_i hlook
            split at h
            · simp at h
            · rename_i sub' hsub
              simp only [Except.ok.injEq] at h
              subst h
              have hps : ∃ q qs, ps = q :: qs := by
                cases ps with
                | nil => exact absurd List.nil_prefix h1'
                | cons q qs => exact ⟨q, qs, rfl⟩
              obtain ⟨q, qs, rfl⟩ := hps
              simp [NestedFieldNoCopy_map_cons, lookup_fieldSet, hlook,
                ih _ _ _ hsub h1' h2']
      · have hobj : obj'.lookup p = obj.lookup p := by
          cases rest with
          | nil =>
            simp only [SetNestedField, Except.ok.injEq] at h
            subst h
            simp [lookup_fieldSet, hp]
          | cons next rest =>
            simp only [SetNestedField] at h
            split at h
            · split at h
              · simp at h
              · simp only [Except.ok.injEq] at h
                subst h
                simp [lookup_fieldSet, hp]
            · simp at h
            · split at h
              · simp at h
              · simp only [Except.ok.injEq] at h
                subst h
                simp [lookup_fieldSet, hp]
        simp [NestedFieldNoCopy_map_cons, hobj]

theorem NestedInt64_congr (a b : Content) (p q : List String)
    (h : NestedFieldNoCopy (.map a) p = NestedFieldNoCopy (.map b) q) :
    NestedInt64 a p = NestedInt64 b q := by
  simp only [NestedInt64, h]

theorem NestedString_congr (a b : Content) (p q : List String)
    (h : NestedFieldNoCopy (.map a) p = NestedFieldNoCopy (.map b) q) :
    NestedString a p = NestedString b q := by
  simp only [NestedString, h]

theorem NestedStringMap_congr (a b : Content) (p q : List String)
    (h : NestedFieldNoCopy (.map a) p = NestedFieldNoCopy (.map b) q) :
    NestedStringMap a p = NestedStringMap b q := by
  simp only [NestedStringMap, h]

theorem stringEntries_map (m : StrMap) :
    stringEntries (m.map (fun e => (e.1, Value.str e.2))) = some m := by
  induction m with
  | nil => rfl
  | cons e rest ih =>
    obtain ⟨k, v⟩ := e
    simp [stringEntries, ih]

/-- Reading the string map that `SetNestedStringMap` wrote gives the map written. -/
theorem SetNestedStringMap_get_same (path : List String) (obj obj' : Content) (value : StrMap)
    (h : SetNestedStringMap obj value path = .ok obj') :
    NestedStringMap obj' path = .ok (some value) := by
  simp only [NestedStringMap, SetNestedField_get_same path obj obj' _ h, stringEntries_map]

/-- Writing below a field that is absent or holds a map succeeds. -/
theorem SetNestedField_two (obj : Content) (value : Value) (a b : String)
    (h : ∀ x, obj.lookup a = some x → ∃ m, x = .map m) :
    ∃ obj', SetNestedField obj value [a, b] = .ok obj' := by
  simp only [SetNestedField]
  cases hl : obj.lookup a with
  | none => exact ⟨_, rfl⟩
  | some x =>
    obtain ⟨m, rfl⟩ := h x hl
    exact ⟨_, rfl⟩

/-- After a write below the field `a`, the field `a` holds a map. -/
theorem SetNestedField_parent (obj obj' : Content) (value : Value) (a b : String)
    (rest : List String) (h : SetNestedField obj value (a :: b :: rest) = .ok obj') :
    ∃ m, obj'.lookup a = some (.map m) := by
  simp only [SetNestedField] at h
  split at h
  · split at h
    · simp at h
    · simp only [Except.ok.injEq] at h
      subst h
      exact ⟨_, by rw [lookup_fieldSet, if_pos rfl]⟩
  · simp at h
  · split at h
    · simp at h
    · simp only [Except.ok.injEq] at h
      subst h
      exact ⟨_, by rw [lookup_fieldSet, if_pos rfl]⟩

/-- A write below the field `a` leaves every other field of the object alone. -/
theorem SetNestedField_other (obj obj' : Content) (value : Value) (a k : String)
    (rest : List String) (h : SetNestedField obj value (a :: rest) = .ok obj') (hk : k ≠ a) :
    obj'.lookup k = obj.lookup k := by
  cases rest with
  | nil =>
    simp only [SetNestedField, Except.ok.injEq] at h
    subst h
    simp [lookup_fieldSet, hk]
  | cons next rest =>
    simp only [SetNestedField] at h
    split at h
    · split at h
      · simp at h
      · simp only [Except.ok.injEq] at h
        subst h
        simp [lookup_fieldSet, hk]
    · simp at h
    · split at h
      · simp at h
      · simp only [Except.ok.injEq] at h
        subst h
        simp [lookup_fieldSet, hk]

theorem digitChar_toNat (d : Nat) (h : d < 10) : (digitChar d).toNat = 48 + d := by
  interval_cases d <;> rfl

theorem parseDigits_natDigits (fuel n : Nat) (acc : List Char) (h : n < fuel) :
    parseDigits (natDigits fuel n acc) 0 = parseDigits acc n := by
  induction fuel generalizing n acc with
  | zero => omega
  | succ fuel ih =>
    have hd : (digitChar (n % 10)).toNat = 48 + n % 10 := digitChar_toNat _ (Nat.mod_lt _ (by omega))
    have hdigit : ∀ a, parseDigits (digitChar (n % 10) :: acc) a =
        parseDigits acc (a * 10 + n % 10) := by
      intro a
      have h1 : 48 ≤ 48 + n % 10 ∧ 48 + n % 10 ≤ 57 := by omega
      simp only [parseDigits, hd, h1, and_self, if_true]
      congr 1
      omega
    simp only [natDigits]
    split
    · rename_i hz
      rw [hdigit]
      congr 1
      omega
    · rename_i hz
      rw [ih (n / 10) _ (by omega), hdigit]
      congr 1
      omega

theorem natDigits_head (fuel n : Nat) (acc : List Char) :
    ∃ d tl, d < 10 ∧ natDigits (fuel + 1) n acc = digitChar d :: tl := by
  induction fuel generalizing n acc with
  | zero =>
    simp only [natDigits]
    split
    · exact ⟨n % 10, acc, Nat.mod_lt _ (by omega), rfl⟩
    · exact ⟨n % 10, acc, Nat.mod_lt _ (by omega), rfl⟩
  | succ fuel ih =>
    rw [natDigits]
    split
    · exact ⟨n % 10, acc, Nat.mod_lt _ (by omega), rfl⟩
    · exact ih _ _

theorem digitChar_not_sign (d : Nat) (h : d < 10) : digitChar d ≠ '-' ∧ digitChar d ≠ '+' := by
  interval_cases d <;> decide

/-- The function `ParseInt` reads back what `FormatInt` printed, for every `int64`. -/
theorem ParseInt_FormatInt (i : Int) (hlo : -(2 ^ 63 : Int) ≤ i) (hhi : i < 2 ^ 63) :
    ParseInt (FormatInt i) = .ok i := by
  obtain ⟨d, tl, hd, hdigits⟩ := natDigits_head i.natAbs i.natAbs []
  obtain ⟨hminus, hplus⟩ := digitChar_not_sign d hd
  have hparse : parseDigits (natDigits (i.natAbs + 1) i.natAbs []) 0 = some i.natAbs := by
    rw [parseDigits_natDigits _ _ _ (by omega)]
    rfl
  by_cases hneg : i < 0
  · have hbound : i.natAbs ≤ 9223372036854775808 := by omega
    have habs : |i| = -i := abs_of_neg hneg
    simp only [ParseInt, FormatInt, hneg, if_true]
    rw [hdigits] at hparse ⊢
    simp [parseMagnitude, hparse, hbound, habs]
  · have hbound : i.natAbs < 9223372036854775808 := by omega
    have hval : ((i.natAbs : Nat) : Int) = i := by omega
    simp only [ParseInt, FormatInt, hneg, if_false]
    rw [hdigits] at hparse ⊢
    simp [parseMagnitude, hminus, hplus, hparse, hbound, hval]

/-- The end of `prepareApplicationResource` on a well-formed object: `spec` and
`metadata` are absent or maps, the labels are readable. It succeeds, and its result
has the replica count 0, the stash in the annotations, the label, and is otherwise as
before. -/
theorem scaleDown_spec (content : Content) (replicas : Int) (annotations : StrMap)
    (labels : Option StrMap)
    (hspec : ∀ x, content.lookup "spec" = some x → ∃ m, x = .map m)
    (hmeta : ∀ x, content.lookup "metadata" = some x → ∃ m, x = .map m)
    (hlab : NestedStringMap content ["metadata", "labels"] = .ok labels) :
    (scaleDown content replicas annotations).err = none ∧
    NestedInt64 (scaleDown content replicas annotations).content ["spec", "replicas"] =
      .ok (some 0) ∧
    NestedStringMap (scaleDown content replicas annotations).content ["metadata", "annotations"] =
      .ok (some (mapSet annotations StorkMigrationReplicasAnnotation (FormatInt replicas))) ∧
    NestedStringMap (scaleDown content replicas annotations).content ["metadata", "labels"] =
      .ok (some (mapSet (labels.getD []) StorkMigrationAnnotation "true")) ∧
    ∀ path : List String,
      ¬ path <+: ["spec", "replicas"] → ¬ ["spec", "replicas"] <+: path →
      ¬ path <+: ["metadata", "labels"] → ¬ ["metadata", "labels"] <+: path →
      ¬ path <+: ["metadata", "annotations"] → ¬ ["metadata", "annotations"] <+: path →
      NestedFieldNoCopy (.map (scaleDown content replicas annotations).content) path =
        NestedFieldNoCopy (.map content) path := by
  obtain ⟨c1, h1⟩ := SetNestedField_two content (.int 0) "spec" "replicas" hspec
  have hmeta1 : c1.lookup "metadata" = content.lookup "metadata" :=
    SetNestedField_other content c1 _ "spec" "metadata" _ h1 (by decide)
  have hlab1 : NestedStringMap c1 ["metadata", "labels"] = .ok labels := by
    rw [NestedStringMap_congr c1 content _ _
      (SetNestedField_get_disjoint _ content c1 _ _ h1 (by decide) (by decide))]
    exact hlab
  obtain ⟨c2, h2⟩ := SetNestedField_two c1
    (.map ((mapSet (labels.getD []) StorkMigrationAnnotation "true").map
      (fun e => (e.1, .str e.2)))) "metadata" "labels" (by rw [hmeta1]; exact hmeta)
  obtain ⟨sub, hsub⟩ := SetNestedField_parent c1 c2 _ "metadata" "labels" [] h2
  obtain ⟨c3, h3⟩ := SetNestedField_two c2
    (.map ((mapSet annotations StorkMigrationReplicasAnnotation (FormatInt replicas)).map
      (fun e => (e.1, .str e.2)))) "metadata" "annotations"
    (by intro x hx; rw [hsub] at hx; exact ⟨sub, (Option.some.inj hx).symm⟩)
  have hout : scaleDown content replicas annotations = { content := c3, err := none } := by
    simp only [scaleDown, h1, hlab1, SetNestedStringMap, h2, h3]
  rw [hout]
  refine ⟨rfl, ?_, ?_, ?_, ?_⟩
  · rw [NestedInt64_congr c3 c2 _ _
        (SetNestedField_get_disjoint _ c2 c3 _ _ h3 (by decide) (by decide)),
      NestedInt64_congr c2 c1 _ _
        (SetNestedField_get_disjoint _ c1 c2 _ _ h2 (by decide) (by decide))]
    simp only [NestedInt64, SetNestedField_get_same _ content c1 _ h1]
  · exact SetNestedStringMap_get_same _ c2 c3 _ h3
  · rw [NestedStringMap_congr c3 c2 _ _
        (SetNestedField_get_disjoint _ c2 c3 _ _ h3 (by decide) (by decide))]
    exact SetNestedStringMap_get_same _ c1 c2 _ h2
  · intro path p1 p2 p3 p4 p5 p6
    show NestedFieldNoCopy (.map c3) path = _
    rw [SetNestedField_get_disjoint _ c2 c3 _ path h3 p5 p6,
      SetNestedField_get_disjoint _ c1 c2 _ path h2 p3 p4,
      SetNestedField_get_disjoint _ content c1 _ path h1 p1 p2]

theorem mapOrAbsent_iff (obj : Content) (field : String) :
    mapOrAbsent obj field = true ↔ ∀ x, obj.lookup field = some x → ∃ m, x = .map m := by
  unfold mapOrAbsent
  constructor
  · intro h x hx
    rw [hx] at h
    cases x <;> first | exact ⟨_, rfl⟩ | simp at h
  · intro h
    cases hl : obj.lookup field with
    | none => rfl
    | some x =>
      obtain ⟨m, rfl⟩ := h x hl
      rfl

/-- A field below which a value is found holds a map. -/
theorem mapOrAbsent_of_found (obj : Content) (a b : String) (value : Value)
    (h : NestedFieldNoCopy (.map obj) [a, b] = .ok (some value)) : mapOrAbsent obj a = true := by
  unfold mapOrAbsent
  rw [NestedFieldNoCopy_map_cons] at h
  cases hl : obj.lookup a with
  | none => rfl
  | some x =>
    rw [hl] at h
    cases x <;> first | rfl | simp [NestedFieldNoCopy] at h

theorem mapOrAbsent_of_int (obj : Content) (a b : String) (i : Int)
    (h : NestedInt64 obj [a, b] = .ok (some i)) : mapOrAbsent obj a = true := by
  unfold NestedInt64 at h
  split at h
  · simp at h
  · simp at h
  · rename_i heq
    exact mapOrAbsent_of_found obj a b _ heq
  · simp at h

theorem mapOrAbsent_of_stringMap (obj : Content) (a b : String) (m : StrMap)
    (h : NestedStringMap obj [a, b] = .ok (some m)) : mapOrAbsent obj a = true := by
  unfold NestedStringMap at h
  split at h
  · simp at h
  · simp at h
  · rename_i heq
    exact mapOrAbsent_of_found obj a b _ heq
  · simp at h

theorem carryForwardReplicas_nonzero (content : Content) (replicas : Int) (annotations : StrMap)
    (h : replicas ≠ 0) :
    carryForwardReplicas content replicas annotations = .ok (replicas, content) := by
  unfold carryForwardReplicas
  split
  · simp [h]
  · rfl

/-- C18: for a workload object (`spec` and `metadata` absent or maps, annotations
and labels readable) whose `spec.replicas` is r > 0, an absent `spec.replicas` counting
as 1, and a Migration that does not start the applications, `prepareApplicationResource`
succeeds; its result has `spec.replicas` 0, the annotation
`stork.libopenstorage.org/migrationReplicas` with the decimal text of r and the label
`stork.libopenstorage.org/migrated` with `true`; every other annotation and label, and
every field on a path apart from these three, reads as before. -/
theorem prepareApplicationResource_scales_down (migration : Migration) (content : Content)
    (found : Option Int) (annotations labels : Option StrMap)
    (hstart : deref migration.Spec.StartApplications = false)
    (hspec : mapOrAbsent content "spec" = true) (hmeta : mapOrAbsent content "metadata" = true)
    (hreplicas : NestedInt64 content ["spec", "replicas"] = .ok found)
    (hpos : 0 < found.getD 1)
    (hann : NestedStringMap content ["metadata", "annotations"] = .ok annotations)
    (hlab : NestedStringMap content ["metadata", "labels"] = .ok labels) :
    (prepareApplicationResource migration content).err = none ∧
    NestedInt64 (prepareApplicationResource migration content).content ["spec", "replicas"] =
      .ok (some 0) ∧
    (∃ annotations',
      NestedStringMap (prepareApplicationResource migration content).content
        ["metadata", "annotations"] = .ok (some annotations') ∧
      ∀ k, annotations'.lookup k =
        if k = "stork.libopenstorage.org/migrationReplicas" then some (FormatInt (found.getD 1))
        else (annotations.getD []).lookup k) ∧
    (∃ labels',
      NestedStringMap (prepareApplicationResource migration content).content
        ["metadata", "labels"] = .ok (some labels') ∧
      ∀ k, labels'.lookup k =
        if k = "stork.libopenstorage.org/migrated" then some "true"
        else (labels.getD []).lookup k) ∧
    ∀ path : List String,
      ¬ path <+: ["spec", "replicas"] → ¬ ["spec", "replicas"] <+: path →
      ¬ path <+: ["metadata", "labels"] → ¬ ["metadata", "labels"] <+: path →
      ¬ path <+: ["metadata", "annotations"] → ¬ ["metadata", "annotations"] <+: path →
      NestedFieldNoCopy (.map (prepareApplicationResource migration content).content) path =
        NestedFieldNoCopy (.map content) path := by
  have hne : found.getD 1 ≠ 0 := by omega
  have hout : prepareApplicationResource migration content =
      scaleDown content (found.getD 1) (annotations.getD []) := by
    simp only [prepareApplicationResource, hreplicas, hann,
      carryForwardReplicas_nonzero content _ _ hne, hstart]
    simp
  obtain ⟨h1, h2, h3, h4, h5⟩ := scaleDown_spec content (found.getD 1) (annotations.getD [])
    labels ((mapOrAbsent_iff _ _).mp hspec) ((mapOrAbsent_iff _ _).mp hmeta) hlab
  rw [hout]
  refine ⟨h1, h2, ⟨_, h3, ?_⟩, ⟨_, h4, ?_⟩, h5⟩
  · intro k
    rw [lookup_mapSet]
    rfl
  · intro k
    rw [lookup_mapSet]
    rfl

theorem prepareApplicationResource_scales_down_witness :
    (prepareApplicationResource applicationsMigration sampleDeployment).err = none ∧
    NestedInt64 (prepareApplicationResource applicationsMigration sampleDeployment).content
      ["spec", "replicas"] = .ok (some 0) ∧
    (∃ annotations',
      NestedStringMap (prepareApplicationResource applicationsMigration sampleDeployment).content
        ["metadata", "annotations"] = .ok (some annotations') ∧
      ∀ k, annotations'.lookup k =
        if k = "stork.libopenstorage.org/migrationReplicas" then
          some (FormatInt ((some (3 : Int)).getD 1))
        else ((some [("owner", "team-a")] : Option StrMap).getD []).lookup k) ∧
    (∃ labels',
      NestedStringMap (prepareApplicationResource applicationsMigration sampleDeployment).content
        ["metadata", "labels"] = .ok (some labels') ∧
      ∀ k, labels'.lookup k =
        if k = "stork.libopenstorage.org/migrated" then some "true"
        else ((some [("app", "web")] : Option StrMap).getD []).lookup k) ∧
    ∀ path : List String,
      ¬ path <+: ["spec", "replicas"] → ¬ ["spec", "replicas"] <+: path →
      ¬ path <+: ["metadata", "labels"] → ¬ ["metadata", "labels"] <+: path →
      ¬ path <+: ["metadata", "annotations"] → ¬ ["metadata", "annotations"] <+: path →
      NestedFieldNoCopy
          (.map (prepareApplicationResource applicationsMigration sampleDeployment).content) path =
        NestedFieldNoCopy (.map sampleDeployment) path :=
  prepareApplicationResource_scales_down applicationsMigration sampleDeployment (some 3)
    (some [("owner", "team-a")]) (some [("app", "web")]) (by decide) (by decide) (by decide)
    (by decide) (by decide) (by decide) (by decide)

theorem parseMagnitude_range (neg : Bool) (digits : List Char) (n : Int)
    (h : parseMagnitude neg digits = .ok n) : -(2 ^ 63 : Int) ≤ n ∧ n < 2 ^ 63 := by
  unfold parseMagnitude at h
  split at h
  · simp at h
  · split at h
    · simp at h
    · rename_i un _
      split at h
      · split at h
        · rename_i hb
          simp only [Except.ok.injEq] at h
          subst h
          have : (un : Int) ≤ 2 ^ 63 := by exact_mod_cast hb
          constructor <;> omega
        · simp at h
      · split at h
        · rename_i hb
          simp only [Except.ok.injEq] at h
          subst h
          have : (un : Int) < 2 ^ 63 := by exact_mod_cast hb
          constructor <;> omega
        · simp at h

theorem ParseInt_range (s : String) (n : Int) (h : ParseInt s = .ok n) :
    -(2 ^ 63 : Int) ≤ n ∧ n < 2 ^ 63 := by
  unfold ParseInt at h
  split at h
  · exact parseMagnitude_range _ _ n h
  · split at h
    · exact parseMagnitude_range _ _ n h
    · exact parseMagnitude_range _ _ n h

theorem carryForwardReplicas_stashed (content : Content) (annotations : StrMap) (text : String)
    (n : Int) (hstash : annotations.lookup StorkMigrationReplicasAnnotation = some text)
    (hn : ParseInt text = .ok n) :
    carryForwardReplicas content 0 annotations =
      if n > 0 then
        match SetNestedField content (.int n) ["spec", "replicas"] with
        | .error err => .error err
        | .ok content => .ok (n, content)
      else .ok (0, content) := by
  simp only [carryForwardReplicas, hstash, hn, if_true]

/-- C19, as written, fails: a Deployment scaled to 0 whose annotation stashes -2
comes out of `prepareApplicationResource` with the annotation `0`. -/
theorem prepareApplicationResource_stash_counterexample :
    NestedInt64 (stashedDeployment "-2") ["spec", "replicas"] = .ok (some 0) ∧
    NestedStringMap (stashedDeployment "-2") ["metadata", "annotations"] =
      .ok (some [("stork.libopenstorage.org/migrationReplicas", "-2")]) ∧
    ParseInt "-2" = .ok (-2) ∧
    (prepareApplicationResource applicationsMigration (stashedDeployment "-2")).err = none ∧
    NestedStringMap (prepareApplicationResource applicationsMigration (stashedDeployment "-2")).content
      ["metadata", "annotations"] =
      .ok (some [("stork.libopenstorage.org/migrationReplicas", "0")]) ∧
    ParseInt "0" = .ok 0 := by
  decide

/-- C19, amended: for a workload object whose `spec.replicas` is 0 and whose
annotation `stork.libopenstorage.org/migrationReplicas` denotes an integer n that is
not negative, and a Migration that does not start the applications,
`prepareApplicationResource` succeeds (the labels being readable), the annotation
denotes n afterwards as well, and `spec.replicas` is 0. -/
theorem prepareApplicationResource_keeps_stash (migration : Migration) (content : Content)
    (annotations : StrMap) (labels : Option StrMap) (text : String) (n : Int)
    (hstart : deref migration.Spec.StartApplications = false)
    (hreplicas : NestedInt64 content ["spec", "replicas"] = .ok (some 0))
    (hann : NestedStringMap content ["metadata", "annotations"] = .ok (some annotations))
    (hstash : annotations.lookup "stork.libopenstorage.org/migrationReplicas" = some text)
    (hn : ParseInt text = .ok n) (hnonneg : 0 ≤ n)
    (hlab : NestedStringMap content ["metadata", "labels"] = .ok labels) :
    (prepareApplicationResource migration content).err = none ∧
    NestedInt64 (prepareApplicationResource migration content).content ["spec", "replicas"] =
      .ok (some 0) ∧
    ∃ annotations' text',
      NestedStringMap (prepareApplicationResource migration content).content
        ["metadata", "annotations"] = .ok (some annotations') ∧
      annotations'.lookup "stork.libopenstorage.org/migrationReplicas" = some text' ∧
      ParseInt text' = .ok n := by
  have hspec := mapOrAbsent_of_int content "spec" "replicas" 0 hreplicas
  have hmeta := mapOrAbsent_of_stringMap content "metadata" "annotations" annotations hann
  obtain ⟨hlo, hhi⟩ := ParseInt_range text n hn
  by_cases hpos : n > 0
  · obtain ⟨c0, h0⟩ := SetNestedField_two content (.int n) "spec" "replicas"
      ((mapOrAbsent_iff _ _).mp hspec)
    have hout : prepareApplicationResource migration content = scaleDown c0 n annotations := by
      simp only [prepareApplicationResource, hreplicas, hann, Option.getD_some,
        carryForwardReplicas_stashed content annotations text n hstash hn, hpos, if_true, h0,
        hstart]
      simp
    obtain ⟨sub, hsub⟩ := SetNestedField_parent content c0 _ "spec" "replicas" [] h0
    have hmeta0 : c0.lookup "metadata" = content.lookup "metadata" :=
      SetNestedField_other content c0 _ "spec" "metadata" _ h0 (by decide)
    have hlab0 : NestedStringMap c0 ["metadata", "labels"] = .ok labels := by
      rw [NestedStringMap_congr c0 content _ _
        (SetNestedField_get_disjoint _ content c0 _ _ h0 (by decide) (by decide))]
      exact hlab
    obtain ⟨h1, h2, h3, _, _⟩ := scaleDown_spec c0 n annotations labels
      (by intro x hx; rw [hsub] at hx; exact ⟨sub, (Option.some.inj hx).symm⟩)
      (by rw [hmeta0]; exact (mapOrAbsent_iff _ _).mp hmeta) hlab0
    rw [hout]
    refine ⟨h1, h2, _, FormatInt n, h3, ?_, ParseInt_FormatInt n hlo hhi⟩
    rw [lookup_mapSet]
    rfl
  · have hzero : n = 0 := by omega
    subst hzero
    have hout : prepareApplicationResource migration content = scaleDown content 0 annotations := by
      simp only [prepareApplicationResource, hreplicas, hann, Option.getD_some,
        carryForwardReplicas_stashed content annotations text 0 hstash hn, hstart]
      simp
    obtain ⟨h1, h2, h3, _, _⟩ := scaleDown_spec content 0 annotations labels
      ((mapOrAbsent_iff _ _).mp hspec) ((mapOrAbsent_iff _ _).mp hmeta) hlab
    rw [hout]
    refine ⟨h1, h2, _, FormatInt 0, h3, ?_, ParseInt_FormatInt 0 hlo hhi⟩
    rw [lookup_mapSet]
    rfl

theorem prepareApplicationResource_keeps_stash_witness :
    (prepareApplicationResource applicationsMigration (stashedDeployment "3")).err = none ∧
    NestedInt64 (prepareApplicationResource applicationsMigration (stashedDeployment "3")).content
      ["spec", "replicas"] = .ok (some 0) ∧
    ∃ annotations' text',
      NestedStringMap (prepareApplicationResource applicationsMigration (stashedDeployment "3")).content
        ["metadata", "annotations"] = .ok (some annotations') ∧
      annotations'.lookup "stork.libopenstorage.org/migrationReplicas" = some text' ∧
      ParseInt text' = .ok 3 :=
  prepareApplicationResource_keeps_stash applicationsMigration (stashedDeployment "3")
    [("stork.libopenstorage.org/migrationReplicas", "3")] none "3" 3 (by decide) (by decide)
    (by decide) (by decide) (by decide) (by decide) (by decide)

theorem suspendFields_append (migration : Migration) (pre rest : List SuspendOptions)
    (content : Content) (annotations : StrMap) :
    suspendFields migration (pre ++ rest) content annotations =
      match suspendFields migration pre content annotations with
      | .returned content err => .returned content err
      | .next content annotations => suspendFields migration rest content annotations := by
  induction pre generalizing content annotations with
  | nil => rfl
  | cons o pre ih =>
    simp only [List.cons_append, suspendFields]
    cases suspendField migration o content annotations with
    | returned c e => rfl
    | next c a => exact ih c a

theorem annotationKey_injective (p q : String)
    (h : StorkAnnotationPrefix ++ p = StorkAnnotationPrefix ++ q) : p = q := by
  have hd := congrArg String.data h
  simp only [String.data_append] at hd
  exact String.ext (List.append_cancel_left hd)

/-- An iteration of the loop changes at most the annotation of its own path. -/
theorem suspendField_other (migration : Migration) (suspend : SuspendOptions)
    (content content' : Content) (annotations annotations' : StrMap) (k : String)
    (h : suspendField migration suspend content annotations = .next content' annotations')
    (hk : k ≠ StorkAnnotationPrefix ++ suspend.Path) :
    annotations'.lookup k = annotations.lookup k := by
  unfold suspendField at h
  split at h
  · split at h
    · simp at h
    · split at h
      · simp at h
      · split at h
        · simp at h
        · simp only [SuspendStep.next.injEq] at h
          rw [← h.2, lookup_mapSet, if_neg hk]
  · simp only [SuspendStep.next.injEq] at h
    rw [h.2]

theorem suspendFields_other (migration : Migration) (post : List SuspendOptions)
    (content content' : Content) (annotations annotations' : StrMap) (k : String)
    (h : suspendFields migration post content annotations = .next content' annotations')
    (hk : ∀ o ∈ post, k ≠ StorkAnnotationPrefix ++ o.Path) :
    annotations'.lookup k = annotations.lookup k := by
  induction post generalizing content annotations with
  | nil =>
    simp only [suspendFields, SuspendStep.next.injEq] at h
    rw [h.2]
  | cons o post ih =>
    simp only [List.mem_cons, forall_eq_or_imp] at hk
    simp only [suspendFields] at h
    split at h
    · simp at h
    · rename_i c a hstep
      rw [ih c a h hk.2]
      exact suspendField_other migration o content c annotations a k hstep hk.1

/-- A successful iteration for an option with a path of two or more fields writes the
text of the current value, a comma and the configured value. -/
theorem suspendField_next (migration : Migration) (suspend : SuspendOptions)
    (content content' : Content) (annotations annotations' : StrMap)
    (hstart : deref migration.Spec.StartApplications = false)
    (hfields : 2 ≤ (stringsSplit suspend.Path '.').length)
    (h : suspendField migration suspend content annotations = .next content' annotations') :
    ∃ disableVersion currVal prepared,
      suspendValue suspend (stringsSplit suspend.Path '.') content
        (annotations.lookup (StorkAnnotationPrefix ++ suspend.Path)) =
          .ok (disableVersion, currVal, prepared) ∧
      annotations'.lookup (StorkAnnotationPrefix ++ suspend.Path) =
        some (currVal ++ "," ++ suspend.Value) := by
  unfold suspendField at h
  have hlen : (stringsSplit suspend.Path '.').length > 1 := by omega
  simp only [hlen, if_true, hstart] at h
  split at h
  · simp at h
  · rename_i disableVersion currVal prepared hval
    split at h
    · simp at h
    · split at h
      · simp at h
      · simp only [SuspendStep.next.injEq] at h
        refine ⟨disableVersion, currVal, prepared, hval, ?_⟩
        rw [← h.2, lookup_mapSet, if_pos rfl]

theorem suspendValue_bool (suspend : SuspendOptions) (fields : List String) (content prepared : Content)
    (stash : Option String) (disableVersion : Value) (currVal : String)
    (htype : suspend.SuspendType = "bool")
    (h : suspendValue suspend fields content stash = .ok (disableVersion, currVal, prepared)) :
    currVal = "" := by
  unfold suspendValue at h
  simp only [htype, if_true] at h
  split at h
  · simp only [Except.ok.injEq, Prod.mk.injEq] at h
    exact h.2.1.symm
  · simp only [Except.ok.injEq, Prod.mk.injEq] at h
    exact h.2.1.symm

theorem suspendValue_int (suspend : SuspendOptions) (fields : List String) (content prepared : Content)
    (stash : Option String) (disableVersion : Value) (currVal : String)
    (htype : suspend.SuspendType = "int")
    (h : suspendValue suspend fields content stash = .ok (disableVersion, currVal, prepared)) :
    ∃ curr, NestedInt64 content fields = .ok (some curr) ∧
      ((curr ≠ 0 ∨ stash = none) → currVal = FormatInt curr) ∧
      (∀ text, curr = 0 → stash = some text →
        ∃ n, ParseInt ((stringsSplit text ',').headD "") = .ok n ∧
          currVal = FormatInt (if n > 0 then n else 0)) := by
  unfold suspendValue at h
  have hnb : ¬ ("int" = "bool") := by decide
  simp only [htype, hnb, if_false, if_true] at h
  split at h
  · simp at h
  · simp at h
  · rename_i curr hcurr
    refine ⟨curr, hcurr, ?_, ?_⟩
    · intro hfresh
      split at h
      · rename_i text
        split at h
        · rename_i hz
          rcases hfresh with hne | hnone
          · exact absurd hz hne
          · simp at hnone
        · simp only [Except.ok.injEq, Prod.mk.injEq] at h
          exact h.2.1.symm
      · simp only [Except.ok.injEq, Prod.mk.injEq] at h
        exact h.2.1.symm
    · intro text hz hstash
      subst hstash
      simp only [hz, if_true] at h
      split at h
      · simp at h
      · rename_i n hn
        refine ⟨n, hn, ?_⟩
        split at h
        · rename_i hpos
          split at h
          · simp at h
          · simp only [Except.ok.injEq, Prod.mk.injEq] at h
            rw [if_pos hpos]
            exact h.2.1.symm
        · rename_i hpos
          simp only [Except.ok.injEq, Prod.mk.injEq] at h
          rw [if_neg hpos]
          exact h.2.1.symm

theorem suspendValue_string (suspend : SuspendOptions) (fields : List String)
    (content prepared : Content) (stash : Option String) (disableVersion : Value)
    (currVal : String) (htype : suspend.SuspendType = "string")
    (h : suspendValue suspend fields content stash = .ok (disableVersion, currVal, prepared)) :
    ∃ found, NestedString content fields = .ok found ∧
      ((found.getD "" ≠ suspend.Value ∨ stash = none) → currVal = found.getD "") ∧
      (∀ text, found.getD "" = suspend.Value → stash = some text →
        currVal = if (stringsSplit text ',').headD "" ≠ "" then (stringsSplit text ',').headD ""
          else found.getD "") := by
  unfold suspendValue at h
  have hnb : ¬ ("string" = "bool") := by decide
  have hni : ¬ ("string" = "int") := by decide
  simp only [htype, hnb, hni, if_false, if_true] at h
  split at h
  · simp at h
  · rename_i found hfound
    refine ⟨found, hfound, ?_, ?_⟩
    · intro hfresh
      split at h
      · split at h
        · rename_i heq
          rcases hfresh with hne | hnone
          · exact absurd heq hne
          · simp at hnone
        · simp only [Except.ok.injEq, Prod.mk.injEq] at h
          exact h.2.1.symm
      · simp only [Except.ok.injEq, Prod.mk.injEq] at h
        exact h.2.1.symm
    · intro text heq hstash
      subst hstash
      simp only [heq, if_true] at h
      split at h
      · rename_i hne
        split at h
        · simp at h
        · simp only [Except.ok.injEq, Prod.mk.injEq] at h
          rw [if_pos hne]
          exact h.2.1.symm
      · rename_i hne
        simp only [Except.ok.injEq, Prod.mk.injEq] at h
        rw [if_neg hne, heq]
        exact h.2.1.symm

theorem suspendField_returned (migration : Migration) (suspend : SuspendOptions)
    (content content' : Content) (annotations : StrMap) (err : Option String)
    (hstart : deref migration.Spec.StartApplications = false)
    (h : suspendField migration suspend content annotations = .returned content' err) :
    err ≠ none := by
  unfold suspendField at h
  simp only [hstart] at h
  split at h
  · split at h
    · simp only [SuspendStep.returned.injEq] at h
      rw [← h.2]
      simp
    · split at h
      · rename_i hf
        simp at hf
      · split at h
        · simp only [SuspendStep.returned.injEq] at h
          rw [← h.2]
          simp
        · simp at h
  · simp at h

theorem suspendFields_returned (migration : Migration) (opts : List SuspendOptions)
    (content content' : Content) (annotations : StrMap) (err : Option String)
    (hstart : deref migration.Spec.StartApplications = false)
    (h : suspendFields migration opts content annotations = .returned content' err) :
    err ≠ none := by
  induction opts generalizing content annotations with
  | nil => simp [suspendFields] at h
  | cons o opts ih =>
    simp only [suspendFields] at h
    split at h
    · rename_i c e hstep
      simp only [SuspendStep.returned.injEq] at h
      rw [← h.2]
      exact suspendField_returned migration o content c annotations e hstart hstep
    · rename_i c a hstep
      exact ih c a h

/-- When `prepareCRDClusterResource` succeeds with applications not started, the
annotations of its result are the annotations the loop ended with. -/
theorem prepareCRDClusterResource_succeeded (migration : Migration) (content : Content)
    (opts : List SuspendOptions) (found : Option StrMap)
    (hstart : deref migration.Spec.StartApplications = false)
    (hopts : opts ≠ [])
    (hann : NestedStringMap content ["metadata", "annotations"] = .ok found)
    (hsucc : (prepareCRDClusterResource migration content opts).err = none) :
    ∃ content' annotations',
      suspendFields migration opts content (found.getD []) = .next content' annotations' ∧
      NestedStringMap (prepareCRDClusterResource migration content opts).content
        ["metadata", "annotations"] = .ok (some annotations') := by
  have hlen : ¬ opts.length = 0 := by
    intro e
    exact hopts (List.length_eq_zero.mp e)
  unfold prepareCRDClusterResource at hsucc ⊢
  simp only [hlen, if_false, hann, hstart] at hsucc ⊢
  cases hloop : suspendFields migration opts content (found.getD []) with
  | returned c e =>
    rw [hloop] at hsucc
    exact absurd hsucc (suspendFields_returned migration opts content c _ e hstart hloop)
  | next c a =>
    rw [hloop] at hsucc
    refine ⟨c, a, rfl, ?_⟩
    simp only [Bool.false_eq_true, if_false] at hsucc ⊢
    cases hset : SetNestedStringMap c a ["metadata", "annotations"] with
    | error e =>
      rw [hset] at hsucc
      simp at hsucc
    | ok c' =>
      exact SetNestedStringMap_get_same _ c c' a hset

/-- C20, as written, fails for the type bool: the field `spec.suspend` held `false`,
and after `prepareCRDClusterResource` the annotation is `,true`, not `false,true`. -/
theorem prepareCRDClusterResource_bool_counterexample :
    (prepareCRDClusterResource applicationsMigration sampleCustomResource [boolSuspend]).err = none ∧
    NestedFieldNoCopy (.map sampleCustomResource) ["spec", "suspend"] =
      .ok (some (.bool false)) ∧
    NestedStringMap
      (prepareCRDClusterResource applicationsMigration sampleCustomResource [boolSuspend]).content
      ["metadata", "annotations"] =
      .ok (some [("stork.libopenstorage.org/spec.suspend", ",true")]) ∧
    ",true" ≠ "false" ++ "," ++ boolSuspend.Value :=
  ⟨by decide, rfl, by decide, by decide⟩

/-- C20, amended: let a suspend option have a path of two or more fields, let no
later option of the list have the same path, and let the applications not be started.
After `prepareCRDClusterResource` succeeds, the annotation
`stork.libopenstorage.org/` + path of the object is currentValue + `,` + the configured
value, where, `c1` and `a1` being the content and the annotations when the loop reaches
the option: for the type bool currentValue is empty; for the type int it is the decimal
text of the field, or of the integer stashed in the first part of the annotation when
the field is 0 and that integer is positive; for the type string it is the text of the
field (empty when absent), or the first part of the annotation when the field equals
the configured value and that part is not empty. -/
theorem prepareCRDClusterResource_annotation (migration : Migration) (content : Content)
    (pre post : List SuspendOptions) (suspend : SuspendOptions) (found : Option StrMap)
    (c1 : Content) (a1 : StrMap)
    (hstart : deref migration.Spec.StartApplications = false)
    (hfields : 2 ≤ (stringsSplit suspend.Path '.').length)
    (hann : NestedStringMap content ["metadata", "annotations"] = .ok found)
    (hpre : suspendFields migration pre content (found.getD []) = .next c1 a1)
    (hlater : ∀ o ∈ post, o.Path ≠ suspend.Path)
    (hsucc : (prepareCRDClusterResource migration content (pre ++ suspend :: post)).err = none) :
    ∃ annotations' currentValue,
      NestedStringMap (prepareCRDClusterResource migration content (pre ++ suspend :: post)).content
        ["metadata", "annotations"] = .ok (some annotations') ∧
      annotations'.lookup ("stork.libopenstorage.org/" ++ suspend.Path) =
        some (currentValue ++ "," ++ suspend.Value) ∧
      (suspend.SuspendType = "bool" → currentValue = "") ∧
      (suspend.SuspendType = "int" →
        ∃ curr, NestedInt64 c1 (stringsSplit suspend.Path '.') = .ok (some curr) ∧
          ((curr ≠ 0 ∨ a1.lookup ("stork.libopenstorage.org/" ++ suspend.Path) = none) →
            currentValue = FormatInt curr) ∧
          (∀ text, curr = 0 →
            a1.lookup ("stork.libopenstorage.org/" ++ suspend.Path) = some text →
            ∃ n, ParseInt ((stringsSplit text ',').headD "") = .ok n ∧
              currentValue = FormatInt (if n > 0 then n else 0))) ∧
      (suspend.SuspendType = "string" →
        ∃ field, NestedString c1 (stringsSplit suspend.Path '.') = .ok field ∧
          ((field.getD "" ≠ suspend.Value ∨
              a1.lookup ("stork.libopenstorage.org/" ++ suspend.Path) = none) →
            currentValue = field.getD "") ∧
          (∀ text, field.getD "" = suspend.Value →
            a1.lookup ("stork.libopenstorage.org/" ++ suspend.Path) = some text →
            currentValue =
              if (stringsSplit text ',').headD "" ≠ "" then (stringsSplit text ',').headD ""
              else field.getD "")) := by
  obtain ⟨c3, a3, hloop, hread⟩ := prepareCRDClusterResource_succeeded migration content
    (pre ++ suspend :: post) found hstart (by simp) hann hsucc
  rw [suspendFields_append, hpre] at hloop
  simp only [suspendFields] at hloop
  cases hstep : suspendField migration suspend c1 a1 with
  | returned c e =>
    rw [hstep] at hloop
    simp at hloop
  | next c2 a2 =>
    rw [hstep] at hloop
    simp only at hloop
    obtain ⟨disableVersion, currVal, prepared, hval, hkey⟩ :=
      suspendField_next migration suspend c1 c2 a1 a2 hstart hfields hstep
    have hkeep : a3.lookup (StorkAnnotationPrefix ++ suspend.Path) =
        a2.lookup (StorkAnnotationPrefix ++ suspend.Path) :=
      suspendFields_other migration post c2 c3 a2 a3 _ hloop
        (fun o ho e => hlater o ho (annotationKey_injective _ _ e).symm)
    refine ⟨a3, currVal, hread, ?_, ?_, ?_, ?_⟩
    · exact hkeep.trans hkey
    · intro htype
      exact suspendValue_bool suspend _ c1 prepared _ disableVersion currVal htype hval
    · intro htype
      exact suspendValue_int suspend _ c1 prepared _ disableVersion currVal htype hval
    · intro htype
      exact suspendValue_string suspend _ c1 prepared _ disableVersion currVal htype hval

theorem prepareCRDClusterResource_annotation_witness :
    ∃ annotations' currentValue,
      NestedStringMap
        (prepareCRDClusterResource applicationsMigration sampleCustomResource
          ([] ++ intSuspend :: [])).content
        ["metadata", "annotations"] = .ok (some annotations') ∧
      annotations'.lookup ("stork.libopenstorage.org/" ++ intSuspend.Path) =
        some (currentValue ++ "," ++ intSuspend.Value) ∧
      (intSuspend.SuspendType = "bool" → currentValue = "") ∧
      (intSuspend.SuspendType = "int" →
        ∃ curr, NestedInt64 sampleCustomResource (stringsSplit intSuspend.Path '.') =
            .ok (some curr) ∧
          ((curr ≠ 0 ∨ ([] : StrMap).lookup ("stork.libopenstorage.org/" ++ intSuspend.Path) = none) →
            currentValue = FormatInt curr) ∧
          (∀ text, curr = 0 →
            ([] : StrMap).lookup ("stork.libopenstorage.org/" ++ intSuspend.Path) = some text →
            ∃ n, ParseInt ((stringsSplit text ',').headD "") = .ok n ∧
              currentValue = FormatInt (if n > 0 then n else 0))) ∧
      (intSuspend.SuspendType = "string" →
        ∃ field, NestedString sampleCustomResource (stringsSplit intSuspend.Path '.') = .ok field ∧
          ((field.getD "" ≠ intSuspend.Value ∨
              ([] : StrMap).lookup ("stork.libopenstorage.org/" ++ intSuspend.Path) = none) →
            currentValue = field.getD "") ∧
          (∀ text, field.getD "" = intSuspend.Value →
            ([] : StrMap).lookup ("stork.libopenstorage.org/" ++ intSuspend.Path) = some text →
            currentValue =
              if (stringsSplit text ',').headD "" ≠ "" then (stringsSplit text ',').headD ""
              else field.getD "")) :=
  prepareCRDClusterResource_annotation applicationsMigration sampleCustomResource [] []
    intSuspend none sampleCustomResource [] (by decide) (by decide) (by decide) rfl
    (fun o ho => absurd ho (List.not_mem_nil o)) (by decide)

theorem preparePVResource_ok (driver : PersistentVolume → Except String PersistentVolume)
    (toUnstructuredErr : Option String) (object prepared : VolumeObject)
    (h : preparePVResource driver toUnstructuredErr object = .ok prepared) :
    prepared.fromUnstructuredErr = none ∧
    driver { object.pv with
      Annotations := some (mapSet (object.pv.Annotations.getD []) PVReclaimAnnotation
        object.pv.PersistentVolumeReclaimPolicy)
      PersistentVolumeReclaimPolicy := PersistentVolumeReclaimRetain } = .ok prepared.pv := by
  unfold preparePVResource at h
  split at h
  · simp at h
  · simp only at h
    split at h
    · simp at h
    · rename_i pv hd
      split at h
      · simp at h
      · simp only [Except.ok.injEq] at h
        subst h
        exact ⟨rfl, hd⟩

/-- C17: for a source PersistentVolume with the reclaim policy p (p not empty, as
for every PersistentVolume read from the API server) and a driver that leaves annotations
and reclaim policy alone, `preparePVResource` stores p in the annotation
`stork.libopenstorage.org/reclaimPolicy` and sets the policy to Retain; the revert step
of `applyResources`, when it reaches the update of the destination PersistentVolume,
writes the policy p, and Retain when `IncludeVolumes` is false. -/
theorem preparePVResource_round_trip (driver : PersistentVolume → Except String PersistentVolume)
    (toUnstructuredErr : Option String) (object prepared : VolumeObject) (migration : Migration)
    (answers : RevertAnswers) (respPV : PersistentVolume)
    (hdriver : ∀ pv pv', driver pv = .ok pv' →
      pv'.Annotations = pv.Annotations ∧
      pv'.PersistentVolumeReclaimPolicy = pv.PersistentVolumeReclaimPolicy)
    (hpolicy : object.pv.PersistentVolumeReclaimPolicy ≠ "")
    (hprepared : preparePVResource driver toUnstructuredErr object = .ok prepared)
    (hclaim : answers.claimRefErr = none) (hget : answers.getPV = .ok respPV) :
    (prepared.pv.Annotations.getD []).lookup "stork.libopenstorage.org/reclaimPolicy" =
      some object.pv.PersistentVolumeReclaimPolicy ∧
    prepared.pv.PersistentVolumeReclaimPolicy = "Retain" ∧
    ∃ written, (revertReclaimPolicy migration answers prepared).written = some written ∧
      written.PersistentVolumeReclaimPolicy =
        if migration.Spec.IncludeVolumes = some false then "Retain"
        else object.pv.PersistentVolumeReclaimPolicy := by
  obtain ⟨hconv, hd⟩ := preparePVResource_ok driver toUnstructuredErr object prepared hprepared
  obtain ⟨hann, hpol⟩ := hdriver _ _ hd
  simp only at hann hpol
  have hlookup : (prepared.pv.Annotations.getD []).lookup PVReclaimAnnotation =
      some object.pv.PersistentVolumeReclaimPolicy := by
    rw [hann, Option.getD_some, lookup_mapSet, if_pos rfl]
  have hsome : prepared.pv.Annotations ≠ none := by
    rw [hann]
    simp
  refine ⟨hlookup, hpol, ?_⟩
  unfold revertReclaimPolicy
  simp only [hconv, hclaim, hget, hlookup, Option.getD_some, hsome, hpolicy, ne_eq,
    not_false_eq_true, and_self, if_true]
  by_cases hinc : migration.Spec.IncludeVolumes = some false
  · simp only [hinc, if_true]
    split <;> exact ⟨_, rfl, rfl⟩
  · simp only [hinc, if_false]
    split <;> exact ⟨_, rfl, rfl⟩

theorem preparePVResource_round_trip_witness :
    (preparedVolumeObject.pv.Annotations.getD []).lookup "stork.libopenstorage.org/reclaimPolicy" =
      some sampleVolumeObject.pv.PersistentVolumeReclaimPolicy ∧
    preparedVolumeObject.pv.PersistentVolumeReclaimPolicy = "Retain" ∧
    ∃ written,
      (revertReclaimPolicy applicationsMigration calmRevert preparedVolumeObject).written =
        some written ∧
      written.PersistentVolumeReclaimPolicy =
        if applicationsMigration.Spec.IncludeVolumes = some false then "Retain"
        else sampleVolumeObject.pv.PersistentVolumeReclaimPolicy :=
  preparePVResource_round_trip (fun pv => .ok pv) none sampleVolumeObject preparedVolumeObject
    applicationsMigration calmRevert
    { Name := "pv1", Annotations := none, PersistentVolumeReclaimPolicy := "Retain",
      ResourceVersion := "7", VolumeSource := "pxd://vol-1" }
    (fun pv pv' h => by cases h; exact ⟨rfl, rfl⟩) (by decide) (by decide) rfl rfl

/-! ## The migration summary (lines 2528-2582) -/

theorem doneResources_eq (resources : List MigrationResourceInfo) (acc : Nat)
    (hacc : acc < 2 ^ 64) :
    doneResources resources acc =
      (acc + (resources.filter (fun r => r.Status = .Successful)).length) % 2 ^ 64 := by
  induction resources generalizing acc with
  | nil =>
    simp only [doneResources, List.filter_nil, List.length_nil, Nat.add_zero]
    exact (Nat.mod_eq_of_lt hacc).symm
  | cons r rest ih =>
    simp only [doneResources]
    split
    · rename_i h
      rw [ih _ (Nat.mod_lt _ (by norm_num))]
      simp only [List.filter_cons, h, decide_True, if_true, List.length_cons]
      rw [Nat.mod_add_mod]
      congr 1
      omega
    · rename_i h
      rw [ih _ hacc]
      simp [List.filter_cons, h]

theorem volumeTotals_eq (volumes : List MigrationVolumeInfo) (done bytes : Nat)
    (hdone : done < 2 ^ 64) (hbytes : bytes < 2 ^ 64) :
    volumeTotals volumes (done, bytes) =
      ((done + (volumes.filter (fun v => v.Status = .Successful)).length) % 2 ^ 64,
       (bytes + ((volumes.filter (fun v => v.Status = .Successful)).map
          (fun v => v.BytesTotal)).sum) % 2 ^ 64) := by
  induction volumes generalizing done bytes with
  | nil =>
    simp only [volumeTotals, List.filter_nil, List.length_nil, List.map_nil, List.sum_nil,
      Nat.add_zero]
    rw [Nat.mod_eq_of_lt hdone, Nat.mod_eq_of_lt hbytes]
  | cons v rest ih =>
    simp only [volumeTotals]
    split
    · rename_i h
      rw [ih _ _ (Nat.mod_lt _ (by norm_num)) (Nat.mod_lt _ (by norm_num))]
      simp only [List.filter_cons, h, decide_True, if_true, List.length_cons, List.map_cons,
        List.sum_cons]
      rw [Nat.mod_add_mod, Nat.mod_add_mod]
      congr 2 <;> omega
    · rename_i h
      rw [ih _ _ hdone hbytes]
      simp [List.filter_cons, h]

/-- C25: the summary is computed from the status lists of the record (Go
slices, so shorter than 2^64): the resource figures are the length of
`Status.Resources` and the number of its Successful entries; when `IncludeVolumes` is
unset or true the volume figures are the length of `Status.Volumes`, the number of
Successful volumes and the sum modulo 2^64 of their `BytesTotal`; when `IncludeVolumes`
is false the three volume figures are 0. Every write of the record stores this
summary. -/
theorem getMigrationSummary_counts (env : Env) (line : Nat) (m : Migration)
    (hres : m.Status.Resources.length < 2 ^ 64)
    (hvol : (m.Status.Volumes.getD []).length < 2 ^ 64) :
    (getMigrationSummary env line m).TotalNumberOfResources = m.Status.Resources.length ∧
    (getMigrationSummary env line m).NumberOfMigratedResources =
      (m.Status.Resources.filter (fun r => r.Status = .Successful)).length ∧
    (getMigrationSummary env line m).NumberOfMigratedResources ≤
      (getMigrationSummary env line m).TotalNumberOfResources ∧
    ((m.Spec.IncludeVolumes = none ∨ m.Spec.IncludeVolumes = some true) →
      (getMigrationSummary env line m).TotalNumberOfVolumes =
        (m.Status.Volumes.getD []).length ∧
      (getMigrationSummary env line m).NumberOfMigratedVolumes =
        ((m.Status.Volumes.getD []).filter (fun v => v.Status = .Successful)).length ∧
      (getMigrationSummary env line m).TotalBytesMigrated =
        (((m.Status.Volumes.getD []).filter (fun v => v.Status = .Successful)).map
          (fun v => v.BytesTotal)).sum % 2 ^ 64) ∧
    (m.Spec.IncludeVolumes = some false →
      (getMigrationSummary env line m).TotalNumberOfVolumes = 0 ∧
      (getMigrationSummary env line m).NumberOfMigratedVolumes = 0 ∧
      (getMigrationSummary env line m).TotalBytesMigrated = 0) ∧
    (updateMigrationCR env line m).mig.Status.Summary = some (getMigrationSummary env line m) ∧
    (updateMigrationCR env line m).log =
      [.update line
        { m with Status := { m.Status with Summary := some (getMigrationSummary env line m) } }
        (env.updateErr line)] := by
  have hcount : (m.Status.Resources.filter (fun r => r.Status = .Successful)).length ≤
      m.Status.Resources.length := List.length_filter_le _ _
  have hvcount : ((m.Status.Volumes.getD []).filter (fun v => v.Status = .Successful)).length ≤
      (m.Status.Volumes.getD []).length := List.length_filter_le _ _
  have hdone := doneResources_eq m.Status.Resources 0 (by norm_num)
  rw [Nat.zero_add, Nat.mod_eq_of_lt (by omega)] at hdone
  have htot := volumeTotals_eq (m.Status.Volumes.getD []) 0 0 (by norm_num) (by norm_num)
  rw [Nat.zero_add, Nat.zero_add, Nat.mod_eq_of_lt (by omega)] at htot
  have hr1 : (getMigrationSummary env line m).TotalNumberOfResources =
      m.Status.Resources.length := by
    simp only [getMigrationSummary, Nat.mod_eq_of_lt hres]
    split <;> omega
  have hr2 : (getMigrationSummary env line m).NumberOfMigratedResources =
      (m.Status.Resources.filter (fun r => r.Status = .Successful)).length := by
    simp only [getMigrationSummary, Nat.mod_eq_of_lt hres, hdone]
    split
    · rfl
    · omega
  refine ⟨hr1, hr2, by omega, ?_, ?_, rfl, rfl⟩
  · intro hinc
    have hw : (decide (m.Spec.IncludeVolumes = none ∨ m.Spec.IncludeVolumes = some true)) = true := by
      simpa using hinc
    refine ⟨?_, ?_, ?_⟩
    · simp only [getMigrationSummary, Nat.mod_eq_of_lt hvol, hw]
      split
      · rfl
      · rename_i h
        simp only [true_and, gt_iff_lt, not_lt, Nat.le_zero] at h
        omega
    · simp only [getMigrationSummary, Nat.mod_eq_of_lt hvol, hw, if_true, htot]
      split
      · rfl
      · rename_i h
        simp only [true_and, gt_iff_lt, not_lt, Nat.le_zero] at h
        omega
    · simp only [getMigrationSummary, hw, if_true, htot]
  · intro hinc
    have hw : (decide (m.Spec.IncludeVolumes = none ∨ m.Spec.IncludeVolumes = some true)) = false := by
      simp [hinc]
    simp [getMigrationSummary, hw]

theorem getMigrationSummary_counts_witness :
    (getMigrationSummary failedPollEnv 816
      (setVolumes stalledMigration
        [sampleVolume "v1" .Successful, sampleVolume "v2" .Failed])).TotalNumberOfVolumes = 2 ∧
    (getMigrationSummary failedPollEnv 816
      (setVolumes stalledMigration
        [sampleVolume "v1" .Successful, sampleVolume "v2" .Failed])).NumberOfMigratedVolumes = 1 ∧
    (getMigrationSummary failedPollEnv 816
      (setVolumes stalledMigration
        [sampleVolume "v1" .Successful, sampleVolume "v2" .Failed])).TotalBytesMigrated = 1024 ∧
    (getMigrationSummary failedPollEnv 816
      (setVolumes stalledMigration
        [sampleVolume "v1" .Successful, sampleVolume "v2" .Failed])).TotalNumberOfResources =
      (setVolumes stalledMigration
        [sampleVolume "v1" .Successful, sampleVolume "v2" .Failed]).Status.Resources.length :=
  ⟨by decide, by decide, by decide,
    (getMigrationSummary_counts failedPollEnv 816
      (setVolumes stalledMigration [sampleVolume "v1" .Successful, sampleVolume "v2" .Failed])
      (by decide) (by decide)).1⟩

/-! ## The parsed labels and annotations -/

/-- C22: `getParsedMap` returns nil for a nil map. For a map it returns a map
whose entries are exactly: the entries of the input whose key does not contain the
platform prefix, unchanged, and, for each entry whose key contains the platform prefix
and the project prefix and whose value the Rancher project mappings of the cluster pair
map to a non-empty target, the key with that target. Every key of the result is a key
of the input. -/
theorem getParsedMap_entries (cattlePrefix cattleProjectPrefix : String)
    (clusterPair : ClusterPair) :
    getParsedMap cattlePrefix cattleProjectPrefix none clusterPair = none ∧
    ∀ inputMap : StrMap, ∃ a,
      getParsedMap cattlePrefix cattleProjectPrefix (some inputMap) clusterPair = some a ∧
      (∀ k, k ∈ a.map Prod.fst → k ∈ inputMap.map Prod.fst) ∧
      ∀ k v', (k, v') ∈ a ↔
        ∃ v, (k, v) ∈ inputMap ∧
          ((stringsContains k cattlePrefix = false ∧ v' = v) ∨
           (stringsContains k cattlePrefix = true ∧ stringsContains k cattleProjectPrefix = true ∧
            v' ≠ "" ∧
            ∃ rancher, clusterPair.Rancher = some rancher ∧
              rancher.ProjectMappings.lookup v = some v')) := by
  refine ⟨rfl, fun inputMap => ⟨_, rfl, ?_, ?_⟩⟩
  · intro k hk
    simp only [List.mem_map, List.mem_filterMap] at hk ⊢
    obtain ⟨⟨k', v'⟩, ⟨⟨k₀, v₀⟩, hmem, hentry⟩, rfl⟩ := hk
    refine ⟨(k₀, v₀), hmem, ?_⟩
    unfold parsedEntry at hentry
    repeat' split at hentry
    all_goals first
      | (simp only [Option.some.injEq, Prod.mk.injEq] at hentry; exact hentry.1)
      | simp at hentry
  · intro k v'
    simp only [List.mem_filterMap]
    constructor
    · rintro ⟨⟨k₀, v₀⟩, hmem, hentry⟩
      unfold parsedEntry at hentry
      split at hentry
      · rename_i hc
        simp only [Option.some.injEq, Prod.mk.injEq] at hentry
        obtain ⟨rfl, rfl⟩ := hentry
        exact ⟨v₀, hmem, Or.inl ⟨by simpa using hc, rfl⟩⟩
      · rename_i hc
        split at hentry
        · rename_i hp
          split at hentry
          · rename_i rancher hr
            split at hentry
            · rename_i target ht
              split at hentry
              · rename_i hne
                simp only [Option.some.injEq, Prod.mk.injEq] at hentry
                obtain ⟨rfl, rfl⟩ := hentry
                exact ⟨v₀, hmem, Or.inr ⟨by simpa using hc, hp, hne, rancher, hr, ht⟩⟩
              · simp at hentry
            · simp at hentry
          · simp at hentry
        · simp at hentry
    · rintro ⟨v, hmem, h⟩
      refine ⟨(k, v), hmem, ?_⟩
      unfold parsedEntry
      rcases h with ⟨hc, rfl⟩ | ⟨hc, hp, hne, rancher, hr, ht⟩
      · simp [hc]
      · simp [hc, hp, hr, ht, hne]

theorem getParsedMap_entries_witness :
    getParsedMap "cattle.io" "cattle.io/projectId" (some rancherLabels) rancherPair =
      some [("team", "a"), ("field.cattle.io/projectId", "c-2:p-9")] ∧
    getParsedMap "cattle.io" "cattle.io/projectId" none rancherPair = none :=
  ⟨by decide, (getParsedMap_entries "cattle.io" "cattle.io/projectId" rancherPair).1⟩

/-! ## Starting the applications (lines 1485-1507, 1559-1584) -/

theorem carryForwardReplicas_cases (content : Content) (replicas : Int) (annotations : StrMap) :
    (∃ err, carryForwardReplicas content replicas annotations = .error err) ∨
    carryForwardReplicas content replicas annotations = .ok (replicas, content) ∨
    ∃ text n content', replicas = 0 ∧
      annotations.lookup StorkMigrationReplicasAnnotation = some text ∧
      ParseInt text = .ok n ∧ 0 < n ∧
      SetNestedField content (.int n) ["spec", "replicas"] = .ok content' ∧
      carryForwardReplicas content replicas annotations = .ok (n, content') := by
  unfold carryForwardReplicas
  split
  · rename_i text htext
    split
    · rename_i hz
      split
      · exact Or.inl ⟨_, rfl⟩
      · rename_i n hn
        split
        · rename_i hpos
          split
          · exact Or.inl ⟨_, rfl⟩
          · rename_i c' hset
            exact Or.inr (Or.inr ⟨text, n, c', hz, htext, hn, hpos, hset, rfl⟩)
        · exact Or.inr (Or.inl rfl)
    · exact Or.inr (Or.inl rfl)
  · exact Or.inr (Or.inl rfl)

theorem NestedInt64_get_same (path : List String) (obj obj' : Content) (i : Int)
    (h : SetNestedField obj (.int i) path = .ok obj') : NestedInt64 obj' path = .ok (some i) := by
  simp only [NestedInt64, SetNestedField_get_same path obj obj' _ h]

/-- C29: with `StartApplications` true, `prepareApplicationResource` leaves every
field that is not on the path `spec.replicas` as it was, so it adds no label and
neither adds nor changes an annotation. When `spec.replicas` is 0 and the annotation
`stork.libopenstorage.org/migrationReplicas` stashes an integer n > 0, it succeeds and
sets `spec.replicas` to n; in every other case the object is unchanged. -/
theorem prepareApplicationResource_started (migration : Migration) (content : Content)
    (hstart : deref migration.Spec.StartApplications = true) :
    (∀ path : List String,
      ¬ path <+: ["spec", "replicas"] → ¬ ["spec", "replicas"] <+: path →
      NestedFieldNoCopy (.map (prepareApplicationResource migration content).content) path =
        NestedFieldNoCopy (.map content) path) ∧
    (∀ annotations text n,
      NestedInt64 content ["spec", "replicas"] = .ok (some 0) →
      NestedStringMap content ["metadata", "annotations"] = .ok (some annotations) →
      annotations.lookup "stork.libopenstorage.org/migrationReplicas" = some text →
      ParseInt text = .ok n → 0 < n →
      (prepareApplicationResource migration content).err = none ∧
      NestedInt64 (prepareApplicationResource migration content).content ["spec", "replicas"] =
        .ok (some n)) ∧
    ((¬ ∃ annotations text n,
        NestedInt64 content ["spec", "replicas"] = .ok (some 0) ∧
        NestedStringMap content ["metadata", "annotations"] = .ok (some annotations) ∧
        annotations.lookup "stork.libopenstorage.org/migrationReplicas" = some text ∧
        ParseInt text = .ok n ∧ 0 < n) →
      (prepareApplicationResource migration content).content = content) := by
  unfold prepareApplicationResource
  cases hrep : NestedInt64 content ["spec", "replicas"] with
  | error e => exact ⟨fun _ _ _ => rfl, fun _ _ _ h => by simp at h, fun _ => rfl⟩
  | ok found =>
    cases hann : NestedStringMap content ["metadata", "annotations"] with
    | error e => exact ⟨fun _ _ _ => rfl, fun _ _ _ _ h => by simp at h, fun _ => rfl⟩
    | ok foundAnnotations =>
      simp only
      rcases carryForwardReplicas_cases content (found.getD 1) (foundAnnotations.getD []) with
        ⟨err, hcf⟩ | hcf | ⟨text, n, c', hz, htext, hn, hpos, hset, hcf⟩
      · rw [hcf]
        refine ⟨fun _ _ _ => rfl, ?_, fun _ => rfl⟩
        intro annotations text n h0 ha hl hp hpos
        simp only [Except.ok.injEq] at h0 ha
        subst h0 ha
        have := carryForwardReplicas_stashed content annotations text n hl hp
        simp only [Option.getD_some] at hcf
        rw [this, if_pos hpos] at hcf
        obtain ⟨c', hc'⟩ := SetNestedField_two content (.int n) "spec" "replicas"
          ((mapOrAbsent_iff _ _).mp (mapOrAbsent_of_int content "spec" "replicas" 0 hrep))
        rw [hc'] at hcf
        simp at hcf
      · rw [hcf]
        simp only [hstart, if_true]
        refine ⟨fun _ _ _ => trivial, ?_, fun _ => trivial⟩
        intro annotations text n h0 ha hl hp hpos
        simp only [Except.ok.injEq] at h0 ha
        subst h0 ha
        have := carryForwardReplicas_stashed content annotations text n hl hp
        simp only [Option.getD_some] at hcf
        rw [this, if_pos hpos] at hcf
        obtain ⟨c', hc'⟩ := SetNestedField_two content (.int n) "spec" "replicas"
          ((mapOrAbsent_iff _ _).mp (mapOrAbsent_of_int content "spec" "replicas" 0 hrep))
        rw [hc'] at hcf
        simp only [Except.ok.injEq, Prod.mk.injEq] at hcf
        omega
      · rw [hcf]
        simp only [hstart, if_true]
        have hfound : found = some 0 := by
          cases found with
          | none => simp at hz
          | some r =>
            simp only [Option.getD_some] at hz
            rw [hz]
        refine ⟨?_, ?_, ?_⟩
        · intro path h1 h2
          exact SetNestedField_get_disjoint _ content c' _ path hset h1 h2
        · intro annotations text' n' _ ha hl hp _
          simp only [Except.ok.injEq] at ha
          subst ha
          simp only [Option.getD_some] at htext
          have htt : text' = text := by
            have := hl.symm.trans htext
            exact Option.some.inj this
          subst htt
          have hnn : n' = n := by
            have := hp.symm.trans hn
            simpa using this
          subst hnn
          exact ⟨trivial, NestedInt64_get_same _ content c' _ hset⟩
        · intro hnot
          exfalso
          apply hnot
          cases foundAnnotations with
          | none => simp [List.lookup] at htext
          | some annotations =>
            exact ⟨annotations, text, n, by rw [hfound], rfl, htext, hn, hpos⟩

theorem prepareApplicationResource_started_witness :
    (prepareApplicationResource startingMigration (stashedDeployment "3")).err = none ∧
    NestedInt64 (prepareApplicationResource startingMigration (stashedDeployment "3")).content
      ["spec", "replicas"] = .ok (some 3) ∧
    NestedFieldNoCopy
        (.map (prepareApplicationResource startingMigration (stashedDeployment "3")).content)
        ["metadata"] =
      NestedFieldNoCopy (.map (stashedDeployment "3")) ["metadata"] :=
  ⟨((prepareApplicationResource_started startingMigration (stashedDeployment "3")
      (by decide)).2.1 [("stork.libopenstorage.org/migrationReplicas", "3")] "3" 3
      (by decide) (by decide) (by decide) (by decide) (by decide)).1,
   ((prepareApplicationResource_started startingMigration (stashedDeployment "3")
      (by decide)).2.1 [("stork.libopenstorage.org/migrationReplicas", "3")] "3" 3
      (by decide) (by decide) (by decide) (by decide) (by decide)).2,
   (prepareApplicationResource_started startingMigration (stashedDeployment "3")
      (by decide)).1 ["metadata"] (by decide) (by decide)⟩

/-- C30: with `StartApplications` true, an int option whose field holds 0 and whose
annotation stashes 3 leaves the field holding the text `3`, a string and not the
integer 3 (line 1578 writes `fmt.Sprintf("%v", curr)`); reading the field as an integer
fails afterwards. -/
theorem prepareCRDClusterResource_writes_text :
    NestedInt64 suspendedCustomResource ["spec", "size"] = .ok (some 0) ∧
    (prepareCRDClusterResource startingMigration suspendedCustomResource [intSuspend]).err = none ∧
    NestedFieldNoCopy
      (.map (prepareCRDClusterResource startingMigration suspendedCustomResource
        [intSuspend]).content) ["spec", "size"] = .ok (some (.str "3")) ∧
    NestedInt64
      (prepareCRDClusterResource startingMigration suspendedCustomResource [intSuspend]).content
      ["spec", "size"] = .error "accessor error: expected int64" :=
  ⟨by decide, by decide, rfl, by decide⟩

/-! ## Interval schedule policies -/

/-- C27, as written, fails: the test of lines 91-94 requires that a last trigger at
22:16 is not due at 23:16 with an interval of 60 minutes, although 60 minutes have
passed; so does `TriggerRequired`, which passes that test. -/
theorem TriggerRequired_boundary_counterexample :
    (∀ trigger realNow, triggerIntervalRequiredTest trigger realNow →
      trigger [{ Name := "intervalpolicy", Interval := some { IntervalMinutes := 60 } }]
        (testDate 23 16) "intervalpolicy" (some (testDate 22 16)) = .ok false) ∧
    triggerIntervalRequiredTest TriggerRequired (testDate 23 0) ∧
    TriggerRequired [{ Name := "intervalpolicy", Interval := some { IntervalMinutes := 60 } }]
      (testDate 23 16) "intervalpolicy" (some (testDate 22 16)) = .ok false ∧
    testDate 23 16 - testDate 22 16 ≥ 60 * 60 :=
  ⟨fun _ _ h => h.2.2.2.1, by unfold triggerIntervalRequiredTest; decide, by decide, by decide⟩

/-- C27, amended: for an interval policy of n minutes that is found under its name,
`TriggerRequired` returns true if and only if the policy was never triggered or more
than n minutes have passed since the last trigger; with n = 60 a last trigger 2, 59 or
60 minutes ago is not due and one 61 minutes ago is due. -/
theorem TriggerRequired_interval (policies : List SchedulePolicy) (policy : SchedulePolicy)
    (n now : Nat) (policyName : String) (lastTrigger : Time)
    (hfound : policies.find? (fun p => p.Name = policyName) = some policy)
    (hinterval : policy.Interval = some { IntervalMinutes := n }) :
    (∃ required, TriggerRequired policies now policyName lastTrigger = .ok required ∧
      (required = true ↔ lastTrigger = none ∨ ∃ t, lastTrigger = some t ∧ t + n * 60 < now)) ∧
    TriggerRequired policies (testDate 23 16) policyName (some (testDate 23 14)) =
      .ok (decide (n < 2)) ∧
    TriggerRequired policies (testDate 23 16) policyName (some (testDate 22 17)) =
      .ok (decide (n < 59)) ∧
    TriggerRequired policies (testDate 23 16) policyName (some (testDate 22 16)) =
      .ok (decide (n < 60)) ∧
    TriggerRequired policies (testDate 23 16) policyName (some (testDate 22 15)) =
      .ok (decide (n < 61)) := by
  refine ⟨?_, ?_, ?_, ?_, ?_⟩
  · cases lastTrigger with
    | none => exact ⟨true, by simp [TriggerRequired, hfound, hinterval], by simp⟩
    | some t =>
      refine ⟨decide (t + n * 60 < now), by simp [TriggerRequired, hfound, hinterval], ?_⟩
      simp
  · simp only [TriggerRequired, hfound, hinterval, testDate]
    congr 1
    simp only [decide_eq_decide]
    omega
  · simp only [TriggerRequired, hfound, hinterval, testDate]
    congr 1
    simp only [decide_eq_decide]
    omega
  · simp only [TriggerRequired, hfound, hinterval, testDate]
    congr 1
    simp only [decide_eq_decide]
    omega
  · simp only [TriggerRequired, hfound, hinterval, testDate]
    congr 1
    simp only [decide_eq_decide]
    omega

theorem TriggerRequired_interval_witness :
    (∃ required,
      TriggerRequired [{ Name := "intervalpolicy", Interval := some { IntervalMinutes := 60 } }]
        (testDate 23 16) "intervalpolicy" (some (testDate 22 14)) = .ok required ∧
      (required = true ↔ some (testDate 22 14) = none ∨
        ∃ t, some (testDate 22 14) = some t ∧ t + 60 * 60 < testDate 23 16)) ∧
    TriggerRequired [{ Name := "intervalpolicy", Interval := some { IntervalMinutes := 60 } }]
      (testDate 23 16) "intervalpolicy" (some (testDate 23 14)) = .ok (decide (60 < 2)) ∧
    TriggerRequired [{ Name := "intervalpolicy", Interval := some { IntervalMinutes := 60 } }]
      (testDate 23 16) "intervalpolicy" (some (testDate 22 17)) = .ok (decide (60 < 59)) ∧
    TriggerRequired [{ Name := "intervalpolicy", Interval := some { IntervalMinutes := 60 } }]
      (testDate 23 16) "intervalpolicy" (some (testDate 22 16)) = .ok (decide (60 < 60)) ∧
    TriggerRequired [{ Name := "intervalpolicy", Interval := some { IntervalMinutes := 60 } }]
      (testDate 23 16) "intervalpolicy" (some (testDate 22 15)) = .ok (decide (60 < 61)) :=
  TriggerRequired_interval
    [{ Name := "intervalpolicy", Interval := some { IntervalMinutes := 60 } }]
    { Name := "intervalpolicy", Interval := some { IntervalMinutes := 60 } } 60 (testDate 23 16)
    "intervalpolicy" (some (testDate 22 14)) (by decide) rfl

/-! ## The default ServiceAccount -/

/-- C23: for a destination ServiceAccount without annotations (a nil map),
`checkAndUpdateDefaultSA` writes an object without the annotation of the source: the
block of lines 1386-1394 is guarded by `destSA.Annotations != nil`. The image-pull
secret and the secret `db-credentials` are merged, the destination's secret is
kept. -/
theorem checkAndUpdateDefaultSA_drops_annotations :
    sourceAccount.Annotations = some [("eks.amazonaws.com/role-arn", "arn:aws:iam::1:role/app")] ∧
    checkAndUpdateDefaultSA freshAccountAnswers sourceAccount =
      { written := some
          { Name := "default", Namespace := "app1"
            ImagePullSecrets := [{ Name := "registry-key" }]
            Secrets := [{ Name := "default-token-q9w8e", UID := "d-1" },
                        { Name := "db-credentials", UID := "s-2" }]
            AutomountServiceAccountToken := some true
            Annotations := none }
        err := none } := by
  decide

/-! ## Storage classes of the PersistentVolumes -/

theorem classKnown_append {listed : List String} {calls : List ClassCall} {scName : String}
    (more : List ClassCall) (h : classKnown listed calls scName) :
    classKnown listed (calls ++ more) scName := by
  rcases h with h | ⟨result, hmem, hacc⟩
  · exact Or.inl h
  · exact Or.inr ⟨result, List.mem_append_left _ hmem, hacc⟩

theorem safeUpdates_append {listed : List String} {calls : List ClassCall}
    (extra : List ClassCall) (hsafe : safeUpdates listed calls)
    (hextra : ∀ c ∈ extra, ∀ name scName, c ≠ ClassCall.updateVolume name scName) :
    safeUpdates listed (calls ++ extra) := by
  intro pre name scName post heq
  rcases List.append_eq_append_iff.mp heq with ⟨mid, hpre, hrest⟩ | ⟨mid, hcalls, hrest⟩
  · exact absurd rfl (hextra (ClassCall.updateVolume name scName)
      (by rw [hrest]; simp) name scName)
  · cases mid with
    | nil =>
      simp only [List.nil_append] at hrest
      exact absurd rfl (hextra (ClassCall.updateVolume name scName)
        (by rw [← hrest]; simp) name scName)
    | cons head tail =>
      simp only [List.cons_append, List.cons.injEq] at hrest
      rw [← hrest.1] at hcalls
      exact hsafe pre name scName tail hcalls

theorem safeUpdates_update {listed : List String} {calls : List ClassCall}
    (name scName : String) (hsafe : safeUpdates listed calls)
    (hknown : classKnown listed calls scName) :
    safeUpdates listed (calls ++ [ClassCall.updateVolume name scName]) := by
  intro pre name' scName' post heq
  rcases List.append_eq_append_iff.mp heq with ⟨mid, hpre, hrest⟩ | ⟨mid, hcalls, hrest⟩
  · cases mid with
    | nil =>
      simp only [List.nil_append, List.cons.injEq, ClassCall.updateVolume.injEq] at hrest
      simp only [List.append_nil] at hpre
      rw [hpre, ← hrest.1.2]
      exact hknown
    | cons head tail =>
      simp only [List.cons_append, List.cons.injEq] at hrest
      have := hrest.2
      simp at this
  · cases mid with
    | nil =>
      simp only [List.nil_append, List.cons.injEq, ClassCall.updateVolume.injEq] at hrest
      simp only [List.append_nil] at hcalls
      rw [← hcalls, hrest.1.2]
      exact hknown
    | cons head tail =>
      simp only [List.cons_append, List.cons.injEq] at hrest
      rw [← hrest.1] at hcalls
      exact hsafe pre name' scName' tail hcalls

theorem createClassLoop_calls (answers : ClassAnswers) (index : Nat) (scName : String)
    (fuel retries : Nat) (err : Option String) (calls : List ClassCall) :
    ∃ extra, (createClassLoop answers index scName fuel retries err calls).1 = calls ++ extra ∧
      (∀ c ∈ extra, ∃ result, c = ClassCall.createClass scName result) ∧
      ((createClassLoop answers index scName fuel retries err calls).2.2 = true →
        ∃ result, ClassCall.createClass scName result ∈ extra ∧ result.accepted = true) := by
  induction fuel generalizing retries err calls with
  | zero => exact ⟨[], by simp [createClassLoop]⟩
  | succ fuel ih =>
    simp only [createClassLoop]
    split
    · exact ⟨[ClassCall.createClass scName .created], rfl, by simp,
        fun _ => ⟨ClassCreate.created, by simp, rfl⟩⟩
    · rename_i e _
      exact ⟨[ClassCall.createClass scName (.alreadyExists e)], rfl, by simp,
        fun _ => ⟨ClassCreate.alreadyExists e, by simp, rfl⟩⟩
    · rename_i e _
      obtain ⟨extra, hcalls, hall, hreg⟩ := ih (retries + 1) (some e)
        (calls ++ [ClassCall.createClass scName (.failed e)])
      refine ⟨ClassCall.createClass scName (.failed e) :: extra, ?_, ?_, ?_⟩
      · rw [hcalls]; simp
      · intro c hc
        rcases List.mem_cons.mp hc with h | h
        · exact ⟨_, h⟩
        · exact hall c h
      · intro h
        obtain ⟨result, hmem, hacc⟩ := hreg h
        exact ⟨result, List.mem_cons_of_mem _ hmem, hacc⟩

theorem createClassLoop_safe {listed : List String} (answers : ClassAnswers) (index : Nat)
    (scName : String) (fuel retries : Nat) (err : Option String) {calls : List ClassCall}
    (hsafe : safeUpdates listed calls) :
    safeUpdates listed (createClassLoop answers index scName fuel retries err calls).1 := by
  obtain ⟨extra, hcalls, hall, _⟩ :=
    createClassLoop_calls answers index scName fuel retries err calls
  rw [hcalls]
  apply safeUpdates_append extra hsafe
  intro c hc name sc heq
  obtain ⟨result, hres⟩ := hall c hc
  rw [hres] at heq
  cases heq

theorem createClassLoop_known {listed : List String} (answers : ClassAnswers) (index : Nat)
    (scName : String) (fuel retries : Nat) (err : Option String) {calls : List ClassCall}
    {sc : String} (hknown : classKnown listed calls sc) :
    classKnown listed (createClassLoop answers index scName fuel retries err calls).1 sc := by
  obtain ⟨extra, hcalls, _, _⟩ :=
    createClassLoop_calls answers index scName fuel retries err calls
  rw [hcalls]
  exact classKnown_append extra hknown

theorem createClassLoop_registered (listed : List String) (answers : ClassAnswers) (index : Nat)
    (scName : String) (fuel retries : Nat) (err : Option String) (calls : List ClassCall)
    (hreg : (createClassLoop answers index scName fuel retries err calls).2.2 = true) :
    classKnown listed (createClassLoop answers index scName fuel retries err calls).1 scName := by
  obtain ⟨extra, hcalls, _, hacc⟩ :=
    createClassLoop_calls answers index scName fuel retries err calls
  obtain ⟨result, hmem, hres⟩ := hacc hreg
  rw [hcalls]
  exact Or.inr ⟨result, List.mem_append_right _ hmem, hres⟩

theorem createClassLoop_none (answers : ClassAnswers) (index : Nat) (scName : String)
    (fuel retries : Nat) (err : Option String) (calls : List ClassCall)
    (hnone : (createClassLoop answers index scName fuel retries err calls).2.1 = none) :
    (fuel = 0 ∧ err = none) ∨
      (createClassLoop answers index scName fuel retries err calls).2.2 = true := by
  induction fuel generalizing retries err calls with
  | zero => exact Or.inl ⟨rfl, by simpa [createClassLoop] using hnone⟩
  | succ fuel ih =>
    right
    simp only [createClassLoop] at hnone ⊢
    split
    · rfl
    · rfl
    · rename_i e heq
      rw [heq] at hnone
      rcases ih _ _ _ hnone with ⟨_, h⟩ | h
      · cases h
      · exact h

theorem updateClasses_safe {listed : List String} (answers : ClassAnswers)
    (objects : List Unstructured) (index : Nat) (destScExists : List String)
    (calls : List ClassCall) (hsafe : safeUpdates listed calls)
    (hknown : ∀ sc ∈ destScExists, classKnown listed calls sc) :
    safeUpdates listed (updateClasses answers objects index destScExists calls).1 := by
  induction objects generalizing index destScExists calls with
  | nil => exact hsafe
  | cons obj rest ih =>
    have hget : safeUpdates listed (calls ++ [ClassCall.getVolume obj.Name]) :=
      safeUpdates_append _ hsafe (by simp)
    have hgetKnown : ∀ sc ∈ destScExists,
        classKnown listed (calls ++ [ClassCall.getVolume obj.Name]) sc :=
      fun sc hsc => classKnown_append _ (hknown sc hsc)
    simp only [updateClasses]
    split
    · exact hsafe
    · split
      · exact ih _ _ _ hsafe hknown
      · split
        · exact hget
        · rename_i destPV _
          split
          · exact ih _ _ _ hget hgetKnown
          · rename_i scName _
            have hboth : ∀ sc, classKnown listed calls sc → classKnown listed
                (calls ++ [ClassCall.getVolume obj.Name, ClassCall.updateVolume obj.Name scName])
                sc := fun sc h => classKnown_append _ h
            split
            · rename_i hmem
              have hupd : safeUpdates listed
                  (calls ++ [ClassCall.getVolume obj.Name,
                    ClassCall.updateVolume obj.Name scName]) := by
                have := safeUpdates_update obj.Name scName hget (hgetKnown scName hmem)
                simpa using this
              split
              · exact ih _ _ _ hget hgetKnown
              · split
                · exact hupd
                · exact ih _ _ _ hupd (fun sc hsc => hboth sc (hknown sc hsc))
            · have hsource : safeUpdates listed
                  (calls ++ [ClassCall.getVolume obj.Name, ClassCall.getSourceClass scName]) :=
                safeUpdates_append _ hsafe (by simp)
              have hsourceKnown : ∀ sc ∈ destScExists, classKnown listed
                  (calls ++ [ClassCall.getVolume obj.Name, ClassCall.getSourceClass scName]) sc :=
                fun sc hsc => classKnown_append _ (hknown sc hsc)
              split
              · exact hsource
              · have hloop := createClassLoop_safe answers index scName maxApplyRetries 0 none
                  hsource
                have hloopKnown : ∀ sc ∈ destScExists, classKnown listed
                    (createClassLoop answers index scName maxApplyRetries 0 none
                      (calls ++ [ClassCall.getVolume obj.Name,
                        ClassCall.getSourceClass scName])).1 sc :=
                  fun sc hsc => createClassLoop_known answers index scName maxApplyRetries 0 none
                    (hsourceKnown sc hsc)
                have hreg := createClassLoop_registered listed answers index scName
                  maxApplyRetries 0 none
                  (calls ++ [ClassCall.getVolume obj.Name, ClassCall.getSourceClass scName])
                split
                · rename_i heq
                  rw [heq] at hloop
                  exact hloop
                · rename_i calls1 registered heq
                  rw [heq] at hloop hloopKnown hreg
                  simp only at hloop hloopKnown hreg
                  have hnext : ∀ sc ∈ (if registered = true then scName :: destScExists
                      else destScExists), classKnown listed calls1 sc := by
                    intro sc hsc
                    split at hsc
                    · rename_i hr
                      rcases List.mem_cons.mp hsc with h | h
                      · rw [h]; exact hreg hr
                      · exact hloopKnown sc h
                    · exact hloopKnown sc hsc
                  split
                  · exact ih _ _ _ hloop hnext
                  · have hnone := createClassLoop_none answers index scName maxApplyRetries 0 none
                      (calls ++ [ClassCall.getVolume obj.Name, ClassCall.getSourceClass scName])
                    rw [heq] at hnone
                    have hregistered : registered = true := by
                      rcases hnone rfl with ⟨h, _⟩ | h
                      · cases h
                      · exact h
                    have hupd := safeUpdates_update obj.Name scName hloop (hreg hregistered)
                    split
                    · exact hupd
                    · exact ih _ _ _ hupd (fun sc hsc => classKnown_append _ (hnext sc hsc))

/-- C24: whenever `updateStorageClassOnPV` issues an update that sets the storage class
of a PersistentVolume to a name, that name was in the list of storage classes that the
destination returned at the start of the call, or a creation of that storage class was
attempted earlier in the same call and answered with success or with AlreadyExists. -/
theorem updateStorageClassOnPV_updates_known (answers : ClassAnswers)
    (objects : List Unstructured) (pre post : List ClassCall) (name scName : String)
    (hcalls : (updateStorageClassOnPV answers objects).1 =
      pre ++ ClassCall.updateVolume name scName :: post) :
    (∃ listed, answers.listClasses = .ok listed ∧ scName ∈ listed) ∨
      ∃ result, ClassCall.createClass scName result ∈ pre ∧
        (result = .created ∨ ∃ err, result = .alreadyExists err) := by
  simp only [updateStorageClassOnPV] at hcalls
  split at hcalls
  · simp at hcalls
  · split at hcalls
    · cases pre with
      | nil => simp at hcalls
      | cons head tail =>
        have := congrArg List.length hcalls
        simp at this
    · rename_i listed hlist
      have hsafe : safeUpdates listed [ClassCall.listClasses] := by
        have hnil : safeUpdates listed [] := fun pre name scName post h => by simp at h
        have := safeUpdates_append [ClassCall.listClasses] hnil (by simp)
        simpa using this
      rcases updateClasses_safe answers objects 0 listed [ClassCall.listClasses] hsafe
        (fun sc hsc => Or.inl hsc) pre name scName post hcalls with h | ⟨result, hmem, hacc⟩
      · exact Or.inl ⟨listed, hlist, h⟩
      · refine Or.inr ⟨result, hmem, ?_⟩
        cases result with
        | created => exact Or.inl rfl
        | alreadyExists err => exact Or.inr ⟨err, rfl⟩
        | failed err => cases hacc

theorem updateStorageClassOnPV_updates_known_witness :
    (updateStorageClassOnPV fastClassAnswers [sampleDisk, sampleWorkload]).1 =
        [ClassCall.listClasses, .getVolume "pv1", .getSourceClass "fast",
          .createClass "fast" (.failed "timeout"), .createClass "fast" .created] ++
          ClassCall.updateVolume "pv1" "fast" :: [] ∧
      ((∃ listed, fastClassAnswers.listClasses = .ok listed ∧ "fast" ∈ listed) ∨
        ∃ result, ClassCall.createClass "fast" result ∈
            [ClassCall.listClasses, .getVolume "pv1", .getSourceClass "fast",
              .createClass "fast" (.failed "timeout"), .createClass "fast" .created] ∧
          (result = .created ∨ ∃ err, result = .alreadyExists err)) :=
  ⟨by decide, updateStorageClassOnPV_updates_known fastClassAnswers
    [sampleDisk, sampleWorkload] _ [] "pv1" "fast" (by decide)⟩

/-! ## Preparing an application twice -/

theorem fieldSet_same (m : Content) (k : String) (v : Value) (h : m.lookup k = some v) :
    fieldSet m k v = m := by
  induction m with
  | nil => simp at h
  | cons e rest ih =>
    obtain ⟨k', v'⟩ := e
    rw [lookup_cons_eq] at h
    simp only [fieldSet]
    by_cases hk : k' = k
    · subst hk
      simp only [if_true] at h ⊢
      cases h
      rfl
    · have hk' : ¬ k = k' := fun e => hk e.symm
      simp only [hk, hk', if_false] at h ⊢
      rw [ih h]

theorem fieldSet_fieldSet (m : Content) (k : String) (v w : Value) :
    fieldSet (fieldSet m k v) k w = fieldSet m k w := by
  induction m with
  | nil => simp [fieldSet]
  | cons e rest ih =>
    obtain ⟨k', v'⟩ := e
    simp only [fieldSet]
    by_cases hk : k' = k
    · simp [hk, fieldSet]
    · simp [hk, fieldSet, ih]

theorem SetNestedField_same (path : List String) (obj : Content) (value : Value)
    (hpath : path ≠ [])
    (h : NestedFieldNoCopy (.map obj) path = .ok (some value)) :
    SetNestedField obj value path = .ok obj := by
  induction path generalizing obj with
  | nil => exact absurd rfl hpath
  | cons field rest ih =>
    rw [NestedFieldNoCopy_map_cons] at h
    cases rest with
    | nil =>
      cases hl : obj.lookup field with
      | none => rw [hl] at h; simp at h
      | some val =>
        rw [hl] at h
        simp only [NestedFieldNoCopy, Except.ok.injEq, Option.some.injEq] at h
        subst h
        simp only [SetNestedField, fieldSet_same obj field val hl]
    | cons next rest =>
      cases hl : obj.lookup field with
      | none => rw [hl] at h; simp at h
      | some val =>
        rw [hl] at h
        simp only at h
        cases val with
        | map sub =>
          have := ih sub (by simp) h
          simp only [SetNestedField, hl, this, fieldSet_same obj field _ hl]
        | null => simp [NestedFieldNoCopy] at h
        | bool b => simp [NestedFieldNoCopy] at h
        | int i => simp [NestedFieldNoCopy] at h
        | float t => simp [NestedFieldNoCopy] at h
        | str s => simp [NestedFieldNoCopy] at h
        | list l => simp [NestedFieldNoCopy] at h

theorem SetNestedField_again (path : List String) (obj obj' : Content) (value other : Value)
    (h : SetNestedField obj value path = .ok obj') :
    SetNestedField obj' other path = SetNestedField obj other path := by
  induction path generalizing obj obj' with
  | nil => simp [SetNestedField] at h
  | cons field rest ih =>
    cases rest with
    | nil =>
      simp only [SetNestedField, Except.ok.injEq] at h ⊢
      rw [← h, fieldSet_fieldSet]
    | cons next rest =>
      simp only [SetNestedField] at h ⊢
      cases hl : obj.lookup field with
      | none =>
        rw [hl] at h
        simp only at h
        cases hs : SetNestedField [] value (next :: rest) with
        | error e => rw [hs] at h; simp at h
        | ok sub =>
          rw [hs] at h
          simp only [Except.ok.injEq] at h
          subst h
          simp only [lookup_fieldSet, if_true]
          rw [ih [] sub hs]
          cases SetNestedField [] other (next :: rest) with
          | error e => rfl
          | ok sub2 => simp only [fieldSet_fieldSet]
      | some val =>
        rw [hl] at h
        cases val with
        | map m =>
          simp only at h
          cases hs : SetNestedField m value (next :: rest) with
          | error e => rw [hs] at h; simp at h
          | ok sub =>
            rw [hs] at h
            simp only [Except.ok.injEq] at h
            subst h
            simp only [lookup_fieldSet, if_true]
            rw [ih m sub hs]
            cases SetNestedField m other (next :: rest) with
            | error e => rfl
            | ok sub2 => simp only [fieldSet_fieldSet]
        | null => simp at h
        | bool b => simp at h
        | int i => simp at h
        | float t => simp at h
        | str s => simp at h
        | list l => simp at h

theorem mapSet_mapSet (m : StrMap) (k v : String) : mapSet (mapSet m k v) k v = mapSet m k v := by
  by_cases hany : m.any (fun e => e.1 == k) = true
  · have hmap : mapSet m k v = m.map (fun e => if e.1 == k then (k, v) else e) := by
      simp only [mapSet, hany, if_true]
    have hany' : (m.map (fun e => if e.1 == k then (k, v) else e)).any (fun e => e.1 == k) =
        true := by
      rw [List.any_eq_true] at hany ⊢
      obtain ⟨e, he, hk⟩ := hany
      exact ⟨(k, v), List.mem_map.mpr ⟨e, he, by simp only [hk, if_true]⟩, by simp⟩
    rw [hmap]
    simp only [mapSet, hany', if_true, List.map_map]
    apply List.map_congr_left
    intro e _
    by_cases hk : e.1 = k
    · simp [hk]
    · simp [hk]
  · have hmap : mapSet m k v = m ++ [(k, v)] := by
      simp only [mapSet, hany, if_false]
      rfl
    have hany' : (m ++ [(k, v)]).any (fun e => e.1 == k) = true := by simp
    rw [hmap]
    simp only [mapSet, hany', if_true, List.map_append, List.map_cons, List.map_nil,
      beq_self_eq_true]
    congr 1
    conv_rhs => rw [← List.map_id m]
    apply List.map_congr_left
    intro e he
    have : ¬ (e.1 == k) = true := fun hk => hany (List.any_eq_true.mpr ⟨e, he, hk⟩)
    simp [this]

theorem scaleDown_ok (content : Content) (replicas : Int) (annotations : StrMap)
    (herr : (scaleDown content replicas annotations).err = none) :
    ∃ c1 found c2 c3,
      SetNestedField content (.int 0) ["spec", "replicas"] = .ok c1 ∧
      NestedStringMap c1 ["metadata", "labels"] = .ok found ∧
      SetNestedStringMap c1 (mapSet (found.getD []) StorkMigrationAnnotation "true")
        ["metadata", "labels"] = .ok c2 ∧
      SetNestedStringMap c2
        (mapSet annotations StorkMigrationReplicasAnnotation (FormatInt replicas))
        ["metadata", "annotations"] = .ok c3 ∧
      scaleDown content replicas annotations = { content := c3, err := none } := by
  simp only [scaleDown] at herr ⊢
  cases h1 : SetNestedField content (.int 0) ["spec", "replicas"] with
  | error e => rw [h1] at herr; simp at herr
  | ok c1 =>
    rw [h1] at herr
    simp only at herr ⊢
    cases h2 : NestedStringMap c1 ["metadata", "labels"] with
    | error e => rw [h2] at herr; simp at herr
    | ok found =>
      rw [h2] at herr
      simp only at herr ⊢
      cases h3 : SetNestedStringMap c1 (mapSet (found.getD []) StorkMigrationAnnotation "true")
          ["metadata", "labels"] with
      | error e => rw [h3] at herr; simp at herr
      | ok c2 =>
        rw [h3] at herr
        simp only at herr ⊢
        cases h4 : SetNestedStringMap c2
            (mapSet annotations StorkMigrationReplicasAnnotation (FormatInt replicas))
            ["metadata", "annotations"] with
        | error e => rw [h4] at herr; simp at herr
        | ok c3 => exact ⟨c1, found, c2, c3, rfl, h2, h3, h4, rfl⟩

theorem scaleDown_again (content start : Content) (replicas : Int) (annotations : StrMap)
    (herr : (scaleDown content replicas annotations).err = none)
    (hstart : SetNestedField start (.int 0) ["spec", "replicas"] =
      .ok (scaleDown content replicas annotations).content) :
    scaleDown start replicas
        (mapSet annotations StorkMigrationReplicasAnnotation (FormatInt replicas)) =
      scaleDown content replicas annotations := by
  obtain ⟨c1, found, c2, c3, h1, h2, h3, h4, hres⟩ :=
    scaleDown_ok content replicas annotations herr
  rw [hres] at hstart ⊢
  simp only at hstart
  have hlabels2 := SetNestedField_get_same _ _ _ _ h3
  have hlabels3 : NestedFieldNoCopy (.map c3) ["metadata", "labels"] =
      .ok (some (.map ((mapSet (found.getD []) StorkMigrationAnnotation "true").map
        (fun e => (e.1, Value.str e.2))))) := by
    rw [SetNestedField_get_disjoint _ _ _ _ _ h4 (by decide) (by decide)]
    exact hlabels2
  have hannotations3 := SetNestedField_get_same _ _ _ _ h4
  have hread : NestedStringMap c3 ["metadata", "labels"] =
      .ok (some (mapSet (found.getD []) StorkMigrationAnnotation "true")) := by
    simp only [NestedStringMap, hlabels3, stringEntries_map]
  have hset1 : SetNestedStringMap c3
      (mapSet (mapSet (found.getD []) StorkMigrationAnnotation "true")
        StorkMigrationAnnotation "true") ["metadata", "labels"] = .ok c3 := by
    rw [mapSet_mapSet]
    exact SetNestedField_same _ _ _ (by simp) hlabels3
  have hset2 : SetNestedStringMap c3
      (mapSet (mapSet annotations StorkMigrationReplicasAnnotation (FormatInt replicas))
        StorkMigrationReplicasAnnotation (FormatInt replicas)) ["metadata", "annotations"] =
      .ok c3 := by
    rw [mapSet_mapSet]
    exact SetNestedField_same _ _ _ (by simp) hannotations3
  simp only [scaleDown, hstart, hread, Option.getD_some, hset1, hset2]

theorem scaleDown_reads (content : Content) (replicas : Int) (annotations : StrMap)
    (herr : (scaleDown content replicas annotations).err = none) :
    NestedFieldNoCopy (.map (scaleDown content replicas annotations).content)
        ["spec", "replicas"] = .ok (some (.int 0)) ∧
    NestedStringMap (scaleDown content replicas annotations).content
        ["metadata", "annotations"] =
      .ok (some (mapSet annotations StorkMigrationReplicasAnnotation (FormatInt replicas))) ∧
    ∃ m, (scaleDown content replicas annotations).content.lookup "spec" = some (.map m) := by
  obtain ⟨c1, found, c2, c3, h1, h2, h3, h4, hres⟩ :=
    scaleDown_ok content replicas annotations herr
  rw [hres]
  refine ⟨?_, SetNestedStringMap_get_same _ _ _ _ h4, ?_⟩
  · simp only
    rw [SetNestedField_get_disjoint _ _ _ _ _ h4 (by decide) (by decide),
      SetNestedField_get_disjoint _ _ _ _ _ h3 (by decide) (by decide)]
    exact SetNestedField_get_same _ _ _ _ h1
  · simp only
    rw [SetNestedField_other _ _ _ _ "spec" _ h4 (by decide),
      SetNestedField_other _ _ _ _ "spec" _ h3 (by decide)]
    exact SetNestedField_parent _ _ _ _ _ _ h1

/-- C28, counterexample: a workload with `spec.replicas` -1. The first run succeeds,
scales it to 0 and stashes the text -1; the second run succeeds too, finds 0 replicas
and a stash that is not positive, and so stashes the text 0: the two results differ. -/
theorem prepareApplicationResource_negative_counterexample :
    deref applicationsMigration.Spec.StartApplications = false ∧
    (prepareApplicationResource applicationsMigration negativeDeployment).err = none ∧
    NestedStringMap (prepareApplicationResource applicationsMigration negativeDeployment).content
      ["metadata", "annotations"] =
        .ok (some [("stork.libopenstorage.org/migrationReplicas", "-1")]) ∧
    (prepareApplicationResource applicationsMigration
      (prepareApplicationResource applicationsMigration negativeDeployment).content).err =
        none ∧
    NestedStringMap (prepareApplicationResource applicationsMigration
      (prepareApplicationResource applicationsMigration negativeDeployment).content).content
      ["metadata", "annotations"] =
        .ok (some [("stork.libopenstorage.org/migrationReplicas", "0")]) ∧
    (prepareApplicationResource applicationsMigration
      (prepareApplicationResource applicationsMigration negativeDeployment).content).content ≠
      (prepareApplicationResource applicationsMigration negativeDeployment).content := by
  refine ⟨by decide, by decide, by decide, by decide, by decide, ?_⟩
  intro h
  have := congrArg (fun c => NestedStringMap c ["metadata", "annotations"]) h
  revert this
  decide

/-- C28, amended: with `StartApplications` false, for every object whose
`spec.replicas` is absent or an int64 that is not negative and on which
`prepareApplicationResource` succeeds, applying it a second time to its own result
succeeds and yields the same object as applying it once. -/
theorem prepareApplicationResource_idempotent (migration : Migration) (content : Content)
    (hstart : deref migration.Spec.StartApplications = false)
    (hrange : ∀ r, NestedInt64 content ["spec", "replicas"] = .ok (some r) →
      0 ≤ r ∧ r < 9223372036854775808)
    (herr : (prepareApplicationResource migration content).err = none) :
    (prepareApplicationResource migration
      (prepareApplicationResource migration content).content).err = none ∧
    (prepareApplicationResource migration
      (prepareApplicationResource migration content).content).content =
      (prepareApplicationResource migration content).content := by
  have key : ∀ (start : Content) (replicas : Int) (annotations : StrMap),
      0 ≤ replicas → replicas < 9223372036854775808 →
      (scaleDown start replicas annotations).err = none →
      prepareApplicationResource migration (scaleDown start replicas annotations).content =
        scaleDown start replicas annotations := by
    intro start replicas annotations hlo hhi hok
    obtain ⟨hget, hann, m, hspec⟩ := scaleDown_reads start replicas annotations hok
    have hint : NestedInt64 (scaleDown start replicas annotations).content
        ["spec", "replicas"] = .ok (some 0) := by
      simp only [NestedInt64, hget]
    have hparse : ParseInt (FormatInt replicas) = .ok replicas :=
      ParseInt_FormatInt replicas (by omega) (by omega)
    have hcarry := carryForwardReplicas_stashed (scaleDown start replicas annotations).content
      (mapSet annotations StorkMigrationReplicasAnnotation (FormatInt replicas))
      (FormatInt replicas) replicas (by rw [lookup_mapSet, if_pos rfl]) hparse
    have hzero := SetNestedField_same ["spec", "replicas"] _ _ (by simp) hget
    simp only [prepareApplicationResource, hint, hann, Option.getD_some, hcarry, hstart]
    by_cases hpos : replicas > 0
    · obtain ⟨next, hnext⟩ := SetNestedField_two (scaleDown start replicas annotations).content
        (.int replicas) "spec" "replicas" (fun x hx => ⟨m, by rw [hspec] at hx; cases hx; rfl⟩)
      simp only [hpos, if_true, hnext]
      exact scaleDown_again start next replicas annotations hok
        (by rw [SetNestedField_again _ _ _ _ _ hnext]; exact hzero)
    · have hz : replicas = 0 := by omega
      simp only [hpos, if_false]
      subst hz
      exact scaleDown_again start _ 0 annotations hok hzero
  have first : ∃ (start : Content) (replicas : Int) (annotations : StrMap),
      0 ≤ replicas ∧ replicas < 9223372036854775808 ∧
      prepareApplicationResource migration content = scaleDown start replicas annotations := by
    simp only [prepareApplicationResource] at herr ⊢
    cases hrep : NestedInt64 content ["spec", "replicas"] with
    | error e => rw [hrep] at herr; simp at herr
    | ok found =>
      rw [hrep] at herr
      simp only at herr ⊢
      cases hann : NestedStringMap content ["metadata", "annotations"] with
      | error e => rw [hann] at herr; simp at herr
      | ok foundAnnotations =>
        rw [hann] at herr
        simp only at herr ⊢
        have hfound : 0 ≤ found.getD 1 ∧ found.getD 1 < 9223372036854775808 := by
          cases found with
          | none => simp
          | some r => exact hrange r hrep
        rcases carryForwardReplicas_cases content (found.getD 1) (foundAnnotations.getD [])
          with ⟨e, h⟩ | h | ⟨text, n, next, _, _, hparse, hpos, _, h⟩
        · rw [h] at herr; simp at herr
        · rw [h]
          simp only [hstart]
          exact ⟨content, found.getD 1, foundAnnotations.getD [], hfound.1, hfound.2, by simp⟩
        · rw [h]
          simp only [hstart]
          have := (ParseInt_range text n hparse).2
          exact ⟨next, n, foundAnnotations.getD [], by omega, by simpa using this, by simp⟩
  obtain ⟨start, replicas, annotations, hlo, hhi, hfirst⟩ := first
  rw [hfirst] at herr ⊢
  rw [key start replicas annotations hlo hhi herr]
  exact ⟨herr, rfl⟩

theorem prepareApplicationResource_idempotent_witness :
    deref applicationsMigration.Spec.StartApplications = false ∧
    (prepareApplicationResource applicationsMigration sampleDeployment).err = none ∧
    (prepareApplicationResource applicationsMigration
      (prepareApplicationResource applicationsMigration sampleDeployment).content).err = none ∧
    (prepareApplicationResource applicationsMigration
      (prepareApplicationResource applicationsMigration sampleDeployment).content).content =
      (prepareApplicationResource applicationsMigration sampleDeployment).content :=
  ⟨by decide, by decide,
    prepareApplicationResource_idempotent applicationsMigration sampleDeployment (by decide)
      (fun r h => by
        have h3 : NestedInt64 sampleDeployment ["spec", "replicas"] = .ok (some 3) := by decide
        rw [h3] at h
        simp only [Except.ok.injEq, Option.some.injEq] at h
        subst h
        decide)
      (by decide)⟩

/-! ## Applying the objects -/

theorem isObjectHashEqual_of_hash (hashKey hash : String) (content : Content)
    (annotations : StrMap) (objHash : Nat)
    (hannotations : NestedStringMap content ["metadata", "annotations"] = .ok (some annotations))
    (hhash : annotations.lookup hashKey = some hash) (hparse : ParseUint hash = .ok objHash) :
    isObjectHashEqual hashKey (.ok content) objHash = true := by
  simp only [isObjectHashEqual, hannotations, hhash, hparse, decide_True]

theorem replaceObject_equal (answers : ObjectAnswers) (name : String) (objHash retries : Nat)
    (calls : List ApiCall)
    (hequal : isObjectHashEqual answers.StorkResourceHash (answers.destination retries) objHash =
      true) :
    replaceObject answers name objHash retries calls =
      { calls := calls ++ [.get name], err := none, panicked := false } := by
  simp only [replaceObject, hequal, if_true]

theorem applyAttempt_equal (answers : ObjectAnswers) (migration : Migration) (o : Unstructured)
    (name : String) (objHash retries : Nat) (calls : List ApiCall) (err : ApiError)
    (hkind : o.Kind ≠ "ServiceAccount")
    (hcreate : answers.create retries = some err)
    (hexists : err.reason = .AlreadyExists ∨
      stringsContains err.message answers.ErrAllocated = true)
    (hequal : isObjectHashEqual answers.StorkResourceHash (answers.destination retries) objHash =
      true) :
    (applyAttempt answers migration o name objHash retries calls).err = none ∧
    (applyAttempt answers migration o name objHash retries calls).panicked = false ∧
    ((applyAttempt answers migration o name objHash retries calls).calls =
        calls ++ [.create name, .get name] ∨
      (applyAttempt answers migration o name objHash retries calls).calls =
        calls ++ [.create name, .readService o.Name] ∨
      (applyAttempt answers migration o name objHash retries calls).calls =
        calls ++ [.create name, .readService o.Name, .get name]) := by
  simp only [applyAttempt, hcreate, hexists, if_true, hkind, if_false,
    replaceObject_equal answers name objHash retries _ hequal]
  split
  · split
    · exact ⟨rfl, rfl, Or.inr (Or.inl rfl)⟩
    · exact ⟨rfl, rfl, Or.inr (Or.inr (by simp))⟩
  · exact ⟨rfl, rfl, Or.inl (by simp)⟩

theorem applyLoop_done (answers : ObjectAnswers) (migration : Migration) (o : Unstructured)
    (name : String) (objHash left retries : Nat) (calls : List ApiCall)
    (herr : (applyAttempt answers migration o name objHash retries calls).err = none) :
    applyLoop answers migration o name objHash left retries calls =
      applyAttempt answers migration o name objHash retries calls := by
  unfold applyLoop
  simp only [herr]
  split <;> rfl

/-- C21: for a PersistentVolumeClaim whose conversion and hash succeed and whose copy
on the destination carries the annotation `resourcecollector.StorkResourceHash` with
the hash of the source object, the body of the loop of `applyResources` makes one call,
the `Get`: no `Delete` and no `Create`, and it records the status Successful. For an
object handed to a worker whose accessors and hash succeed, whose kind is not
ServiceAccount, whose config map, if it is stashed, is built without an error, whose
`Create` is answered with AlreadyExists and whose copy on the destination carries the
annotation with the hash of the source object, the worker makes no `Delete`, creates
once, records the status Successful and sends nil. -/
theorem applyResources_skips_equal_hash (env : Env) (migration : Migration)
    (obj : Unstructured) :
    (∀ (answers : ClaimAnswers) (objHash : Nat) (annotations : StrMap) (hash : String),
      answers.fromUnstructuredErr = none → answers.hash = .ok objHash →
      answers.getClaim = .ok annotations →
      annotations.lookup answers.StorkResourceHash = some hash →
      ParseUint hash = .ok objHash →
      (applyClaim env answers migration obj).calls = [.get obj.Name] ∧
      (applyClaim env answers migration obj).mig =
        (updateResourceStatus env migration obj .Successful
          "Resource migrated successfully").mig) ∧
    (∀ (answers : ObjectAnswers) (appRegsStashMap : List String) (stashCMError : Bool)
      (objHash : Nat) (err : ApiError) (content : Content) (annotations : StrMap)
      (hash : String),
      obj.accessorErr = none → answers.typeAccessorErr = none → answers.castFails = false →
      obj.Kind ≠ "ServiceAccount" → answers.hash = .ok objHash →
      (getAppRegsStashMapKeyName obj.Group obj.Kind obj.Version ∈ appRegsStashMap →
        (getStashedConfigMap answers).2 = none) →
      answers.create 0 = some err →
      (err.reason = .AlreadyExists ∨
        stringsContains err.message answers.ErrAllocated = true) →
      answers.destination 0 = .ok content →
      NestedStringMap content ["metadata", "annotations"] = .ok (some annotations) →
      annotations.lookup answers.StorkResourceHash = some hash →
      ParseUint hash = .ok objHash →
      (∀ name, ApiCall.delete name ∉
        (applyObject env answers appRegsStashMap migration obj stashCMError).calls) ∧
      ((applyObject env answers appRegsStashMap migration obj stashCMError).calls.filter
        (fun call => call matches .create _)).length ≤ 1 ∧
      (applyObject env answers appRegsStashMap migration obj stashCMError).outcome =
        .recorded ∧
      (applyObject env answers appRegsStashMap migration obj stashCMError).mig =
        (updateResourceStatus env migration obj .Successful
          "Resource migrated successfully").mig) := by
  constructor
  · intro answers objHash annotations hash hconv hhash hget hlookup hparse
    simp only [applyClaim, hconv, hhash, hget, hlookup, hparse, decide_True, if_true, and_self]
  · intro answers appRegsStashMap stashCMError objHash err content annotations hash
      haccessor htype hcast hkind hhash hstash hcreate hexists hdest hann hlookup hparse
    have hequal : isObjectHashEqual answers.StorkResourceHash (answers.destination 0) objHash =
        true := by
      rw [hdest]
      exact isObjectHashEqual_of_hash _ hash content annotations objHash hann hlookup hparse
    have hloop : ∀ name : String,
        (applyLoop answers migration obj name objHash maxApplyRetries 0 []).err = none ∧
        (applyLoop answers migration obj name objHash maxApplyRetries 0 []).panicked = false ∧
        (∀ n, ApiCall.delete n ∉
          (applyLoop answers migration obj name objHash maxApplyRetries 0 []).calls) ∧
        ((applyLoop answers migration obj name objHash maxApplyRetries 0 []).calls.filter
          (fun call => call matches .create _)).length ≤ 1 := by
      intro name
      obtain ⟨h1, h2, h3⟩ := applyAttempt_equal answers migration obj name objHash 0 [] err
        hkind hcreate hexists hequal
      rw [applyLoop_done _ _ _ _ _ _ _ _ h1]
      refine ⟨h1, h2, ?_, ?_⟩
      · intro n
        rcases h3 with h | h | h <;> rw [h] <;> simp
      · rcases h3 with h | h | h <;> rw [h] <;> simp [List.filter]
    by_cases hmem : getAppRegsStashMapKeyName obj.Group obj.Kind obj.Version ∈ appRegsStashMap
    · have hnone := hstash hmem
      cases stashCMError with
      | true =>
        simp [applyObject, haccessor, htype, hcast, hhash, hmem, hnone]
      | false =>
        obtain ⟨h1, h2, h3, h4⟩ := hloop ((getStashedConfigMap answers).1.getD "")
        simp [applyObject, haccessor, htype, hcast, hhash, hmem, hnone, h1, h2, h3, h4]
    · cases stashCMError with
      | true =>
        simp [applyObject, haccessor, htype, hcast, hhash, hmem]
      | false =>
        obtain ⟨h1, h2, h3, h4⟩ := hloop obj.Name
        simp [applyObject, haccessor, htype, hcast, hhash, hmem, h1, h2, h3, h4]

theorem applyResources_skips_equal_hash_witness :
    ((applyClaim calmEnv syncedClaimAnswers applicationsMigration sampleClaim).calls =
        [.get "data"] ∧
      (applyClaim calmEnv syncedClaimAnswers applicationsMigration sampleClaim).mig =
        (updateResourceStatus calmEnv applicationsMigration sampleClaim .Successful
          "Resource migrated successfully").mig) ∧
    ((∀ name, ApiCall.delete name ∉
        (applyObject calmEnv syncedAnswers [] applicationsMigration sampleWorkload false).calls) ∧
      ((applyObject calmEnv syncedAnswers [] applicationsMigration sampleWorkload
        false).calls.filter (fun call => call matches .create _)).length ≤ 1 ∧
      (applyObject calmEnv syncedAnswers [] applicationsMigration sampleWorkload false).outcome =
        .recorded ∧
      (applyObject calmEnv syncedAnswers [] applicationsMigration sampleWorkload false).mig =
        (updateResourceStatus calmEnv applicationsMigration sampleWorkload .Successful
          "Resource migrated successfully").mig) :=
  ⟨(applyResources_skips_equal_hash calmEnv applicationsMigration sampleClaim).1
      syncedClaimAnswers 42 [("stork.libopenstorage.org/resource-hash", "42")] "42"
      rfl rfl rfl (by decide) (by decide),
    (applyResources_skips_equal_hash calmEnv applicationsMigration sampleWorkload).2
      syncedAnswers [] false 42 { reason := .AlreadyExists, message := "already exists" }
      (destinationCopy "42") [("stork.libopenstorage.org/resource-hash", "42")] "42"
      rfl rfl rfl (by decide) rfl (by simp) rfl (Or.inl rfl) rfl (by decide) (by decide)
      (by decide)⟩

/-! ## A record at stage Volumes that excludes volumes -/

theorem scheduleCheck_cases (env : Env) (m : Migration) (hst : m.Status.Stage ≠ .Final) :
    (remoteApplicationsActivated env m ∧
      scheduleCheck env m = .done
        { mig := failMigration env 302 m
          log := [failedEvent, .update 309 (failMigration env 302 m) (env.updateErr 309)]
          ret := none }) ∨
    (¬ remoteApplicationsActivated env m ∧
      ((∃ ret, scheduleCheck env m = .done { mig := m, log := [failedEvent], ret := ret }) ∨
        scheduleCheck env m = .next m [] ())) := by
  unfold remoteApplicationsActivated
  simp only [scheduleCheck]
  split
  · rename_i h
    exact Or.inr ⟨by simp [h], Or.inr rfl⟩
  · rename_i annotations h
    split
    · rename_i h2
      exact Or.inr ⟨by simp [h, h2], Or.inr rfl⟩
    · rename_i name h2
      split
      · rename_i err h3
        exact Or.inr ⟨by simp [h, h2, h3], Or.inl ⟨_, rfl⟩⟩
      · rename_i h3
        split
        · rename_i err h4
          exact Or.inr ⟨by simp [h, h2, h3, h4], Or.inl ⟨_, rfl⟩⟩
        · rename_i h4
          split
          · rename_i err h5
            exact Or.inr ⟨by simp [h, h2, h3, h4, h5], Or.inl ⟨_, rfl⟩⟩
          · rename_i h5
            exact Or.inr ⟨by simp [h, h2, h3, h4, h5], Or.inr rfl⟩
          · rename_i activated h5
            cases activated with
            | true =>
              simp only [hst, ne_eq, not_false_eq_true, and_self, if_true]
              exact Or.inl ⟨⟨annotations, name, h, h2, h3, h4, h5⟩, trivial⟩
            | false =>
              exact Or.inr ⟨by simp [h, h2, h3, h4, h5], Or.inr (by simp)⟩

theorem clusterDomainCheck_cases (env : Env) (m : Migration)
    (hflag : deref m.Spec.IncludeVolumes = false) :
    (localDomainReportedInactive env m ∧
      ∃ log, clusterDomainCheck env m = .done
        { mig := (updateMigrationCR env 385 (failMigration env 378 m)).mig
          log := log ++ [failedEvent] ++ (updateMigrationCR env 385 (failMigration env 378 m)).log
          ret := env.updateErr 385 }) ∨
    (¬ localDomainReportedInactive env m ∧ ∃ log, clusterDomainCheck env m = .next m log ()) := by
  unfold localDomainReportedInactive
  simp only [clusterDomainCheck, hflag, Bool.false_eq_true, not_false_eq_true, if_true]
  cases hq : queryClusterDomains env 0 env.domainsExtraRetries [] with
  | mk log res =>
    cases res with
    | error err => exact Or.inr ⟨by simp, log, rfl⟩
    | ok domains =>
      by_cases hin : localDomainInactive domains m = true
      · exact Or.inl ⟨⟨domains, rfl, hin⟩, log, by simp [hin, updateMigrationCR]⟩
      · exact Or.inr ⟨by simpa using hin, log, by simp [hin]⟩

/-- C6, refuted as stated: a record at stage Volumes that excludes volumes, on a
cluster whose local cluster domain is reported inactive. `handle` calls neither
StartMigration nor GetMigrationStatus, but lines 360-389 move the record to stage
Final with status Failed, not to stage Applications. -/
theorem handle_inactive_domain_counterexample :
    resourcesOnlyMigration.Spec.IncludeVolumes = some false ∧
    resourcesOnlyMigration.Status.Stage = .Volumes ∧
    resourcesOnlyMigration.DeletionTimestamp = none ∧
    (handle sampleController inactiveDomainEnv resourcesOnlyMigration).mig.Status.Stage =
      .Final ∧
    (handle sampleController inactiveDomainEnv resourcesOnlyMigration).mig.Status.Status =
      .Failed ∧
    (handle sampleController inactiveDomainEnv resourcesOnlyMigration).log =
      [.GetClusterDomains, failedEvent,
       .update 385 (handle sampleController inactiveDomainEnv resourcesOnlyMigration).mig none] := by
  refine ⟨rfl, rfl, rfl, ?_, ?_, ?_⟩ <;> decide

/-- C6, amended. With IncludeVolumes false, no invocation of `handle`, at any stage,
calls the driver's StartMigration or GetMigrationStatus. From the Volumes stage
(no deletion timestamp) the invocation moves the record to stage Applications exactly
when the check of the migration schedule (lines 262-316) and the checks of the targets
(lines 318-357) pass and the local cluster domain is not reported inactive; the status
is then Initial, the volume-finish time is stamped and the record is written at line
535. It moves the record to stage Final exactly when the applications are activated
on the remote cluster or, the first two checks passing, the local cluster domain is
reported inactive; the status is then Failed. In every other case stage and status
stay as they were. -/
theorem handle_volumes_excluded (c : MigrationController) (env : Env) (m : Migration)
    (hflag : m.Spec.IncludeVolumes = some false) :
    Event.StartMigration ∉ (handle c env m).log ∧
    Event.GetMigrationStatus ∉ (handle c env m).log ∧
    (m.DeletionTimestamp = none → m.Status.Stage = .Volumes →
      ((handle c env m).mig.Status.Stage = .Applications ↔
        (∃ log, scheduleCheck env (withDefaults m) = .next (withDefaults m) log ()) ∧
        (∃ nss, checkTargets c env (withDefaults m) = .next (withDefaults m) [] nss) ∧
        ¬ localDomainReportedInactive env m) ∧
      ((handle c env m).mig.Status.Stage = .Applications →
        (handle c env m).mig.Status.Status = .Initial ∧
        (handle c env m).mig =
          (updateMigrationCR env 535 (setVolumeFinish env 534
            (setStatus (setStage (withDefaults m) .Applications) .Initial))).mig ∧
        (handle c env m).ret = env.updateErr 535 ∧
        Event.update 535 (handle c env m).mig (env.updateErr 535) ∈ (handle c env m).log) ∧
      ((handle c env m).mig.Status.Stage = .Final ↔
        remoteApplicationsActivated env m ∨
        ((∃ log, scheduleCheck env (withDefaults m) = .next (withDefaults m) log ()) ∧
          (∃ nss, checkTargets c env (withDefaults m) = .next (withDefaults m) [] nss) ∧
          localDomainReportedInactive env m)) ∧
      ((handle c env m).mig.Status.Stage = .Final →
        (handle c env m).mig.Status.Status = .Failed) ∧
      ((handle c env m).mig.Status.Stage ≠ .Applications →
        (handle c env m).mig.Status.Stage ≠ .Final →
        (handle c env m).mig.Status = m.Status) ∧
      within [.recorded, .update, .GetClusterDomains] (handle c env m).log) := by
  have hq := handle_quiet c env m hflag
  refine ⟨not_mem_of_within hq _ (by simp [Event.kind, quietKinds]),
    not_mem_of_within hq _ (by simp [Event.kind, quietKinds]), ?_⟩
  intro hdel hst
  have hst' : (withDefaults m).Status.Stage = .Volumes := hst
  have hflag' : deref (withDefaults m).Spec.IncludeVolumes = false := by
    simp [withDefaults_includeVolumes m false hflag, deref]
  have hwithin := (handle_volumes_stage_skipped c env m hflag hdel hst).2
  have hact : remoteApplicationsActivated env (withDefaults m) ↔
      remoteApplicationsActivated env m := Iff.rfl
  have hina : localDomainReportedInactive env (withDefaults m) ↔
      localDomainReportedInactive env m := Iff.rfl
  rcases scheduleCheck_cases env (withDefaults m) (by rw [hst']; decide) with
    ⟨hactive, hs⟩ | ⟨hactive, ⟨ret, hs⟩ | hs⟩
  · -- the applications are activated on the remote cluster
    have hh : handle c env m =
        { mig := failMigration env 302 (withDefaults m)
          log := [failedEvent, .update 309 (failMigration env 302 (withDefaults m))
            (env.updateErr 309)]
          ret := none } := by
      simp only [handle, hdel, ne_eq, not_true_eq_false, if_false, hs]
    rw [hh] at hwithin ⊢
    refine ⟨?_, ?_, ?_, ?_, ?_, hwithin⟩
    · constructor
      · intro h; simp at h
      · rintro ⟨⟨log, h⟩, _⟩
        rw [hs] at h
        cases h
    · intro h; simp at h
    · exact ⟨fun _ => Or.inl (hact.mp hactive), fun _ => by simp⟩
    · intro _; simp
    · intro _ h; simp at h
  · -- the check of the schedule returns without touching the record
    have hh : handle c env m = { mig := withDefaults m, log := [failedEvent], ret := ret } := by
      simp only [handle, hdel, ne_eq, not_true_eq_false, if_false, hs]
    rw [hh] at hwithin ⊢
    have hstage : (withDefaults m).Status.Stage = .Volumes := hst
    refine ⟨?_, ?_, ?_, ?_, ?_, hwithin⟩
    · constructor
      · intro h; simp only [hstage] at h; cases h
      · rintro ⟨⟨log, h⟩, _⟩
        rw [hs] at h
        cases h
    · intro h; simp only [hstage] at h; cases h
    · constructor
      · intro h; simp only [hstage] at h; cases h
      · rintro (h | ⟨⟨log, h⟩, _⟩)
        · exact absurd (hact.mpr h) hactive
        · rw [hs] at h
          cases h
    · intro h; simp only [hstage] at h; cases h
    · intro _ _; rfl
  · rcases checkTargets_cases c env (withDefaults m) with ⟨nss, ht⟩ | ht
    · rcases clusterDomainCheck_cases env (withDefaults m) hflag' with
        ⟨hinactive, log, hd⟩ | ⟨hinactive, log, hd⟩
      · -- the local cluster domain is inactive
        have hh : handle c env m =
            { mig := (updateMigrationCR env 385 (failMigration env 378 (withDefaults m))).mig
              log := log ++ [failedEvent] ++
                (updateMigrationCR env 385 (failMigration env 378 (withDefaults m))).log
              ret := env.updateErr 385 } := by
          simp only [handle, hdel, ne_eq, not_true_eq_false, if_false, hs, ht, hd]
        rw [hh] at hwithin ⊢
        refine ⟨?_, ?_, ?_, ?_, ?_, hwithin⟩
        · constructor
          · intro h; simp at h
          · rintro ⟨_, _, h⟩
            exact absurd (hina.mp hinactive) h
        · intro h; simp at h
        · exact ⟨fun _ => Or.inr ⟨⟨[], hs⟩, ⟨nss, ht⟩, hina.mp hinactive⟩,
            fun _ => by simp⟩
        · intro _; simp
        · intro _ h; simp at h
      · -- every check passes
        have hsw : stageSwitch env (withDefaults m) nss = updateMigrationCR env 535
            (setVolumeFinish env 534
              (setStatus (setStage (withDefaults m) .Applications) .Initial)) := by
          simp only [stageSwitch, hst']
          exact (stageVolumes_frame env (withDefaults m) nss []).2.2 hflag'
        have hh : handle c env m =
            { mig := (updateMigrationCR env 535 (setVolumeFinish env 534
                (setStatus (setStage (withDefaults m) .Applications) .Initial))).mig
              log := log ++ (updateMigrationCR env 535 (setVolumeFinish env 534
                (setStatus (setStage (withDefaults m) .Applications) .Initial))).log
              ret := env.updateErr 535 } := by
          simp only [handle, hdel, ne_eq, not_true_eq_false, if_false, hs, ht, hd, hsw]
          rfl
        rw [hh] at hwithin ⊢
        refine ⟨?_, ?_, ?_, ?_, ?_, hwithin⟩
        · exact ⟨fun _ => ⟨⟨[], hs⟩, ⟨nss, ht⟩, fun h => hinactive (hina.mpr h)⟩,
            fun _ => by simp⟩
        · intro _
          refine ⟨by simp, rfl, rfl, ?_⟩
          simp [updateMigrationCR]
        · constructor
          · intro h; simp at h
          · rintro (h | ⟨_, _, h⟩)
            · exact absurd (hact.mpr h) hactive
            · exact absurd (hina.mpr h) hinactive
        · intro h; simp at h
        · intro h; simp at h
    · -- a check of the targets returns without touching the record
      have hh : handle c env m = { mig := withDefaults m, log := [failedEvent], ret := none } := by
        simp only [handle, hdel, ne_eq, not_true_eq_false, if_false, hs, ht]
      rw [hh] at hwithin ⊢
      have hstage : (withDefaults m).Status.Stage = .Volumes := hst
      refine ⟨?_, ?_, ?_, ?_, ?_, hwithin⟩
      · constructor
        · intro h; simp only [hstage] at h; cases h
        · rintro ⟨_, ⟨nss, h⟩, _⟩
          rw [ht] at h
          cases h
      · intro h; simp only [hstage] at h; cases h
      · constructor
        · intro h; simp only [hstage] at h; cases h
        · rintro (h | ⟨_, ⟨nss, h⟩, _⟩)
          · exact absurd (hact.mpr h) hactive
          · rw [ht] at h
            cases h
      · intro h; simp only [hstage] at h; cases h
      · intro _ _; rfl

theorem handle_volumes_excluded_witness :
    Event.StartMigration ∉ (handle sampleController calmEnv resourcesOnlyMigration).log ∧
    Event.GetMigrationStatus ∉ (handle sampleController calmEnv resourcesOnlyMigration).log ∧
    (handle sampleController calmEnv resourcesOnlyMigration).mig.Status.Stage = .Applications ∧
    (handle sampleController calmEnv resourcesOnlyMigration).mig.Status.Status = .Initial ∧
    ((handle sampleController inactiveDomainEnv resourcesOnlyMigration).mig.Status.Stage =
        .Final →
      (handle sampleController inactiveDomainEnv resourcesOnlyMigration).mig.Status.Status =
        .Failed) :=
  ⟨(handle_volumes_excluded sampleController calmEnv resourcesOnlyMigration rfl).1,
   (handle_volumes_excluded sampleController calmEnv resourcesOnlyMigration rfl).2.1,
   by decide,
   (((handle_volumes_excluded sampleController calmEnv resourcesOnlyMigration rfl).2.2
      rfl rfl).2.1 (by decide)).1,
   ((handle_volumes_excluded sampleController inactiveDomainEnv resourcesOnlyMigration rfl).2.2
      rfl rfl).2.2.2.1⟩

/-! ## The pool of workers on the batch with the failed read -/

theorem applyObject_stuck (mig : Migration) :
    (applyObject calmEnv (stuckBatchAnswers sampleWorkload) [] mig sampleWorkload false).outcome =
      .panicked ∧
    (applyObject calmEnv (stuckBatchAnswers sampleWorkload) [] mig sampleWorkload false).mig = mig := by
  constructor <;> rfl

theorem applyObject_front (mig : Migration) :
    (applyObject calmEnv (stuckBatchAnswers sampleService) [] mig sampleService false).outcome =
      .recorded ∧
    (applyObject calmEnv (stuckBatchAnswers sampleService) [] mig sampleService false).stashCMError =
      false ∧
    (applyObject calmEnv (stuckBatchAnswers sampleService) [] mig sampleService false).mig =
      (updateResourceStatus calmEnv mig sampleService .Successful
        "Resource migrated successfully").mig := by
  refine ⟨?_, ?_, ?_⟩ <;> rfl

theorem updateResourceStatus_front_keeps_web (mig : Migration)
    (rest : List MigrationResourceInfo) (status : MigrationStatusType) (reason : String)
    (h : mig.Status.Resources = webEntry :: rest) :
    ∃ rest', (updateResourceStatus calmEnv mig sampleService status reason).mig.Status.Resources =
      webEntry :: rest' := by
  refine ⟨(updateResourceList calmEnv mig.Spec sampleService status reason rest).1, ?_⟩
  simp only [updateResourceStatus, h]
  rfl

theorem poolStep_crashed (env : Env) (answers : Unstructured → ObjectAnswers)
    (appRegsStashMap : List String) (numObjects : Nat) (s : PoolState) (step : PoolStep)
    (h : s.outcome = .crashed) :
    poolStep env answers appRegsStashMap numObjects s step = s := by
  cases step <;> simp [poolStep, h]

theorem frontOwed_values (flag : Bool) :
    frontOwed { stashCMError := flag, phase := .idle } = 0 ∧
    frontOwed { stashCMError := flag, phase := .busy sampleWorkload } = 0 ∧
    frontOwed { stashCMError := flag, phase := .busy sampleService } = 1 ∧
    frontOwed { stashCMError := flag, phase := .sending none } = 1 := by
  cases flag <;> decide

theorem stuckBatchInvariant_run (s : PoolState) (w : Nat) (h : stuckBatchInvariant s)
    (hrun : s.outcome = .running) :
    stuckBatchInvariant (poolStep calmEnv stuckBatchAnswers [] 2 s (.run w)) := by
  obtain ⟨w0, w1, rest, hw, hres, hrec, hcase⟩ := h
  rcases hcase with hc | ⟨_, hs0, hs1, hp0, hp1, hpend, hcount⟩
  · rw [hrun] at hc; cases hc
  obtain ⟨pending, workers, received, mig, calls, outcome⟩ := s
  obtain ⟨f0, p0⟩ := w0
  obtain ⟨f1, p1⟩ := w1
  simp only at hw hres hrec hrun hs0 hs1 hp0 hp1 hpend hcount
  subst hw hrun hs0 hs1
  have hweb := fun m => (applyObject_stuck m).1
  have hwebMig := fun m => (applyObject_stuck m).2
  have hfront := fun m => (applyObject_front m).1
  have hfrontFlag := fun m => (applyObject_front m).2.1
  have hfrontMig := fun m => (applyObject_front m).2.2
  obtain ⟨rest', hkeep⟩ := updateResourceStatus_front_keeps_web mig rest .Successful
    "Resource migrated successfully" hres
  obtain ⟨ho1, ho2, ho3, ho4⟩ := frontOwed_values false
  match w with
  | 0 =>
    rcases hp0 with rfl | rfl | rfl | rfl
    · simp only [poolStep, ne_eq, not_true_eq_false, if_false, List.get?_cons_zero]
      exact ⟨_, _, rest, rfl, hres, hrec,
        Or.inr ⟨rfl, rfl, rfl, Or.inl rfl, hp1, hpend, hcount⟩⟩
    · simp only [poolStep, ne_eq, not_true_eq_false, if_false, List.get?_cons_zero, hweb]
      exact ⟨_, _, rest, rfl, by simp only [hwebMig]; exact hres, hrec, Or.inl rfl⟩
    · simp only [poolStep, ne_eq, not_true_eq_false, if_false, List.get?_cons_zero, hfront,
        List.set_cons_zero, hfrontFlag]
      refine ⟨_, _, rest', rfl, by simp only [hfrontMig]; exact hkeep, hrec,
        Or.inr ⟨rfl, rfl, rfl, Or.inr (Or.inr (Or.inr rfl)), hp1, hpend, ?_⟩⟩
      simp only [ho3, ho4] at hcount ⊢
      exact hcount
    · simp only [poolStep, ne_eq, not_true_eq_false, if_false, List.get?_cons_zero]
      exact ⟨_, _, rest, rfl, hres, hrec,
        Or.inr ⟨rfl, rfl, rfl, Or.inr (Or.inr (Or.inr rfl)), hp1, hpend, hcount⟩⟩
  | 1 =>
    rcases hp1 with rfl | rfl | rfl | rfl
    · simp only [poolStep, ne_eq, not_true_eq_false, if_false, List.get?_cons_succ,
        List.get?_cons_zero]
      exact ⟨_, _, rest, rfl, hres, hrec,
        Or.inr ⟨rfl, rfl, rfl, hp0, Or.inl rfl, hpend, hcount⟩⟩
    · simp only [poolStep, ne_eq, not_true_eq_false, if_false, List.get?_cons_succ,
        List.get?_cons_zero, hweb]
      exact ⟨_, _, rest, rfl, by simp only [hwebMig]; exact hres, hrec, Or.inl rfl⟩
    · simp only [poolStep, ne_eq, not_true_eq_false, if_false, List.get?_cons_succ,
        List.get?_cons_zero, hfront, List.set_cons_succ, List.set_cons_zero, hfrontFlag]
      refine ⟨_, _, rest', rfl, by simp only [hfrontMig]; exact hkeep, hrec,
        Or.inr ⟨rfl, rfl, rfl, hp0, Or.inr (Or.inr (Or.inr rfl)), hpend, ?_⟩⟩
      simp only [ho3, ho4] at hcount ⊢
      exact hcount
    · simp only [poolStep, ne_eq, not_true_eq_false, if_false, List.get?_cons_succ,
        List.get?_cons_zero]
      exact ⟨_, _, rest, rfl, hres, hrec,
        Or.inr ⟨rfl, rfl, rfl, hp0, Or.inr (Or.inr (Or.inr rfl)), hpend, hcount⟩⟩
  | w + 2 =>
    simp only [poolStep, ne_eq, not_true_eq_false, if_false, List.get?_cons_succ,
      List.get?_nil]
    exact ⟨_, _, rest, rfl, hres, hrec, Or.inr ⟨rfl, rfl, rfl, hp0, hp1, hpend, hcount⟩⟩

theorem stuckBatch_pending_values :
    (sampleService ∈ [sampleWorkload, sampleService]) ∧ (sampleService ∈ [sampleService]) ∧
    (sampleService ∈ [sampleService, sampleWorkload]) ∧ (sampleService ∉ [sampleWorkload]) ∧
    (sampleService ∉ ([] : List Unstructured)) := by
  decide

theorem stuckBatchInvariant_take (s : PoolState) (w : Nat) (h : stuckBatchInvariant s)
    (hrun : s.outcome = .running) :
    stuckBatchInvariant (poolStep calmEnv stuckBatchAnswers [] 2 s (.take w)) := by
  obtain ⟨w0, w1, rest, hw, hres, hrec, hcase⟩ := h
  rcases hcase with hc | ⟨_, hs0, hs1, hp0, hp1, hpend, hcount⟩
  · rw [hrun] at hc; cases hc
  obtain ⟨pending, workers, received, mig, calls, outcome⟩ := s
  obtain ⟨f0, p0⟩ := w0
  obtain ⟨f1, p1⟩ := w1
  simp only at hw hres hrec hrun hs0 hs1 hp0 hp1 hpend hcount
  subst hw hrun hs0 hs1
  obtain ⟨ho1, ho2, ho3, ho4⟩ := frontOwed_values false
  obtain ⟨hm1, hm2, hm3, hm4, hm5⟩ := stuckBatch_pending_values
  have hsame : stuckBatchInvariant
      { pending := pending
        workers := [{ stashCMError := false, phase := p0 }, { stashCMError := false, phase := p1 }]
        received := received, mig := mig, calls := calls, outcome := .running } :=
    ⟨_, _, rest, rfl, hres, hrec, Or.inr ⟨rfl, rfl, rfl, hp0, hp1, hpend, hcount⟩⟩
  match w with
  | 0 =>
    rcases hp0 with rfl | rfl | rfl | rfl
    · rcases hpend with rfl | rfl | rfl | rfl | rfl
      · simp only [poolStep, ne_eq, not_true_eq_false, if_false, List.get?_cons_zero, if_true,
          List.set_cons_zero]
        refine ⟨_, _, rest, rfl, hres, hrec,
          Or.inr ⟨rfl, rfl, rfl, Or.inr (Or.inl rfl), hp1, Or.inr (Or.inl rfl), ?_⟩⟩
        simp only [ho1, ho2, hm1, hm2, if_true] at hcount ⊢
        exact hcount
      · simp only [poolStep, ne_eq, not_true_eq_false, if_false, List.get?_cons_zero, if_true,
          List.set_cons_zero]
        refine ⟨_, _, rest, rfl, hres, hrec,
          Or.inr ⟨rfl, rfl, rfl, Or.inr (Or.inr (Or.inl rfl)), hp1,
            Or.inr (Or.inr (Or.inr (Or.inr rfl))), ?_⟩⟩
        simp only [ho1, ho3, hm2, hm5, if_true, if_false] at hcount ⊢
        omega
      · simp only [poolStep, ne_eq, not_true_eq_false, if_false, List.get?_cons_zero, if_true,
          List.set_cons_zero]
        refine ⟨_, _, rest, rfl, hres, hrec,
          Or.inr ⟨rfl, rfl, rfl, Or.inr (Or.inr (Or.inl rfl)), hp1,
            Or.inr (Or.inr (Or.inr (Or.inl rfl))), ?_⟩⟩
        simp only [ho1, ho3, hm3, hm4, if_true, if_false] at hcount ⊢
        omega
      · simp only [poolStep, ne_eq, not_true_eq_false, if_false, List.get?_cons_zero, if_true,
          List.set_cons_zero]
        refine ⟨_, _, rest, rfl, hres, hrec,
          Or.inr ⟨rfl, rfl, rfl, Or.inr (Or.inl rfl), hp1,
            Or.inr (Or.inr (Or.inr (Or.inr rfl))), ?_⟩⟩
        simp only [ho1, ho2, hm4, hm5, if_false] at hcount ⊢
        exact hcount
      · simpa [poolStep] using hsame
    all_goals
      rcases hpend with rfl | rfl | rfl | rfl | rfl <;> simpa [poolStep] using hsame
  | 1 =>
    rcases hp1 with rfl | rfl | rfl | rfl
    · rcases hpend with rfl | rfl | rfl | rfl | rfl
      · simp only [poolStep, ne_eq, not_true_eq_false, if_false, List.get?_cons_succ,
          List.get?_cons_zero, if_true, List.set_cons_succ, List.set_cons_zero]
        refine ⟨_, _, rest, rfl, hres, hrec,
          Or.inr ⟨rfl, rfl, rfl, hp0, Or.inr (Or.inl rfl), Or.inr (Or.inl rfl), ?_⟩⟩
        simp only [ho1, ho2, hm1, hm2, if_true] at hcount ⊢
        exact hcount
      · simp only [poolStep, ne_eq, not_true_eq_false, if_false, List.get?_cons_succ,
          List.get?_cons_zero, if_true, List.set_cons_succ, List.set_cons_zero]
        refine ⟨_, _, rest, rfl, hres, hrec,
          Or.inr ⟨rfl, rfl, rfl, hp0, Or.inr (Or.inr (Or.inl rfl)),
            Or.inr (Or.inr (Or.inr (Or.inr rfl))), ?_⟩⟩
        simp only [ho1, ho3, hm2, hm5, if_true, if_false] at hcount ⊢
        omega
      · simp only [poolStep, ne_eq, not_true_eq_false, if_false, List.get?_cons_succ,
          List.get?_cons_zero, if_true, List.set_cons_succ, List.set_cons_zero]
        refine ⟨_, _, rest, rfl, hres, hrec,
          Or.inr ⟨rfl, rfl, rfl, hp0, Or.inr (Or.inr (Or.inl rfl)),
            Or.inr (Or.inr (Or.inr (Or.inl rfl))), ?_⟩⟩
        simp only [ho1, ho3, hm3, hm4, if_true, if_false] at hcount ⊢
        omega
      · simp only [poolStep, ne_eq, not_true_eq_false, if_false, List.get?_cons_succ,
          List.get?_cons_zero, if_true, List.set_cons_succ, List.set_cons_zero]
        refine ⟨_, _, rest, rfl, hres, hrec,
          Or.inr ⟨rfl, rfl, rfl, hp0, Or.inr (Or.inl rfl),
            Or.inr (Or.inr (Or.inr (Or.inr rfl))), ?_⟩⟩
        simp only [ho1, ho2, hm4, hm5, if_false] at hcount ⊢
        exact hcount
      · simpa [poolStep] using hsame
    all_goals
      rcases hpend with rfl | rfl | rfl | rfl | rfl <;> simpa [poolStep] using hsame
  | w + 2 =>
    rcases hpend with rfl | rfl | rfl | rfl | rfl <;> simpa [poolStep] using hsame

theorem stuckBatchInvariant_receive (s : PoolState) (w : Nat) (h : stuckBatchInvariant s)
    (hrun : s.outcome = .running) :
    stuckBatchInvariant (poolStep calmEnv stuckBatchAnswers [] 2 s (.receive w)) := by
  obtain ⟨w0, w1, rest, hw, hres, hrec, hcase⟩ := h
  rcases hcase with hc | ⟨_, hs0, hs1, hp0, hp1, hpend, hcount⟩
  · rw [hrun] at hc; cases hc
  obtain ⟨pending, workers, received, mig, calls, outcome⟩ := s
  obtain ⟨f0, p0⟩ := w0
  obtain ⟨f1, p1⟩ := w1
  simp only at hw hres hrec hrun hs0 hs1 hp0 hp1 hpend hcount
  subst hw hrun hs0 hs1
  obtain ⟨ho1, ho2, ho3, ho4⟩ := frontOwed_values false
  have hsame : stuckBatchInvariant
      { pending := pending
        workers := [{ stashCMError := false, phase := p0 }, { stashCMError := false, phase := p1 }]
        received := received, mig := mig, calls := calls, outcome := .running } :=
    ⟨_, _, rest, rfl, hres, hrec, Or.inr ⟨rfl, rfl, rfl, hp0, hp1, hpend, hcount⟩⟩
  match w with
  | 0 =>
    rcases hp0 with rfl | rfl | rfl | rfl
    · simpa [poolStep] using hsame
    · simpa [poolStep] using hsame
    · simpa [poolStep] using hsame
    · simp only [ho4] at hcount
      have hzero : received = 0 := by omega
      subst hzero
      simp only [poolStep, ne_eq, not_true_eq_false, if_false, List.get?_cons_zero,
        List.set_cons_zero, show ¬ ((0 : Nat) + 1 = 2) by decide]
      refine ⟨_, _, rest, rfl, hres, Nat.le_refl 1,
        Or.inr ⟨rfl, rfl, rfl, Or.inl rfl, hp1, hpend, ?_⟩⟩
      simp only [ho1]
      omega
  | 1 =>
    rcases hp1 with rfl | rfl | rfl | rfl
    · simpa [poolStep] using hsame
    · simpa [poolStep] using hsame
    · simpa [poolStep] using hsame
    · simp only [ho4] at hcount
      have hzero : received = 0 := by omega
      subst hzero
      simp only [poolStep, ne_eq, not_true_eq_false, if_false, List.get?_cons_succ,
        List.get?_cons_zero, List.set_cons_succ, List.set_cons_zero,
        show ¬ ((0 : Nat) + 1 = 2) by decide]
      refine ⟨_, _, rest, rfl, hres, Nat.le_refl 1,
        Or.inr ⟨rfl, rfl, rfl, hp0, Or.inl rfl, hpend, ?_⟩⟩
      simp only [ho1]
      omega
  | w + 2 => simpa [poolStep] using hsame

theorem stuckBatchInvariant_step (s : PoolState) (step : PoolStep)
    (h : stuckBatchInvariant s) :
    stuckBatchInvariant (poolStep calmEnv stuckBatchAnswers [] 2 s step) := by
  have hcases : s.outcome = .crashed ∨ s.outcome = .running := by
    obtain ⟨_, _, _, _, _, _, hc | ⟨hr, _⟩⟩ := h
    · exact Or.inl hc
    · exact Or.inr hr
  rcases hcases with hc | hr
  · rw [poolStep_crashed _ _ _ _ _ _ hc]
    exact h
  · cases step with
    | take w => exact stuckBatchInvariant_take s w h hr
    | run w => exact stuckBatchInvariant_run s w h hr
    | receive w => exact stuckBatchInvariant_receive s w h hr

theorem stuckBatchInvariant_foldl (schedule : List PoolStep) (s : PoolState)
    (h : stuckBatchInvariant s) :
    stuckBatchInvariant (schedule.foldl (poolStep calmEnv stuckBatchAnswers [] 2) s) := by
  induction schedule generalizing s with
  | nil => exact h
  | cons step rest ih => exact ih _ (stuckBatchInvariant_step s step h)

theorem stuckBatchInvariant_start :
    stuckBatchInvariant (poolStart batchMigration [sampleWorkload, sampleService] 2) ∧
    stuckBatchInvariant (poolStart batchMigration [sampleService, sampleWorkload] 2) :=
  ⟨⟨{ stashCMError := false, phase := .idle }, { stashCMError := false, phase := .idle }, _,
      rfl, rfl, by decide,
      Or.inr ⟨rfl, rfl, rfl, Or.inl rfl, Or.inl rfl, Or.inl rfl, by decide⟩⟩,
    ⟨{ stashCMError := false, phase := .idle }, { stashCMError := false, phase := .idle }, _,
      rfl, rfl, by decide,
      Or.inr ⟨rfl, rfl, rfl, Or.inl rfl, Or.inl rfl, Or.inr (Or.inr (Or.inl rfl)),
        by decide⟩⟩⟩

/-- C26: a batch of two objects for two workers. The `Create` of the Deployment `web` is
answered with AlreadyExists, its copy on the destination has another hash, the
`Delete` succeeds and the first `Get` of the wait for the deletion (line 2437) fails
with an error that is not NotFound; the accessors succeed for both objects. The worker
that runs the body for `web` makes these four calls and runs into the nil pointer of
line 2441: the pool is gone, also when the other worker has recorded the Service
`front` and its nil was received before. In either order of the two objects and
whatever the schedule, `parallelWorker` never returns, it receives at most one of the
two values, and the entry of `web` in `Status.Resources` is never recorded: it stays
in progress. -/
theorem parallelWorker_nil_object_crash :
    sampleWorkload.accessorErr = none ∧ sampleService.accessorErr = none ∧
    (applyObject calmEnv stuckAnswers [] batchMigration sampleWorkload false).calls =
      [.create "web", .get "web", .delete "web", .get "web"] ∧
    (applyObject calmEnv stuckAnswers [] batchMigration sampleWorkload false).outcome =
      .panicked ∧
    (parallelWorker calmEnv stuckBatchAnswers [] batchMigration
      [sampleWorkload, sampleService] 2 [.take 0, .run 0]).outcome = .crashed ∧
    (parallelWorker calmEnv stuckBatchAnswers [] batchMigration
      [sampleWorkload, sampleService] 2
      [.take 0, .take 1, .run 1, .receive 1, .run 0]).outcome = .crashed ∧
    (parallelWorker calmEnv stuckBatchAnswers [] batchMigration
      [sampleWorkload, sampleService] 2
      [.take 0, .take 1, .run 1, .receive 1, .run 0]).mig.Status.Resources.map
        (fun r => r.Status) = [.InProgress, .Successful] ∧
    (∀ schedule : List PoolStep,
      ((parallelWorker calmEnv stuckBatchAnswers [] batchMigration
          [sampleWorkload, sampleService] 2 schedule).outcome = .running ∨
        (parallelWorker calmEnv stuckBatchAnswers [] batchMigration
          [sampleWorkload, sampleService] 2 schedule).outcome = .crashed) ∧
      (parallelWorker calmEnv stuckBatchAnswers [] batchMigration
        [sampleWorkload, sampleService] 2 schedule).received < 2 ∧
      (parallelWorker calmEnv stuckBatchAnswers [] batchMigration
        [sampleWorkload, sampleService] 2 schedule).mig.Status.Resources.head? =
        some { Name := "web", Namespace := "app1", Group := "apps", Version := "v1",
               Kind := "Deployment", Status := .InProgress, Reason := "",
               TransformedBy := "" }) ∧
    (∀ schedule : List PoolStep,
      ((parallelWorker calmEnv stuckBatchAnswers [] batchMigration
          [sampleService, sampleWorkload] 2 schedule).outcome = .running ∨
        (parallelWorker calmEnv stuckBatchAnswers [] batchMigration
          [sampleService, sampleWorkload] 2 schedule).outcome = .crashed) ∧
      (parallelWorker calmEnv stuckBatchAnswers [] batchMigration
        [sampleService, sampleWorkload] 2 schedule).received < 2 ∧
      (parallelWorker calmEnv stuckBatchAnswers [] batchMigration
        [sampleService, sampleWorkload] 2 schedule).mig.Status.Resources.head? =
        some { Name := "web", Namespace := "app1", Group := "apps", Version := "v1",
               Kind := "Deployment", Status := .InProgress, Reason := "",
               TransformedBy := "" }) := by
  refine ⟨rfl, rfl, by decide, by decide, by decide, by decide, by decide, ?_, ?_⟩
  · intro schedule
    obtain ⟨w0, w1, rest, _, hres, hrec, hcase⟩ := stuckBatchInvariant_foldl schedule _
      stuckBatchInvariant_start.1
    refine ⟨?_, Nat.lt_succ_of_le hrec, ?_⟩
    · rcases hcase with hc | ⟨hr, _⟩
      · exact Or.inr hc
      · exact Or.inl hr
    · simp only [parallelWorker, List.length_cons, List.length_nil, Nat.zero_add,
        Nat.reduceAdd]
      rw [hres]
      rfl
  · intro schedule
    obtain ⟨w0, w1, rest, _, hres, hrec, hcase⟩ := stuckBatchInvariant_foldl schedule _
      stuckBatchInvariant_start.2
    refine ⟨?_, Nat.lt_succ_of_le hrec, ?_⟩
    · rcases hcase with hc | ⟨hr, _⟩
      · exact Or.inr hc
      · exact Or.inl hr
    · simp only [parallelWorker, List.length_cons, List.length_nil, Nat.zero_add,
        Nat.reduceAdd]
      rw [hres]
      rfl

theorem parallelWorker_synced_returns :
    (parallelWorker calmEnv (fun _ => syncedAnswers) [] batchMigration
      [sampleWorkload, sampleService] 2
      [.take 1, .take 0, .run 0, .run 1, .receive 0, .receive 1]).outcome = .returned none ∧
    (parallelWorker calmEnv (fun _ => syncedAnswers) [] batchMigration
      [sampleWorkload, sampleService] 2
      [.take 1, .take 0, .run 0, .run 1, .receive 0, .receive 1]).mig.Status.Resources.map
        (fun r => r.Status) = [.Successful, .Successful] := by
  decide

end Stork
